import Mathlib

/-!
SD/MMC host-controller command engine (`drivers/sdmmc/sdmmc.c`)

A shallow embedding of the driver: the ADMA descriptor builder
`sdmmc_build_dma_table`, the response reader `sdmmc_get_response`, the event
resolver `sdmmc_poll`, the busy test `sdmmc_is_busy`, the dispatcher
`sdmmc_send_command`, the bus width, timing mode and device clock settings,
the power-off `sdmmc_unplug_device`, the cancellation `sdmmc_cancel_command`
and the sampling tuning `sdmmc_tune_sampling`.

Conventions of the embedding

* Machine integers are naturals, reduced modulo `2 ^ 32` (`uint32_t`) or
  `2 ^ 16` (`uint16_t`) wherever the C code can wrap.
* A register value is a record of the fields that the driver names through the
  macros of the register description header; that header is not part of the
  sources, so no bit position is assumed, only that distinct macros name
  distinct fields.
* Every volatile register read takes the next value of that register's input
  stream; an exhausted stream reads as zero.  A busy-wait loop
  `while (reg & flag) ;` therefore consumes the stream up to the first value
  with the flag clear.  A loop `while (!(reg & flag)) ;` consumes the stream up
  to the first value with the flag set and does not end without one: the
  functions that contain such a loop return an `Option`.
* Register writes, delays, cache maintenance calls and the completion callback
  are appended, in program order, to `Hw.trace`.
* A command is an object of the caller: `sSdmmcCommand.addr` is its address
  and the other fields are its content.  While it is in flight the session
  holds its content (`sdmmc_set.cmd`), the resolver works on that content and
  gives it back when it releases the command.  When the dispatcher is passed
  the object that the session refers to (the same `addr`), the write that the
  descriptor builder makes to its block count reaches the content that the
  session holds (`send_alias`).
* A division whose divisor is zero has no result.  The divisors of the timer
  preparation of `sdmmc_send_command` are zero for a slow or stopped device
  clock: the function, and those that call it, return an `Option`, `none` when
  such a division is reached.  `sdmmc_set_device_clock` divides by the
  requested frequency; its only caller refuses a request of zero.
* The constants that the code takes from the register description header are
  the fields of `Hdr`, a parameter of the functions that use them.
* Diagnostics compiled under `#ifndef NDEBUG` and the `trace_*` calls only
  print messages and are left out; the one check under `#ifndef NDEBUG` that
  returns a status, in `sdmmc_set_speed_mode`, is kept and governed by
  `Hdr.NDEBUG`.  The `assert`s belong to the debug build and are not
  modelled: a function runs whatever the state it is called in.
-/

namespace Sdmmc

/-! ## Machine arithmetic -/

/-- Truncation to `uint32_t`. -/
def u32 (n : Nat) : Nat := n % 4294967296

/-- Truncation to `uint16_t`. -/
def u16 (n : Nat) : Nat := n % 65536

/-- Subtraction of two `uint32_t` values, wrapping. -/
def sub32 (a b : Nat) : Nat := (a % 4294967296 + 4294967296 - b % 4294967296) % 4294967296

/-- Modelled from the spec: the function `max_u32` of `intmath.h`, which is not
part of the sources: the larger of two `uint32_t` values (the driver uses it
to keep a timer reload value or a delay above a minimum). -/
def max_u32 (a b : Nat) : Nat := if a > b then a else b

/-! ## Status codes and driver states -/

/-- Modelled from the spec: the status codes of the `eSDMMC_RC` enumeration,
which is declared in the `libsdmmc` headers and not in the sources.  The spec
lists each code once, so `SDMMC_ERROR_PARAM`, `SDMMC_ERROR_STATE`,
`SDMMC_ERROR_BUSY`, `SDMMC_ERROR_USER_CANCEL` and `SDMMC_ERROR_NOT_SUPPORT`
stand for the same codes as `SDMMC_PARAM`, `SDMMC_STATE`, `SDMMC_BUSY`,
`SDMMC_USER_CANCEL` and `SDMMC_NOT_SUPPORTED`, and `SDMMC_SUCCESS` for
`SDMMC_OK`.  The code `SDMMC_NOT_INITIALIZED`, which the driver gives to a
current-limit error and the spec does not list, is a code of its own. -/
inductive Rc where
  | SDMMC_OK
  | SDMMC_CHANGED
  | SDMMC_PARAM
  | SDMMC_BUSY
  | SDMMC_ERR_IO
  | SDMMC_NO_RESPONSE
  | SDMMC_STATE
  | SDMMC_NOT_SUPPORTED
  | SDMMC_USER_CANCEL
  | SDMMC_ERR
  | SDMMC_NOT_INITIALIZED
  deriving DecidableEq, Inhabited

/-- Driver state (`MCID_OFF` .. `MCID_ERROR`). -/
inductive Mcid where
  | MCID_OFF
  | MCID_IDLE
  | MCID_LOCKED
  | MCID_CMD
  | MCID_ERROR
  deriving DecidableEq, Inhabited

/-! ## Commands -/

/-- The two-bit `xfrData` field of the command operation word. -/
inductive XfrData where
  | NONE
  | SDMMC_CMD_RX
  | SDMMC_CMD_TX
  | SDMMC_CMD_STOPXFR
  deriving DecidableEq, Inhabited

/-- The bit-field `cmdOp.bmBits` of a command. -/
structure BmBits where
  powerON : Bool
  sendCmd : Bool
  xfrData : XfrData
  respType : Nat
  odON : Bool
  ioCmd : Bool
  checkBsy : Bool
  deriving DecidableEq, Inhabited

/-- The caller-owned command `sSdmmcCommand`.  `addr` is the address of the
object itself, by which `set->cmd` refers to the command in flight: two values
with the same `addr` stand for one object.  `pData` is the address of the
data buffer (`0` is `NULL`) and `data` its bytes, indexed from `pData`;
`pResp` is `none` for a `NULL` response pointer and otherwise holds the
response words `pResp[0..]`; `fCallback` tells whether a completion callback
is registered. -/
structure sSdmmcCommand where
  addr : Nat
  pData : Nat
  data : Nat → Nat
  wBlockSize : Nat
  wNbBlocks : Nat
  pResp : Option (Nat → Nat)
  dwArg : Nat
  cmdOp : BmBits
  bCmd : Nat
  bStatus : Rc
  fCallback : Bool

/-- Whether the command moves data: `xfrData == SDMMC_CMD_TX || xfrData == SDMMC_CMD_RX`. -/
def has_data (cmd : sSdmmcCommand) : Bool :=
  cmd.cmdOp.xfrData == XfrData.SDMMC_CMD_TX || cmd.cmdOp.xfrData == XfrData.SDMMC_CMD_RX

/-! ## Register values -/

/-- Fields of the normal interrupt registers `NISTR`, `NISTER`, `NISIER`.
`CUSTOM_EVT` is the software event `SDMMC_NISTR_CUSTOM_EVT`; `rsvd` stands for
the remaining bits of the 16-bit word. -/
structure Nistr where
  ERRINT : Bool
  BOOTAR : Bool
  CINT : Bool
  CREM : Bool
  CINS : Bool
  BRDRDY : Bool
  BWRRDY : Bool
  DMAINT : Bool
  BLKGE : Bool
  TRFC : Bool
  CMDC : Bool
  CUSTOM_EVT : Bool
  rsvd : Bool
  deriving DecidableEq, Inhabited

/-- The test `!events` on a normal interrupt word. -/
def Nistr.isZero (e : Nistr) : Bool :=
  !(e.ERRINT || e.BOOTAR || e.CINT || e.CREM || e.CINS || e.BRDRDY || e.BWRRDY
    || e.DMAINT || e.BLKGE || e.TRFC || e.CMDC || e.CUSTOM_EVT || e.rsvd)

/-- The normal interrupt word with no bit set. -/
def Nistr.zero : Nistr :=
  { ERRINT := false, BOOTAR := false, CINT := false, CREM := false, CINS := false,
    BRDRDY := false, BWRRDY := false, DMAINT := false, BLKGE := false, TRFC := false,
    CMDC := false, CUSTOM_EVT := false, rsvd := false }

/-- Fields of the error interrupt registers `EISTR`, `EISTER`, `EISIER`. -/
structure Eistr where
  BOOTAE : Bool
  TUNING : Bool
  ADMA : Bool
  ACMD : Bool
  CURLIM : Bool
  DATEND : Bool
  DATCRC : Bool
  DATTEO : Bool
  CMDIDX : Bool
  CMDEND : Bool
  CMDCRC : Bool
  CMDTEO : Bool
  rsvd : Bool
  deriving DecidableEq, Inhabited

/-- Fields of the auto-command error status register `ACESR`. -/
structure Acesr where
  ACMD12NE : Bool
  ACMDCRC : Bool
  ACMDTEO : Bool
  ACMDEND : Bool
  ACMDIDX : Bool
  deriving DecidableEq, Inhabited

/-- Fields of the present state register `PSR`: the command and data inhibit
flags, the level of the CMD line and the levels of the DAT[3:0] lines (the
field under `SDMMC_PSR_DATLL_Msk`). -/
structure Psr where
  CMDINHC : Bool
  CMDINHD : Bool
  CMDLL : Bool
  DATLL : Nat
  deriving DecidableEq, Inhabited

/-- Fields of the software reset register `SRR`. -/
structure Srr where
  SWRSTALL : Bool
  SWRSTCMD : Bool
  SWRSTDAT : Bool
  deriving DecidableEq, Inhabited

/-- Field of the timer channel status register `TC_SR`. -/
structure TcSr where
  CLKSTA : Bool
  deriving DecidableEq, Inhabited

/-- Fields of the timer channel control register `TC_CCR`. -/
structure TcCcr where
  CLKEN : Bool
  SWTRG : Bool
  deriving DecidableEq, Inhabited

/-- Values of the `ACMDEN` field of the transfer mode register. -/
inductive TmrAcmden where
  | SDMMC_TMR_ACMDEN_DIS
  | SDMMC_TMR_ACMDEN_ACMD12
  | SDMMC_TMR_ACMDEN_ACMD23
  | other
  deriving DecidableEq, Inhabited

/-- Values of the `DTDSEL` field of the transfer mode register; `cleared` is
the field after `& ~SDMMC_TMR_DTDSEL`. -/
inductive TmrDtdsel where
  | cleared
  | SDMMC_TMR_DTDSEL_WR
  | SDMMC_TMR_DTDSEL_RD
  deriving DecidableEq, Inhabited

/-- Fields of the transfer mode register `TMR`; `rest` stands for the bits the
driver does not name. -/
structure Tmr where
  MSBSEL : Bool
  DTDSEL : TmrDtdsel
  ACMDEN : TmrAcmden
  BCEN : Bool
  DMAEN : Bool
  rest : Nat
  deriving DecidableEq, Inhabited

/-- Values of a `CMDTYP` field (`MC1R` and `CR`); `cleared` is the field after
masking with `~..._CMDTYP_Msk`. -/
inductive CmdTyp where
  | cleared
  | NORMAL
  | other
  deriving DecidableEq, Inhabited

/-- Fields of the e.MMC control register `MC1R`. -/
structure Mc1r where
  OPD : Bool
  CMDTYP : CmdTyp
  DDR : Bool
  FCD : Bool
  RSTN : Bool
  rest : Nat
  deriving DecidableEq, Inhabited

/-- Values of the `RESPTYP` field of the command register. -/
inductive RespTyp where
  | cleared
  | SDMMC_CR_RESPTYP_NORESP
  | SDMMC_CR_RESPTYP_RL136
  | SDMMC_CR_RESPTYP_RL48
  | SDMMC_CR_RESPTYP_RL48BUSY
  deriving DecidableEq, Inhabited

/-- Fields of the command register `CR`. -/
structure Cr where
  CMDIDX : Nat
  CMDTYP : CmdTyp
  DPSEL : Bool
  RESPTYP : RespTyp
  CMDICEN : Bool
  CMDCCEN : Bool
  rest : Nat
  deriving DecidableEq, Inhabited

/-- Fields of the block size register `BSR`. -/
structure Bsr where
  BLKSIZE : Nat
  rest : Nat
  deriving DecidableEq, Inhabited

/-- Fields of the capabilities register `CA0R`: the supported signaling
voltages, 8-bit bus support, the base clock frequency in MHz and the maximum
block length code. -/
structure Ca0r where
  V18VSUP : Bool
  V30VSUP : Bool
  V33VSUP : Bool
  ED8SUP : Bool
  BASECLKF : Nat
  MAXBLKL : Nat
  deriving DecidableEq, Inhabited

/-- Fields of the capabilities register `CA1R`. -/
structure Ca1r where
  TSDR50 : Bool
  CLKMULT : Nat
  deriving DecidableEq, Inhabited

/-- Fields of the clock control register `CCR`. -/
structure Ccr where
  SDCLKEN : Bool
  INTCLKEN : Bool
  INTCLKS : Bool
  CLKGSEL : Bool
  USDCLKFSEL : Nat
  SDCLKFSEL : Nat
  rest : Nat
  deriving DecidableEq, Inhabited

/-- Fields of the host control 1 register `HC1R`. -/
structure Hc1r where
  EXTDW : Bool
  DW : Bool
  HSEN : Bool
  DMASEL : Nat
  rest : Nat
  deriving DecidableEq, Inhabited

/-- Fields of the host control 2 register `HC2R`; `DRVSEL` and `UHSMS` hold
the value of the field, `0` after masking with `~..._Msk`. -/
structure Hc2r where
  DRVSEL : Nat
  VS18EN : Bool
  UHSMS : Nat
  SCLKSEL : Bool
  EXTUN : Bool
  PVALEN : Bool
  rest : Nat
  deriving DecidableEq, Inhabited

/-- Fields of the power control register `PCR`. -/
structure Pcr where
  SDBPWR : Bool
  SDBVSEL : Nat
  rest : Nat
  deriving DecidableEq, Inhabited

/-- Fields of the calibration control register `CALCR`. -/
structure Calcr where
  EN : Bool
  ALWYSON : Bool
  TUNDIS : Bool
  CNTVAL : Nat
  rest : Nat
  deriving DecidableEq, Inhabited

/-- Fields of the timeout control register `TCR`. -/
structure Tcr where
  DTCVAL : Nat
  rest : Nat
  deriving DecidableEq, Inhabited

/-- Fields of the AHB control register `ACR`. -/
structure Acr where
  BMAX : Nat
  rest : Nat
  deriving DecidableEq, Inhabited

/-! ## ADMA descriptor lines -/

/-- The length field of the first word of a descriptor line: either the code
`SDMMC_DMA0DL_LEN_MAX` or `SDMMC_DMA0DL_LEN(value)`. -/
inductive Dma0Len where
  | SDMMC_DMA0DL_LEN_MAX
  | SDMMC_DMA0DL_LEN (value : Nat)
  deriving DecidableEq, Inhabited

/-- One line of the descriptor table: the fields of `line[0]` and the address
`line[1] = SDMMC_DMA1DL_ADDR(..)`. -/
structure DmaLine where
  LEN : Dma0Len
  ATTR_ACT_TRAN : Bool
  ATTR_END : Bool
  ATTR_VALID : Bool
  ADDR : Nat
  deriving DecidableEq, Inhabited

/-- Constants of the register description header and of the `libsdmmc`
headers that the modelled code uses and that are not part of the sources: the
descriptor geometry, the timing mode codes `SDMMC_TIM_*`, the values of the
register fields that the driver writes by name, the all-ones value of the
`DATLL` field, the operation words `SDMMC_CMD_CSTOP` and
`SDMMC_CMD_CDATARX(1)`, and the integer division macros `CEIL_INT_DIV` and
`ROUND_INT_DIV` of `intmath.h`.  `NDEBUG` tells whether the build defines
`NDEBUG`. -/
structure Hdr where
  SDMMC_DMADL_TRAN_LEN_MAX : Nat
  SDMMC_DMADL_SIZE : Nat
  SDMMC_TIM_SD_DS : Nat
  SDMMC_TIM_MMC_BC : Nat
  SDMMC_TIM_MMC_HS_SDR : Nat
  SDMMC_TIM_MMC_HS_DDR : Nat
  SDMMC_TIM_MMC_HS200 : Nat
  SDMMC_TIM_SD_HS : Nat
  SDMMC_TIM_SD_SDR12 : Nat
  SDMMC_TIM_SD_SDR25 : Nat
  SDMMC_TIM_SD_SDR50 : Nat
  SDMMC_TIM_SD_DDR50 : Nat
  SDMMC_TIM_SD_SDR104 : Nat
  SDMMC_HC2R_DRVSEL_TYPEC : Nat
  SDMMC_HC2R_UHSMS_SDR12 : Nat
  SDMMC_HC2R_UHSMS_SDR25 : Nat
  SDMMC_HC2R_UHSMS_SDR50 : Nat
  SDMMC_HC2R_UHSMS_SDR104 : Nat
  SDMMC_HC2R_UHSMS_DDR50 : Nat
  SDMMC_PCR_SDBVSEL_18V : Nat
  SDMMC_PCR_SDBVSEL_30V : Nat
  SDMMC_PCR_SDBVSEL_33V : Nat
  SDMMC_HC1R_DMASEL_ADMA32 : Nat
  SDMMC_ACR_BMAX_INCR16 : Nat
  SDMMC_PSR_DATLL_Msk : Nat
  SDMMC_CMD_CSTOP : BmBits
  SDMMC_CMD_CDATARX_1 : BmBits
  CEIL_INT_DIV : Nat → Nat → Nat
  ROUND_INT_DIV : Nat → Nat → Nat
  NDEBUG : Bool

/-- Modelled from the spec: the number of bytes a descriptor line transfers
(each line moves at most the maximum transfer length); the code
`SDMMC_DMA0DL_LEN_MAX` stands for `SDMMC_DMADL_TRAN_LEN_MAX` bytes, which the
macros of the absent header encode. -/
def DmaLine.bytes (K : Hdr) (l : DmaLine) : Nat :=
  match l.LEN with
  | Dma0Len.SDMMC_DMA0DL_LEN_MAX => K.SDMMC_DMADL_TRAN_LEN_MAX
  | Dma0Len.SDMMC_DMA0DL_LEN v => v

/-! ## Hardware environment -/

/-- Observable actions of the driver, in program order. -/
inductive Event where
  | wr_NISTR (v : Nistr)
  | wr_EISTR (v : Eistr)
  | wr_SRR (v : Srr)
  | wr_BDPR (v : Nat)
  | wr_TC_CCR (v : TcCcr)
  | wr_TC_RC (v : Nat)
  | wr_NISTER (v : Nistr)
  | wr_EISTER (v : Eistr)
  | wr_NISIER (v : Nistr)
  | wr_EISIER (v : Eistr)
  | wr_SSAR (v : Nat)
  | wr_ASA0R (v : Nat)
  | wr_BSR (v : Bsr)
  | wr_BCR (v : Nat)
  | wr_ARG1R (v : Nat)
  | wr_TMR (v : Tmr)
  | wr_MC1R (v : Mc1r)
  | wr_CR (v : Cr)
  | wr_CCR (v : Ccr)
  | wr_HC1R (v : Hc1r)
  | wr_HC2R (v : Hc2r)
  | wr_PCR (v : Pcr)
  | wr_CALCR (v : Calcr)
  | wr_TCR (v : Tcr)
  | wr_ACR (v : Acr)
  | msleep (msec : Nat)
  | timer_usleep (usec : Nat)
  | cache_clean_region (addr len : Nat)
  | cache_invalidate_region (addr len : Nat)
  | fCallback (status : Rc)
  deriving DecidableEq, Inhabited

/-- The environment of the driver: one input stream per register it reads, the
peripheral clock reported by `pmc_get_peripheral_clock`, the generated clock
reported by `pmc_get_gck_clock`, the descriptor table memory (indexed by
line), and the trace of the driver's actions.  In interrupt mode the handler
`sdmmc_irq_handler` runs the resolver asynchronously; `irq` tells, for each
delay during which the driver waits for it, whether the handler ran. -/
structure Hw where
  NISTR : List Nistr
  EISTR : List Eistr
  ACESR : List Acesr
  RR : Nat → List Nat
  BDPR : List Nat
  PSR : List Psr
  SRR : List Srr
  TC_SR : List TcSr
  TMR : List Tmr
  MC1R : List Mc1r
  CR : List Cr
  NISTER : List Nistr
  NISIER : List Nistr
  BSR : List Bsr
  CA0R : List Ca0r
  CA1R : List Ca1r
  CCR : List Ccr
  HC1R : List Hc1r
  HC2R : List Hc2r
  PCR : List Pcr
  CALCR : List Calcr
  TCR : List Tcr
  ACR : List Acr
  irq : List Bool
  pclk : Nat → Nat
  gck : Nat → Nat
  table_mem : Nat → DmaLine
  trace : List Event

/-- Append an action to the trace. -/
def Hw.emit (hw : Hw) (e : Event) : Hw := { hw with trace := hw.trace ++ [e] }

/-- The driver instance data `struct sdmmc_set` (the register block and timer
handles are the environment `Hw`).  `table` is the address of the descriptor
table (`0` is `NULL`) and `cmd` the command in flight (`none` is `NULL`): the
content of the object that `set->cmd` points to, identified by its `addr`. -/
structure sdmmc_set where
  id : Nat
  tc_id : Nat
  table : Nat
  table_size : Nat
  blk_size : Nat
  dev_freq : Nat
  tim_mode : Nat
  state : Mcid
  cmd : Option sSdmmcCommand
  blk_index : Nat
  resp_len : Nat
  use_polling : Bool
  cmd_line_released : Bool
  dat_lines_released : Bool
  expect_auto_end : Bool
  use_set_blk_cnt : Bool

/-! ## `sdmmc_build_dma_table` -/

/-- Store into line `i` of a descriptor table. -/
def setLine (tbl : Nat → DmaLine) (i : Nat) (v : DmaLine) : Nat → DmaLine :=
  fun j => if j = i then v else tbl j

/-- The loop `for (line_ix = 0, line = set->table; line_ix < line_cnt; ...)` of
`sdmmc_build_dma_table`.  The first numeric argument is the number of
iterations left, `line_cnt - line_ix`. -/
def fill_table (K : Hdr) (line_cnt ram_bound : Nat) :
    Nat → Nat → Nat → (Nat → DmaLine) → (Nat → DmaLine)
  | 0, _, _, tbl => tbl
  | n + 1, line_ix, ram_addr, tbl =>
    if line_ix + 1 < line_cnt then
      fill_table K line_cnt ram_bound n (line_ix + 1)
        (u32 (ram_addr + K.SDMMC_DMADL_TRAN_LEN_MAX))
        (setLine tbl line_ix
          { LEN := Dma0Len.SDMMC_DMA0DL_LEN_MAX, ATTR_ACT_TRAN := true, ATTR_END := false,
            ATTR_VALID := true, ADDR := ram_addr })
    else
      fill_table K line_cnt ram_bound n (line_ix + 1) ram_addr
        (setLine tbl line_ix
          { LEN := if sub32 ram_bound ram_addr < K.SDMMC_DMADL_TRAN_LEN_MAX
                   then Dma0Len.SDMMC_DMA0DL_LEN (sub32 ram_bound ram_addr)
                   else Dma0Len.SDMMC_DMA0DL_LEN_MAX,
            ATTR_ACT_TRAN := true, ATTR_END := true, ATTR_VALID := true, ADDR := ram_addr })

/-- Result of `sdmmc_build_dma_table`: the return code, the command (whose
block count may have been reduced) and the environment. -/
structure BuildOut where
  rc : Rc
  cmd : sSdmmcCommand
  hw : Hw

/-- Fill the table and clean its cache lines: the tail of
`sdmmc_build_dma_table` from `/* Fill the table */` on. -/
def build_fill (K : Hdr) (set : sdmmc_set) (cmd : sSdmmcCommand) (hw : Hw)
    (rc : Rc) (line_cnt ram_addr ram_bound : Nat) : BuildOut :=
  let tbl := fill_table K line_cnt ram_bound line_cnt 0 ram_addr hw.table_mem
  { rc := rc, cmd := cmd,
    hw := ({ hw with table_mem := tbl }).emit
      (Event.cache_clean_region set.table (line_cnt * K.SDMMC_DMADL_SIZE * 4)) }

/-- The function `sdmmc_build_dma_table`. -/
def sdmmc_build_dma_table (K : Hdr) (set : sdmmc_set) (cmd : sSdmmcCommand) (hw : Hw) :
    BuildOut :=
  let data_len := u32 (cmd.wNbBlocks * cmd.wBlockSize)
  let ram_addr := cmd.pData
  let ram_bound := u32 (ram_addr + data_len)
  if cmd.pData &&& 3 ≠ 0 then
    { rc := Rc.SDMMC_PARAM, cmd := cmd, hw := hw }
  else
    let line_cnt := u32 (sub32 data_len 1 + K.SDMMC_DMADL_TRAN_LEN_MAX)
      / K.SDMMC_DMADL_TRAN_LEN_MAX
    if line_cnt > set.table_size then
      let line_cnt := set.table_size
      let data_len := u32 (line_cnt * K.SDMMC_DMADL_TRAN_LEN_MAX)
      let data_len := data_len / cmd.wBlockSize
      if data_len = 0 then
        { rc := Rc.SDMMC_NOT_SUPPORTED, cmd := cmd, hw := hw }
      else
        let cmd := { cmd with wNbBlocks := u16 data_len }
        let data_len := u32 (data_len * cmd.wBlockSize)
        let ram_bound := u32 (ram_addr + data_len)
        build_fill K set cmd hw Rc.SDMMC_CHANGED line_cnt ram_addr ram_bound
    else
      build_fill K set cmd hw Rc.SDMMC_OK line_cnt ram_addr ram_bound

/-- The line that the fill loop stores at index `j` when it is at address `addr`. -/
def lineAt (K : Hdr) (line_cnt ram_bound j addr : Nat) : DmaLine :=
  if j + 1 < line_cnt then
    { LEN := Dma0Len.SDMMC_DMA0DL_LEN_MAX, ATTR_ACT_TRAN := true, ATTR_END := false,
      ATTR_VALID := true, ADDR := addr }
  else
    { LEN := if sub32 ram_bound addr < K.SDMMC_DMADL_TRAN_LEN_MAX
             then Dma0Len.SDMMC_DMA0DL_LEN (sub32 ram_bound addr)
             else Dma0Len.SDMMC_DMA0DL_LEN_MAX,
      ATTR_ACT_TRAN := true, ATTR_END := true, ATTR_VALID := true, ADDR := addr }


/-! ## Register access -/

/-- The busy-wait loop `while (reg & flag) ;` on an input stream: the values
with the flag set are consumed, and so is the first value with the flag clear,
which ends the loop. -/
def waitClear {α : Type} (p : α → Bool) (l : List α) : List α := (l.dropWhile p).tail

/-- Read response register `SDMMC_RR[ix]`. -/
def Hw.rd_RR (hw : Hw) (ix : Nat) : Nat × Hw :=
  (u32 ((hw.RR ix).headD 0),
   { hw with RR := fun j => if j = ix then (hw.RR ix).tail else hw.RR j })

/-- Read the buffer data port `SDMMC_BDPR`. -/
def Hw.rd_BDPR (hw : Hw) : Nat × Hw :=
  (u32 (hw.BDPR.headD 0), { hw with BDPR := hw.BDPR.tail })

/-- Store a value at index `i` of a word or byte array. -/
def store (mem : Nat → Nat) (i v : Nat) : Nat → Nat :=
  fun j => if j = i then v else mem j

/-- Bitwise complement of a `uint32_t`. -/
def not32 (x : Nat) : Nat := 4294967295 - x % 4294967296

/-! ## Device status bits -/

/-- Device status bit `STAT_DEVICE_IS_LOCKED`. -/
def STAT_DEVICE_IS_LOCKED : Nat := 1 <<< 25
/-- Device status bit `STAT_CARD_ECC_DISABLED`. -/
def STAT_CARD_ECC_DISABLED : Nat := 1 <<< 14
/-- Device status field `STAT_CURRENT_STATE`. -/
def STAT_CURRENT_STATE : Nat := 0xf <<< 9
/-- Device status bit `STAT_READY_FOR_DATA`. -/
def STAT_READY_FOR_DATA : Nat := 1 <<< 8
/-- Device status bit `STAT_EXCEPTION_EVENT`. -/
def STAT_EXCEPTION_EVENT : Nat := 1 <<< 6
/-- Device status bit `STAT_APP_CMD`. -/
def STAT_APP_CMD : Nat := 1 <<< 5

/-! ## `sdmmc_get_response` -/

/-- The loop `for (ix = 0; ix < 4; ix++)` that assembles an R2 response.  The
first argument is the number of iterations left. -/
def r2_loop : Nat → Nat → (Nat → Nat) → Hw → (Nat → Nat) × Hw
  | 0, _, out, hw => (out, hw)
  | n + 1, ix, out, hw =>
    let r := hw.rd_RR ix
    let out1 := if ix < 3 then store out (2 - ix) ((r.1 >>> 24) &&& 0xff) else out
    let out2 := store out1 (3 - ix) (out1 (3 - ix) ||| ((r.1 <<< 8) &&& 0xffffff00))
    r2_loop n (ix + 1) out2 r.2

/-- Result of `sdmmc_get_response`: the session (whose `resp_len` may have been
set), the response words and the environment. -/
structure RespOut where
  set : sdmmc_set
  out : Nat → Nat
  hw : Hw

/-- The `if (first_call) switch (respType)` block of `sdmmc_get_response`. -/
def get_response_first (set : sdmmc_set) (cmd : sSdmmcCommand) (out : Nat → Nat) (hw : Hw) :
    RespOut :=
  if cmd.cmdOp.respType = 2 then
    let r := r2_loop 4 0 (store out 3 0x000000ff) hw
    { set := { set with resp_len := 4 }, out := r.1, hw := r.2 }
  else if cmd.cmdOp.respType = 1 ∨ cmd.cmdOp.respType = 3 ∨ cmd.cmdOp.respType = 4
      ∨ cmd.cmdOp.respType = 5 ∨ cmd.cmdOp.respType = 6 ∨ cmd.cmdOp.respType = 7 then
    let r := hw.rd_RR 0
    { set := { set with resp_len := 1 }, out := store out 0 r.1, hw := r.2 }
  else
    { set := set, out := out, hw := hw }

/-- The function `sdmmc_get_response`, called with `out = cmd->pResp`. -/
def sdmmc_get_response (set : sdmmc_set) (cmd : sSdmmcCommand) (complete : Bool)
    (out : Nat → Nat) (hw : Hw) : RespOut :=
  let first_call := set.resp_len == 0
  let r1 := if first_call then get_response_first set cmd out hw
    else { set := set, out := out, hw := hw }
  if has_data cmd && (cmd.bCmd == 18 || cmd.bCmd == 25)
      && ((first_call && r1.set.use_set_blk_cnt) || (complete && !r1.set.use_set_blk_cnt)) then
    let r := r1.hw.rd_RR 3
    if !r1.set.use_set_blk_cnt then
      { r1 with
        out := store r1.out 0
          (r1.out 0 ||| (r.1 &&& not32 STAT_DEVICE_IS_LOCKED
            &&& not32 STAT_CARD_ECC_DISABLED &&& not32 STAT_CURRENT_STATE
            &&& not32 STAT_READY_FOR_DATA &&& not32 STAT_EXCEPTION_EVENT
            &&& not32 STAT_APP_CMD)),
        hw := r.2 }
    else { r1 with hw := r.2 }
  else r1

/-! ## `sdmmc_poll` -/

/-- Local state of one pass of `sdmmc_poll`: the session, the command in
flight (`set->cmd`), the environment and the pending `events`. -/
structure PollSt where
  set : sdmmc_set
  cmd : sSdmmcCommand
  hw : Hw
  events : Nistr

/-- Where control goes after a block of `sdmmc_poll`: on to the next test,
to the label `Succeed`, or to the label `End`. -/
inductive Flow where
  | cont (st : PollSt)
  | succeed (st : PollSt)
  | fail (st : PollSt)

/-- Sequencing of blocks: the next block runs only when control falls through. -/
def Flow.bind (f : Flow) (g : PollSt → Flow) : Flow :=
  match f with
  | Flow.cont st => g st
  | Flow.succeed st => Flow.succeed st
  | Flow.fail st => Flow.fail st

/-- The state carried by a flow. -/
def Flow.st : Flow → PollSt
  | Flow.cont st => st
  | Flow.succeed st => st
  | Flow.fail st => st

/-- Whether control goes to the label `End` without passing `Succeed`. -/
def Flow.isFail : Flow → Bool
  | Flow.fail _ => true
  | _ => false

/-- The statement `if (cmd->pResp) sdmmc_get_response(set, cmd, complete, cmd->pResp);`. -/
def poll_get_response (st : PollSt) (complete : Bool) : PollSt :=
  match st.cmd.pResp with
  | none => st
  | some out =>
    let r := sdmmc_get_response st.set st.cmd complete out st.hw
    { st with set := r.set, cmd := { st.cmd with pResp := some r.out }, hw := r.hw }

/-- Fetch of the normal events at label `Fetch`: the value `v` read from
`NISTR`, with the software event added when the auto-command timer has
expired. -/
def poll_fetch (set : sdmmc_set) (hw : Hw) (v : Nistr) : Nistr × Hw :=
  if set.use_polling then
    if set.expect_auto_end then
      let sr := hw.TC_SR.headD default
      let hw1 := { hw with TC_SR := hw.TC_SR.tail }
      if !sr.CLKSTA then ({ v with CUSTOM_EVT := true }, hw1) else (v, hw1)
    else (v, hw)
  else
    if set.expect_auto_end then
      ({ v with CUSTOM_EVT := true },
       { hw with TC_SR := waitClear (fun s => s.CLKSTA) hw.TC_SR })
    else (v, hw)

/-- Decoding of the error flags into a command status; reads `ACESR` for an
auto-command error. -/
def poll_decode (errors : Eistr) (hw : Hw) : Rc × Hw :=
  if errors.CURLIM then (Rc.SDMMC_NOT_INITIALIZED, hw)
  else if errors.CMDCRC then ( Rc.SDMMC_ERR_IO, hw)
  else if errors.CMDTEO then (Rc.SDMMC_NO_RESPONSE, hw)
  else if errors.CMDEND || errors.CMDIDX then ( Rc.SDMMC_ERR_IO, hw)
  else if errors.TUNING then ( Rc.SDMMC_ERR_IO, hw)
  else if errors.DATTEO then ( Rc.SDMMC_ERR_IO, hw)
  else if errors.DATCRC || errors.DATEND then ( Rc.SDMMC_ERR_IO, hw)
  else if errors.ACMD then
    let acesr := hw.ACESR.headD default
    let hw1 := { hw with ACESR := hw.ACESR.tail }
    if acesr.ACMD12NE then (Rc.SDMMC_ERR, hw1)
    else if acesr.ACMDCRC then ( Rc.SDMMC_ERR_IO, hw1)
    else if acesr.ACMDTEO then (Rc.SDMMC_NO_RESPONSE, hw1)
    else if acesr.ACMDEND || acesr.ACMDIDX then ( Rc.SDMMC_ERR_IO, hw1)
    else (Rc.SDMMC_ERR, hw1)
  else if errors.ADMA then (Rc.SDMMC_PARAM, hw)
  else if errors.BOOTAE then (Rc.SDMMC_STATE, hw)
  else (Rc.SDMMC_ERR, hw)

/-- The block `if (events & SDMMC_NISTR_ERRINT) { ... goto End; }`. -/
def poll_errint (st : PollSt) : PollSt :=
  let errors := st.hw.EISTR.headD default
  let hw1 := ({ st.hw with EISTR := st.hw.EISTR.tail }).emit (Event.wr_EISTR errors)
  let r := poll_decode errors hw1
  { set := { st.set with
             state := if st.cmd.bCmd = 12 then Mcid.MCID_LOCKED else Mcid.MCID_ERROR },
    cmd := { st.cmd with bStatus := r.1 },
    hw := r.2,
    events := { st.events with ERRINT := false } }

/-- The block `if (events & SDMMC_NISTR_CMDC) { ... }`. -/
def poll_cmdc (st : PollSt) : Flow :=
  if st.events.CMDC then
    let st1 : PollSt :=
      { st with
        hw := st.hw.emit (Event.wr_NISTR { Nistr.zero with CMDC := true }),
        events := { st.events with CMDC := false },
        set := { st.set with cmd_line_released := true } }
    let st2 := poll_get_response st1 st1.set.dat_lines_released
    if (!has_data st2.cmd && !st2.cmd.cmdOp.checkBsy) || st2.set.dat_lines_released then
      Flow.succeed st2
    else Flow.cont st2
  else Flow.cont st

/-- The byte `k` of a 32-bit word on a little-endian host (`val.bytes[k]`). -/
def byteOf (word k : Nat) : Nat := (word >>> (8 * k)) % 256

/-- The loop `for (bound = out + count; out < bound; out += 4)` of the read
block: each iteration reads one word from the data port and stores its four
bytes.  The first argument is the number of iterations left. -/
def read_words : Nat → Nat → (Nat → Nat) → Hw → (Nat → Nat) × Hw
  | 0, _, data, hw => (data, hw)
  | n + 1, off, data, hw =>
    let r := hw.rd_BDPR
    let d0 := store data off (byteOf r.1 0)
    let d1 := store d0 (off + 1) (byteOf r.1 1)
    let d2 := store d1 (off + 2) (byteOf r.1 2)
    let d3 := store d2 (off + 3) (byteOf r.1 3)
    read_words n (off + 4) d3 r.2

/-- The loop `for (in = val.bytes, bound = out + count; out < bound; in++, out++)`
that stores the first `count` bytes of `val`.  The first argument is the number
of iterations left, the second the index into `val.bytes`. -/
def read_tail (val : Nat) : Nat → Nat → Nat → (Nat → Nat) → (Nat → Nat)
  | 0, _, _, data => data
  | n + 1, k, off, data => read_tail val n (k + 1) (off + 1) (store data off (byteOf val k))

/-- The block `if (events & SDMMC_NISTR_BRDRDY && xfrData == SDMMC_CMD_RX && !set->table)`. -/
def poll_brdrdy (st : PollSt) : Flow :=
  if st.events.BRDRDY && st.cmd.cmdOp.xfrData == XfrData.SDMMC_CMD_RX && st.set.table == 0 then
    let hw1 := st.hw.emit (Event.wr_NISTR { Nistr.zero with BRDRDY := true })
    let events := { st.events with BRDRDY := false }
    if st.set.blk_index ≥ st.cmd.wNbBlocks then
      Flow.fail
        { set := { st.set with state := Mcid.MCID_ERROR },
          cmd := { st.cmd with bStatus := Rc.SDMMC_ERR_IO },
          hw := hw1, events := events }
    else
      let out := st.set.blk_index * st.cmd.wBlockSize
      let count := st.cmd.wBlockSize - st.cmd.wBlockSize % 4
      let r := read_words (count / 4) out st.cmd.data hw1
      let r2 : (Nat → Nat) × Hw :=
        if count < st.cmd.wBlockSize then
          let v := r.2.rd_BDPR
          (read_tail v.1 (st.cmd.wBlockSize - count) 0 (out + count) r.1, v.2)
        else r
      Flow.cont
        { set := { st.set with blk_index := u16 (st.set.blk_index + 1) },
          cmd := { st.cmd with data := r2.1 },
          hw := r2.2, events := events }
  else Flow.cont st

/-- The word whose bytes are `b0 .. b3` on a little-endian host. -/
def wordOf (b0 b1 b2 b3 : Nat) : Nat :=
  b0 % 256 + (b1 % 256) * 256 + (b2 % 256) * 65536 + (b3 % 256) * 16777216

/-- The loop `for (bound = in + count; in < bound; in += 4)` of the write block:
each iteration packs four bytes and writes the word to the data port.  The
first argument is the number of iterations left. -/
def write_words : Nat → Nat → (Nat → Nat) → Hw → Hw
  | 0, _, _, hw => hw
  | n + 1, off, data, hw =>
    write_words n (off + 4) data
      (hw.emit (Event.wr_BDPR
        (wordOf (data off) (data (off + 1)) (data (off + 2)) (data (off + 3)))))

/-- The loop that packs the last `count < 4` bytes into `val`, starting from
`val.word = 0`.  The first argument is the number of iterations left, the
second the index into `val.bytes`. -/
def write_tail (data : Nat → Nat) : Nat → Nat → Nat → Nat → Nat
  | 0, _, _, val => val
  | n + 1, k, off, val =>
    write_tail data n (k + 1) (off + 1) (val + (data off % 256) * 256 ^ k)

/-- The block `if (events & SDMMC_NISTR_BWRRDY && xfrData == SDMMC_CMD_TX
&& !set->table && set->blk_index < cmd->wNbBlocks)`; control always falls through. -/
def poll_bwrrdy (st : PollSt) : PollSt :=
  if st.events.BWRRDY && st.cmd.cmdOp.xfrData == XfrData.SDMMC_CMD_TX && st.set.table == 0
      && decide (st.set.blk_index < st.cmd.wNbBlocks) then
    let hw1 := st.hw.emit (Event.wr_NISTR { Nistr.zero with BWRRDY := true })
    let inp := st.set.blk_index * st.cmd.wBlockSize
    let count := st.cmd.wBlockSize - st.cmd.wBlockSize % 4
    let hw2 := write_words (count / 4) inp st.cmd.data hw1
    let hw3 :=
      if count < st.cmd.wBlockSize then
        hw2.emit (Event.wr_BDPR
          (write_tail st.cmd.data (st.cmd.wBlockSize - count) 0 (inp + count) 0))
      else hw2
    { st with
      set := { st.set with blk_index := u16 (st.set.blk_index + 1) },
      hw := hw3,
      events := { st.events with BWRRDY := false } }
  else st

/-- The first part of the block `if (events & SDMMC_NISTR_TRFC) { ... }`: start
the timer for the Auto CMD12 event when one is expected, clear the interrupt,
mark the data lines released and retrieve the response when the command line
has been released too. -/
def poll_trfc_release (st : PollSt) : PollSt :=
  let st1 : PollSt :=
    if has_data st.cmd && (st.cmd.bCmd == 18 || st.cmd.bCmd == 25)
        && !st.set.use_set_blk_cnt then
      { st with
        hw := st.hw.emit (Event.wr_TC_CCR { CLKEN := true, SWTRG := true }),
        set := { st.set with expect_auto_end := true } }
    else st
  let st2 : PollSt :=
    { st1 with
      hw := st1.hw.emit (Event.wr_NISTR { Nistr.zero with TRFC := true }),
      events := { st1.events with TRFC := false },
      set := { st1.set with dat_lines_released := true } }
  if st2.set.cmd_line_released && !st2.set.expect_auto_end then
    poll_get_response st2 true
  else st2

/-- The block `if (events & SDMMC_NISTR_TRFC) { ... }`. -/
def poll_trfc (st : PollSt) : Flow :=
  if st.events.TRFC then
    let st3 := poll_trfc_release st
    if has_data st3.cmd && st3.set.table == 0
        && st3.set.blk_index != st3.cmd.wNbBlocks then
      Flow.fail
        { st3 with
          cmd := { st3.cmd with bStatus := Rc.SDMMC_ERR_IO },
          set := { st3.set with state := Mcid.MCID_ERROR } }
    else if st3.set.cmd_line_released && !st3.set.expect_auto_end then
      Flow.succeed st3
    else Flow.cont st3
  else Flow.cont st

/-- One pass of `sdmmc_poll` over a non-zero `events` word, from the test of the
global error flag down to the test of Transfer Complete. -/
def poll_pass (st : PollSt) : Flow :=
  if st.events.ERRINT then Flow.fail (poll_errint st)
  else if st.events.CUSTOM_EVT then Flow.succeed (poll_get_response st true)
  else
    (poll_cmdc st).bind fun st1 =>
      (poll_brdrdy st1).bind fun st2 =>
        poll_trfc (poll_bwrrdy st2)

/-- Whether the command starts the function switching period:
`bCmd == 0 || (bCmd == 6 && dwArg & 1ul << 31 && !checkBsy)`. -/
def wait_switch (cmd : sSdmmcCommand) : Bool :=
  cmd.bCmd == 0 || (cmd.bCmd == 6 && cmd.dwArg.testBit 31 && !cmd.cmdOp.checkBsy)

/-- Result of `sdmmc_poll`: the session, the environment, and the command that
this call released (with its final status), if any. -/
structure PollOut where
  set : sdmmc_set
  hw : Hw
  done : Option sSdmmcCommand

/-- The code of `sdmmc_poll` from the label `End` on: recovery or the function
switching delay, release of the command, and the completion callback. -/
def poll_end (st : PollSt) : PollOut :=
  let hw1 := if !st.events.isZero then st.hw.emit (Event.wr_NISTR st.events) else st.hw
  let hw2 :=
    if st.cmd.bStatus ≠ Rc.SDMMC_OK ∧ st.cmd.bStatus ≠ Rc.SDMMC_CHANGED then
      let v := hw1.SRR.headD default
      let hw1a := ({ hw1 with SRR := hw1.SRR.tail }).emit
        (Event.wr_SRR { v with SWRSTDAT := true, SWRSTCMD := true })
      { hw1a with SRR := waitClear (fun s => s.SWRSTDAT || s.SWRSTCMD) hw1a.SRR }
    else if wait_switch st.cmd then
      let hw1a := hw1.emit (Event.wr_TC_CCR { CLKEN := true, SWTRG := true })
      { hw1a with TC_SR := waitClear (fun s => s.CLKSTA) hw1a.TC_SR }
    else hw1
  let hw3 := if st.cmd.fCallback then hw2.emit (Event.fCallback st.cmd.bStatus) else hw2
  { set := { st.set with
             cmd := none, resp_len := 0, blk_index := 0, cmd_line_released := false,
             dat_lines_released := false, expect_auto_end := false },
    hw := hw3,
    done := some st.cmd }

/-- Outcome of one round of the `Fetch` loop. -/
inductive Round where
  | idle (hw : Hw)
  | done (o : PollOut)
  | again (set : sdmmc_set) (cmd : sSdmmcCommand) (hw : Hw)

/-- One round of the `Fetch` loop of `sdmmc_poll`, for the value `v` read from
`NISTR`: return when there is no event, else run one pass, then either finish
through `Succeed`/`End` or clear the leftover events and fetch again. -/
def poll_round (v : Nistr) (set : sdmmc_set) (cmd : sSdmmcCommand) (hw : Hw) : Round :=
  let f := poll_fetch set hw v
  if f.1.isZero then Round.idle f.2
  else
    match poll_pass { set := set, cmd := cmd, hw := f.2, events := f.1 } with
    | Flow.fail st => Round.done (poll_end st)
    | Flow.succeed st =>
      Round.done (poll_end { st with set := { st.set with state := Mcid.MCID_LOCKED } })
    | Flow.cont st =>
      Round.again st.set st.cmd
        (if !st.events.isZero then st.hw.emit (Event.wr_NISTR st.events) else st.hw)

/-- The `Fetch` loop of `sdmmc_poll`.  The list is the input stream of `NISTR`
(a copy of `hw.NISTR`); once it is exhausted the register reads as zero, and
that round cannot ask for another fetch. -/
def poll_loop : List Nistr → sdmmc_set → sSdmmcCommand → Hw → PollOut
  | [], set, cmd, hw =>
    match poll_round Nistr.zero set cmd hw with
    | Round.idle hw1 => { set := { set with cmd := some cmd }, hw := hw1, done := none }
    | Round.done o => o
    | Round.again set1 cmd1 hw1 =>
      { set := { set1 with cmd := some cmd1 }, hw := hw1, done := none }
  | v :: rest, set, cmd, hw =>
    match poll_round v set cmd { hw with NISTR := rest } with
    | Round.idle hw1 => { set := { set with cmd := some cmd }, hw := hw1, done := none }
    | Round.done o => o
    | Round.again set1 cmd1 hw1 => poll_loop rest set1 cmd1 hw1

/-- The function `sdmmc_poll`.  It expects a command in flight when the state is
`MCID_CMD` (`assert(cmd)`); without one the model returns at once. -/
def sdmmc_poll (set : sdmmc_set) (hw : Hw) : PollOut :=
  if set.state ≠ Mcid.MCID_CMD then { set := set, hw := hw, done := none }
  else
    match set.cmd with
    | none => { set := set, hw := hw, done := none }
    | some cmd => poll_loop hw.NISTR set cmd hw

/-- Result of `sdmmc_is_busy`. -/
structure BusyOut where
  busy : Bool
  set : sdmmc_set
  hw : Hw
  done : Option sSdmmcCommand

/-- The function `sdmmc_is_busy`. -/
def sdmmc_is_busy (set : sdmmc_set) (hw : Hw) : BusyOut :=
  let o : PollOut :=
    if set.use_polling then sdmmc_poll set hw else { set := set, hw := hw, done := none }
  { busy := o.set.state == Mcid.MCID_CMD, set := o.set, hw := o.hw, done := o.done }

/-! ## `sdmmc_send_command` -/

/-- Result of `sdmmc_send_command`: the return code, the session, the caller's
command (its block count and status may have been written), the environment,
and the command released by the busy test's poll, if any. -/
structure SendOut where
  rc : Rc
  set : sdmmc_set
  cmd : sSdmmcCommand
  hw : Hw
  done : Option sSdmmcCommand

/-- The `const bool` locals that `sdmmc_send_command` computes on entry. -/
structure SendLocals where
  stop_xfer : Bool
  has_data : Bool
  use_dma : Bool
  wait_switch : Bool
  multiple_xfer : Bool
  blk_count_prefix : Bool
  stop_xfer_suffix : Bool
  deriving DecidableEq, Inhabited

/-- The initialisers of the locals of `sdmmc_send_command`. -/
def send_locals (K : Hdr) (set : sdmmc_set) (cmd : sSdmmcCommand) : SendLocals :=
  { stop_xfer := cmd.cmdOp.xfrData == XfrData.SDMMC_CMD_STOPXFR,
    has_data := has_data cmd,
    use_dma := set.table != 0
      && (cmd.bCmd != 21 || decide (set.tim_mode ≥ K.SDMMC_TIM_SD_DS))
      && (cmd.bCmd != 19 || decide (set.tim_mode < K.SDMMC_TIM_SD_DS)),
    wait_switch := wait_switch cmd,
    multiple_xfer := cmd.bCmd == 18 || cmd.bCmd == 25,
    blk_count_prefix := (cmd.bCmd == 18 || cmd.bCmd == 25) && set.use_set_blk_cnt,
    stop_xfer_suffix := (cmd.bCmd == 18 || cmd.bCmd == 25) && !set.use_set_blk_cnt }

/-- The block `if (has_data && use_dma) { ... }` of `sdmmc_send_command`: build
the descriptor table, then clean or invalidate the cache lines of the data
buffer.  When the builder fails its return code is passed on and nothing else
is done. -/
def send_prepare_dma (K : Hdr) (c : SendLocals) (set : sdmmc_set) (cmd : sSdmmcCommand)
    (hw : Hw) : BuildOut :=
  if c.has_data && c.use_dma then
    let b := sdmmc_build_dma_table K set cmd hw
    if b.rc ≠ Rc.SDMMC_OK ∧ b.rc ≠ Rc.SDMMC_CHANGED then b
    else
      let len := u32 (b.cmd.wNbBlocks * b.cmd.wBlockSize)
      if b.cmd.cmdOp.xfrData = XfrData.SDMMC_CMD_TX then
        { b with hw := b.hw.emit (Event.cache_clean_region b.cmd.pData len) }
      else if b.cmd.cmdOp.xfrData = XfrData.SDMMC_CMD_RX then
        { b with hw := b.hw.emit (Event.cache_invalidate_region b.cmd.pData len) }
      else b
  else { rc := Rc.SDMMC_OK, cmd := cmd, hw := hw }

/-- The error interrupt word with all twelve sources enabled. -/
def Eistr.all : Eistr :=
  { BOOTAE := true, TUNING := true, ADMA := true, ACMD := true, CURLIM := true,
    DATEND := true, DATCRC := true, DATTEO := true, CMDIDX := true, CMDEND := true,
    CMDCRC := true, CMDTEO := true, rsvd := false }

/-- The command register value and error interrupt mask after the
`switch (cmd->cmdOp.bmBits.respType)` of `sdmmc_send_command`. -/
def send_resp_type (cmd : sSdmmcCommand) (cr : Cr) (eister : Eistr) : Cr × Eistr :=
  let rl48 : RespTyp :=
    if cmd.cmdOp.checkBsy then RespTyp.SDMMC_CR_RESPTYP_RL48BUSY
    else RespTyp.SDMMC_CR_RESPTYP_RL48
  if cmd.cmdOp.respType = 2 then
    ({ cr with RESPTYP := RespTyp.SDMMC_CR_RESPTYP_RL136 }, { eister with CMDIDX := false })
  else if cmd.cmdOp.respType = 3 then
    ({ cr with RESPTYP := rl48 }, { eister with CMDIDX := false, CMDCRC := false })
  else if cmd.cmdOp.respType = 1 ∨ cmd.cmdOp.respType = 4 then
    ({ cr with RESPTYP := rl48 },
     if cmd.cmdOp.respType = 4 ∧ cmd.cmdOp.ioCmd = true then
       { eister with CMDIDX := false, CMDCRC := false }
     else eister)
  else if cmd.cmdOp.respType = 5 ∨ cmd.cmdOp.respType = 6 ∨ cmd.cmdOp.respType = 7 then
    ({ cr with RESPTYP := rl48 }, eister)
  else
    ({ cr with RESPTYP := RespTyp.SDMMC_CR_RESPTYP_NORESP }, { eister with CMDTEO := false })

/-- The transfer mode, command register and error mask after the block
`if (stop_xfer) { ... } else if (has_data) { ... }` of `sdmmc_send_command`. -/
def send_xfer_mode (c : SendLocals) (cmd : sSdmmcCommand)
    (tmr : Tmr) (cr : Cr) (eister : Eistr) : Tmr × Cr × Eistr :=
  if c.stop_xfer then
    ({ tmr with MSBSEL := true, BCEN := true }, cr,
     { eister with ADMA := false, DATEND := false, DATCRC := false, DATTEO := false })
  else if c.has_data then
    let tmr1 : Tmr :=
      { tmr with
        DTDSEL := if cmd.cmdOp.xfrData = XfrData.SDMMC_CMD_TX
                  then TmrDtdsel.SDMMC_TMR_DTDSEL_WR else TmrDtdsel.SDMMC_TMR_DTDSEL_RD }
    let tmr2 : Tmr :=
      if c.blk_count_prefix then
        { tmr1 with ACMDEN := TmrAcmden.SDMMC_TMR_ACMDEN_ACMD23 }
      else if c.stop_xfer_suffix then
        { tmr1 with ACMDEN := TmrAcmden.SDMMC_TMR_ACMDEN_ACMD12 }
      else tmr1
    let tmr3 : Tmr :=
      if c.multiple_xfer || decide (cmd.wNbBlocks > 1) then
        { tmr2 with MSBSEL := true, BCEN := true }
      else tmr2
    let tmr4 : Tmr := if c.use_dma then { tmr3 with DMAEN := true } else tmr3
    (tmr4, { cr with DPSEL := true }, eister)
  else (tmr, cr, eister)

/-- The values prepared for `TMR`, `MC1R`, `CR` and the error interrupt mask
`eister`. -/
structure LaunchRegs where
  tmr : Tmr
  mc1r : Mc1r
  cr : Cr
  eister : Eistr

/-- Computation of `tmr`, `mc1r`, `cr` and `eister` in `sdmmc_send_command`,
from the current register contents `tmr0`, `mc1r0`, `cr0`. -/
def send_regs (c : SendLocals) (cmd : sSdmmcCommand)
    (tmr0 : Tmr) (mc1r0 : Mc1r) (cr0 : Cr) : LaunchRegs :=
  let tmr : Tmr :=
    { tmr0 with
      MSBSEL := false, DTDSEL := TmrDtdsel.cleared,
      ACMDEN := TmrAcmden.SDMMC_TMR_ACMDEN_DIS, BCEN := false, DMAEN := false }
  let mc1r : Mc1r :=
    { mc1r0 with OPD := cmd.cmdOp.odON, CMDTYP := CmdTyp.NORMAL }
  let cr : Cr :=
    { cr0 with
      CMDIDX := cmd.bCmd, CMDTYP := CmdTyp.NORMAL, DPSEL := false,
      RESPTYP := RespTyp.cleared, CMDICEN := true, CMDCCEN := true }
  let r := send_resp_type cmd cr Eistr.all
  let x := send_xfer_mode c cmd tmr r.1 r.2
  { tmr := x.1, mc1r := mc1r, cr := x.2.1, eister := x.2.2 }

/-- Wait for the CMD and DATn lines to be ready: `while (regs->SDMMC_PSR & mask) ;`. -/
def send_wait_lines (c : SendLocals) (cmd : sSdmmcCommand) (hw : Hw) : Hw :=
  let mask_dat : Bool := c.has_data || (cmd.cmdOp.checkBsy && !c.stop_xfer)
  { hw with PSR := waitClear (fun p => p.CMDINHC || (mask_dat && p.CMDINHD)) hw.PSR }

/-- Enable the normal and error interrupts and clear all interrupt status flags. -/
def send_enable (eister : Eistr) (hw : Hw) : Hw :=
  let nister := hw.NISTER.headD default
  let hw1 := ({ hw with NISTER := hw.NISTER.tail }).emit
    (Event.wr_NISTER { nister with BRDRDY := true, BWRRDY := true, TRFC := true, CMDC := true })
  let hw2 := hw1.emit (Event.wr_EISTER eister)
  let hw3 := hw2.emit (Event.wr_NISTR
    { ERRINT := true, BOOTAR := true, CINT := true, CREM := true, CINS := true,
      BRDRDY := true, BWRRDY := true, DMAINT := true, BLKGE := true, TRFC := true,
      CMDC := true, CUSTOM_EVT := false, rsvd := false })
  hw3.emit (Event.wr_EISTR Eistr.all)

/-- The block `if (has_data) { ... }` under `/* Issue the command */`. -/
def send_issue_data (c : SendLocals) (set : sdmmc_set) (cmd : sSdmmcCommand) (hw : Hw) : Hw :=
  if c.has_data then
    let a := if c.blk_count_prefix then hw.emit (Event.wr_SSAR cmd.wNbBlocks) else hw
    let b := if c.use_dma then a.emit (Event.wr_ASA0R set.table) else a
    let bsr := b.BSR.headD default
    ({ b with BSR := b.BSR.tail }).emit (Event.wr_BSR { bsr with BLKSIZE := cmd.wBlockSize })
  else hw

/-- The writes of `BCR`, `ARG1R`, `TMR`, `MC1R` and `CR` that launch the command. -/
def send_issue (c : SendLocals) (cmd : sSdmmcCommand) (g : LaunchRegs) (hw : Hw) : Hw :=
  let hw1 :=
    if c.stop_xfer then hw.emit (Event.wr_BCR 0)
    else if c.has_data && (c.multiple_xfer || decide (cmd.wNbBlocks > 1)) then
      hw.emit (Event.wr_BCR cmd.wNbBlocks)
    else hw
  let hw2 := hw1.emit (Event.wr_ARG1R cmd.dwArg)
  let hw3 := if c.has_data || c.stop_xfer then hw2.emit (Event.wr_TMR g.tmr) else hw2
  (hw3.emit (Event.wr_MC1R g.mc1r)).emit (Event.wr_CR g.cr)

/-- Preparation of the Timer/Counter for the Auto CMD12 event or the function
switching period.  The divisions `pclk / (dev_freq / (2ul + 64ul + 48ul))` and
`pclk / (dev_freq / 8ul)` have no result when their divisor is zero: then the
block does not complete and the result is `none`. -/
def send_timer (c : SendLocals) (set : sdmmc_set) (hw : Hw) : Option Hw :=
  if c.has_data && c.stop_xfer_suffix then
    if set.dev_freq / (2 + 64 + 48) = 0 then none
    else
      some (hw.emit
        (Event.wr_TC_RC (max_u32 (hw.pclk set.tc_id / (set.dev_freq / (2 + 64 + 48))) 1)))
  else if c.wait_switch then
    if set.dev_freq / 8 = 0 then none
    else some (hw.emit (Event.wr_TC_RC (max_u32 (hw.pclk set.tc_id / (set.dev_freq / 8)) 1)))
  else some hw

/-- The block `if (!set->use_polling) { ... }` that unmasks the interrupts. -/
def send_unmask (set : sdmmc_set) (eister : Eistr) (hw : Hw) : Hw :=
  if !set.use_polling then
    let nisier := hw.NISIER.headD default
    (({ hw with NISIER := hw.NISIER.tail }).emit
      (Event.wr_NISIER
        { nisier with BRDRDY := true, BWRRDY := true, TRFC := true, CMDC := true,
                      CINT := true })).emit
      (Event.wr_EISIER eister)
  else hw

/-- The registers as the launch part has programmed them when it reaches the
preparation of the Timer/Counter: the lines are ready, the interrupts are
enabled and cleared, and `BCR`, `ARG1R`, `TMR`, `MC1R` and `CR` are written. -/
def send_program (c : SendLocals) (set : sdmmc_set) (cmd : sSdmmcCommand) (hw : Hw) :
    LaunchRegs × Hw :=
  let g := send_regs c cmd (hw.TMR.headD default) (hw.MC1R.headD default)
    (hw.CR.headD default)
  let hw1 := { hw with TMR := hw.TMR.tail, MC1R := hw.MC1R.tail, CR := hw.CR.tail }
  let hw2 := send_enable g.eister (send_wait_lines c cmd hw1)
  (g, send_issue c cmd g (send_issue_data c set cmd hw2))

/-- The part of `sdmmc_send_command` after the busy test: take the command in
flight, program the registers and launch the command.  `rc` is the code
returned by the descriptor builder (`SDMMC_OK` when it was not called).  The
result is `none` when a division of the timer preparation has no result. -/
def send_launch (c : SendLocals) (set : sdmmc_set) (cmd : sSdmmcCommand) (hw : Hw) (rc : Rc) :
    Option (sdmmc_set × sSdmmcCommand × Hw) :=
  let cmd1 := { cmd with bStatus := rc }
  let p := send_program c set cmd hw
  match send_timer c set p.2 with
  | none => none
  | some hw3 =>
    some
      ({ set with
         state := Mcid.MCID_CMD, cmd := some cmd1, resp_len := 0, blk_index := 0,
         cmd_line_released := false, dat_lines_released := false, expect_auto_end := false },
       cmd1, send_unmask set p.1.eister hw3)

/-- Whether the caller passes the very object that the session holds as the
command in flight: `cmd == set->cmd`. -/
def send_same (set : sdmmc_set) (cmd : sSdmmcCommand) : Bool :=
  match set.cmd with
  | some c0 => c0.addr == cmd.addr
  | none => false

/-- The session as the busy test of `sdmmc_send_command` finds it.  The
descriptor builder runs before the busy test and writes the block count of the
caller's command when it resizes the transfer (`cmd->wNbBlocks = ...`, code
`SDMMC_CHANGED`); when the caller's command is the object in flight, this write
changes the command in flight. -/
def send_alias (set : sdmmc_set) (cmd : sSdmmcCommand) (b : BuildOut) : sdmmc_set :=
  if b.rc = Rc.SDMMC_CHANGED ∧ send_same set cmd = true then
    { set with cmd := set.cmd.map fun c0 => { c0 with wNbBlocks := b.cmd.wNbBlocks } }
  else set

/-- The caller's command after the busy test: the command that the descriptor
builder left; when it is the object in flight, its buffers and its status are
those that the poll of the busy test left in the command that it released or
that is still in flight. -/
def send_object (set : sdmmc_set) (cmd : sSdmmcCommand) (b : BuildOut) (busy : BusyOut) :
    sSdmmcCommand :=
  if send_same set cmd then
    match busy.done with
    | some c => { b.cmd with data := c.data, pResp := c.pResp, bStatus := c.bStatus }
    | none =>
      if busy.busy then
        match busy.set.cmd with
        | some c => { b.cmd with data := c.data, pResp := c.pResp, bStatus := c.bStatus }
        | none => b.cmd
      else b.cmd
  else b.cmd

/-- The function `sdmmc_send_command`; `none` when the call does not return,
its timer preparation having reached a division by zero.  The returns that
precede the descriptor build, and a build that fails, leave the session and
the command in flight alone; the busy test runs on the session that the write
of the builder has left (`send_alias`). -/
def sdmmc_send_command (K : Hdr) (set : sdmmc_set) (cmd : sSdmmcCommand) (hw : Hw) :
    Option SendOut :=
  let c := send_locals K set cmd
  if set.state = Mcid.MCID_OFF then
    some { rc := Rc.SDMMC_STATE, set := set, cmd := cmd, hw := hw, done := none }
  else if cmd.cmdOp.powerON = cmd.cmdOp.sendCmd then
    some { rc := Rc.SDMMC_PARAM, set := set, cmd := cmd, hw := hw, done := none }
  else if c.stop_xfer ∧ cmd.bCmd ≠ 12 ∧ cmd.bCmd ≠ 52 then
    some { rc := Rc.SDMMC_PARAM, set := set, cmd := cmd, hw := hw, done := none }
  else if cmd.cmdOp.powerON then
    if set.dev_freq = 0 then
      some { rc := Rc.SDMMC_STATE, set := set, cmd := cmd, hw := hw, done := none }
    else
      some { rc := Rc.SDMMC_OK, set := set, cmd := cmd, hw := hw.emit (Event.timer_usleep 200),
             done := none }
  else if c.has_data ∧ (cmd.wNbBlocks = 0 ∨ cmd.wBlockSize = 0 ∨ cmd.pData = 0) then
    some { rc := Rc.SDMMC_PARAM, set := set, cmd := cmd, hw := hw, done := none }
  else if c.has_data ∧ cmd.wBlockSize > set.blk_size then
    some { rc := Rc.SDMMC_PARAM, set := set, cmd := cmd, hw := hw, done := none }
  else
    let b := send_prepare_dma K c set cmd hw
    if b.rc ≠ Rc.SDMMC_OK ∧ b.rc ≠ Rc.SDMMC_CHANGED then
      some { rc := b.rc, set := set, cmd := b.cmd, hw := b.hw, done := none }
    else
      let busy := sdmmc_is_busy (send_alias set cmd b) b.hw
      if busy.busy then
        some { rc := Rc.SDMMC_BUSY, set := busy.set, cmd := send_object set cmd b busy,
               hw := busy.hw, done := busy.done }
      else
        match send_launch c busy.set (send_object set cmd b busy) busy.hw b.rc with
        | none => none
        | some l => some { rc := Rc.SDMMC_OK, set := l.1, cmd := l.2.1, hw := l.2.2,
                           done := busy.done }

/-! ## Register reads -/

/-- The wait loop `while (!(reg & flag)) ;` on an input stream: the values with
the flag clear are consumed, and so is the first value with the flag set, which
ends the loop; on a stream without such a value the loop does not end. -/
def waitSet {α : Type} (p : α → Bool) : List α → Option (List α)
  | [] => none
  | a :: l => if p a then some l else waitSet p l

/-- Read `SDMMC_CA0R`. -/
def Hw.rd_CA0R (hw : Hw) : Ca0r × Hw := (hw.CA0R.headD default, { hw with CA0R := hw.CA0R.tail })

/-- Read `SDMMC_CA1R`. -/
def Hw.rd_CA1R (hw : Hw) : Ca1r × Hw := (hw.CA1R.headD default, { hw with CA1R := hw.CA1R.tail })

/-- Read `SDMMC_CCR`. -/
def Hw.rd_CCR (hw : Hw) : Ccr × Hw := (hw.CCR.headD default, { hw with CCR := hw.CCR.tail })

/-- Read `SDMMC_HC1R`. -/
def Hw.rd_HC1R (hw : Hw) : Hc1r × Hw := (hw.HC1R.headD default, { hw with HC1R := hw.HC1R.tail })

/-- Read `SDMMC_HC2R`. -/
def Hw.rd_HC2R (hw : Hw) : Hc2r × Hw := (hw.HC2R.headD default, { hw with HC2R := hw.HC2R.tail })

/-- Read `SDMMC_PCR`. -/
def Hw.rd_PCR (hw : Hw) : Pcr × Hw := (hw.PCR.headD default, { hw with PCR := hw.PCR.tail })

/-- Read `SDMMC_CALCR`. -/
def Hw.rd_CALCR (hw : Hw) : Calcr × Hw :=
  (hw.CALCR.headD default, { hw with CALCR := hw.CALCR.tail })

/-- Read `SDMMC_TCR`. -/
def Hw.rd_TCR (hw : Hw) : Tcr × Hw := (hw.TCR.headD default, { hw with TCR := hw.TCR.tail })

/-- Read `SDMMC_ACR`. -/
def Hw.rd_ACR (hw : Hw) : Acr × Hw := (hw.ACR.headD default, { hw with ACR := hw.ACR.tail })

/-- Read `SDMMC_MC1R`. -/
def Hw.rd_MC1R (hw : Hw) : Mc1r × Hw := (hw.MC1R.headD default, { hw with MC1R := hw.MC1R.tail })

/-- Read `SDMMC_PSR`. -/
def Hw.rd_PSR (hw : Hw) : Psr × Hw := (hw.PSR.headD default, { hw with PSR := hw.PSR.tail })

/-- Read `SDMMC_SRR`. -/
def Hw.rd_SRR (hw : Hw) : Srr × Hw := (hw.SRR.headD default, { hw with SRR := hw.SRR.tail })

/-- Read `SDMMC_NISTR`. -/
def Hw.rd_NISTR (hw : Hw) : Nistr × Hw :=
  (hw.NISTR.headD Nistr.zero, { hw with NISTR := hw.NISTR.tail })

/-- Read `SDMMC_EISTR`. -/
def Hw.rd_EISTR (hw : Hw) : Eistr × Hw :=
  (hw.EISTR.headD default, { hw with EISTR := hw.EISTR.tail })

/-- Result of a driver function that returns a status code. -/
structure RcOut where
  rc : Rc
  set : sdmmc_set
  hw : Hw

/-! ## Bus width -/

/-- The function `sdmmc_get_bus_width`: the width that the next value of `HC1R`
encodes. -/
def sdmmc_get_bus_width (hw : Hw) : Nat × Hw :=
  let r := hw.rd_HC1R
  (if r.1.EXTDW then 8 else if r.1.DW then 4 else 1, r.2)

/-- The function `sdmmc_set_bus_width`.  `CA0R` is read only for a width of 8,
as the `&&` of the C code does. -/
def sdmmc_set_bus_width (bits : Nat) (hw : Hw) : Rc × Hw :=
  if bits ≠ 1 ∧ bits ≠ 4 ∧ bits ≠ 8 then ( Rc.SDMMC_PARAM, hw)
  else
    let c := if bits = 8 then hw.rd_CA0R else (default, hw)
    if bits = 8 ∧ c.1.ED8SUP = false then ( Rc.SDMMC_PARAM, c.2)
    else
      let r := c.2.rd_HC1R
      let hc1r_prv := r.1
      if bits = 8 ∧ hc1r_prv.EXTDW = true then ( Rc.SDMMC_OK, r.2)
      else if bits = 8 then
        ( Rc.SDMMC_OK, r.2.emit (Event.wr_HC1R { hc1r_prv with EXTDW := true }))
      else
        let hc1r : Hc1r := { hc1r_prv with EXTDW := false, DW := decide (bits = 4) }
        if hc1r = hc1r_prv then ( Rc.SDMMC_OK, r.2)
        else ( Rc.SDMMC_OK, r.2.emit (Event.wr_HC1R hc1r))

/-! ## Peripheral reset and power-off -/

/-- The function `sdmmc_calibrate_zout`: start the calibration and wait for the
`EN` flag to clear. -/
def sdmmc_calibrate_zout (hw : Hw) : Hw :=
  let r := hw.rd_CALCR
  let hw1 := r.2.emit (Event.wr_CALCR { r.1 with EN := true })
  { hw1 with CALCR := waitClear (fun c => c.EN) hw1.CALCR }

/-- The register restores of `sdmmc_reset_peripheral`, after the reset. -/
def reset_restore (K : Hdr) (mc1r : Mc1r) (tcr : Tcr) (calcr : Calcr) (hw : Hw) : Hw :=
  let hw1 :=
    if mc1r.FCD then
      let m := hw.rd_MC1R
      m.2.emit (Event.wr_MC1R { m.1 with FCD := true })
    else hw
  let t := hw1.rd_TCR
  let hw2 := t.2.emit (Event.wr_TCR { t.1 with DTCVAL := tcr.DTCVAL })
  let c := hw2.rd_CALCR
  let hw3 := c.2.emit (Event.wr_CALCR { c.1 with CNTVAL := calcr.CNTVAL, TUNDIS := false })
  let h := hw3.rd_HC1R
  let hw4 := h.2.emit (Event.wr_HC1R { h.1 with DMASEL := K.SDMMC_HC1R_DMASEL_ADMA32 })
  let a := hw4.rd_ACR
  a.2.emit (Event.wr_ACR { a.1 with BMAX := K.SDMMC_ACR_BMAX_INCR16 })

/-- The function `sdmmc_reset_peripheral`. -/
def sdmmc_reset_peripheral (K : Hdr) (set : sdmmc_set) (hw : Hw) : sdmmc_set × Hw :=
  let m := hw.rd_MC1R
  let t := m.2.rd_TCR
  let c := t.2.rd_CALCR
  let set1 :=
    { set with
      tim_mode := if set.tim_mode ≥ K.SDMMC_TIM_SD_DS then K.SDMMC_TIM_SD_DS
                  else K.SDMMC_TIM_MMC_BC }
  let s := c.2.rd_SRR
  let hw1 := s.2.emit (Event.wr_SRR { s.1 with SWRSTALL := true })
  let hw2 := { hw1 with SRR := waitClear (fun v => v.SWRSTALL) hw1.SRR }
  (set1, reset_restore K m.1 t.1 c.1 hw2)

/-- The value that `HC1R` holds after the actions of a trace, `prev` being the
value it held before them: the last value written to the register. -/
def HC1R_after (prev : Hc1r) : List Event → Hc1r
  | [] => prev
  | Event.wr_HC1R v :: t => HC1R_after v t
  | _ :: t => HC1R_after prev t

/-! ## Timing mode -/

/-- The test `regs->SDMMC_PSR & (SDMMC_PSR_CMDLL | SDMMC_PSR_DATLL_Msk)`. -/
def Psr.any_line (p : Psr) : Bool := p.CMDLL || p.DATLL != 0

/-- The test `(regs->SDMMC_PSR & (SDMMC_PSR_CMDLL | SDMMC_PSR_DATLL_Msk))
== (SDMMC_PSR_CMDLL | SDMMC_PSR_DATLL_Msk)`. -/
def Psr.all_lines (K : Hdr) (p : Psr) : Bool := p.CMDLL && p.DATLL == K.SDMMC_PSR_DATLL_Msk

/-- Whether the timing mode needs the low signaling level:
`mode == SDMMC_TIM_MMC_HS200 || (mode >= SDMMC_TIM_SD_SDR12 && mode <= SDMMC_TIM_SD_SDR104)`. -/
def speed_low_mode (K : Hdr) (mode : Nat) : Bool :=
  mode == K.SDMMC_TIM_MMC_HS200
    || (decide (K.SDMMC_TIM_SD_SDR12 ≤ mode) && decide (mode ≤ K.SDMMC_TIM_SD_SDR104))

/-- The first guard of `sdmmc_set_speed_mode`: the mode lies outside the MMC
and SD ranges. -/
def speed_mode_invalid (K : Hdr) (mode : Nat) : Bool :=
  (decide (mode > K.SDMMC_TIM_MMC_HS200) && decide (mode < K.SDMMC_TIM_SD_DS))
    || decide (mode > K.SDMMC_TIM_SD_SDR104)

/-- The new values of `MC1R`, `HC1R`, `HC2R` and `PCR` and the flag `low_sig`
of `sdmmc_set_speed_mode`. -/
structure SpeedRegs where
  mc1r : Mc1r
  hc1r : Hc1r
  hc2r : Hc2r
  pcr : Pcr
  low_sig : Bool

/-- The `UHSMS` field that `sdmmc_set_speed_mode` selects for a mode, the field
having been cleared. -/
def speed_uhsms (K : Hdr) (mode : Nat) : Nat :=
  if mode = K.SDMMC_TIM_MMC_HS200 ∨ mode = K.SDMMC_TIM_SD_SDR104 then K.SDMMC_HC2R_UHSMS_SDR104
  else if mode = K.SDMMC_TIM_SD_SDR12 then K.SDMMC_HC2R_UHSMS_SDR12
  else if mode = K.SDMMC_TIM_SD_SDR25 then K.SDMMC_HC2R_UHSMS_SDR25
  else if mode = K.SDMMC_TIM_SD_SDR50 then K.SDMMC_HC2R_UHSMS_SDR50
  else if mode = K.SDMMC_TIM_SD_DDR50 then K.SDMMC_HC2R_UHSMS_DDR50
  else 0

/-- The register values that `sdmmc_set_speed_mode` computes from the values
read; `keep_sclksel` is false when the code clears `SCLKSEL`. -/
def speed_regs (K : Hdr) (mode : Nat) (caps : Ca0r) (keep_sclksel : Bool)
    (mc1r_prv : Mc1r) (hc1r_prv : Hc1r) (hc2r_prv : Hc2r) (pcr_prv : Pcr) : SpeedRegs :=
  let perm_low_sig := caps.V18VSUP && !caps.V30VSUP && !caps.V33VSUP
  let mc1r : Mc1r := { mc1r_prv with DDR := mode == K.SDMMC_TIM_MMC_HS_DDR }
  let hc1r : Hc1r :=
    { hc1r_prv with HSEN := mode == K.SDMMC_TIM_MMC_HS_SDR || mode == K.SDMMC_TIM_SD_HS }
  let vs18en := speed_low_mode K mode
  let hc2r : Hc2r :=
    { hc2r_prv with
      DRVSEL := if vs18en then K.SDMMC_HC2R_DRVSEL_TYPEC else 0,
      VS18EN := vs18en,
      UHSMS := speed_uhsms K mode,
      SCLKSEL := hc2r_prv.SCLKSEL && keep_sclksel }
  let low_sig := perm_low_sig || vs18en
  let pcr : Pcr :=
    { pcr_prv with
      SDBPWR := true,
      SDBVSEL := if low_sig then K.SDMMC_PCR_SDBVSEL_18V
                 else if caps.V30VSUP then K.SDMMC_PCR_SDBVSEL_30V
                 else K.SDMMC_PCR_SDBVSEL_33V }
  { mc1r := mc1r, hc1r := hc1r, hc2r := hc2r, pcr := pcr, low_sig := low_sig }

/-- The label `End` of `sdmmc_set_speed_mode`. -/
def speed_end (set : sdmmc_set) (mode : Nat) (rc : Rc) (hw : Hw) : RcOut :=
  { rc := rc, set := if rc = Rc.SDMMC_OK then { set with tim_mode := mode } else set, hw := hw }

/-- The voltage-switch check before the registers change: wait two device
clock periods and expect the device to pull the lines down. -/
def speed_check_low (K : Hdr) (set : sdmmc_set) (rc : Rc) (hw : Hw) : Rc × Hw :=
  let usec := if set.dev_freq ≠ 0 then K.ROUND_INT_DIV (2 * 1000000) set.dev_freq else 0
  let p := (hw.emit (Event.timer_usleep (max_u32 usec 10))).rd_PSR
  (if p.1.any_line then Rc.SDMMC_STATE else rc, p.2)

/-- Stop the device clock when it runs and the change could glitch it; the
result tells whether the clock was on. -/
def speed_clock_off (toggle_sig_lvl : Bool) (r : SpeedRegs) (hc2r_prv : Hc2r) (hw : Hw) :
    Bool × Hw :=
  let c := hw.rd_CCR
  let dev_clk_on :=
    c.1.SDCLKEN && (toggle_sig_lvl || hc2r_prv.PVALEN || decide (r.hc2r ≠ hc2r_prv))
  if dev_clk_on then
    let c2 := c.2.rd_CCR
    (true, c2.2.emit (Event.wr_CCR { c2.1 with SDCLKEN := false }))
  else (false, c.2)

/-- Write the registers whose value changes. -/
def speed_write (toggle_sig_lvl : Bool) (r : SpeedRegs) (mc1r_prv : Mc1r) (hc1r_prv : Hc1r)
    (hc2r_prv : Hc2r) (hw : Hw) : Hw :=
  let hw1 := if toggle_sig_lvl then hw.emit (Event.wr_PCR { r.pcr with SDBPWR := false }) else hw
  let hw2 := if r.mc1r ≠ mc1r_prv then hw1.emit (Event.wr_MC1R r.mc1r) else hw1
  let hw3 := if r.hc1r ≠ hc1r_prv then hw2.emit (Event.wr_HC1R r.hc1r) else hw2
  if r.hc2r ≠ hc2r_prv then hw3.emit (Event.wr_HC2R r.hc2r) else hw3

/-- After a change of the signaling level, wait 5 ms and check that the
controller kept `VS18EN`. -/
def speed_settle (toggle_sig_lvl : Bool) (r : SpeedRegs) (rc : Rc) (hw : Hw) : Rc × Hw :=
  if toggle_sig_lvl then
    let hw1 := hw.emit (Event.msleep 5)
    if r.hc2r.VS18EN then
      let h := hw1.rd_HC2R
      (if h.1.VS18EN then rc else Rc.SDMMC_ERR, h.2)
    else (rc, hw1)
  else (rc, hw)

/-- Power the bus and, when verifying a switch to the low level, expect the
lines still low after 1 ms. -/
def speed_power (verify toggle_sig_lvl : Bool) (r : SpeedRegs) (pcr_prv : Pcr) (rc : Rc)
    (hw : Hw) : Rc × Hw :=
  let hw1 := if r.pcr ≠ pcr_prv then hw.emit (Event.wr_PCR r.pcr) else hw
  if verify && toggle_sig_lvl && r.hc2r.VS18EN then
    let p := (hw1.emit (Event.msleep 1)).rd_PSR
    (if p.1.any_line then Rc.SDMMC_STATE else rc, p.2)
  else (rc, hw1)

/-- Restart the device clock and, after a switch to the low level, expect the
device to release the lines within 1 ms. -/
def speed_clock_on (K : Hdr) (verify toggle_sig_lvl dev_clk_on : Bool) (r : SpeedRegs) (rc : Rc)
    (hw : Hw) : Rc × Hw :=
  let hw1 :=
    if dev_clk_on || (toggle_sig_lvl && r.hc2r.VS18EN) then
      let c := hw.rd_CCR
      c.2.emit (Event.wr_CCR { c.1 with SDCLKEN := true })
    else hw
  if toggle_sig_lvl && r.hc2r.VS18EN then
    let p := (hw1.emit (Event.msleep 1)).rd_PSR
    let rc1 := if !p.1.all_lines K && verify then Rc.SDMMC_STATE else rc
    if !dev_clk_on then
      let c := p.2.rd_CCR
      (rc1, c.2.emit (Event.wr_CCR { c.1 with SDCLKEN := false }))
    else (rc1, p.2)
  else (rc, hw1)

/-- Set the calibration mode and run the output calibration when needed. -/
def speed_calibrate (r : SpeedRegs) (pcr_prv : Pcr) (hw : Hw) : Hw :=
  let c := hw.rd_CALCR
  let hw1 := c.2.emit (Event.wr_CALCR { c.1 with ALWYSON := r.low_sig })
  if r.low_sig || decide (r.pcr ≠ pcr_prv) then sdmmc_calibrate_zout hw1 else hw1

/-- The part of `sdmmc_set_speed_mode` that changes the registers, from the
test of `toggle_sig_lvl` down to the label `End`. -/
def speed_change (K : Hdr) (set : sdmmc_set) (verify : Bool) (r : SpeedRegs) (mc1r_prv : Mc1r)
    (hc1r_prv : Hc1r) (hc2r_prv : Hc2r) (pcr_prv : Pcr) (hw : Hw) : Rc × Hw :=
  let toggle_sig_lvl := pcr_prv.SDBPWR && r.pcr.SDBVSEL != pcr_prv.SDBVSEL
  let a :=
    if verify && toggle_sig_lvl && r.hc2r.VS18EN then speed_check_low K set Rc.SDMMC_OK hw
    else ( Rc.SDMMC_OK, hw)
  let b := speed_clock_off toggle_sig_lvl r hc2r_prv a.2
  let hw1 := speed_write toggle_sig_lvl r mc1r_prv hc1r_prv hc2r_prv b.2
  let c := speed_settle toggle_sig_lvl r a.1 hw1
  let d := speed_power verify toggle_sig_lvl r pcr_prv c.1 c.2
  let e := speed_clock_on K verify toggle_sig_lvl b.1 r d.1 d.2
  (e.1, speed_calibrate r pcr_prv e.2)

/-- The check of `sdmmc_set_speed_mode` that is compiled unless `NDEBUG` is
defined: the high speed modes need a non-zero clock divider. -/
def speed_debug_check (K : Hdr) (mode : Nat) (hw : Hw) : Bool × Hw :=
  if K.NDEBUG then (false, hw)
  else if mode = K.SDMMC_TIM_MMC_HS_SDR ∨ mode = K.SDMMC_TIM_MMC_HS_DDR
      ∨ mode = K.SDMMC_TIM_SD_HS then
    let c := hw.rd_CCR
    (c.1.USDCLKFSEL == 0 && c.1.SDCLKFSEL == 0, c.2)
  else (false, hw)

/-- The register part of `sdmmc_set_speed_mode` after the guards: read the
registers, compute their new values and, unless nothing changes
(`goto End`), apply them.  `CA1R` is read only when the `||` and `&&` of the C
code reach it. -/
def speed_apply (K : Hdr) (set : sdmmc_set) (mode : Nat) (verify : Bool) (caps : Ca0r)
    (hw : Hw) : Rc × Hw :=
  let m := hw.rd_MC1R
  let h1 := m.2.rd_HC1R
  let h2 := h1.2.rd_HC2R
  let p := h2.2.rd_PCR
  let reach_ca1r :=
    decide (95000000 < set.dev_freq) && mode != K.SDMMC_TIM_MMC_HS200
      && mode != K.SDMMC_TIM_SD_SDR104 && mode == K.SDMMC_TIM_SD_SDR50
  let ca := if reach_ca1r then p.2.rd_CA1R else (default, p.2)
  let clear_sclksel :=
    decide (set.dev_freq ≤ 95000000)
      || (mode != K.SDMMC_TIM_MMC_HS200 && mode != K.SDMMC_TIM_SD_SDR104
          && (mode != K.SDMMC_TIM_SD_SDR50 || !ca.1.TSDR50))
  let r := speed_regs K mode caps (!clear_sclksel) m.1 h1.1 h2.1 p.1
  if r.hc2r = h2.1 ∧ r.hc1r = h1.1 ∧ r.mc1r = m.1 ∧ r.pcr = p.1 then ( Rc.SDMMC_OK, ca.2)
  else speed_change K set verify r m.1 h1.1 h2.1 p.1 ca.2

/-- The part of `sdmmc_set_speed_mode` after the guards: leave the state
`MCID_OFF`, change the registers, and at `End` record the mode. -/
def speed_switch (K : Hdr) (set : sdmmc_set) (mode : Nat) (verify : Bool) (caps : Ca0r)
    (hw : Hw) : RcOut :=
  let set1 :=
    { set with state := if set.state = Mcid.MCID_OFF then Mcid.MCID_IDLE else set.state }
  let o := speed_apply K set1 mode verify caps hw
  speed_end set1 mode o.1 o.2

/-- The function `sdmmc_set_speed_mode`. -/
def sdmmc_set_speed_mode (K : Hdr) (set : sdmmc_set) (mode : Nat) (verify : Bool) (hw : Hw) :
    RcOut :=
  let c := hw.rd_CA0R
  if speed_mode_invalid K mode then { rc := Rc.SDMMC_PARAM, set := set, hw := c.2 }
  else if speed_low_mode K mode && !c.1.V18VSUP then
    { rc := Rc.SDMMC_PARAM, set := set, hw := c.2 }
  else
    let d := speed_debug_check K mode c.2
    if d.1 then { rc := Rc.SDMMC_STATE, set := set, hw := d.2 }
    else speed_switch K set mode verify c.1 d.2

/-! ## Device clock -/

/-- Modelled from the spec: the function `min_u32` of `intmath.h`, which is not
part of the sources; the request is clamped to 120 MHz. -/
def min_u32 (a b : Nat) : Nat := if a < b then a else b

/-- Modelled from the spec: the macro `ABS_DIFF` of `intmath.h`, which is not
part of the sources; the driver picks the candidate whose frequency is closer
to the request, that is the one with the smaller absolute difference. -/
def ABS_DIFF (a b : Nat) : Nat := if a > b then a - b else b - a

/-- The divider that `sdmmc_set_device_clock` selects for the divided clock
mode. -/
def clock_div (base_freq freq : Nat) : Nat :=
  let div := base_freq / u32 (2 * freq)
  if div ≥ 0x3ff then 0x3ff
  else
    let up_freq := base_freq / (if div = 0 then 1 else u32 (2 * div))
    let low_freq := base_freq / u32 (2 * (div + 1))
    if up_freq > freq ∧ sub32 up_freq freq > sub32 freq low_freq then div + 1 else div

/-- The frequency of the divided clock mode:
`base_freq / (div == 0 ? 1UL : 2 * div)`. -/
def div_mode_freq (base_freq div : Nat) : Nat :=
  base_freq / (if div = 0 then 1 else u32 (2 * div))

/-- The divider that `sdmmc_set_device_clock` selects for the programmable
clock mode. -/
def clock_p_div (K : Hdr) (mult_freq freq : Nat) : Nat :=
  let p_div := K.CEIL_INT_DIV mult_freq freq
  if p_div > 0x3ff then 0x3ff else if p_div ≠ 0 then p_div - 1 else p_div

/-- The frequency of the programmable clock mode: `mult_freq / (p_div + 1)`. -/
def prog_mode_freq (mult_freq p_div : Nat) : Nat := mult_freq / (p_div + 1)

/-- The locals `use_prog_mode`, `div` and `new_freq` of
`sdmmc_set_device_clock` once the mode is chosen. -/
structure ClockSel where
  use_prog_mode : Bool
  div : Nat
  new_freq : Nat
  deriving DecidableEq, Inhabited

/-- The choice between the divided and the programmable clock mode; `freq` is
the clamped request. -/
def clock_select (K : Hdr) (freq base_freq mult_freq : Nat) : ClockSel :=
  let div := clock_div base_freq freq
  let new_freq := div_mode_freq base_freq div
  if mult_freq ≠ 0 then
    let p_div := clock_p_div K mult_freq freq
    let p_mode_freq := prog_mode_freq mult_freq p_div
    if ABS_DIFF freq p_mode_freq < ABS_DIFF freq new_freq then
      { use_prog_mode := true, div := p_div, new_freq := p_mode_freq }
    else { use_prog_mode := false, div := div, new_freq := new_freq }
  else { use_prog_mode := false, div := div, new_freq := new_freq }

/-- The value of `mult_freq` in `sdmmc_set_device_clock`: the multiplier field
of `CA1R` and, when it is not zero, the generated clock of the peripheral. -/
def clock_mult_freq (set : sdmmc_set) (ca1r : Ca1r) (hw : Hw) : Nat :=
  if ca1r.CLKMULT ≠ 0 then u32 (hw.gck set.id) else ca1r.CLKMULT

/-- The function `sdmmc_set_device_clock`.  The loop
`while (!(regs->SDMMC_CCR & SDMMC_CCR_INTCLKS)) ;` ends only if the clock
control register reports a stable internal clock, so the result is `none`
when it never does. -/
def sdmmc_set_device_clock (K : Hdr) (set : sdmmc_set) (freq : Nat) (hw : Hw) :
    Option (sdmmc_set × Hw) :=
  let freq1 := min_u32 freq 120000000
  let c0 := hw.rd_CA0R
  let base_freq := u32 (c0.1.BASECLKF * 1000000)
  let c1 := c0.2.rd_CA1R
  let sel := clock_select K freq1 base_freq (clock_mult_freq set c1.1 c1.2)
  let c := c1.2.rd_CCR
  let shval : Ccr := { c.1 with SDCLKEN := false }
  let hw1 := c.2.emit (Event.wr_CCR shval)
  let set1 := { set with dev_freq := sel.new_freq }
  let shval1 : Ccr :=
    { shval with
      CLKGSEL := sel.use_prog_mode,
      USDCLKFSEL := sel.div >>> 8,
      SDCLKFSEL := sel.div &&& 0xff,
      INTCLKEN := true }
  let hw2 := hw1.emit (Event.wr_CCR shval1)
  match waitSet (fun v => v.INTCLKS) hw2.CCR with
  | none => none
  | some rest =>
    let c2 := ({ hw2 with CCR := rest } : Hw).rd_CCR
    some (set1, c2.2.emit (Event.wr_CCR { c2.1 with SDCLKEN := true }))

/-- The clamped request of `sdmmc_set_device_clock`. -/
def clock_request (freq : Nat) : Nat := min_u32 freq 120000000

/-- The base clock that `sdmmc_set_device_clock` reads from `CA0R`, in hertz. -/
def clock_base (hw : Hw) : Nat := u32 ((hw.CA0R.headD default).BASECLKF * 1000000)

/-- The generated clock that `sdmmc_set_device_clock` works with: the local
`mult_freq`, zero when the controller has no programmable clock. -/
def clock_gen (set : sdmmc_set) (hw : Hw) : Nat := clock_mult_freq set (hw.CA1R.headD default) hw

/-- Result of `sdmmc_cancel_command`: the return code, the session, the
environment, and the cancelled command, with its final status, when the call
released one. -/
structure CancelOut where
  rc : Rc
  set : sdmmc_set
  hw : Hw
  done : Option sSdmmcCommand

/-- The local `stop_cmd` of `sdmmc_cancel_command`: CMD12 with the operation
word `SDMMC_CMD_CSTOP | SDMMC_CMD_bmBUSY`, the flag `SDMMC_CMD_bmBUSY` being
the bit `checkBsy`, and the other members zero.  The response word it points
to is not initialised and never read by the caller; it is taken as zero.  The
object is a local of the function, which no caller can pass; the address `0`,
which no object of a caller has, stands for its address. -/
def stop_cmd (K : Hdr) : sSdmmcCommand :=
  { addr := 0, pData := 0, data := fun _ => 0, wBlockSize := 0, wNbBlocks := 0,
    pResp := some (fun _ => 0), dwArg := 0,
    cmdOp := { K.SDMMC_CMD_CSTOP with checkBsy := true },
    bCmd := 12, bStatus := Rc.SDMMC_OK, fCallback := false }

/-- The session bookkeeping that the release of a command resets:
`state = MCID_LOCKED`, no command, counters zero, flags false. -/
def release_set (set : sdmmc_set) : sdmmc_set :=
  { set with
    state := Mcid.MCID_LOCKED, cmd := none, resp_len := 0, blk_index := 0,
    cmd_line_released := false, dat_lines_released := false, expect_auto_end := false }

/-- The wait loop of `sdmmc_cancel_command`,
`for (usec = 0; set->state == MCID_CMD && usec < 500000; usec += 10)`, with
the number of iterations left.  In polling mode every iteration runs the
resolver; in interrupt mode the handler runs it during the delays that `irq`
marks. -/
def cancel_wait : Nat → sdmmc_set → Hw → sdmmc_set × Hw
  | 0, set, hw => (set, hw)
  | n + 1, set, hw =>
    if set.state = Mcid.MCID_CMD then
      let hw1 := hw.emit (Event.timer_usleep 10)
      if set.use_polling then
        let o := sdmmc_poll set hw1
        cancel_wait n o.set o.hw
      else
        let hw2 : Hw := { hw1 with irq := hw1.irq.tail }
        if hw1.irq.headD false then
          let o := sdmmc_poll set hw2
          cancel_wait n o.set o.hw
        else cancel_wait n set hw2
    else (set, hw)

/-- The reset of the CMD line when it is still busy, at the start of the
asynchronous abort of `sdmmc_cancel_command`. -/
def cancel_reset_cmd (hw : Hw) : Hw :=
  let p := hw.rd_PSR
  if p.1.CMDINHC then
    let s := p.2.rd_SRR
    let hw0 := s.2.emit (Event.wr_SRR { s.1 with SWRSTCMD := true })
    { hw0 with SRR := waitClear (fun v => v.SWRSTCMD) hw0.SRR }
  else p.2

/-- The asynchronous abort of `sdmmc_cancel_command`: reset the CMD line if it
is busy, release the session, issue the stop command and wait for it. -/
def cancel_stop (K : Hdr) (set : sdmmc_set) (hw : Hw) : Option (sdmmc_set × Hw) :=
  match sdmmc_send_command K (release_set set) (stop_cmd K) (cancel_reset_cmd hw) with
  | none => none
  | some o => some (if o.rc = Rc.SDMMC_OK then cancel_wait 50000 o.set o.hw else (o.set, o.hw))

/-- The end of `sdmmc_cancel_command`: reset the CMD and DAT lines, give the
command the status `SDMMC_ERROR_USER_CANCEL`, release the session and invoke
the callback. -/
def cancel_release (set : sdmmc_set) (cmd : Option sSdmmcCommand) (hw : Hw) : CancelOut :=
  let s := hw.rd_SRR
  let hw1 := s.2.emit (Event.wr_SRR { s.1 with SWRSTDAT := true, SWRSTCMD := true })
  let hw2 : Hw := { hw1 with SRR := waitClear (fun v => v.SWRSTDAT || v.SWRSTCMD) hw1.SRR }
  match cmd with
  | none => { rc := Rc.SDMMC_OK, set := release_set set, hw := hw2, done := none }
  | some c =>
    { rc := Rc.SDMMC_OK, set := release_set set,
      hw := if c.fCallback then hw2.emit (Event.fCallback Rc.SDMMC_USER_CANCEL) else hw2,
      done := some { c with bStatus := Rc.SDMMC_USER_CANCEL } }

/-- The function `sdmmc_cancel_command`; `none` when the call does not return.
In state `MCID_CMD` the code asserts a command in flight; without one the model
resets the lines and releases the session. -/
def sdmmc_cancel_command (K : Hdr) (set : sdmmc_set) (hw : Hw) : Option CancelOut :=
  if set.state ≠ Mcid.MCID_CMD ∧ set.state ≠ Mcid.MCID_ERROR then
    some { rc := Rc.SDMMC_STATE, set := set, hw := hw, done := none }
  else if set.state = Mcid.MCID_ERROR then
    some { rc := Rc.SDMMC_OK, set := { set with state := Mcid.MCID_LOCKED }, hw := hw,
           done := none }
  else
    match set.cmd with
    | none => some (cancel_release set none hw)
    | some cmd =>
      if has_data cmd then
        match cancel_stop K set hw with
        | none => none
        | some a => some (cancel_release a.1 (some cmd) a.2)
      else some (cancel_release set (some cmd) hw)

/-- The register and clock part of `sdmmc_unplug_device`, after the
cancellation of the command in flight. -/
def unplug_power_off (K : Hdr) (set : sdmmc_set) (hw : Hw) : sdmmc_set × Hw :=
  let m := hw.rd_MC1R
  let hw1 := m.2.emit (Event.wr_MC1R { m.1 with RSTN := true })
  let hw2 := (hw1.emit (Event.timer_usleep 10)).emit (Event.wr_MC1R m.1)
  let usec := if set.dev_freq ≠ 0 then K.ROUND_INT_DIV (74 * 1000000) set.dev_freq else 0
  let hw3 := hw2.emit (Event.timer_usleep (max_u32 usec 200))
  let c := hw3.rd_CCR
  let hw4 := c.2.emit (Event.wr_CCR { c.1 with SDCLKEN := false, INTCLKEN := false })
  let p := hw4.rd_PCR
  let hw5 := p.2.emit (Event.wr_PCR { p.1 with SDBPWR := false })
  sdmmc_reset_peripheral K { set with dev_freq := 0 } hw5

/-- The function `sdmmc_unplug_device`; `none` when the call does not
return. -/
def sdmmc_unplug_device (K : Hdr) (set : sdmmc_set) (hw : Hw) : Option RcOut :=
  let a : Option (sdmmc_set × Hw) :=
    if set.state = Mcid.MCID_CMD then
      match sdmmc_cancel_command K set hw with
      | none => none
      | some o => some (o.set, o.hw)
    else some (set, hw)
  match a with
  | none => none
  | some a =>
    let r := unplug_power_off K a.1 a.2
    some { rc := Rc.SDMMC_OK, set := { r.1 with state := Mcid.MCID_OFF }, hw := r.2 }

/-- The local `test_cmd` of `sdmmc_tune_sampling` before the bus width is
known: `p_response` is the address of the local word that serves as data
buffer and as response.  The object is a local of the function, which no
caller can pass; the address `0`, which no object of a caller has, stands for
its address. -/
def test_cmd (K : Hdr) (set : sdmmc_set) (p_response : Nat) : sSdmmcCommand :=
  { addr := 0, pData := p_response, data := fun _ => 0, wBlockSize := 128, wNbBlocks := 1,
    pResp := some (fun _ => 0), dwArg := 0, cmdOp := K.SDMMC_CMD_CDATARX_1,
    bCmd := if set.tim_mode ≠ K.SDMMC_TIM_MMC_HS200 then 19 else 21,
    bStatus := Rc.SDMMC_OK, fCallback := false }

/-- The locals `rc` and `hc2r` of `sdmmc_tune_sampling` with the session and
the environment. -/
structure TuneSt where
  rc : Rc
  set : sdmmc_set
  hc2r : Hc2r
  hw : Hw

/-- The loop `for (ix = 0; hc2r & SDMMC_HC2R_EXTUN && ix < 40; ix++)` of
`sdmmc_tune_sampling`, with the number of iterations left.  The inner loop
`while (!(regs->SDMMC_NISTR & SDMMC_NISTR_BRDRDY)) ;` ends only when the
controller reports a block, so the result is `none` when it never does, and
also when `sdmmc_send_command` does not return. -/
def tune_loop (K : Hdr) : Nat → sSdmmcCommand → TuneSt → Option TuneSt
  | 0, _, st => some st
  | n + 1, cmd, st =>
    if st.hc2r.EXTUN then
      let set1 : sdmmc_set :=
        { st.set with
          state := Mcid.MCID_LOCKED, resp_len := 0, blk_index := 0,
          cmd_line_released := false, dat_lines_released := false, expect_auto_end := false }
      match sdmmc_send_command K set1 cmd st.hw with
      | none => none
      | some s =>
        if s.rc ≠ Rc.SDMMC_OK then
          some { rc := s.rc, set := s.set, hc2r := st.hc2r, hw := s.hw }
        else
          match waitSet (fun v => v.BRDRDY) s.hw.NISTR with
          | none => none
          | some rest =>
            let hw1 := ({ s.hw with NISTR := rest } : Hw).emit
              (Event.wr_NISTR { Nistr.zero with BRDRDY := true })
            let h := hw1.rd_HC2R
            tune_loop K n s.cmd
              { rc := Rc.SDMMC_OK, set := { s.set with cmd := none }, hc2r := h.1, hw := h.2 }
    else some st

/-- The end of `sdmmc_tune_sampling`: abort an unfinished tuning, clear the
residual interrupts and lock the session. -/
def tune_end (st : TuneSt) : RcOut :=
  let a : Rc × Hw :=
    if st.hc2r.EXTUN then
      ( Rc.SDMMC_ERR,
        (st.hw.emit (Event.wr_HC2R { st.hc2r with EXTUN := false })).emit
          (Event.wr_HC2R { st.hc2r with SCLKSEL := false, EXTUN := false }))
    else if !st.hc2r.SCLKSEL then ( Rc.SDMMC_ERR, st.hw)
    else (st.rc, st.hw)
  let n := a.2.rd_NISTR
  let hw1 :=
    if n.1.ERRINT then
      let e := n.2.rd_EISTR
      e.2.emit (Event.wr_EISTR e.1)
    else n.2
  let n2 := hw1.rd_NISTR
  { rc := a.1,
    set :=
      { st.set with
        state := Mcid.MCID_LOCKED, resp_len := 0, blk_index := 0,
        cmd_line_released := false, dat_lines_released := false, expect_auto_end := false },
    hw := n2.2.emit (Event.wr_NISTR n2.1) }

/-- The start of the tuning procedure for a bus of 4 or 8 bits, `width` being
the bus width and `hw` the environment after its read: the test command with
its block size, and the locals at the entry of the loop, after the write and
the read of `HC2R`. -/
def tune_start (K : Hdr) (set : sdmmc_set) (p_response width : Nat) (hw : Hw) :
    sSdmmcCommand × TuneSt :=
  let t := test_cmd K set p_response
  let cmd := if width = 4 then { t with wBlockSize := 64 } else t
  let h := hw.rd_HC2R
  let h2 := (h.2.emit (Event.wr_HC2R { h.1 with EXTUN := true })).rd_HC2R
  (cmd, { rc := Rc.SDMMC_OK, set := set, hc2r := h2.1, hw := h2.2 })

/-- The function `sdmmc_tune_sampling`. -/
def sdmmc_tune_sampling (K : Hdr) (set : sdmmc_set) (p_response : Nat) (hw : Hw) :
    Option RcOut :=
  let w := sdmmc_get_bus_width hw
  if w.1 = 4 ∨ w.1 = 8 then
    let s := tune_start K set p_response w.1 w.2
    match tune_loop K 40 s.1 s.2 with
    | none => none
    | some st => some (tune_end st)
  else some { rc := Rc.SDMMC_PARAM, set := set, hw := w.2 }

/-! ## The clock request of `sdmmc_control` -/

/-- Result of an I/O control request: the return code, the session, the
environment and the value left in the caller's parameter. -/
structure CtlOut where
  rc : Rc
  set : sdmmc_set
  hw : Hw
  param : Option Nat

/-- Whether the clock request tunes the sampling point:
`set->dev_freq > 95000000ul && (set->tim_mode == SDMMC_TIM_MMC_HS200
|| set->tim_mode == SDMMC_TIM_SD_SDR104 || (set->tim_mode == SDMMC_TIM_SD_SDR50
&& set->regs->SDMMC_CA1R & SDMMC_CA1R_TSDR50))`; `CA1R` is read only when the
test reaches it. -/
def clock_needs_tuning (K : Hdr) (set : sdmmc_set) (hw : Hw) : Bool × Hw :=
  if set.dev_freq > 95000000 then
    if set.tim_mode = K.SDMMC_TIM_MMC_HS200 ∨ set.tim_mode = K.SDMMC_TIM_SD_SDR104 then (true, hw)
    else if set.tim_mode = K.SDMMC_TIM_SD_SDR50 then
      let c := hw.rd_CA1R
      (c.1.TSDR50, c.2)
    else (false, hw)
  else (false, hw)

/-- The case `SDMMC_IOCTL_SET_CLOCK` of `sdmmc_control`; `param` is the word
that the parameter points to, `none` for a `NULL` parameter.  The result is
`none` when `sdmmc_set_device_clock` or `sdmmc_tune_sampling` does not
return. -/
def sdmmc_control_SET_CLOCK (K : Hdr) (set : sdmmc_set) (param : Option Nat)
    (p_response : Nat) (hw : Hw) : Option CtlOut :=
  match param with
  | none => some { rc := Rc.SDMMC_PARAM, set := set, hw := hw, param := none }
  | some f =>
    if f = 0 then some { rc := Rc.SDMMC_PARAM, set := set, hw := hw, param := some f }
    else
      match sdmmc_set_device_clock K set f hw with
      | none => none
      | some a =>
        let t := clock_needs_tuning K a.1 a.2
        let r : Option RcOut :=
          if t.1 then sdmmc_tune_sampling K a.1 p_response t.2
          else some { rc := Rc.SDMMC_OK, set := a.1, hw := t.2 }
        match r with
        | none => none
        | some o =>
          if o.set.dev_freq ≠ f then
            some { rc := if o.rc = Rc.SDMMC_OK then Rc.SDMMC_CHANGED else o.rc,
                   set := o.set, hw := o.hw, param := some o.set.dev_freq }
          else some { rc := o.rc, set := o.set, hw := o.hw, param := some f }

/-! ## Sequences of calls -/

/-- The session data that `sdmmc_initialize` leaves: the memory is zeroed, the
identifiers, the descriptor table, the polling flag and the state `MCID_OFF`
are stored, the block size comes from the `MAXBLKL` field of `CA0R`, and
`sdmmc_reset_peripheral` sets the timing mode.  The register programming of
the function leaves the session alone and is not part of this definition. -/
def sdmmc_initialize_set (K : Hdr) (periph_id tc_id dma_buf dma_buf_size : Nat)
    (use_polling : Bool) (maxblkl : Nat) : sdmmc_set :=
  let table_size := if dma_buf ≠ 0 then dma_buf_size / K.SDMMC_DMADL_SIZE else 0
  { id := periph_id, tc_id := tc_id,
    table := if table_size ≠ 0 then dma_buf else 0,
    table_size := table_size,
    blk_size := if maxblkl ≤ 2 then 512 <<< maxblkl else 512,
    dev_freq := 0,
    tim_mode := if 0 ≥ K.SDMMC_TIM_SD_DS then K.SDMMC_TIM_SD_DS else K.SDMMC_TIM_MMC_BC,
    state := Mcid.MCID_OFF, cmd := none, blk_index := 0, resp_len := 0,
    use_polling := use_polling, cmd_line_released := false, dat_lines_released := false,
    expect_auto_end := false, use_set_blk_cnt := false }

/-- A call of one of the driver's entry points on a session. -/
inductive Call where
  | send_command (cmd : sSdmmcCommand)
  | is_busy
  | poll
  | cancel_command
  | tune_sampling (p_response : Nat)
  | set_speed_mode (mode : Nat) (verify : Bool)
  | unplug_device

/-- The session and the environment after a call, `none` when the call does
not return.  The assertions of the entry points are not part of the release
build and are not modelled: every call is made, whatever the state. -/
def step (K : Hdr) (w : sdmmc_set × Hw) : Call → Option (sdmmc_set × Hw)
  | Call.send_command cmd =>
    match sdmmc_send_command K w.1 cmd w.2 with
    | none => none
    | some o => some (o.set, o.hw)
  | Call.is_busy =>
    let o := sdmmc_is_busy w.1 w.2
    some (o.set, o.hw)
  | Call.poll =>
    let o := sdmmc_poll w.1 w.2
    some (o.set, o.hw)
  | Call.cancel_command =>
    match sdmmc_cancel_command K w.1 w.2 with
    | none => none
    | some o => some (o.set, o.hw)
  | Call.tune_sampling p_response =>
    match sdmmc_tune_sampling K w.1 p_response w.2 with
    | none => none
    | some o => some (o.set, o.hw)
  | Call.set_speed_mode mode verify =>
    let o := sdmmc_set_speed_mode K w.1 mode verify w.2
    some (o.set, o.hw)
  | Call.unplug_device =>
    match sdmmc_unplug_device K w.1 w.2 with
    | none => none
    | some o => some (o.set, o.hw)

/-- A sequence of calls, each on the session and environment that the one
before left. -/
def run (K : Hdr) : List Call → sdmmc_set × Hw → Option (sdmmc_set × Hw)
  | [], w => some w
  | c :: cs, w =>
    match step K w c with
    | none => none
    | some w1 => run K cs w1

/-- Whether a sequence of calls respects the precondition that
`sdmmc_tune_sampling` asserts on the command in flight
(`assert(set->state != MCID_CMD)`): no call of the tuning is made while the
session is in the state `MCID_CMD`. -/
def tune_not_in_flight (K : Hdr) : List Call → sdmmc_set × Hw → Bool
  | [], _ => true
  | c :: cs, w =>
    (match c with
      | Call.tune_sampling _ => w.1.state != Mcid.MCID_CMD
      | _ => true)
    && (match step K w c with
      | none => true
      | some w1 => tune_not_in_flight K cs w1)

/-! ## Selecting actions in the trace -/

/-- Selection of the actions that a claim looks at: the invocations of the
completion callback when `cb` is set, and the writes of the command register,
each of which launches a command, when `cr` is set. -/
def evsel (cb cr : Bool) : Event → Bool
  | Event.fCallback _ => cb
  | Event.wr_CR _ => cr
  | _ => false

/-- The selected actions of the trace, in program order. -/
def Hw.sel (cb cr : Bool) (hw : Hw) : List Event := hw.trace.filter (evsel cb cr)

/-- The session references a command if and only if its state is
`MCID_CMD`. -/
def cmd_iff_in_flight (set : sdmmc_set) : Prop :=
  set.cmd.isSome = true ↔ set.state = Mcid.MCID_CMD

/-! ## Bookkeeping of a transfer without DMA -/

/-- The fields of the session and of the command in flight that the block
counter bookkeeping of the resolver depends on: the descriptor table, the block
count, the operation word, the block counter and the flags for the released
data lines and the expected Auto CMD12 end. -/
def xview (set : sdmmc_set) (cmd : sSdmmcCommand) : Nat × Nat × BmBits × Nat × Bool × Bool :=
  (set.table, cmd.wNbBlocks, cmd.cmdOp, set.blk_index, set.dat_lines_released,
   set.expect_auto_end)

/-- The bookkeeping of a data transfer without DMA that is in flight: the
session has no descriptor table, the command moves data, its block count fits
16 bits, the data lines are marked released only once all blocks have been
moved, and the Auto CMD12 end is expected only after the data lines have been
released. -/
def xfer_inv (set : sdmmc_set) (cmd : sSdmmcCommand) : Prop :=
  set.table = 0 ∧ has_data cmd = true ∧ cmd.wNbBlocks < 65536
    ∧ (set.dat_lines_released = true → set.blk_index = cmd.wNbBlocks)
    ∧ (set.expect_auto_end = true → set.dat_lines_released = true)


/-! ## The state at the label End -/

/-- The state with which a round of the `Fetch` loop reaches the label `End`,
if it does: the state that the pass left, with `MCID_LOCKED` stored on the way
through `Succeed`.  This is the state that `poll_round` hands to `poll_end`,
before the release of the command resets the bookkeeping. -/
def poll_round_final (v : Nistr) (set : sdmmc_set) (cmd : sSdmmcCommand) (hw : Hw) :
    Option PollSt :=
  let f := poll_fetch set hw v
  if f.1.isZero then none
  else
    match poll_pass { set := set, cmd := cmd, hw := f.2, events := f.1 } with
    | Flow.fail st => some st
    | Flow.succeed st => some { st with set := { st.set with state := Mcid.MCID_LOCKED } }
    | Flow.cont _ => none

/-- The state with which the `Fetch` loop reaches the label `End`, if it does;
the recursion is that of `poll_loop`. -/
def poll_final : List Nistr → sdmmc_set → sSdmmcCommand → Hw → Option PollSt
  | [], set, cmd, hw => poll_round_final Nistr.zero set cmd hw
  | v :: rest, set, cmd, hw =>
    match poll_round v set cmd { hw with NISTR := rest } with
    | Round.again set1 cmd1 hw1 => poll_final rest set1 cmd1 hw1
    | _ => poll_round_final v set cmd { hw with NISTR := rest }

/-- The state with which a call of `sdmmc_poll` reaches the label `End`, that
is, the session and the command at the moment the command is terminated;
`none` when the call returns without terminating a command. -/
def sdmmc_poll_final (set : sdmmc_set) (hw : Hw) : Option PollSt :=
  if set.state ≠ Mcid.MCID_CMD then none
  else
    match set.cmd with
    | none => none
    | some cmd => poll_final hw.NISTR set cmd hw



/-! ## The error decoding in the words of the specification -/

/-- The status that the error block of `sdmmc_poll` gives to an auto-command
error, decoded from the sub-flags of `ACESR`: the inner chain of tests. -/
def acesr_decode (acesr : Acesr) : Rc :=
  if acesr.ACMD12NE then Rc.SDMMC_ERR
  else if acesr.ACMDCRC then Rc.SDMMC_ERR_IO
  else if acesr.ACMDTEO then Rc.SDMMC_NO_RESPONSE
  else if acesr.ACMDEND || acesr.ACMDIDX then Rc.SDMMC_ERR_IO
  else Rc.SDMMC_ERR

/-- Specification side: the error sub-flags in their order of priority (current
limit, command CRC, command timeout, command end bit or index, tuning, data
timeout, data CRC or end bit, auto-command, DMA, boot acknowledge), each with
the status it yields; `acmd` is the status of an auto-command error. -/
def error_priority (acmd : Rc) : List ((Eistr → Bool) × Rc) :=
  [(fun e => e.CURLIM, Rc.SDMMC_NOT_INITIALIZED),
   (fun e => e.CMDCRC, Rc.SDMMC_ERR_IO),
   (fun e => e.CMDTEO, Rc.SDMMC_NO_RESPONSE),
   (fun e => e.CMDEND || e.CMDIDX, Rc.SDMMC_ERR_IO),
   (fun e => e.TUNING, Rc.SDMMC_ERR_IO),
   (fun e => e.DATTEO, Rc.SDMMC_ERR_IO),
   (fun e => e.DATCRC || e.DATEND, Rc.SDMMC_ERR_IO),
   (fun e => e.ACMD, acmd),
   (fun e => e.ADMA, Rc.SDMMC_PARAM),
   (fun e => e.BOOTAE, Rc.SDMMC_STATE)]

/-- Specification side: the status of the highest-priority error sub-flag that
is present, and the generic error when none of the listed flags is. -/
def status_by_priority (errors : Eistr) (acmd : Rc) : Rc :=
  match (error_priority acmd).find? (fun p => p.1 errors) with
  | some p => p.2
  | none => Rc.SDMMC_ERR



/-! ## Selecting register writes in the trace -/

/-- The values written to the error interrupt enable register `EISTER`, in
program order. -/
def eister_writes (tr : List Event) : List Eistr :=
  tr.filterMap fun e => match e with
    | Event.wr_EISTER v => some v
    | _ => none

/-- The values written to the reload register `TC_RC` of the timer, in program
order. -/
def tc_rc_writes (tr : List Event) : List Nat :=
  tr.filterMap fun e => match e with
    | Event.wr_TC_RC v => some v
    | _ => none

/-- Whether an action writes one of the registers that launch a command: the
block count `BCR`, the argument `ARG1R`, the transfer mode `TMR`, the mode
register `MC1R`, the command register `CR`. -/
def launch_reg : Event → Bool
  | Event.wr_BCR _ => true
  | Event.wr_ARG1R _ => true
  | Event.wr_TMR _ => true
  | Event.wr_MC1R _ => true
  | Event.wr_CR _ => true
  | _ => false

/-- The environment that the busy test of `sdmmc_send_command` leaves, in which
the launch part starts. -/
def send_before_launch (K : Hdr) (set : sdmmc_set) (cmd : sSdmmcCommand) (hw : Hw) : Hw :=
  (sdmmc_is_busy (send_alias set cmd (send_prepare_dma K (send_locals K set cmd) set cmd hw))
    (send_prepare_dma K (send_locals K set cmd) set cmd hw).hw).hw



/-! ## Data that the resolver leaves alone -/

/-- The data of the session and of the environment that `sdmmc_poll` never
changes and that the timer reload of `sdmmc_send_command` reads: the device
clock frequency, the identifier of the timer, and the peripheral clock. -/
def poll_frame (set : sdmmc_set) (hw : Hw) : Nat × Nat × (Nat → Nat) :=
  (set.dev_freq, set.tc_id, hw.pclk)



/-! ## Actions that involve the DMA engine -/

/-- Whether an action leaves the DMA engine out: it is neither a write of the
descriptor address register `ASA0R`, nor a cache operation on a DMA buffer or
on the descriptor table, nor a write of the transfer mode register with the
DMA enable bit set. -/
def dma_free : Event → Bool
  | Event.wr_ASA0R _ => false
  | Event.cache_clean_region _ _ => false
  | Event.cache_invalidate_region _ _ => false
  | Event.wr_TMR t => !t.DMAEN
  | _ => true

/-- The environment `h1` extends `h` without involving the DMA engine: the
actions added to the trace are all `dma_free` and the descriptor table memory
is the same. -/
def dma_quiet (h h1 : Hw) : Prop :=
  ∃ L, h1.trace = h.trace ++ L ∧ (∀ e ∈ L, dma_free e = true) ∧ h1.table_mem = h.table_mem



/-- Word `i` of a block of `S` bytes that starts at offset `inp` of `data`, in
the little-endian packing: byte `4 * i + k` of the block is byte `k` of the
word, and the bytes past the end of the block are zero. -/
def pack_le (data : Nat → Nat) (inp S i : Nat) : Nat :=
  (if 4 * i < S then data (inp + 4 * i) % 256 else 0)
    + (if 4 * i + 1 < S then data (inp + 4 * i + 1) % 256 else 0) * 256
    + (if 4 * i + 2 < S then data (inp + 4 * i + 2) % 256 else 0) * 65536
    + (if 4 * i + 3 < S then data (inp + 4 * i + 3) % 256 else 0) * 16777216

/-- The `ceil(S / 4)` words of a block of `S` bytes in the little-endian
packing with a zero-padded tail. -/
def block_words (data : Nat → Nat) (inp S : Nat) : List Nat :=
  (List.range ((S + 3) / 4)).map (pack_le data inp S)

/-- The words written to the buffer data port `BDPR` among a list of actions,
in order. -/
def bdpr_writes (l : List Event) : List Nat :=
  l.filterMap (fun e => match e with
    | Event.wr_BDPR w => some w
    | _ => none)



/-- The mask `M` of the device status bits that the response of a
multiple-block command keeps from the command itself: `DEVICE_IS_LOCKED`,
`CARD_ECC_DISABLED`, `CURRENT_STATE`, `READY_FOR_DATA`, `EXCEPTION_EVENT` and
`APP_CMD`. -/
def STAT_RETAINED : Nat :=
  STAT_DEVICE_IS_LOCKED ||| STAT_CARD_ECC_DISABLED ||| STAT_CURRENT_STATE
    ||| STAT_READY_FOR_DATA ||| STAT_EXCEPTION_EVENT ||| STAT_APP_CMD

/-- Progress of the response of a data-bearing CMD18 or CMD25 without block
count prefix whose response is one word: the next value of `RR[3]` is still
the one of the stream `rr3`, the words of the response array other than the
first are those of `out0`, and either no response has been stored and the next
value of `RR[0]` is `r0`, or one word has been stored and it is `r0`. -/
def resp_inv (r0 : Nat) (rr3 : List Nat) (out0 : Nat → Nat) (set : sdmmc_set)
    (cmd : sSdmmcCommand) (hw : Hw) : Prop :=
  has_data cmd = true ∧ (cmd.bCmd = 18 ∨ cmd.bCmd = 25) ∧ set.use_set_blk_cnt = false
    ∧ (cmd.cmdOp.respType = 1 ∨ cmd.cmdOp.respType = 3 ∨ cmd.cmdOp.respType = 4
      ∨ cmd.cmdOp.respType = 5 ∨ cmd.cmdOp.respType = 6 ∨ cmd.cmdOp.respType = 7)
    ∧ hw.RR 3 = rr3
    ∧ ∃ out, cmd.pResp = some out ∧ (∀ j, j ≠ 0 → out j = out0 j)
        ∧ ((set.resp_len = 0 ∧ (hw.rd_RR 0).1 = r0) ∨ (set.resp_len = 1 ∧ out 0 = r0))


/-! ## Example sessions, commands and hardware inputs -/

/-- Header constants with a 65536-byte descriptor line of two words, timing
mode codes `0x00..0x03` for MMC and `0x10..0x16` for SD, a stop command with
an R1 response, a read command with an R1 response, and the rounding-up and
rounding-to-nearest integer divisions. -/
def exHdr : Hdr :=
  { SDMMC_DMADL_TRAN_LEN_MAX := 65536, SDMMC_DMADL_SIZE := 2, SDMMC_TIM_SD_DS := 16,
    SDMMC_TIM_MMC_BC := 0, SDMMC_TIM_MMC_HS_SDR := 1, SDMMC_TIM_MMC_HS_DDR := 2,
    SDMMC_TIM_MMC_HS200 := 3, SDMMC_TIM_SD_HS := 17, SDMMC_TIM_SD_SDR12 := 18,
    SDMMC_TIM_SD_SDR25 := 19, SDMMC_TIM_SD_SDR50 := 20, SDMMC_TIM_SD_DDR50 := 21,
    SDMMC_TIM_SD_SDR104 := 22, SDMMC_HC2R_DRVSEL_TYPEC := 2, SDMMC_HC2R_UHSMS_SDR12 := 0,
    SDMMC_HC2R_UHSMS_SDR25 := 1, SDMMC_HC2R_UHSMS_SDR50 := 2, SDMMC_HC2R_UHSMS_SDR104 := 3,
    SDMMC_HC2R_UHSMS_DDR50 := 4, SDMMC_PCR_SDBVSEL_18V := 5, SDMMC_PCR_SDBVSEL_30V := 6,
    SDMMC_PCR_SDBVSEL_33V := 7, SDMMC_HC1R_DMASEL_ADMA32 := 2, SDMMC_ACR_BMAX_INCR16 := 1,
    SDMMC_PSR_DATLL_Msk := 15,
    SDMMC_CMD_CSTOP :=
      { powerON := false, sendCmd := true, xfrData := XfrData.SDMMC_CMD_STOPXFR,
        respType := 1, odON := false, ioCmd := false, checkBsy := false },
    SDMMC_CMD_CDATARX_1 :=
      { powerON := false, sendCmd := true, xfrData := XfrData.SDMMC_CMD_RX,
        respType := 1, odON := false, ioCmd := false, checkBsy := false },
    CEIL_INT_DIV := fun n d => (n + d - 1) / d,
    ROUND_INT_DIV := fun n d => (n + d / 2) / d,
    NDEBUG := true }

/-- Hardware that reports nothing: every register reads as zero. -/
def exHw : Hw :=
  { NISTR := [], EISTR := [], ACESR := [], RR := fun _ => [], BDPR := [], PSR := [],
    SRR := [], TC_SR := [], TMR := [], MC1R := [], CR := [], NISTER := [], NISIER := [],
    BSR := [], CA0R := [], CA1R := [], CCR := [], HC1R := [], HC2R := [], PCR := [],
    CALCR := [], TCR := [], ACR := [], irq := [], pclk := fun _ => 0, gck := fun _ => 0,
    table_mem := fun _ => default, trace := [] }

/-- A powered, idle session in polling mode with a descriptor table of one line. -/
def exSet : sdmmc_set :=
  { id := 0, tc_id := 0, table := 4096, table_size := 1, blk_size := 512, dev_freq := 400000,
    tim_mode := 0, state := Mcid.MCID_IDLE, cmd := none, blk_index := 0, resp_len := 0,
    use_polling := true, cmd_line_released := false, dat_lines_released := false,
    expect_auto_end := false, use_set_blk_cnt := false }

/-- The same session with a descriptor table of four lines. -/
def exSet4 : sdmmc_set := { exSet with table_size := 4 }

/-- CMD18, a read of 200 blocks of 512 bytes into a word-aligned buffer. -/
def exCmd : sSdmmcCommand :=
  { addr := 12288, pData := 8192, data := fun _ => 0, wBlockSize := 512, wNbBlocks := 200,
    pResp := none, dwArg := 0,
    cmdOp := { powerON := false, sendCmd := true, xfrData := XfrData.SDMMC_CMD_RX,
               respType := 1, odON := false, ioCmd := false, checkBsy := false },
    bCmd := 18, bStatus := Rc.SDMMC_OK, fCallback := false }

/-- CMD17, a read of one block of 512 bytes into a buffer that is not word-aligned. -/
def exCmdMisaligned : sSdmmcCommand :=
  { exCmd with addr := 12352, pData := 8194, wNbBlocks := 1, bCmd := 17 }

/-- CMD13 with an R1 response and no data. -/
def exCmdStatus : sSdmmcCommand :=
  { exCmd with
    addr := 12416,
    bCmd := 13,
    cmdOp := { powerON := false, sendCmd := true, xfrData := XfrData.NONE, respType := 1,
               odON := false, ioCmd := false, checkBsy := false } }

/-- A command with neither the power-on nor the send-command flag. -/
def exCmdNoFlag : sSdmmcCommand :=
  { exCmdStatus with addr := 12480, cmdOp := { exCmdStatus.cmdOp with sendCmd := false } }

/-- The power-on pseudo-command. -/
def exCmdPowerOn : sSdmmcCommand :=
  { exCmdStatus with
    addr := 12544,
    bCmd := 0,
    cmdOp := { powerON := true, sendCmd := false, xfrData := XfrData.NONE, respType := 0,
               odON := false, ioCmd := false, checkBsy := false } }

/-- A power-on pseudo-command that also carries a read direction and a block
count of zero. -/
def exCmdPowerOnRx : sSdmmcCommand :=
  { exCmdPowerOn with
    addr := 12608,
    wNbBlocks := 0,
    cmdOp := { exCmdPowerOn.cmdOp with xfrData := XfrData.SDMMC_CMD_RX } }

/-- Another CMD18 object, a read of 200 blocks of 512 bytes into another
buffer. -/
def exCmdSecond : sSdmmcCommand := { exCmd with addr := 13248, pData := 1048576 }

/-- A read with a block count of zero. -/
def exCmdNoBlocks : sSdmmcCommand := { exCmd with addr := 12672, wNbBlocks := 0 }

/-- A session in interrupt mode with CMD18 in flight. -/
def exSetBusyIrq : sdmmc_set :=
  { exSet with state := Mcid.MCID_CMD, cmd := some exCmd, use_polling := false }

/-- A session in polling mode with CMD18 in flight. -/
def exSetBusyPoll : sdmmc_set :=
  { exSet with state := Mcid.MCID_CMD, cmd := some exCmd }

/-- A session in polling mode with CMD13 in flight. -/
def exSetStatus : sdmmc_set :=
  { exSet with state := Mcid.MCID_CMD, cmd := some exCmdStatus }

/-- Hardware that reports the global error flag with a command timeout. -/
def exHwTimeout : Hw :=
  { exHw with
    NISTR := [{ Nistr.zero with ERRINT := true }],
    EISTR := [{ (default : Eistr) with CMDTEO := true }] }

/-- A session in the error state, as the resolver leaves it after a failed
command. -/
def exSetError : sdmmc_set := { exSet with state := Mcid.MCID_ERROR }

/-- Hardware whose host control register selects a 4-bit bus. -/
def exHwBus4 : Hw := { exHw with HC1R := [{ (default : Hc1r) with DW := true }] }

/-- Hardware with a 48 MHz base clock and no programmable clock, whose
internal clock is stable at the second read of the clock control register. -/
def exHwClock48 : Hw :=
  { exHw with
    CA0R := [{ (default : Ca0r) with BASECLKF := 48 }],
    CCR := [default, { (default : Ccr) with INTCLKS := true }] }

/-- Hardware with a 208 MHz base clock and a 4-bit bus, whose tuning circuit
reports the end of the procedure at once without selecting the tuned clock. -/
def exHwClock208 : Hw :=
  { exHw with
    CA0R := [{ (default : Ca0r) with BASECLKF := 208 }],
    CCR := [default, { (default : Ccr) with INTCLKS := true }],
    HC1R := [{ (default : Hc1r) with DW := true }] }

/-- An idle session in the timing mode MMC HS200. -/
def exSetHS200 : sdmmc_set := { exSet with tim_mode := 3 }

/-- A session in the timing mode MMC HS200 with CMD13 in flight. -/
def exSetHS200Busy : sdmmc_set :=
  { exSetHS200 with state := Mcid.MCID_CMD, cmd := some exCmdStatus }

/-- Hardware whose capabilities allow the 1.8 V and 3.0 V signaling levels and
whose bus is powered at 3.3 V: a switch to a low-voltage mode toggles the
signaling level, and the controller then reads back without `VS18EN`. -/
def exHwSwitch : Hw :=
  { exHw with
    CA0R := [{ (default : Ca0r) with V18VSUP := true, V30VSUP := true }],
    PCR := [{ (default : Pcr) with SDBPWR := true, SDBVSEL := 7 }] }

/-- CMD18 with a completion callback. -/
def exCmdCallback : sSdmmcCommand := { exCmd with addr := 12736, fCallback := true }

/-- A session in polling mode with CMD18 and its callback in flight. -/
def exSetBusyCallback : sdmmc_set :=
  { exSet with state := Mcid.MCID_CMD, cmd := some exCmdCallback }

/-- Hardware that reports the completion of the command and of its busy phase
in one event word. -/
def exHwStop : Hw := { exHw with NISTR := [{ Nistr.zero with CMDC := true, TRFC := true }] }

/-- Hardware with a 4-bit bus whose tuning circuit is busy at the first read of
`HC2R` after the start and has selected the tuned clock at the next one, and
whose event register reports forty blocks. -/
def exHwTune : Hw :=
  { exHw with
    HC1R := [{ (default : Hc1r) with DW := true }],
    HC2R := [default, { (default : Hc2r) with EXTUN := true },
             { (default : Hc2r) with SCLKSEL := true }],
    NISTR := List.replicate 40 { Nistr.zero with BRDRDY := true } }


/-- Calls that switch to the default timing mode and then issue a command. -/
def exCallsIssue : List Call :=
  [Call.set_speed_mode 0 false, Call.send_command exCmdStatus]

/-- Calls that switch to the default timing mode, tune the sampling point and
then issue a command. -/
def exCallsTuneIssue : List Call :=
  [Call.set_speed_mode 0 false, Call.tune_sampling 64, Call.send_command exCmdStatus]

/-- Hardware whose host control register selects a 4-bit bus at its first two
reads and whose tuning circuit reports no tuning in progress. -/
def exHwTuneIdle : Hw :=
  { exHw with HC1R := List.replicate 2 { (default : Hc1r) with DW := true } }



/-- A powered, idle session in polling mode without a descriptor table. -/
def exSetPio : sdmmc_set := { exSet with table := 0, table_size := 0 }

/-- CMD17, a read of one block of 8 bytes. -/
def exCmdRead1 : sSdmmcCommand :=
  { exCmd with addr := 12800, wBlockSize := 8, wNbBlocks := 1, bCmd := 17 }

/-- CMD24, a write of one block of 8 bytes. -/
def exCmdWrite1 : sSdmmcCommand :=
  { exCmdRead1 with
    addr := 12864,
    bCmd := 24, cmdOp := { exCmdRead1.cmdOp with xfrData := XfrData.SDMMC_CMD_TX } }

/-- CMD21, the tuning block of an e.MMC, a read of one block of 128 bytes. -/
def exCmdTuning : sSdmmcCommand :=
  { exCmd with addr := 12928, wBlockSize := 128, wNbBlocks := 1, bCmd := 21 }

/-- Hardware that completes the command, then is quiet, then delivers one block
and completes the transfer. -/
def exHwRead1 : Hw :=
  { exHw with
    NISTR := [{ Nistr.zero with CMDC := true }, Nistr.zero,
              { Nistr.zero with BRDRDY := true }, { Nistr.zero with TRFC := true }],
    BDPR := [1, 2] }

/-- Hardware that asks for one block, then is quiet, then reports a block to
read. -/
def exHwWriteThenRead : Hw :=
  { exHw with
    NISTR := [{ Nistr.zero with BWRRDY := true }, Nistr.zero,
              { Nistr.zero with BRDRDY := true }] }

/-- Hardware that reports Transfer Complete together with a command timeout. -/
def exHwTrfcTimeout : Hw :=
  { exHw with
    NISTR := [{ Nistr.zero with ERRINT := true, TRFC := true }],
    EISTR := [{ (default : Eistr) with CMDTEO := true }] }

/-- Hardware that completes the command, reports a block and completes the
transfer. -/
def exHwTuningBlock : Hw :=
  { exHw with
    NISTR := [{ Nistr.zero with CMDC := true }, { Nistr.zero with BRDRDY := true },
              { Nistr.zero with TRFC := true }] }



/-- CMD52 used as the I/O abort: a stop-transfer command with an R5 response. -/
def exCmdIoAbort : sSdmmcCommand :=
  { exCmdStatus with
    addr := 12992,
    bCmd := 52,
    cmdOp := { powerON := false, sendCmd := true, xfrData := XfrData.SDMMC_CMD_STOPXFR,
               respType := 5, odON := false, ioCmd := true, checkBsy := false } }

/-- Hardware that reports the global error flag with a current-limit error, a
command timeout and a data timeout at once. -/
def exHwErrors : Hw :=
  { exHw with
    NISTR := [{ Nistr.zero with ERRINT := true }],
    EISTR := [{ (default : Eistr) with CURLIM := true, CMDTEO := true, DATTEO := true }] }



/-- CMD2 with an R2 response and no data. -/
def exCmdCid : sSdmmcCommand :=
  { exCmdStatus with addr := 13056, bCmd := 2, cmdOp := { exCmdStatus.cmdOp with respType := 2 } }

/-- CMD18, a read of two blocks of 8 bytes. -/
def exCmdRead2 : sSdmmcCommand := { exCmd with addr := 13120, wBlockSize := 8, wNbBlocks := 2 }



/-- Hardware whose response registers hold the four words of a 120-bit
response, the top byte of `RR[3]` being set although it is not part of the
response. -/
def exHwR2 : Hw :=
  { exHw with
    RR := fun ix =>
      if ix = 0 then [0x44556677] else if ix = 1 then [0x8899aabb]
      else if ix = 2 then [0xccddeeff] else if ix = 3 then [0xff112233] else [] }



/-- The resolver state of a write of two blocks of 6 bytes, the bytes of the
buffer being `1, 2, 3, ...`, when the data port is ready for the second block. -/
def exStWrite6 : PollSt :=
  { set := { exSetPio with state := Mcid.MCID_CMD, blk_index := 1 },
    cmd := { exCmdWrite1 with wBlockSize := 6, wNbBlocks := 2, data := fun j => j + 1 },
    hw := exHw,
    events := { Nistr.zero with BWRRDY := true } }

/-- The resolver state of a read of two blocks of 6 bytes into a buffer filled
with `0xee`, when the second block is ready and the data port holds the two
words of the block written by `exStWrite6` and one more word. -/
def exStRead6 : PollSt :=
  { set := { exSetPio with state := Mcid.MCID_CMD, blk_index := 1 },
    cmd := { exCmdRead1 with wBlockSize := 6, wNbBlocks := 2, data := fun _ => 0xee },
    hw := { exHw with BDPR := [0x0a090807, 0x00000c0b, 0x12345678] },
    events := { Nistr.zero with BRDRDY := true } }



/-- CMD18, a read of two blocks of 8 bytes whose response goes to an array
filled with `0x55`. -/
def exCmdMulti : sSdmmcCommand :=
  { exCmdRead2 with addr := 13184, pResp := some (fun _ => 0x55) }

/-- Hardware that reports Command Complete, then Transfer Complete, whose
`RR[0]` holds `0x00000900` and whose `RR[3]` holds `0x83004f61`, a status with
retained bits set. -/
def exHwMulti : Hw :=
  { exHw with
    NISTR := [{ Nistr.zero with CMDC := true }, { Nistr.zero with TRFC := true }],
    RR := fun ix => if ix = 0 then [0x00000900] else if ix = 3 then [0x83004f61] else [] }

/-- The same hardware reporting Transfer Complete before Command Complete,
with a timer that is still running when the resolver fetches the events for
the second time. -/
def exHwMultiSwapped : Hw :=
  { exHwMulti with
    NISTR := [{ Nistr.zero with TRFC := true }, { Nistr.zero with CMDC := true }],
    TC_SR := [{ CLKSTA := true }] }


/-! ## Properties of the descriptor builder -/
/-- The alignment test of the builder: the two low bits of the address. -/
theorem land_three (x : Nat) : x &&& 3 = x % 4 := by
  have h := Nat.and_pow_two_sub_one_eq_mod x 2
  simpa using h

/-- The fill loop writes the lines from its current index up to the line count and
leaves the others. -/
theorem fill_table_spec (K : Hdr) (cnt bound : Nat) :
    ∀ (n ix a : Nat) (tbl : Nat → DmaLine), ix + n = cnt →
      a + (n - 1) * K.SDMMC_DMADL_TRAN_LEN_MAX < 4294967296 →
      ∀ j, fill_table K cnt bound n ix a tbl j =
        if ix ≤ j ∧ j < cnt then
          lineAt K cnt bound j (a + (j - ix) * K.SDMMC_DMADL_TRAN_LEN_MAX)
        else tbl j := by
  intro n
  induction n with
  | zero =>
    intro ix a tbl h _ j
    have : ¬ (ix ≤ j ∧ j < cnt) := by omega
    simp [fill_table, this]
  | succ n ih =>
    intro ix a tbl h ha j
    simp only [fill_table]
    by_cases hlt : ix + 1 < cnt
    · have hn : 1 ≤ n := by omega
      have hmul : (n + 1 - 1) * K.SDMMC_DMADL_TRAN_LEN_MAX
          = (n - 1) * K.SDMMC_DMADL_TRAN_LEN_MAX + K.SDMMC_DMADL_TRAN_LEN_MAX := by
        have : n + 1 - 1 = (n - 1) + 1 := by omega
        rw [this, Nat.succ_mul]
      have hu : u32 (a + K.SDMMC_DMADL_TRAN_LEN_MAX) = a + K.SDMMC_DMADL_TRAN_LEN_MAX := by
        unfold u32
        apply Nat.mod_eq_of_lt
        omega
      rw [if_pos hlt, hu, ih (ix + 1) _ _ (by omega) (by omega) j]
      by_cases hj : j = ix
      · subst hj
        have h1 : ¬ (j + 1 ≤ j ∧ j < cnt) := by omega
        have h2 : (j ≤ j ∧ j < cnt) := by omega
        simp [h1, h2, setLine, lineAt, hlt]
      · by_cases hr : ix + 1 ≤ j ∧ j < cnt
        · have h2 : (ix ≤ j ∧ j < cnt) := by omega
          rw [if_pos hr, if_pos h2]
          have : j - ix = (j - (ix + 1)) + 1 := by omega
          rw [this, Nat.succ_mul]
          congr 1
          omega
        · have h2 : ¬ (ix ≤ j ∧ j < cnt) := by omega
          rw [if_neg hr, if_neg h2]
          simp [setLine, hj]
    · have hn : n = 0 := by omega
      subst hn
      rw [if_neg hlt]
      simp only [fill_table]
      by_cases hj : j = ix
      · subst hj
        have h2 : (j ≤ j ∧ j < cnt) := by omega
        simp [h2, setLine, lineAt, hlt]
      · have h2 : ¬ (ix ≤ j ∧ j < cnt) := by omega
        simp [h2, setLine, hj]


/-- A block count and a block size of 16 bits multiply without wrapping. -/
theorem mul_u16_bound {N S : Nat} (hN : N < 65536) (hS : S ≤ 65536) :
    N * S ≤ 65535 * 65536 :=
  Nat.mul_le_mul (by omega) hS

/-- The line count exceeds the capacity exactly when the bytes exceed it. -/
theorem line_cnt_gt_iff {a L C : Nat} (hL : 0 < L) (ha : 1 ≤ a) :
    C < (a - 1 + L) / L ↔ C * L < a := by
  rw [Nat.lt_iff_add_one_le, Nat.le_div_iff_mul_le hL, Nat.add_mul]
  omega

/-- The descriptor builder on a misaligned buffer. -/
theorem build_misaligned (K : Hdr) (set : sdmmc_set) (cmd : sSdmmcCommand) (hw : Hw)
    (h : cmd.pData % 4 ≠ 0) :
    sdmmc_build_dma_table K set cmd hw = { rc := Rc.SDMMC_PARAM, cmd := cmd, hw := hw } := by
  unfold sdmmc_build_dma_table
  simp only [land_three]
  rw [if_pos h]

/-- The line count that the builder computes, without wrap-around. -/
theorem line_cnt_eq (K : Hdr) {N S : Nat} (hL : K.SDMMC_DMADL_TRAN_LEN_MAX ≤ 65536)
    (hN1 : 1 ≤ N) (hN : N < 65536) (hS1 : 1 ≤ S) (hS : S ≤ 65536) :
    u32 (sub32 (u32 (N * S)) 1 + K.SDMMC_DMADL_TRAN_LEN_MAX) / K.SDMMC_DMADL_TRAN_LEN_MAX
      = (N * S - 1 + K.SDMMC_DMADL_TRAN_LEN_MAX) / K.SDMMC_DMADL_TRAN_LEN_MAX := by
  have hb := mul_u16_bound hN hS
  have h1 : 1 ≤ N * S := Nat.mul_pos hN1 hS1
  have : u32 (sub32 (u32 (N * S)) 1 + K.SDMMC_DMADL_TRAN_LEN_MAX)
      = N * S - 1 + K.SDMMC_DMADL_TRAN_LEN_MAX := by
    unfold u32 sub32
    omega
  rw [this]

/-- The builder when the whole transfer fits the table. -/
theorem build_fits (K : Hdr) (set : sdmmc_set) (cmd : sSdmmcCommand) (hw : Hw)
    (hL0 : 0 < K.SDMMC_DMADL_TRAN_LEN_MAX) (hL : K.SDMMC_DMADL_TRAN_LEN_MAX ≤ 65536)
    (hal : cmd.pData % 4 = 0)
    (hN1 : 1 ≤ cmd.wNbBlocks) (hN : cmd.wNbBlocks < 65536)
    (hS1 : 1 ≤ cmd.wBlockSize) (hS : cmd.wBlockSize ≤ 65536)
    (hfit : cmd.wNbBlocks * cmd.wBlockSize ≤ set.table_size * K.SDMMC_DMADL_TRAN_LEN_MAX) :
    sdmmc_build_dma_table K set cmd hw =
      build_fill K set cmd hw Rc.SDMMC_OK
        ((cmd.wNbBlocks * cmd.wBlockSize - 1 + K.SDMMC_DMADL_TRAN_LEN_MAX)
          / K.SDMMC_DMADL_TRAN_LEN_MAX)
        cmd.pData (u32 (cmd.pData + cmd.wNbBlocks * cmd.wBlockSize)) := by
  have hb := mul_u16_bound hN hS
  have h1 : 1 ≤ cmd.wNbBlocks * cmd.wBlockSize := Nat.mul_pos hN1 hS1
  have hgt : ¬ (set.table_size <
      (cmd.wNbBlocks * cmd.wBlockSize - 1 + K.SDMMC_DMADL_TRAN_LEN_MAX)
        / K.SDMMC_DMADL_TRAN_LEN_MAX) := by
    rw [line_cnt_gt_iff hL0 h1]
    omega
  have hd : u32 (cmd.wNbBlocks * cmd.wBlockSize) = cmd.wNbBlocks * cmd.wBlockSize := by
    unfold u32; omega
  unfold sdmmc_build_dma_table
  simp only [land_three, line_cnt_eq K hL hN1 hN hS1 hS]
  rw [if_neg (by simpa using hal), if_neg (by simpa using hgt), hd]

/-- The builder when the transfer exceeds the table: the truncation branch. -/
theorem build_truncates (K : Hdr) (set : sdmmc_set) (cmd : sSdmmcCommand) (hw : Hw)
    (hL0 : 0 < K.SDMMC_DMADL_TRAN_LEN_MAX) (hL : K.SDMMC_DMADL_TRAN_LEN_MAX ≤ 65536)
    (hal : cmd.pData % 4 = 0)
    (hN1 : 1 ≤ cmd.wNbBlocks) (hN : cmd.wNbBlocks < 65536)
    (hS1 : 1 ≤ cmd.wBlockSize) (hS : cmd.wBlockSize ≤ 65536)
    (hbig : set.table_size * K.SDMMC_DMADL_TRAN_LEN_MAX < cmd.wNbBlocks * cmd.wBlockSize) :
    sdmmc_build_dma_table K set cmd hw =
      if set.table_size * K.SDMMC_DMADL_TRAN_LEN_MAX / cmd.wBlockSize = 0 then
        { rc := Rc.SDMMC_NOT_SUPPORTED, cmd := cmd, hw := hw }
      else
        build_fill K set
          { cmd with wNbBlocks :=
              set.table_size * K.SDMMC_DMADL_TRAN_LEN_MAX / cmd.wBlockSize }
          hw Rc.SDMMC_CHANGED set.table_size cmd.pData
          (u32 (cmd.pData
            + set.table_size * K.SDMMC_DMADL_TRAN_LEN_MAX / cmd.wBlockSize * cmd.wBlockSize)) := by
  have hb := mul_u16_bound hN hS
  have h1 : 1 ≤ cmd.wNbBlocks * cmd.wBlockSize := Nat.mul_pos hN1 hS1
  have hgt : set.table_size <
      (cmd.wNbBlocks * cmd.wBlockSize - 1 + K.SDMMC_DMADL_TRAN_LEN_MAX)
        / K.SDMMC_DMADL_TRAN_LEN_MAX := by
    rw [line_cnt_gt_iff hL0 h1]
    exact hbig
  have hcl : u32 (set.table_size * K.SDMMC_DMADL_TRAN_LEN_MAX)
      = set.table_size * K.SDMMC_DMADL_TRAN_LEN_MAX := by
    unfold u32; omega
  have hq : set.table_size * K.SDMMC_DMADL_TRAN_LEN_MAX / cmd.wBlockSize < cmd.wNbBlocks := by
    rw [Nat.div_lt_iff_lt_mul hS1]
    exact hbig
  have hq16 : u16 (set.table_size * K.SDMMC_DMADL_TRAN_LEN_MAX / cmd.wBlockSize)
      = set.table_size * K.SDMMC_DMADL_TRAN_LEN_MAX / cmd.wBlockSize :=
    Nat.mod_eq_of_lt (by omega)
  have hqs : set.table_size * K.SDMMC_DMADL_TRAN_LEN_MAX / cmd.wBlockSize * cmd.wBlockSize
      ≤ set.table_size * K.SDMMC_DMADL_TRAN_LEN_MAX := Nat.div_mul_le_self _ _
  have hqu : u32 (set.table_size * K.SDMMC_DMADL_TRAN_LEN_MAX / cmd.wBlockSize * cmd.wBlockSize)
      = set.table_size * K.SDMMC_DMADL_TRAN_LEN_MAX / cmd.wBlockSize * cmd.wBlockSize :=
    Nat.mod_eq_of_lt (by omega)
  unfold sdmmc_build_dma_table
  simp only [land_three, line_cnt_eq K hL hN1 hN hS1 hS]
  rw [if_neg (by simpa using hal), if_pos (by simpa using hgt), hcl, hq16, hqu]



/-- Contents of the table after the fill loop has covered `n` bytes with `m + 1` lines. -/
theorem fill_layout (K : Hdr) (m n B : Nat) (tbl : Nat → DmaLine)
    (hlo : m * K.SDMMC_DMADL_TRAN_LEN_MAX < n)
    (hhi : n ≤ (m + 1) * K.SDMMC_DMADL_TRAN_LEN_MAX)
    (hn : n < 4294967296) (hbuf : B + n ≤ 4294967296) (i : Nat) :
    fill_table K (m + 1) (u32 (B + n)) (m + 1) 0 B tbl i =
      if i < m then
        { LEN := Dma0Len.SDMMC_DMA0DL_LEN_MAX, ATTR_ACT_TRAN := true, ATTR_END := false,
          ATTR_VALID := true, ADDR := B + i * K.SDMMC_DMADL_TRAN_LEN_MAX }
      else if i = m then
        { LEN := if n - m * K.SDMMC_DMADL_TRAN_LEN_MAX < K.SDMMC_DMADL_TRAN_LEN_MAX
                 then Dma0Len.SDMMC_DMA0DL_LEN (n - m * K.SDMMC_DMADL_TRAN_LEN_MAX)
                 else Dma0Len.SDMMC_DMA0DL_LEN_MAX,
          ATTR_ACT_TRAN := true, ATTR_END := true, ATTR_VALID := true,
          ADDR := B + m * K.SDMMC_DMADL_TRAN_LEN_MAX }
      else tbl i := by
  have hsm : (m + 1) * K.SDMMC_DMADL_TRAN_LEN_MAX
      = m * K.SDMMC_DMADL_TRAN_LEN_MAX + K.SDMMC_DMADL_TRAN_LEN_MAX := Nat.succ_mul _ _
  rw [fill_table_spec K (m + 1) (u32 (B + n)) (m + 1) 0 B tbl (by omega)
    (by simp only [Nat.add_sub_cancel]; omega) i]
  by_cases h1 : i < m
  · have h2 : 0 ≤ i ∧ i < m + 1 := by omega
    have h3 : i + 1 < m + 1 := by omega
    simp [h1, h2, lineAt, h3]
  · by_cases h4 : i = m
    · subst h4
      have h2 : 0 ≤ i ∧ i < i + 1 := by omega
      have hsub : sub32 (u32 (B + n)) (B + i * K.SDMMC_DMADL_TRAN_LEN_MAX)
          = n - i * K.SDMMC_DMADL_TRAN_LEN_MAX := by
        unfold sub32 u32
        omega
      simp [h2, lineAt, hsub]
    · have h2 : ¬ (0 ≤ i ∧ i < m + 1) := by omega
      rw [if_neg h2, if_neg h1, if_neg h4]

/-- The lengths of the `m + 1` lines written by the fill loop add up to `n`. -/
theorem fill_bytes_sum (K : Hdr) (m n B : Nat) (tbl : Nat → DmaLine)
    (hlo : m * K.SDMMC_DMADL_TRAN_LEN_MAX < n)
    (hhi : n ≤ (m + 1) * K.SDMMC_DMADL_TRAN_LEN_MAX)
    (hn : n < 4294967296) (hbuf : B + n ≤ 4294967296) :
    ∑ i in Finset.range (m + 1),
      (fill_table K (m + 1) (u32 (B + n)) (m + 1) 0 B tbl i).bytes K = n := by
  have hsm : (m + 1) * K.SDMMC_DMADL_TRAN_LEN_MAX
      = m * K.SDMMC_DMADL_TRAN_LEN_MAX + K.SDMMC_DMADL_TRAN_LEN_MAX := Nat.succ_mul _ _
  rw [Finset.sum_range_succ]
  have hfirst : ∑ i in Finset.range m,
      (fill_table K (m + 1) (u32 (B + n)) (m + 1) 0 B tbl i).bytes K
        = m * K.SDMMC_DMADL_TRAN_LEN_MAX := by
    rw [Finset.sum_congr rfl (g := fun _ => K.SDMMC_DMADL_TRAN_LEN_MAX)]
    · simp
    · intro i hi
      have hi2 : i < m := Finset.mem_range.mp hi
      rw [fill_layout K m n B tbl hlo hhi hn hbuf i]
      simp [hi2, DmaLine.bytes]
  rw [hfirst, fill_layout K m n B tbl hlo hhi hn hbuf m]
  simp only [lt_self_iff_false, if_false, if_true, DmaLine.bytes]
  by_cases hl : n - m * K.SDMMC_DMADL_TRAN_LEN_MAX < K.SDMMC_DMADL_TRAN_LEN_MAX
  · simp only [hl, if_true]
    omega
  · simp only [hl, if_false]
    omega

/-- Number of lines for `n` bytes: `ceil (n / L)`. -/
theorem ceil_div_eq {n L m : Nat} (hlo : m * L < n) (hhi : n ≤ (m + 1) * L) :
    (n + L - 1) / L = m + 1 := by
  have hsm : (m + 1) * L = m * L + L := Nat.succ_mul _ _
  have hsm2 : (m + 1 + 1) * L = (m + 1) * L + L := Nat.succ_mul _ _
  apply Nat.div_eq_of_lt_le
  · omega
  · omega

/-! ## Claims on the descriptor builder -/

/-- The truncation branch of the builder: it returns Changed with a block count
that is at least one, smaller than the request, and fits the table. -/
theorem build_truncation_spec (K : Hdr) (set : sdmmc_set) (cmd : sSdmmcCommand) (hw : Hw)
    (hL : K.SDMMC_DMADL_TRAN_LEN_MAX ≤ 65536)
    (hal : cmd.pData % 4 = 0)
    (hS1 : 1 ≤ cmd.wBlockSize) (hS : cmd.wBlockSize < 65536)
    (hN1 : 1 ≤ cmd.wNbBlocks) (hN : cmd.wNbBlocks < 65536)
    (hbig : cmd.wNbBlocks * cmd.wBlockSize > set.table_size * K.SDMMC_DMADL_TRAN_LEN_MAX)
    (hfit : cmd.wBlockSize ≤ set.table_size * K.SDMMC_DMADL_TRAN_LEN_MAX) :
    (sdmmc_build_dma_table K set cmd hw).rc = Rc.SDMMC_CHANGED
      ∧ 1 ≤ (sdmmc_build_dma_table K set cmd hw).cmd.wNbBlocks
      ∧ (sdmmc_build_dma_table K set cmd hw).cmd.wNbBlocks < cmd.wNbBlocks
      ∧ (sdmmc_build_dma_table K set cmd hw).cmd.wNbBlocks * cmd.wBlockSize
          ≤ set.table_size * K.SDMMC_DMADL_TRAN_LEN_MAX := by
  have hL0 : 0 < K.SDMMC_DMADL_TRAN_LEN_MAX := by
    rcases Nat.eq_zero_or_pos K.SDMMC_DMADL_TRAN_LEN_MAX with h0 | h0
    · rw [h0, Nat.mul_zero] at hfit; omega
    · exact h0
  have hq1 : 1 ≤ set.table_size * K.SDMMC_DMADL_TRAN_LEN_MAX / cmd.wBlockSize :=
    (Nat.le_div_iff_mul_le hS1).mpr (by omega)
  have hq0 : ¬ set.table_size * K.SDMMC_DMADL_TRAN_LEN_MAX / cmd.wBlockSize = 0 := by omega
  have hqN : set.table_size * K.SDMMC_DMADL_TRAN_LEN_MAX / cmd.wBlockSize < cmd.wNbBlocks :=
    (Nat.div_lt_iff_lt_mul hS1).mpr hbig
  rw [build_truncates K set cmd hw hL0 hL hal hN1 hN hS1 (by omega) hbig, if_neg hq0]
  exact ⟨rfl, hq1, hqN, Nat.div_mul_le_self _ _⟩


/-- C3: for a word-aligned buffer, block size `S >= 1` and block count `N >= 1`
with `N * S > C * L` and `S <= C * L` (`C` the table capacity, `L` the maximum
bytes per line, at most `2 ^ 16`), `sdmmc_build_dma_table` returns Changed and
the block count `N'` afterwards satisfies `1 <= N' < N` and `N' * S <= C * L`.
The capacity is at least one because `1 <= S <= C * L`. -/
theorem build_truncation_changed (K : Hdr) (set : sdmmc_set) (cmd : sSdmmcCommand) (hw : Hw)
    (hL : K.SDMMC_DMADL_TRAN_LEN_MAX ≤ 65536)
    (hal : cmd.pData % 4 = 0)
    (hS1 : 1 ≤ cmd.wBlockSize) (hS : cmd.wBlockSize < 65536)
    (hN1 : 1 ≤ cmd.wNbBlocks) (hN : cmd.wNbBlocks < 65536)
    (hbig : cmd.wNbBlocks * cmd.wBlockSize > set.table_size * K.SDMMC_DMADL_TRAN_LEN_MAX)
    (hfit : cmd.wBlockSize ≤ set.table_size * K.SDMMC_DMADL_TRAN_LEN_MAX) :
    (sdmmc_build_dma_table K set cmd hw).rc = Rc.SDMMC_CHANGED
      ∧ 1 ≤ (sdmmc_build_dma_table K set cmd hw).cmd.wNbBlocks
      ∧ (sdmmc_build_dma_table K set cmd hw).cmd.wNbBlocks < cmd.wNbBlocks
      ∧ (sdmmc_build_dma_table K set cmd hw).cmd.wNbBlocks * cmd.wBlockSize
          ≤ set.table_size * K.SDMMC_DMADL_TRAN_LEN_MAX :=
  build_truncation_spec K set cmd hw hL hal hS1 hS hN1 hN hbig hfit

/-- C3, witness: 200 blocks of 512 bytes on a table of one 65536-byte line. -/
theorem build_truncation_changed_witness :
    (sdmmc_build_dma_table exHdr exSet exCmd exHw).rc = Rc.SDMMC_CHANGED
      ∧ 1 ≤ (sdmmc_build_dma_table exHdr exSet exCmd exHw).cmd.wNbBlocks
      ∧ (sdmmc_build_dma_table exHdr exSet exCmd exHw).cmd.wNbBlocks < exCmd.wNbBlocks
      ∧ (sdmmc_build_dma_table exHdr exSet exCmd exHw).cmd.wNbBlocks * exCmd.wBlockSize
          ≤ exSet.table_size * exHdr.SDMMC_DMADL_TRAN_LEN_MAX :=
  build_truncation_changed exHdr exSet exCmd exHw (by decide) (by decide) (by decide)
    (by decide) (by decide) (by decide) (by decide) (by decide)

/-- The builder returns `SDMMC_OK` or `SDMMC_CHANGED` only for an aligned buffer. -/
theorem build_success_aligned (K : Hdr) (set : sdmmc_set) (cmd : sSdmmcCommand) (hw : Hw)
    (hrc : (sdmmc_build_dma_table K set cmd hw).rc = Rc.SDMMC_OK
      ∨ (sdmmc_build_dma_table K set cmd hw).rc = Rc.SDMMC_CHANGED) :
    cmd.pData % 4 = 0 := by
  by_contra h
  rw [build_misaligned K set cmd hw h] at hrc
  rcases hrc with h1 | h1 <;> cases h1


/-- Layout of the table after `build_fill` has covered `n` bytes with `m + 1` lines. -/
theorem build_fill_layout (K : Hdr) (set : sdmmc_set) (cmd : sSdmmcCommand) (hw : Hw)
    (m n : Nat) (c : sSdmmcCommand) (rc : Rc)
    (hlo : m * K.SDMMC_DMADL_TRAN_LEN_MAX < n) (hhi : n ≤ (m + 1) * K.SDMMC_DMADL_TRAN_LEN_MAX)
    (hn : n < 4294967296) (hbn : cmd.pData + n ≤ 4294967296)
    (hcn : c.wNbBlocks * cmd.wBlockSize = n) :
    let o := build_fill K set c hw rc (m + 1) cmd.pData (u32 (cmd.pData + n))
    let n := o.cmd.wNbBlocks * cmd.wBlockSize
    let cnt := (n + K.SDMMC_DMADL_TRAN_LEN_MAX - 1) / K.SDMMC_DMADL_TRAN_LEN_MAX
    (∀ i, i < cnt →
        (o.hw.table_mem i).ATTR_VALID = true
        ∧ ((o.hw.table_mem i).ATTR_END = true ↔ i + 1 = cnt)
        ∧ (o.hw.table_mem i).ADDR = cmd.pData + i * K.SDMMC_DMADL_TRAN_LEN_MAX
        ∧ (i + 1 < cnt → (o.hw.table_mem i).LEN = Dma0Len.SDMMC_DMA0DL_LEN_MAX))
      ∧ (∀ i, cnt ≤ i → o.hw.table_mem i = hw.table_mem i)
      ∧ o.hw.trace = hw.trace
          ++ [Event.cache_clean_region set.table (cnt * K.SDMMC_DMADL_SIZE * 4)]
      ∧ ∑ i in Finset.range cnt, (o.hw.table_mem i).bytes K = n := by
  simp only [build_fill, Hw.emit, hcn, ceil_div_eq hlo hhi]
  refine ⟨?_, ?_, trivial, fill_bytes_sum K m n cmd.pData hw.table_mem hlo hhi hn hbn⟩
  · intro i hi
    rw [fill_layout K m n cmd.pData hw.table_mem hlo hhi hn hbn i]
    by_cases h1 : i < m
    · have h2 : i + 1 ≠ m + 1 := by omega
      simp [h1, h2]
    · have h2 : i = m := by omega
      simp [h2]
  · intro i hi
    rw [fill_layout K m n cmd.pData hw.table_mem hlo hhi hn hbn i]
    rw [if_neg (by omega), if_neg (by omega)]

/-- C4: when `sdmmc_build_dma_table` returns Ok or Changed, with `N'` the block
count on return, `S <= L` the block size and `B` the buffer address (the buffer
lying inside the 32-bit address space): exactly `ceil (N' * S / L)` table
entries are written (the entries beyond are untouched and the cache clean
covers that many lines), every one is marked valid, the end-of-chain flag is
set on the last entry and on no other, entry `i` carries address `B + i * L`,
every entry but the last carries the maximum length, and the entry lengths
add up to `N' * S` bytes. -/
theorem build_table_layout (K : Hdr) (set : sdmmc_set) (cmd : sSdmmcCommand) (hw : Hw)
    (hL : K.SDMMC_DMADL_TRAN_LEN_MAX ≤ 65536)
    (hS1 : 1 ≤ cmd.wBlockSize) (hSL : cmd.wBlockSize ≤ K.SDMMC_DMADL_TRAN_LEN_MAX)
    (hN1 : 1 ≤ cmd.wNbBlocks) (hN : cmd.wNbBlocks < 65536)
    (hbuf : cmd.pData + cmd.wNbBlocks * cmd.wBlockSize ≤ 4294967296)
    (hrc : (sdmmc_build_dma_table K set cmd hw).rc = Rc.SDMMC_OK
      ∨ (sdmmc_build_dma_table K set cmd hw).rc = Rc.SDMMC_CHANGED) :
    let o := sdmmc_build_dma_table K set cmd hw
    let n := o.cmd.wNbBlocks * cmd.wBlockSize
    let cnt := (n + K.SDMMC_DMADL_TRAN_LEN_MAX - 1) / K.SDMMC_DMADL_TRAN_LEN_MAX
    (∀ i, i < cnt →
        (o.hw.table_mem i).ATTR_VALID = true
        ∧ ((o.hw.table_mem i).ATTR_END = true ↔ i + 1 = cnt)
        ∧ (o.hw.table_mem i).ADDR = cmd.pData + i * K.SDMMC_DMADL_TRAN_LEN_MAX
        ∧ (i + 1 < cnt → (o.hw.table_mem i).LEN = Dma0Len.SDMMC_DMA0DL_LEN_MAX))
      ∧ (∀ i, cnt ≤ i → o.hw.table_mem i = hw.table_mem i)
      ∧ o.hw.trace = hw.trace
          ++ [Event.cache_clean_region set.table (cnt * K.SDMMC_DMADL_SIZE * 4)]
      ∧ ∑ i in Finset.range cnt, (o.hw.table_mem i).bytes K = n := by
  have hL0 : 0 < K.SDMMC_DMADL_TRAN_LEN_MAX := by omega
  have hal := build_success_aligned K set cmd hw hrc
  have hS : cmd.wBlockSize ≤ 65536 := by omega
  have hb := mul_u16_bound hN hS
  by_cases hbig : set.table_size * K.SDMMC_DMADL_TRAN_LEN_MAX < cmd.wNbBlocks * cmd.wBlockSize
  · have htr := build_truncates K set cmd hw hL0 hL hal hN1 hN hS1 hS hbig
    by_cases hq0 : set.table_size * K.SDMMC_DMADL_TRAN_LEN_MAX / cmd.wBlockSize = 0
    · rw [htr, if_pos hq0] at hrc
      rcases hrc with h1 | h1 <;> cases h1
    · rw [if_neg hq0] at htr
      have hqs : set.table_size * K.SDMMC_DMADL_TRAN_LEN_MAX / cmd.wBlockSize * cmd.wBlockSize
          ≤ set.table_size * K.SDMMC_DMADL_TRAN_LEN_MAX := Nat.div_mul_le_self _ _
      have hqlt : set.table_size * K.SDMMC_DMADL_TRAN_LEN_MAX
          < (set.table_size * K.SDMMC_DMADL_TRAN_LEN_MAX / cmd.wBlockSize + 1) * cmd.wBlockSize :=
        (Nat.div_lt_iff_lt_mul hS1).mp (Nat.lt_succ_self _)
      have hC0 : set.table_size ≠ 0 := by
        intro h0
        rw [h0] at hq0
        simp at hq0
      obtain ⟨m, hm⟩ := Nat.exists_eq_succ_of_ne_zero hC0
      rw [hm] at htr hqs hqlt hbig
      rw [Nat.succ_eq_add_one] at htr hqs hqlt hbig
      rw [htr]
      generalize (m + 1) * K.SDMMC_DMADL_TRAN_LEN_MAX / cmd.wBlockSize = q at hqs hqlt ⊢
      have hsm : (m + 1) * K.SDMMC_DMADL_TRAN_LEN_MAX
          = m * K.SDMMC_DMADL_TRAN_LEN_MAX + K.SDMMC_DMADL_TRAN_LEN_MAX := Nat.succ_mul _ _
      have hsq : (q + 1) * cmd.wBlockSize = q * cmd.wBlockSize + cmd.wBlockSize :=
        Nat.succ_mul _ _
      exact build_fill_layout K set cmd hw m (q * cmd.wBlockSize) { cmd with wNbBlocks := q }
        Rc.SDMMC_CHANGED (by omega) (by omega) (by omega) (by omega) rfl
  · have hfit : cmd.wNbBlocks * cmd.wBlockSize
        ≤ set.table_size * K.SDMMC_DMADL_TRAN_LEN_MAX := by omega
    have h1 : 1 ≤ cmd.wNbBlocks * cmd.wBlockSize := Nat.mul_pos hN1 hS1
    have hc1 : 1 ≤ (cmd.wNbBlocks * cmd.wBlockSize - 1 + K.SDMMC_DMADL_TRAN_LEN_MAX)
        / K.SDMMC_DMADL_TRAN_LEN_MAX :=
      (Nat.le_div_iff_mul_le hL0).mpr (by omega)
    have hlo := Nat.div_mul_le_self
      (cmd.wNbBlocks * cmd.wBlockSize - 1 + K.SDMMC_DMADL_TRAN_LEN_MAX)
      K.SDMMC_DMADL_TRAN_LEN_MAX
    have hhi : cmd.wNbBlocks * cmd.wBlockSize - 1 + K.SDMMC_DMADL_TRAN_LEN_MAX
        < ((cmd.wNbBlocks * cmd.wBlockSize - 1 + K.SDMMC_DMADL_TRAN_LEN_MAX)
            / K.SDMMC_DMADL_TRAN_LEN_MAX + 1) * K.SDMMC_DMADL_TRAN_LEN_MAX :=
      (Nat.div_lt_iff_lt_mul hL0).mp (Nat.lt_succ_self _)
    rw [build_fits K set cmd hw hL0 hL hal hN1 hN hS1 hS hfit]
    obtain ⟨m, hm⟩ := Nat.exists_eq_succ_of_ne_zero (Nat.one_le_iff_ne_zero.mp hc1)
    rw [hm] at hlo hhi ⊢
    rw [Nat.succ_eq_add_one] at hlo hhi ⊢
    have hsm : (m + 1) * K.SDMMC_DMADL_TRAN_LEN_MAX
        = m * K.SDMMC_DMADL_TRAN_LEN_MAX + K.SDMMC_DMADL_TRAN_LEN_MAX := Nat.succ_mul _ _
    have hsm2 : (m + 1 + 1) * K.SDMMC_DMADL_TRAN_LEN_MAX
        = (m + 1) * K.SDMMC_DMADL_TRAN_LEN_MAX + K.SDMMC_DMADL_TRAN_LEN_MAX := Nat.succ_mul _ _
    exact build_fill_layout K set cmd hw m (cmd.wNbBlocks * cmd.wBlockSize) cmd Rc.SDMMC_OK
      (by omega) (by omega) (by omega) hbuf rfl

/-- C4, witness: 200 blocks of 512 bytes on a table of four 65536-byte lines. -/
theorem build_table_layout_witness :
    (∀ i, i < ((((sdmmc_build_dma_table exHdr exSet4 exCmd exHw).cmd.wNbBlocks * exCmd.wBlockSize) + exHdr.SDMMC_DMADL_TRAN_LEN_MAX - 1) / exHdr.SDMMC_DMADL_TRAN_LEN_MAX) →
        ((sdmmc_build_dma_table exHdr exSet4 exCmd exHw).hw.table_mem i).ATTR_VALID = true
        ∧ (((sdmmc_build_dma_table exHdr exSet4 exCmd exHw).hw.table_mem i).ATTR_END = true
            ↔ i + 1 = ((((sdmmc_build_dma_table exHdr exSet4 exCmd exHw).cmd.wNbBlocks * exCmd.wBlockSize) + exHdr.SDMMC_DMADL_TRAN_LEN_MAX - 1) / exHdr.SDMMC_DMADL_TRAN_LEN_MAX))
        ∧ ((sdmmc_build_dma_table exHdr exSet4 exCmd exHw).hw.table_mem i).ADDR
            = exCmd.pData + i * exHdr.SDMMC_DMADL_TRAN_LEN_MAX
        ∧ (i + 1 < ((((sdmmc_build_dma_table exHdr exSet4 exCmd exHw).cmd.wNbBlocks * exCmd.wBlockSize) + exHdr.SDMMC_DMADL_TRAN_LEN_MAX - 1) / exHdr.SDMMC_DMADL_TRAN_LEN_MAX) →
            ((sdmmc_build_dma_table exHdr exSet4 exCmd exHw).hw.table_mem i).LEN = Dma0Len.SDMMC_DMA0DL_LEN_MAX))
      ∧ (∀ i, ((((sdmmc_build_dma_table exHdr exSet4 exCmd exHw).cmd.wNbBlocks * exCmd.wBlockSize) + exHdr.SDMMC_DMADL_TRAN_LEN_MAX - 1) / exHdr.SDMMC_DMADL_TRAN_LEN_MAX) ≤ i →
          (sdmmc_build_dma_table exHdr exSet4 exCmd exHw).hw.table_mem i = exHw.table_mem i)
      ∧ (sdmmc_build_dma_table exHdr exSet4 exCmd exHw).hw.trace = exHw.trace
          ++ [Event.cache_clean_region exSet4.table
                (((((sdmmc_build_dma_table exHdr exSet4 exCmd exHw).cmd.wNbBlocks * exCmd.wBlockSize) + exHdr.SDMMC_DMADL_TRAN_LEN_MAX - 1) / exHdr.SDMMC_DMADL_TRAN_LEN_MAX) * exHdr.SDMMC_DMADL_SIZE * 4)]
      ∧ ∑ i in Finset.range ((((sdmmc_build_dma_table exHdr exSet4 exCmd exHw).cmd.wNbBlocks * exCmd.wBlockSize) + exHdr.SDMMC_DMADL_TRAN_LEN_MAX - 1) / exHdr.SDMMC_DMADL_TRAN_LEN_MAX),
          ((sdmmc_build_dma_table exHdr exSet4 exCmd exHw).hw.table_mem i).bytes exHdr = ((sdmmc_build_dma_table exHdr exSet4 exCmd exHw).cmd.wNbBlocks * exCmd.wBlockSize) :=
  build_table_layout exHdr exSet4 exCmd exHw (by decide) (by decide)
    (by decide) (by decide) (by decide) (by decide) (by decide)

/-- C5: whenever `sdmmc_build_dma_table` returns Changed (for `L` at most
`2 ^ 16` and 16-bit block size and count), the new block count is
`N' = floor (C * L / S)`, that is `N' * S <= C * L < (N' + 1) * S`; and, a
block being no longer than a line (`S <= L`, which the 16-bit block size
gives for the line of `2 ^ 16` bytes), the `C` descriptors start at
`B + i * L`, carry the end-of-chain flag on the last one only, leave the other
entries untouched and add up to exactly `N' * S` bytes. -/
theorem build_truncation_largest (K : Hdr) (set : sdmmc_set) (cmd : sSdmmcCommand) (hw : Hw)
    (hL0 : 0 < K.SDMMC_DMADL_TRAN_LEN_MAX) (hL : K.SDMMC_DMADL_TRAN_LEN_MAX ≤ 65536)
    (hS1 : 1 ≤ cmd.wBlockSize) (hS : cmd.wBlockSize < 65536)
    (hN1 : 1 ≤ cmd.wNbBlocks) (hN : cmd.wNbBlocks < 65536)
    (hbuf : cmd.pData + cmd.wNbBlocks * cmd.wBlockSize ≤ 4294967296)
    (hrc : (sdmmc_build_dma_table K set cmd hw).rc = Rc.SDMMC_CHANGED) :
    let o := sdmmc_build_dma_table K set cmd hw
    o.cmd.wNbBlocks = set.table_size * K.SDMMC_DMADL_TRAN_LEN_MAX / cmd.wBlockSize
      ∧ o.cmd.wNbBlocks * cmd.wBlockSize ≤ set.table_size * K.SDMMC_DMADL_TRAN_LEN_MAX
      ∧ set.table_size * K.SDMMC_DMADL_TRAN_LEN_MAX < (o.cmd.wNbBlocks + 1) * cmd.wBlockSize
      ∧ (cmd.wBlockSize ≤ K.SDMMC_DMADL_TRAN_LEN_MAX →
          (∀ i, i < set.table_size →
            (o.hw.table_mem i).ADDR = cmd.pData + i * K.SDMMC_DMADL_TRAN_LEN_MAX
            ∧ ((o.hw.table_mem i).ATTR_END = true ↔ i + 1 = set.table_size))
          ∧ (∀ i, set.table_size ≤ i → o.hw.table_mem i = hw.table_mem i)
          ∧ ∑ i in Finset.range set.table_size, (o.hw.table_mem i).bytes K
              = o.cmd.wNbBlocks * cmd.wBlockSize) := by
  have hal := build_success_aligned K set cmd hw (Or.inr hrc)
  have hS' : cmd.wBlockSize ≤ 65536 := by omega
  have hb := mul_u16_bound hN hS'
  by_cases hbig : set.table_size * K.SDMMC_DMADL_TRAN_LEN_MAX < cmd.wNbBlocks * cmd.wBlockSize
  · have htr := build_truncates K set cmd hw hL0 hL hal hN1 hN hS1 hS' hbig
    by_cases hq0 : set.table_size * K.SDMMC_DMADL_TRAN_LEN_MAX / cmd.wBlockSize = 0
    · rw [htr, if_pos hq0] at hrc
      cases hrc
    · rw [if_neg hq0] at htr
      have hqs : set.table_size * K.SDMMC_DMADL_TRAN_LEN_MAX / cmd.wBlockSize * cmd.wBlockSize
          ≤ set.table_size * K.SDMMC_DMADL_TRAN_LEN_MAX := Nat.div_mul_le_self _ _
      have hqlt : set.table_size * K.SDMMC_DMADL_TRAN_LEN_MAX
          < (set.table_size * K.SDMMC_DMADL_TRAN_LEN_MAX / cmd.wBlockSize + 1) * cmd.wBlockSize :=
        (Nat.div_lt_iff_lt_mul hS1).mp (Nat.lt_succ_self _)
      have hC0 : set.table_size ≠ 0 := by
        intro h0
        rw [h0] at hq0
        simp at hq0
      obtain ⟨m, hm⟩ := Nat.exists_eq_succ_of_ne_zero hC0
      rw [hm] at htr hqs hqlt hbig ⊢
      rw [Nat.succ_eq_add_one] at htr hqs hqlt hbig ⊢
      rw [htr]
      generalize (m + 1) * K.SDMMC_DMADL_TRAN_LEN_MAX / cmd.wBlockSize = q at hqs hqlt ⊢
      have hsm : (m + 1) * K.SDMMC_DMADL_TRAN_LEN_MAX
          = m * K.SDMMC_DMADL_TRAN_LEN_MAX + K.SDMMC_DMADL_TRAN_LEN_MAX := Nat.succ_mul _ _
      have hsq : (q + 1) * cmd.wBlockSize = q * cmd.wBlockSize + cmd.wBlockSize :=
        Nat.succ_mul _ _
      refine ⟨rfl, hqs, hqlt, ?_⟩
      intro hSL
      have hlo : m * K.SDMMC_DMADL_TRAN_LEN_MAX < q * cmd.wBlockSize := by omega
      have hhi : q * cmd.wBlockSize ≤ (m + 1) * K.SDMMC_DMADL_TRAN_LEN_MAX := hqs
      have key := build_fill_layout K set cmd hw m (q * cmd.wBlockSize)
        { cmd with wNbBlocks := q } Rc.SDMMC_CHANGED hlo hhi (by omega) (by omega) rfl
      simp only [] at key
      have hcnt : ((build_fill K set { cmd with wNbBlocks := q } hw Rc.SDMMC_CHANGED (m + 1)
          cmd.pData (u32 (cmd.pData + q * cmd.wBlockSize))).cmd.wNbBlocks * cmd.wBlockSize
            + K.SDMMC_DMADL_TRAN_LEN_MAX - 1) / K.SDMMC_DMADL_TRAN_LEN_MAX = m + 1 :=
        ceil_div_eq hlo hhi
      rw [hcnt] at key
      exact ⟨fun i hi => ⟨(key.1 i hi).2.2.1, (key.1 i hi).2.1⟩, key.2.1, key.2.2.2⟩
  · have hfit : cmd.wNbBlocks * cmd.wBlockSize
        ≤ set.table_size * K.SDMMC_DMADL_TRAN_LEN_MAX := by omega
    rw [build_fits K set cmd hw hL0 hL hal hN1 hN hS1 hS' hfit] at hrc
    cases hrc

/-- C5, witness: 200 blocks of 512 bytes on a table of one
65536-byte line are cut to 128 blocks. -/
theorem build_truncation_largest_witness :
    (sdmmc_build_dma_table exHdr exSet exCmd exHw).cmd.wNbBlocks
        = exSet.table_size * exHdr.SDMMC_DMADL_TRAN_LEN_MAX / exCmd.wBlockSize
      ∧ (sdmmc_build_dma_table exHdr exSet exCmd exHw).cmd.wNbBlocks * exCmd.wBlockSize
          ≤ exSet.table_size * exHdr.SDMMC_DMADL_TRAN_LEN_MAX
      ∧ exSet.table_size * exHdr.SDMMC_DMADL_TRAN_LEN_MAX
          < ((sdmmc_build_dma_table exHdr exSet exCmd exHw).cmd.wNbBlocks + 1) * exCmd.wBlockSize
      ∧ (exCmd.wBlockSize ≤ exHdr.SDMMC_DMADL_TRAN_LEN_MAX →
          (∀ i, i < exSet.table_size →
            ((sdmmc_build_dma_table exHdr exSet exCmd exHw).hw.table_mem i).ADDR = exCmd.pData + i * exHdr.SDMMC_DMADL_TRAN_LEN_MAX
            ∧ (((sdmmc_build_dma_table exHdr exSet exCmd exHw).hw.table_mem i).ATTR_END = true ↔ i + 1 = exSet.table_size))
          ∧ (∀ i, exSet.table_size ≤ i → (sdmmc_build_dma_table exHdr exSet exCmd exHw).hw.table_mem i = exHw.table_mem i)
          ∧ ∑ i in Finset.range exSet.table_size, ((sdmmc_build_dma_table exHdr exSet exCmd exHw).hw.table_mem i).bytes exHdr
              = (sdmmc_build_dma_table exHdr exSet exCmd exHw).cmd.wNbBlocks * exCmd.wBlockSize) :=
  build_truncation_largest exHdr exSet exCmd exHw (by decide) (by decide) (by decide)
    (by decide) (by decide) (by decide) (by decide) (by decide)

/-! ## Claims on the event resolver -/

/-- Reading the first response does not change the driver state. -/
theorem get_response_first_state (set : sdmmc_set) (cmd : sSdmmcCommand) (out : Nat → Nat)
    (hw : Hw) : (get_response_first set cmd out hw).set.state = set.state := by
  unfold get_response_first
  split
  · rfl
  · split <;> rfl

/-- `sdmmc_get_response` does not change the driver state. -/
theorem sdmmc_get_response_state (set : sdmmc_set) (cmd : sSdmmcCommand) (complete : Bool)
    (out : Nat → Nat) (hw : Hw) :
    (sdmmc_get_response set cmd complete out hw).set.state = set.state := by
  unfold sdmmc_get_response
  simp only []
  repeat' split
  all_goals first | rfl | exact get_response_first_state _ _ _ _

/-- Retrieving the response keeps the command status, its index and the driver state. -/
theorem poll_get_response_keeps (st : PollSt) (complete : Bool) :
    (poll_get_response st complete).cmd.bStatus = st.cmd.bStatus
      ∧ (poll_get_response st complete).cmd.bCmd = st.cmd.bCmd
      ∧ (poll_get_response st complete).set.state = st.set.state := by
  unfold poll_get_response
  split
  · exact ⟨rfl, rfl, rfl⟩
  · exact ⟨rfl, rfl, sdmmc_get_response_state _ _ _ _ _⟩

/-- The Command Complete block never fails and keeps status, index and state. -/
theorem poll_cmdc_keeps (st : PollSt) :
    (poll_cmdc st).isFail = false
      ∧ (poll_cmdc st).st.cmd.bStatus = st.cmd.bStatus
      ∧ (poll_cmdc st).st.cmd.bCmd = st.cmd.bCmd
      ∧ (poll_cmdc st).st.set.state = st.set.state := by
  unfold poll_cmdc
  split
  · simp only []
    split
    · refine ⟨rfl, ?_⟩
      simp only [Flow.st]
      exact poll_get_response_keeps _ _
    · refine ⟨rfl, ?_⟩
      simp only [Flow.st]
      exact poll_get_response_keeps _ _
  · exact ⟨rfl, rfl, rfl, rfl⟩

/-- The read block keeps status and state unless it fails, and then the state is Error. -/
theorem poll_brdrdy_keeps (st : PollSt) :
    (poll_brdrdy st).st.cmd.bCmd = st.cmd.bCmd
      ∧ ((poll_brdrdy st).isFail = false →
          (poll_brdrdy st).st.cmd.bStatus = st.cmd.bStatus
          ∧ (poll_brdrdy st).st.set.state = st.set.state)
      ∧ ((poll_brdrdy st).isFail = true → (poll_brdrdy st).st.set.state = Mcid.MCID_ERROR) := by
  unfold poll_brdrdy
  split
  · simp only []
    split
    · simp [Flow.st, Flow.isFail]
    · simp [Flow.st, Flow.isFail]
  · simp [Flow.st, Flow.isFail]

/-- The write block keeps the command and the driver state. -/
theorem poll_bwrrdy_keeps (st : PollSt) :
    (poll_bwrrdy st).cmd = st.cmd ∧ (poll_bwrrdy st).set.state = st.set.state := by
  unfold poll_bwrrdy
  split
  · exact ⟨rfl, rfl⟩
  · exact ⟨rfl, rfl⟩

/-- The first part of the Transfer Complete block keeps status, index and state. -/
theorem poll_trfc_release_keeps (st : PollSt) :
    (poll_trfc_release st).cmd.bStatus = st.cmd.bStatus
      ∧ (poll_trfc_release st).cmd.bCmd = st.cmd.bCmd
      ∧ (poll_trfc_release st).set.state = st.set.state := by
  unfold poll_trfc_release
  simp only []
  split
  · split
    · have h := poll_get_response_keeps
        { set := { ({ st.set with expect_auto_end := true } : sdmmc_set) with
                   dat_lines_released := true },
          cmd := st.cmd,
          hw := (st.hw.emit (Event.wr_TC_CCR { CLKEN := true, SWTRG := true })).emit
            (Event.wr_NISTR { Nistr.zero with TRFC := true }),
          events := { st.events with TRFC := false } } true
      exact h
    · exact ⟨rfl, rfl, rfl⟩
  · split
    · have h := poll_get_response_keeps
        { set := { st.set with dat_lines_released := true },
          cmd := st.cmd,
          hw := st.hw.emit (Event.wr_NISTR { Nistr.zero with TRFC := true }),
          events := { st.events with TRFC := false } } true
      exact h
    · exact ⟨rfl, rfl, rfl⟩

/-- The Transfer Complete block keeps status and state unless it fails, and then the
state is Error. -/
theorem poll_trfc_keeps (st : PollSt) :
    (poll_trfc st).st.cmd.bCmd = st.cmd.bCmd
      ∧ ((poll_trfc st).isFail = false →
          (poll_trfc st).st.cmd.bStatus = st.cmd.bStatus
          ∧ (poll_trfc st).st.set.state = st.set.state)
      ∧ ((poll_trfc st).isFail = true → (poll_trfc st).st.set.state = Mcid.MCID_ERROR) := by
  have hk := poll_trfc_release_keeps st
  unfold poll_trfc
  split
  · simp only []
    split
    · exact ⟨hk.2.1, fun h => by simp [Flow.isFail] at h, fun _ => rfl⟩
    · split
      · exact ⟨hk.2.1, fun _ => ⟨hk.1, hk.2.2⟩, fun h => by simp [Flow.isFail] at h⟩
      · exact ⟨hk.2.1, fun _ => ⟨hk.1, hk.2.2⟩, fun h => by simp [Flow.isFail] at h⟩
  · exact ⟨rfl, fun _ => ⟨rfl, rfl⟩, fun h => by simp [Flow.isFail] at h⟩


/-- The error block sets the state to Locked for CMD12 and to Error otherwise. -/
theorem poll_errint_state (st : PollSt) :
    (poll_errint st).cmd.bCmd = st.cmd.bCmd
      ∧ ((poll_errint st).set.state = Mcid.MCID_ERROR
          ∨ ((poll_errint st).set.state = Mcid.MCID_LOCKED ∧ st.cmd.bCmd = 12)) := by
  unfold poll_errint
  simp only []
  refine ⟨trivial, ?_⟩
  by_cases h : st.cmd.bCmd = 12
  · right; simp [h]
  · left; simp [h]

/-- What one pass of the resolver does to the command status and the driver state. -/
theorem poll_pass_keeps (st : PollSt) :
    (poll_pass st).st.cmd.bCmd = st.cmd.bCmd
      ∧ ((poll_pass st).isFail = false →
          (poll_pass st).st.cmd.bStatus = st.cmd.bStatus
          ∧ (poll_pass st).st.set.state = st.set.state)
      ∧ ((poll_pass st).isFail = true →
          (poll_pass st).st.set.state = Mcid.MCID_ERROR
          ∨ ((poll_pass st).st.set.state = Mcid.MCID_LOCKED ∧ st.cmd.bCmd = 12)) := by
  unfold poll_pass
  split
  · have h := poll_errint_state st
    exact ⟨h.1, fun h2 => by simp [Flow.isFail] at h2, fun _ => h.2⟩
  · split
    · have h := poll_get_response_keeps st true
      exact ⟨h.2.1, fun _ => ⟨h.1, h.2.2⟩, fun h2 => by simp [Flow.isFail] at h2⟩
    · have hc := poll_cmdc_keeps st
      cases hf : poll_cmdc st with
      | fail st1 => rw [hf] at hc; simp [Flow.isFail] at hc
      | succeed st1 =>
        rw [hf] at hc
        simp only [Flow.bind]
        exact ⟨hc.2.2.1, fun _ => ⟨hc.2.1, hc.2.2.2⟩, fun h2 => by simp [Flow.isFail] at h2⟩
      | cont st1 =>
        rw [hf] at hc
        simp only [Flow.bind, Flow.st] at hc ⊢
        have hb := poll_brdrdy_keeps st1
        cases hg : poll_brdrdy st1 with
        | fail st2 =>
          rw [hg] at hb
          simp only [Flow.st, Flow.isFail] at hb ⊢
          exact ⟨hb.1.trans hc.2.2.1, fun h2 => by simp at h2, fun _ => Or.inl (hb.2.2 trivial)⟩
        | succeed st2 =>
          rw [hg] at hb
          simp only [Flow.st, Flow.isFail] at hb ⊢
          exact ⟨hb.1.trans hc.2.2.1,
            fun _ => ⟨((hb.2.1 trivial).1).trans hc.2.1, ((hb.2.1 trivial).2).trans hc.2.2.2⟩,
            fun h2 => by simp at h2⟩
        | cont st2 =>
          rw [hg] at hb
          simp only [Flow.st, Flow.isFail] at hb ⊢
          have hw := poll_bwrrdy_keeps st2
          have ht := poll_trfc_keeps (poll_bwrrdy st2)
          rw [hw.1, hw.2] at ht
          refine ⟨ht.1.trans (hb.1.trans hc.2.2.1), ?_, ?_⟩
          · intro h2
            have h3 := ht.2.1 h2
            exact ⟨h3.1.trans (((hb.2.1 trivial).1).trans hc.2.1),
              h3.2.trans (((hb.2.1 trivial).2).trans hc.2.2.2)⟩
          · intro h2
            exact Or.inl (ht.2.2 h2)


/-- The code from the label `End` on keeps the driver state and releases the command. -/
theorem poll_end_out (st : PollSt) :
    (poll_end st).set.state = st.set.state ∧ (poll_end st).done = some st.cmd
      ∧ (poll_end st).set.cmd = none :=
  ⟨rfl, rfl, rfl⟩

/-- One round of the fetch loop: a command that had status Ok or Changed is
either released with that status, or released in state Error (Locked for
CMD12 after a hardware error), or kept in flight with its status. -/
theorem poll_round_keeps (v : Nistr) (set : sdmmc_set) (cmd : sSdmmcCommand) (hw : Hw)
    (hst : cmd.bStatus = Rc.SDMMC_OK ∨ cmd.bStatus = Rc.SDMMC_CHANGED) :
    (∀ o, poll_round v set cmd hw = Round.done o →
      ∃ c, o.done = some c ∧ o.set.cmd = none
        ∧ ((c.bStatus = Rc.SDMMC_OK ∨ c.bStatus = Rc.SDMMC_CHANGED)
            ∨ o.set.state = Mcid.MCID_ERROR
            ∨ (o.set.state = Mcid.MCID_LOCKED ∧ cmd.bCmd = 12)))
    ∧ (∀ s c h, poll_round v set cmd hw = Round.again s c h →
      (c.bStatus = Rc.SDMMC_OK ∨ c.bStatus = Rc.SDMMC_CHANGED) ∧ c.bCmd = cmd.bCmd) := by
  have hk := poll_pass_keeps
    { set := set, cmd := cmd, hw := (poll_fetch set hw v).2, events := (poll_fetch set hw v).1 }
  unfold poll_round
  simp only []
  by_cases hz : (poll_fetch set hw v).1.isZero = true
  · rw [if_pos hz]
    exact ⟨fun o h => (by cases h), fun s c h hh => (by cases hh)⟩
  · rw [if_neg hz]
    cases hf : poll_pass
        { set := set, cmd := cmd, hw := (poll_fetch set hw v).2,
          events := (poll_fetch set hw v).1 } with
    | fail st =>
      rw [hf] at hk
      simp only [Flow.st, Flow.isFail] at hk
      refine ⟨?_, fun s c h hh => by cases hh⟩
      intro o ho
      have ho2 : poll_end st = o := Round.done.inj ho
      subst ho2
      exact ⟨st.cmd, rfl, rfl, Or.inr (hk.2.2 trivial)⟩
    | succeed st =>
      rw [hf] at hk
      simp only [Flow.st, Flow.isFail] at hk
      refine ⟨?_, fun s c h hh => by cases hh⟩
      intro o ho
      have ho2 : poll_end { st with set := { st.set with state := Mcid.MCID_LOCKED } } = o :=
        Round.done.inj ho
      subst ho2
      refine ⟨st.cmd, rfl, rfl, Or.inl ?_⟩
      rw [(hk.2.1 trivial).1]
      exact hst
    | cont st =>
      rw [hf] at hk
      simp only [Flow.st, Flow.isFail] at hk
      refine ⟨fun o h => (by cases h), ?_⟩
      intro s c h hh
      injection hh with e1 e2 e3
      subst e2
      refine ⟨?_, hk.1⟩
      rw [(hk.2.1 trivial).1]
      exact hst

/-- The fetch loop on an exhausted event stream. -/
theorem poll_loop_nil (set : sdmmc_set) (cmd : sSdmmcCommand) (hw : Hw) :
    poll_loop [] set cmd hw =
      match poll_round Nistr.zero set cmd hw with
      | Round.idle hw1 => { set := { set with cmd := some cmd }, hw := hw1, done := none }
      | Round.done o => o
      | Round.again set1 cmd1 hw1 =>
        { set := { set1 with cmd := some cmd1 }, hw := hw1, done := none } :=
  rfl

/-- The fetch loop on a pending event word. -/
theorem poll_loop_cons (v : Nistr) (rest : List Nistr) (set : sdmmc_set) (cmd : sSdmmcCommand)
    (hw : Hw) :
    poll_loop (v :: rest) set cmd hw =
      match poll_round v set cmd { hw with NISTR := rest } with
      | Round.idle hw1 => { set := { set with cmd := some cmd }, hw := hw1, done := none }
      | Round.done o => o
      | Round.again set1 cmd1 hw1 => poll_loop rest set1 cmd1 hw1 :=
  rfl

/-- The fetch loop releases a command with an error status only in state Error,
or in state Locked when the command is CMD12. -/
theorem poll_loop_error_state :
    ∀ (l : List Nistr) (set : sdmmc_set) (cmd : sSdmmcCommand) (hw : Hw),
      (cmd.bStatus = Rc.SDMMC_OK ∨ cmd.bStatus = Rc.SDMMC_CHANGED) →
      ∀ c, (poll_loop l set cmd hw).done = some c →
        c.bStatus ≠ Rc.SDMMC_OK → c.bStatus ≠ Rc.SDMMC_CHANGED →
        (poll_loop l set cmd hw).set.cmd = none
          ∧ ((poll_loop l set cmd hw).set.state = Mcid.MCID_ERROR
            ∨ ((poll_loop l set cmd hw).set.state = Mcid.MCID_LOCKED ∧ cmd.bCmd = 12)) := by
  intro l
  induction l with
  | nil =>
    intro set cmd hw hst c hd h1 h2
    have hr := poll_round_keeps Nistr.zero set cmd hw hst
    rw [poll_loop_nil] at hd ⊢
    cases hf : poll_round Nistr.zero set cmd hw with
    | idle hw1 =>
      rw [hf] at hd
      have hd2 : (none : Option sSdmmcCommand) = some c := hd
      cases hd2
    | again s1 c1 hw1 =>
      rw [hf] at hd
      have hd2 : (none : Option sSdmmcCommand) = some c := hd
      cases hd2
    | done o =>
      rw [hf] at hd
      obtain ⟨c2, hc2, hn, hcase⟩ := hr.1 o hf
      have hd2 : o.done = some c := hd
      rw [hc2] at hd2
      have hcc : c2 = c := Option.some.inj hd2
      subst hcc
      refine ⟨hn, ?_⟩
      rcases hcase with h | h
      · rcases h with h | h
        · exact absurd h h1
        · exact absurd h h2
      · exact h
  | cons v rest ih =>
    intro set cmd hw hst c hd h1 h2
    have hr := poll_round_keeps v set cmd { hw with NISTR := rest } hst
    rw [poll_loop_cons] at hd ⊢
    cases hf : poll_round v set cmd { hw with NISTR := rest } with
    | idle hw1 =>
      rw [hf] at hd
      have hd2 : (none : Option sSdmmcCommand) = some c := hd
      cases hd2
    | again s1 c1 hw1 =>
      rw [hf] at hd
      have hr2 := hr.2 s1 c1 hw1 hf
      have hd2 : (poll_loop rest s1 c1 hw1).done = some c := hd
      have h := ih s1 c1 hw1 hr2.1 c hd2 h1 h2
      rw [hr2.2] at h
      exact h
    | done o =>
      rw [hf] at hd
      obtain ⟨c2, hc2, hn, hcase⟩ := hr.1 o hf
      have hd2 : o.done = some c := hd
      rw [hc2] at hd2
      have hcc : c2 = c := Option.some.inj hd2
      subst hcc
      refine ⟨hn, ?_⟩
      rcases hcase with h | h
      · rcases h with h | h
        · exact absurd h h1
        · exact absurd h h2
      · exact h

/-- The fetch step returns the value read from `NISTR`, possibly with the software event. -/
theorem poll_fetch_events (set : sdmmc_set) (hw : Hw) (v : Nistr) :
    (poll_fetch set hw v).1 = v ∨ (poll_fetch set hw v).1 = { v with CUSTOM_EVT := true } := by
  unfold poll_fetch
  simp only []
  repeat' split
  all_goals first | exact Or.inl rfl | exact Or.inr rfl

/-- Once the event stream is exhausted, a round of the fetch loop either finds
no event or ends the command through the software event: it never asks for
another fetch. -/
theorem poll_round_zero_not_again (set : sdmmc_set) (cmd : sSdmmcCommand) (hw : Hw)
    (s : sdmmc_set) (c : sSdmmcCommand) (h : Hw) :
    poll_round Nistr.zero set cmd hw ≠ Round.again s c h := by
  intro heq
  unfold poll_round at heq
  simp only [] at heq
  by_cases hz : (poll_fetch set hw Nistr.zero).1.isZero = true
  · rw [if_pos hz] at heq
    cases heq
  · rw [if_neg hz] at heq
    have hev : (poll_fetch set hw Nistr.zero).1 = { Nistr.zero with CUSTOM_EVT := true } := by
      rcases poll_fetch_events set hw Nistr.zero with h0 | h0
      · rw [h0] at hz
        exact absurd (by decide : Nistr.zero.isZero = true) hz
      · exact h0
    have hp : poll_pass
        { set := set, cmd := cmd, hw := (poll_fetch set hw Nistr.zero).2,
          events := (poll_fetch set hw Nistr.zero).1 }
        = Flow.succeed (poll_get_response
            { set := set, cmd := cmd, hw := (poll_fetch set hw Nistr.zero).2,
              events := (poll_fetch set hw Nistr.zero).1 } true) := by
      unfold poll_pass
      simp only [hev]
      rfl
    rw [hp] at heq
    cases heq

/-- A session that holds its command is not changed by writing the command back. -/
theorem set_cmd_same (set : sdmmc_set) (c : sSdmmcCommand) (h : set.cmd = some c) :
    { set with cmd := some c } = set := by
  cases set
  simp only [sdmmc_set.mk.injEq] at h ⊢
  simp_all

/-- In polling mode, a poll that finds no event leaves the session unchanged. -/
theorem poll_no_event (set : sdmmc_set) (hw : Hw) (c : sSdmmcCommand)
    (hstate : set.state = Mcid.MCID_CMD) (hcmd : set.cmd = some c)
    (hpoll : set.use_polling = true) (hauto : set.expect_auto_end = false)
    (hz : (hw.NISTR.headD Nistr.zero).isZero = true) :
    (sdmmc_poll set hw).set = set := by
  have hp : sdmmc_poll set hw = poll_loop hw.NISTR set c hw := by
    unfold sdmmc_poll
    simp [hstate, hcmd]
  rw [hp]
  cases hl : hw.NISTR with
  | nil =>
    rw [poll_loop_nil]
    have hr : poll_round Nistr.zero set c hw = Round.idle hw := by
      unfold poll_round poll_fetch
      simp only [hpoll, hauto]
      simp
      intro h
      have h0 : Nistr.zero.isZero = true := by decide
      rw [h0] at h
      cases h
    rw [hr]
    exact set_cmd_same set c hcmd
  | cons v rest =>
    rw [hl] at hz
    rw [poll_loop_cons]
    have hr : poll_round v set c { hw with NISTR := rest }
        = Round.idle { hw with NISTR := rest } := by
      have hz2 : v.isZero = true := hz
      unfold poll_round poll_fetch
      simp only [hpoll, hauto]
      simp
      intro h
      rw [hz2] at h
      cases h
    rw [hr]
    exact set_cmd_same set c hcmd

/-- C2, as stated, fails: CMD13 in flight ends with a command timeout, the status
is NoResponse, and when `sdmmc_poll` returns the session state is Error, not
Locked. -/
theorem poll_error_leaves_error_state :
    exSetStatus.state = Mcid.MCID_CMD
      ∧ (sdmmc_poll exSetStatus exHwTimeout).done.map (fun c => c.bStatus)
          = some Rc.SDMMC_NO_RESPONSE
      ∧ (sdmmc_poll exSetStatus exHwTimeout).set.state = Mcid.MCID_ERROR
      ∧ (sdmmc_poll exSetStatus exHwTimeout).set.state ≠ Mcid.MCID_LOCKED := by
  decide

/-- C2, amended: for every in-flight command (carrying the status Ok or Changed
that issue gave it) that `sdmmc_poll` terminates with a status other than Ok
or Changed, the session no longer references a command when `sdmmc_poll`
returns and its state is Error or Locked, Locked only when the failing command
is CMD12; in particular it is never CommandInFlight. -/
theorem poll_error_state (set : sdmmc_set) (hw : Hw) (cmd done : sSdmmcCommand)
    (hstate : set.state = Mcid.MCID_CMD) (hcmd : set.cmd = some cmd)
    (hst : cmd.bStatus = Rc.SDMMC_OK ∨ cmd.bStatus = Rc.SDMMC_CHANGED)
    (hdone : (sdmmc_poll set hw).done = some done)
    (h1 : done.bStatus ≠ Rc.SDMMC_OK) (h2 : done.bStatus ≠ Rc.SDMMC_CHANGED) :
    (sdmmc_poll set hw).set.cmd = none
      ∧ ((sdmmc_poll set hw).set.state = Mcid.MCID_ERROR
        ∨ ((sdmmc_poll set hw).set.state = Mcid.MCID_LOCKED ∧ cmd.bCmd = 12)) := by
  have hp : sdmmc_poll set hw = poll_loop hw.NISTR set cmd hw := by
    unfold sdmmc_poll
    simp [hstate, hcmd]
  rw [hp] at hdone ⊢
  exact poll_loop_error_state hw.NISTR set cmd hw hst done hdone h1 h2


/-- C2, witness of the amended claim: CMD13 ends with a command timeout. -/
theorem poll_error_state_witness :
    (sdmmc_poll exSetStatus exHwTimeout).set.cmd = none
      ∧ ((sdmmc_poll exSetStatus exHwTimeout).set.state = Mcid.MCID_ERROR
        ∨ ((sdmmc_poll exSetStatus exHwTimeout).set.state = Mcid.MCID_LOCKED
            ∧ exCmdStatus.bCmd = 12)) :=
  poll_error_state exSetStatus exHwTimeout exCmdStatus
    { exCmdStatus with bStatus := Rc.SDMMC_NO_RESPONSE }
    (by decide) rfl (by decide) rfl (by decide) (by decide)

/-! ## Claims on the dispatcher -/

/-- The busy test on a session with no command in flight. -/
theorem is_busy_not_cmd (set : sdmmc_set) (hw : Hw) (h : set.state ≠ Mcid.MCID_CMD) :
    sdmmc_is_busy set hw = { busy := false, set := set, hw := hw, done := none } := by
  unfold sdmmc_is_busy sdmmc_poll
  by_cases hp : set.use_polling = true <;> simp [hp, h]

/-- The busy test in interrupt mode does not touch the session or the hardware. -/
theorem is_busy_irq (set : sdmmc_set) (hw : Hw) (h : set.use_polling = false) :
    sdmmc_is_busy set hw
      = { busy := set.state == Mcid.MCID_CMD, set := set, hw := hw, done := none } := by
  unfold sdmmc_is_busy
  simp [h]

/-- A data-bearing command is not a stop-transfer command. -/
theorem has_data_not_stop (cmd : sSdmmcCommand) (h : has_data cmd = true) :
    (cmd.cmdOp.xfrData == XfrData.SDMMC_CMD_STOPXFR) = false := by
  unfold has_data at h
  cases hx : cmd.cmdOp.xfrData <;> simp_all

/-- The DMA preparation block passes on the builder's code and command. -/
theorem prepare_dma_eq_build (K : Hdr) (set : sdmmc_set) (cmd : sSdmmcCommand) (hw : Hw)
    (c : SendLocals) (hd : c.has_data = true) (hu : c.use_dma = true) :
    (send_prepare_dma K c set cmd hw).rc = (sdmmc_build_dma_table K set cmd hw).rc
      ∧ (send_prepare_dma K c set cmd hw).cmd = (sdmmc_build_dma_table K set cmd hw).cmd := by
  unfold send_prepare_dma
  simp only [hd, hu, Bool.and_self, if_true]
  split
  · exact ⟨rfl, rfl⟩
  · split
    · exact ⟨rfl, rfl⟩
    · split <;> exact ⟨rfl, rfl⟩

/-- The descriptor builder does not read any register: the event stream is untouched. -/
theorem build_NISTR (K : Hdr) (set : sdmmc_set) (cmd : sSdmmcCommand) (hw : Hw) :
    (sdmmc_build_dma_table K set cmd hw).hw.NISTR = hw.NISTR := by
  unfold sdmmc_build_dma_table
  simp only []
  repeat' split
  all_goals rfl

/-- The DMA preparation block does not read any register: the event stream is untouched. -/
theorem prepare_dma_NISTR (K : Hdr) (c : SendLocals) (set : sdmmc_set) (cmd : sSdmmcCommand)
    (hw : Hw) : (send_prepare_dma K c set cmd hw).hw.NISTR = hw.NISTR := by
  unfold send_prepare_dma
  simp only []
  repeat' split
  all_goals first | rfl | exact build_NISTR K set cmd hw

/-- In polling mode, a poll that finds no event reads `NISTR` once and does
nothing else. -/
theorem poll_no_event_out (set : sdmmc_set) (hw : Hw) (c : sSdmmcCommand)
    (hstate : set.state = Mcid.MCID_CMD) (hcmd : set.cmd = some c)
    (hpoll : set.use_polling = true) (hauto : set.expect_auto_end = false)
    (hz : (hw.NISTR.headD Nistr.zero).isZero = true) :
    sdmmc_poll set hw
      = { set := set, hw := { hw with NISTR := hw.NISTR.tail }, done := none } := by
  have hp : sdmmc_poll set hw = poll_loop hw.NISTR set c hw := by
    unfold sdmmc_poll
    simp [hstate, hcmd]
  rw [hp]
  cases hl : hw.NISTR with
  | nil =>
    rw [poll_loop_nil]
    have hr : poll_round Nistr.zero set c hw = Round.idle hw := by
      unfold poll_round poll_fetch
      simp only [hpoll, hauto]
      simp
      intro h
      have h0 : Nistr.zero.isZero = true := by decide
      rw [h0] at h
      cases h
    rw [hr]
    simp only [List.tail_nil]
    rw [set_cmd_same set c hcmd, ← hl]
  | cons v rest =>
    rw [hl] at hz
    rw [poll_loop_cons]
    have hr : poll_round v set c { hw with NISTR := rest }
        = Round.idle { hw with NISTR := rest } := by
      have hz2 : v.isZero = true := hz
      unfold poll_round poll_fetch
      simp only [hpoll, hauto]
      simp
      intro h
      rw [hz2] at h
      cases h
    rw [hr]
    simp only [List.tail_cons]
    rw [set_cmd_same set c hcmd]

/-- The timer preparation completes when its divisors are not zero. -/
theorem send_timer_some (c : SendLocals) (set : sdmmc_set) (hw : Hw)
    (h1 : c.has_data = true → c.stop_xfer_suffix = true → 114 ≤ set.dev_freq)
    (h2 : c.wait_switch = true → 8 ≤ set.dev_freq) :
    ∃ hw1, send_timer c set hw = some hw1 := by
  unfold send_timer
  split
  · rename_i h
    have h' : c.has_data = true ∧ c.stop_xfer_suffix = true := by simpa using h
    have h114 := h1 h'.1 h'.2
    have hne : ¬ set.dev_freq / (2 + 64 + 48) = 0 := by
      show ¬ set.dev_freq / 114 = 0
      omega
    rw [if_neg hne]
    exact ⟨_, rfl⟩
  · split
    · rename_i h
      have h8 := h2 h
      have hne : ¬ set.dev_freq / 8 = 0 := by omega
      rw [if_neg hne]
      exact ⟨_, rfl⟩
    · exact ⟨_, rfl⟩

/-- The timer preparation, when it completes, writes at most the compare
register of the timer. -/
theorem send_timer_cases (c : SendLocals) (set : sdmmc_set) (hw hw1 : Hw)
    (h : send_timer c set hw = some hw1) :
    hw1 = hw ∨ ∃ v, hw1 = hw.emit (Event.wr_TC_RC v) := by
  unfold send_timer at h
  split at h
  · split at h
    · cases h
    · cases h
      exact Or.inr ⟨_, rfl⟩
  · split at h
    · split at h
      · cases h
      · cases h
        exact Or.inr ⟨_, rfl⟩
    · cases h
      exact Or.inl rfl

/-- The timer preparation is not entered by a command that neither ends with a
stop command nor waits for a function switch. -/
theorem send_timer_skip (c : SendLocals) (set : sdmmc_set) (hw : Hw)
    (h1 : c.stop_xfer_suffix = false) (h2 : c.wait_switch = false) :
    send_timer c set hw = some hw := by
  unfold send_timer
  simp [h1, h2]

/-- The outcome of the launch part, when it completes. -/
theorem send_launch_some (c : SendLocals) (set : sdmmc_set) (cmd : sSdmmcCommand) (hw : Hw)
    (rc : Rc) (l : sdmmc_set × sSdmmcCommand × Hw) (h : send_launch c set cmd hw rc = some l) :
    ∃ hw3, send_timer c set (send_program c set cmd hw).2 = some hw3
      ∧ l = ({ set with
               state := Mcid.MCID_CMD, cmd := some { cmd with bStatus := rc }, resp_len := 0,
               blk_index := 0, cmd_line_released := false, dat_lines_released := false,
               expect_auto_end := false },
             { cmd with bStatus := rc },
             send_unmask set (send_program c set cmd hw).1.eister hw3) := by
  unfold send_launch at h
  simp only [] at h
  split at h
  · cases h
  · rename_i hw3 ht
    cases h
    exact ⟨hw3, ht, rfl⟩

/-- The launch part completes when the timer preparation does. -/
theorem send_launch_of_timer (c : SendLocals) (set : sdmmc_set) (cmd : sSdmmcCommand) (hw : Hw)
    (rc : Rc) (hw3 : Hw) (h : send_timer c set (send_program c set cmd hw).2 = some hw3) :
    send_launch c set cmd hw rc
      = some ({ set with
                state := Mcid.MCID_CMD, cmd := some { cmd with bStatus := rc }, resp_len := 0,
                blk_index := 0, cmd_line_released := false, dat_lines_released := false,
                expect_auto_end := false },
              { cmd with bStatus := rc },
              send_unmask set (send_program c set cmd hw).1.eister hw3) := by
  unfold send_launch
  simp only [h]

/-- The busy test of `sdmmc_send_command` finds the session of the caller,
unless the descriptor builder has resized the command in flight. -/
theorem send_alias_other (set : sdmmc_set) (cmd : sSdmmcCommand) (b : BuildOut)
    (h : ¬ (b.rc = Rc.SDMMC_CHANGED ∧ send_same set cmd = true)) :
    send_alias set cmd b = set := by
  unfold send_alias
  rw [if_neg h]

/-- The write of the block count touches only the command of the session. -/
theorem send_alias_eq (set : sdmmc_set) (cmd : sSdmmcCommand) (b : BuildOut) :
    send_alias set cmd b = { set with cmd := (send_alias set cmd b).cmd } := by
  unfold send_alias
  split <;> rfl

/-- The write of the block count keeps a session that holds no command. -/
theorem send_alias_none (set : sdmmc_set) (cmd : sSdmmcCommand) (b : BuildOut)
    (h : set.cmd = none) : send_alias set cmd b = set := by
  apply send_alias_other
  intro hh
  have := hh.2
  simp [send_same, h] at this

/-- The caller's command after the busy test is the command that the
descriptor builder left, up to its buffers and its status. -/
theorem send_object_eq (set : sdmmc_set) (cmd : sSdmmcCommand) (b : BuildOut) (busy : BusyOut) :
    ∃ d p s, send_object set cmd b busy
      = { b.cmd with data := d, pResp := p, bStatus := s } := by
  unfold send_object
  split
  · split
    · exact ⟨_, _, _, rfl⟩
    · split
      · split
        · exact ⟨_, _, _, rfl⟩
        · exact ⟨b.cmd.data, b.cmd.pResp, b.cmd.bStatus, rfl⟩
      · exact ⟨b.cmd.data, b.cmd.pResp, b.cmd.bStatus, rfl⟩
  · exact ⟨b.cmd.data, b.cmd.pResp, b.cmd.bStatus, rfl⟩

/-- With no command in flight, the caller's command after the busy test is the
command that the descriptor builder left. -/
theorem send_object_idle (set : sdmmc_set) (cmd : sSdmmcCommand) (b : BuildOut) (s : sdmmc_set)
    (hw : Hw) :
    send_object set cmd b { busy := false, set := s, hw := hw, done := none } = b.cmd := by
  unfold send_object
  split <;> rfl

/-- The busy test of `sdmmc_send_command` on a session with no command in
flight. -/
theorem send_busy_idle (set : sdmmc_set) (cmd : sSdmmcCommand) (b : BuildOut)
    (h : set.state ≠ Mcid.MCID_CMD) :
    sdmmc_is_busy (send_alias set cmd b) b.hw
      = { busy := false, set := send_alias set cmd b, hw := b.hw, done := none } := by
  apply is_busy_not_cmd
  rw [send_alias_eq]
  exact h

/-- The session that the launch part leaves does not depend on the command that
the session held. -/
theorem send_alias_launch (set : sdmmc_set) (cmd : sSdmmcCommand) (b : BuildOut)
    (c1 : sSdmmcCommand) :
    ({ send_alias set cmd b with
       state := Mcid.MCID_CMD, cmd := some c1, resp_len := 0, blk_index := 0,
       cmd_line_released := false, dat_lines_released := false, expect_auto_end := false }
      : sdmmc_set)
      = { set with
          state := Mcid.MCID_CMD, cmd := some c1, resp_len := 0, blk_index := 0,
          cmd_line_released := false, dat_lines_released := false, expect_auto_end := false } := by
  rw [send_alias_eq]

/-- A launched command carries the status Ok or Changed: when `sdmmc_send_command`
returns Ok for a command that is not the power-on pseudo-command, the session
holds the command in flight and the status of the command is Ok or Changed. -/
theorem send_command_launch_status (K : Hdr) (set : sdmmc_set) (cmd : sSdmmcCommand) (hw : Hw)
    (o : SendOut) (ho : sdmmc_send_command K set cmd hw = some o)
    (hpow : cmd.cmdOp.powerON = false)
    (hrc : o.rc = Rc.SDMMC_OK) :
    o.set.state = Mcid.MCID_CMD
      ∧ o.set.cmd = some o.cmd
      ∧ (o.cmd.bStatus = Rc.SDMMC_OK ∨ o.cmd.bStatus = Rc.SDMMC_CHANGED) := by
  unfold sdmmc_send_command at ho
  simp only [] at ho
  split at ho
  · cases ho; cases hrc
  · split at ho
    · cases ho; cases hrc
    · split at ho
      · cases ho; cases hrc
      · split at ho
        · rename_i h
          rw [hpow] at h
          cases h
        · split at ho
          · cases ho; cases hrc
          · split at ho
            · cases ho; cases hrc
            · split at ho
              · rename_i h
                cases ho
                exact absurd hrc h.1
              · split at ho
                · cases ho; cases hrc
                · rename_i h7 _
                  split at ho
                  · cases ho
                  · rename_i l hl
                    cases ho
                    obtain ⟨hw3, _, hl2⟩ := send_launch_some _ _ _ _ _ _ hl
                    subst hl2
                    refine ⟨rfl, rfl, ?_⟩
                    show (send_prepare_dma K (send_locals K set cmd) set cmd hw).rc
                        = Rc.SDMMC_OK
                      ∨ (send_prepare_dma K (send_locals K set cmd) set cmd hw).rc
                          = Rc.SDMMC_CHANGED
                    by_cases hok :
                        (send_prepare_dma K (send_locals K set cmd) set cmd hw).rc
                          = Rc.SDMMC_OK
                    · exact Or.inl hok
                    · right
                      by_contra hch
                      exact h7 ⟨hok, hch⟩

/-- C6: for every DMA-eligible data-bearing command (send-command flag set,
power-on flag clear) whose buffer address is not a multiple of 4, issued on a
session that is not Off and has a descriptor table configured,
`sdmmc_send_command` returns Param and leaves the session, the command (block
count and status included), the descriptor table and the hardware, with its
trace of register writes, unchanged.  This holds whether or not the other data
fields are valid. -/
theorem send_command_misaligned (K : Hdr) (set : sdmmc_set) (cmd : sSdmmcCommand) (hw : Hw)
    (hstate : set.state ≠ Mcid.MCID_OFF)
    (hsend : cmd.cmdOp.sendCmd = true) (hpow : cmd.cmdOp.powerON = false)
    (hdata : has_data cmd = true)
    (htable : set.table ≠ 0)
    (h21 : cmd.bCmd ≠ 21 ∨ set.tim_mode ≥ K.SDMMC_TIM_SD_DS)
    (h19 : cmd.bCmd ≠ 19 ∨ set.tim_mode < K.SDMMC_TIM_SD_DS)
    (hmis : cmd.pData % 4 ≠ 0) :
    sdmmc_send_command K set cmd hw
      = some { rc := Rc.SDMMC_PARAM, set := set, cmd := cmd, hw := hw, done := none } := by
  have hstop := has_data_not_stop cmd hdata
  have hdma : (send_locals K set cmd).use_dma = true := by
    simp only [send_locals]
    rcases h21 with h21 | h21 <;> rcases h19 with h19 | h19 <;> simp [htable, h21, h19]
  have hprep : send_prepare_dma K (send_locals K set cmd) set cmd hw
      = { rc := Rc.SDMMC_PARAM, cmd := cmd, hw := hw } := by
    unfold send_prepare_dma
    rw [hdma]
    simp only [send_locals, hdata, Bool.and_self, if_true]
    rw [build_misaligned K set cmd hw hmis]
    simp
  unfold sdmmc_send_command
  simp only [hprep]
  simp [hstate, hsend, hpow, send_locals, hdata, hstop]

/-- C6, witness: a single-block read of 512 bytes into a buffer at address 8194. -/
theorem send_command_misaligned_witness :
    sdmmc_send_command exHdr exSet exCmdMisaligned exHw
      = some { rc := Rc.SDMMC_PARAM, set := exSet, cmd := exCmdMisaligned, hw := exHw,
               done := none } :=
  send_command_misaligned exHdr exSet exCmdMisaligned exHw (by decide) (by decide)
    (by decide) (by decide) (by decide) (by decide) (by decide) (by decide)

/-- C9, as stated, fails for a power-on pseudo-command that carries a data
direction: with a read direction and a block count of 0, on an idle session
with the device clock enabled, `sdmmc_send_command` returns Ok after the
settle delay, not Param. -/
theorem send_command_power_on_ignores_data :
    exSet.state ≠ Mcid.MCID_OFF
      ∧ has_data exCmdPowerOnRx = true
      ∧ exCmdPowerOnRx.wNbBlocks = 0
      ∧ (sdmmc_send_command exHdr exSet exCmdPowerOnRx exHw).map (fun o => (o.rc, o.hw.trace))
          = some (Rc.SDMMC_OK, [Event.timer_usleep 200]) := by
  decide

/-- C9, amended: for every data-bearing command that is not a power-on
pseudo-command (power-on flag clear), issued on a session that is not Off: if
its block count is 0, its block size is 0, its block size exceeds the
session's maximum block size, or its buffer is null, `sdmmc_send_command`
returns Param and changes neither the session, nor the command, nor the
hardware (no register is written). -/
theorem send_command_invalid_data (K : Hdr) (set : sdmmc_set) (cmd : sSdmmcCommand) (hw : Hw)
    (hstate : set.state ≠ Mcid.MCID_OFF)
    (hpow : cmd.cmdOp.powerON = false)
    (hdata : has_data cmd = true)
    (hbad : cmd.wNbBlocks = 0 ∨ cmd.wBlockSize = 0 ∨ cmd.wBlockSize > set.blk_size
      ∨ cmd.pData = 0) :
    sdmmc_send_command K set cmd hw
      = some { rc := Rc.SDMMC_PARAM, set := set, cmd := cmd, hw := hw, done := none } := by
  have hstop := has_data_not_stop cmd hdata
  unfold sdmmc_send_command
  cases hs : cmd.cmdOp.sendCmd
  · simp [hstate, hpow, hs]
  · by_cases h1 : cmd.wNbBlocks = 0 ∨ cmd.wBlockSize = 0 ∨ cmd.pData = 0
    · simp [hstate, hpow, hs, send_locals, hdata, hstop, h1]
    · have h2 : cmd.wBlockSize > set.blk_size := by
        rcases hbad with h | h | h | h
        · exact absurd (Or.inl h) h1
        · exact absurd (Or.inr (Or.inl h)) h1
        · exact h
        · exact absurd (Or.inr (Or.inr h)) h1
      simp [hstate, hpow, hs, send_locals, hdata, hstop, h1, h2]

/-- C9, witness of the amended claim: a read with a block count of zero. -/
theorem send_command_invalid_data_witness :
    sdmmc_send_command exHdr exSet exCmdNoBlocks exHw
      = some { rc := Rc.SDMMC_PARAM, set := exSet, cmd := exCmdNoBlocks, hw := exHw,
               done := none } :=
  send_command_invalid_data exHdr exSet exCmdNoBlocks exHw (by decide) (by decide)
    (by decide) (Or.inl (by decide))

/-- C10, as stated, fails when the device clock is not enabled: on a session
that is not Off with `dev_freq = 0`, the power-on pseudo-command returns State
and no delay is performed. -/
theorem send_command_power_on_no_clock :
    ({ exSet with dev_freq := 0 } : sdmmc_set).state ≠ Mcid.MCID_OFF
      ∧ (sdmmc_send_command exHdr { exSet with dev_freq := 0 } exCmdPowerOn exHw).map
            (fun o => (o.rc, o.hw.trace))
          = some (Rc.SDMMC_STATE, []) := by
  decide

/-- C10, amended: for every power-on pseudo-command (power-on flag set,
send-command flag clear, not an inconsistent abort) issued on a session that
is not Off and whose device clock is enabled (`dev_freq` not 0),
`sdmmc_send_command` performs the 200 microsecond delay and returns Ok; the
session and the command are unchanged and the delay is the only action added
to the trace, so no register is read or written. -/
theorem send_command_power_on (K : Hdr) (set : sdmmc_set) (cmd : sSdmmcCommand) (hw : Hw)
    (hstate : set.state ≠ Mcid.MCID_OFF)
    (hpow : cmd.cmdOp.powerON = true) (hsend : cmd.cmdOp.sendCmd = false)
    (habort : ¬ (cmd.cmdOp.xfrData = XfrData.SDMMC_CMD_STOPXFR ∧ cmd.bCmd ≠ 12 ∧ cmd.bCmd ≠ 52))
    (hclk : set.dev_freq ≠ 0) :
    sdmmc_send_command K set cmd hw
      = some { rc := Rc.SDMMC_OK, set := set, cmd := cmd,
               hw := { hw with trace := hw.trace ++ [Event.timer_usleep 200] },
               done := none } := by
  unfold sdmmc_send_command
  simp only [send_locals, beq_iff_eq]
  rw [if_neg hstate, if_neg (by simp [hpow, hsend]), if_neg habort, if_pos hpow, if_neg hclk]
  rfl

/-- C10, witness of the amended claim: power-on on an idle session clocked at 400 kHz. -/
theorem send_command_power_on_witness :
    sdmmc_send_command exHdr exSet exCmdPowerOn exHw
      = some { rc := Rc.SDMMC_OK, set := exSet, cmd := exCmdPowerOn,
               hw := { exHw with trace := exHw.trace ++ [Event.timer_usleep 200] },
               done := none } :=
  send_command_power_on exHdr exSet exCmdPowerOn exHw (by decide) (by decide) (by decide)
    (by decide) (by decide)

/-- C7, as stated, fails: a valid DMA read of 200 blocks of 512 bytes on a
table of one 65536-byte line, issued on an idle session, is launched and
`sdmmc_send_command` returns Ok, not Changed; Changed is stored in the status
of the command. -/
theorem send_command_truncated_returns_ok :
    exCmd.wNbBlocks * exCmd.wBlockSize > exSet.table_size * exHdr.SDMMC_DMADL_TRAN_LEN_MAX
      ∧ (sdmmc_send_command exHdr exSet exCmd exHw).map
            (fun o => (o.rc, o.cmd.bStatus, o.cmd.wNbBlocks))
          = some (Rc.SDMMC_OK, Rc.SDMMC_CHANGED, 128) := by
  decide

/-- C7, amended: for every valid, DMA-eligible data-bearing command with a
word-aligned buffer whose byte length exceeds `table_capacity * max_line_bytes`
while one block fits the table, issued on a session that is not Off and not
busy and whose device clock gives the timer preparation a divisor other than
zero (`dev_freq >= 114` for CMD18 and CMD25 sent without a block count prefix,
`dev_freq >= 8` for a function switch), `sdmmc_send_command` returns: it
launches the command and returns Ok; Changed is recorded as the status of the
command, whose block count is reduced to a value that fits the table, and the
session holds the command in flight. -/
theorem send_command_truncated (K : Hdr) (set : sdmmc_set) (cmd : sSdmmcCommand) (hw : Hw)
    (hL : K.SDMMC_DMADL_TRAN_LEN_MAX ≤ 65536)
    (hstate : set.state ≠ Mcid.MCID_OFF) (hidle : set.state ≠ Mcid.MCID_CMD)
    (hsend : cmd.cmdOp.sendCmd = true) (hpow : cmd.cmdOp.powerON = false)
    (hdata : has_data cmd = true)
    (hN1 : 1 ≤ cmd.wNbBlocks) (hN : cmd.wNbBlocks < 65536)
    (hS1 : 1 ≤ cmd.wBlockSize) (hS : cmd.wBlockSize < 65536)
    (hSmax : cmd.wBlockSize ≤ set.blk_size)
    (hbuf : cmd.pData ≠ 0) (hal : cmd.pData % 4 = 0)
    (htable : set.table ≠ 0)
    (h21 : cmd.bCmd ≠ 21 ∨ set.tim_mode ≥ K.SDMMC_TIM_SD_DS)
    (h19 : cmd.bCmd ≠ 19 ∨ set.tim_mode < K.SDMMC_TIM_SD_DS)
    (hbig : cmd.wNbBlocks * cmd.wBlockSize > set.table_size * K.SDMMC_DMADL_TRAN_LEN_MAX)
    (hfit : cmd.wBlockSize ≤ set.table_size * K.SDMMC_DMADL_TRAN_LEN_MAX)
    (hsuffix : cmd.bCmd = 18 ∨ cmd.bCmd = 25 → set.use_set_blk_cnt = false →
      114 ≤ set.dev_freq)
    (hswitch : wait_switch cmd = true → 8 ≤ set.dev_freq) :
    ∃ o, sdmmc_send_command K set cmd hw = some o
      ∧ o.rc = Rc.SDMMC_OK
      ∧ o.cmd.bStatus = Rc.SDMMC_CHANGED
      ∧ 1 ≤ o.cmd.wNbBlocks
      ∧ o.cmd.wNbBlocks < cmd.wNbBlocks
      ∧ o.cmd.wNbBlocks * cmd.wBlockSize ≤ set.table_size * K.SDMMC_DMADL_TRAN_LEN_MAX
      ∧ o.set.state = Mcid.MCID_CMD
      ∧ o.set.cmd = some o.cmd := by
  have hb := build_truncation_spec K set cmd hw hL hal hS1 hS hN1 hN hbig hfit
  have hdma : (send_locals K set cmd).use_dma = true := by
    simp only [send_locals]
    rcases h21 with h21 | h21 <;> rcases h19 with h19 | h19 <;> simp [htable, h21, h19]
  have hhd : (send_locals K set cmd).has_data = true := hdata
  have hp := prepare_dma_eq_build K set cmd hw (send_locals K set cmd) hhd hdma
  have hstop := has_data_not_stop cmd hdata
  have hv : ¬ (cmd.wNbBlocks = 0 ∨ cmd.wBlockSize = 0 ∨ cmd.pData = 0) := by
    intro h
    rcases h with h | h | h
    · omega
    · omega
    · exact hbuf h
  have hrc : (send_prepare_dma K (send_locals K set cmd) set cmd hw).rc = Rc.SDMMC_CHANGED := by
    rw [hp.1]; exact hb.1
  have ht1 : (send_locals K set cmd).has_data = true →
      (send_locals K set cmd).stop_xfer_suffix = true → 114 ≤ set.dev_freq := by
    intro _ h
    have h' : (cmd.bCmd = 18 ∨ cmd.bCmd = 25) ∧ set.use_set_blk_cnt = false := by
      simpa [send_locals] using h
    exact hsuffix h'.1 h'.2
  obtain ⟨hw3, ht⟩ := send_timer_some (send_locals K set cmd) (send_alias set cmd
    (send_prepare_dma K (send_locals K set cmd) set cmd hw))
    (send_program (send_locals K set cmd) (send_alias set cmd
      (send_prepare_dma K (send_locals K set cmd) set cmd hw))
      (send_prepare_dma K (send_locals K set cmd) set cmd hw).cmd
      (send_prepare_dma K (send_locals K set cmd) set cmd hw).hw).2
    (by rw [send_alias_eq]; exact ht1) (by rw [send_alias_eq]; exact hswitch)
  have hl := send_launch_of_timer _ _ _ _ Rc.SDMMC_CHANGED _ ht
  obtain ⟨l, hl1, hl2⟩ : ∃ l, send_launch (send_locals K set cmd)
      (send_alias set cmd (send_prepare_dma K (send_locals K set cmd) set cmd hw))
      (send_prepare_dma K (send_locals K set cmd) set cmd hw).cmd
      (send_prepare_dma K (send_locals K set cmd) set cmd hw).hw Rc.SDMMC_CHANGED = some l
      ∧ (l.2.1 = { (send_prepare_dma K (send_locals K set cmd) set cmd hw).cmd with
                   bStatus := Rc.SDMMC_CHANGED }
        ∧ l.1.state = Mcid.MCID_CMD ∧ l.1.cmd = some l.2.1) := ⟨_, hl, rfl, rfl, rfl⟩
  have hab : ¬ ((send_locals K set cmd).stop_xfer = true ∧ cmd.bCmd ≠ 12 ∧ cmd.bCmd ≠ 52) := by
    intro h
    have h1 := h.1
    simp [send_locals, hstop] at h1
  have hv1 : ¬ ((send_locals K set cmd).has_data = true
      ∧ (cmd.wNbBlocks = 0 ∨ cmd.wBlockSize = 0 ∨ cmd.pData = 0)) := fun h => hv h.2
  have hv2 : ¬ ((send_locals K set cmd).has_data = true ∧ cmd.wBlockSize > set.blk_size) := by
    intro h
    have := h.2
    omega
  have hnb : ¬ ((send_prepare_dma K (send_locals K set cmd) set cmd hw).rc ≠ Rc.SDMMC_OK
      ∧ (send_prepare_dma K (send_locals K set cmd) set cmd hw).rc ≠ Rc.SDMMC_CHANGED) :=
    fun h => h.2 hrc
  have hout : sdmmc_send_command K set cmd hw
      = some { rc := Rc.SDMMC_OK, set := l.1, cmd := l.2.1, hw := l.2.2, done := none } := by
    unfold sdmmc_send_command
    simp only []
    rw [if_neg hstate, if_neg (by simp [hpow, hsend]), if_neg hab, if_neg (by simp [hpow]),
      if_neg hv1, if_neg hv2, if_neg hnb, send_busy_idle _ _ _ hidle]
    simp only [Bool.false_eq_true, if_false, send_object_idle, hrc, hl1]
  refine ⟨_, hout, rfl, ?_, ?_, ?_, ?_, hl2.2.1, hl2.2.2⟩
  · show l.2.1.bStatus = Rc.SDMMC_CHANGED
    rw [hl2.1]
  · show 1 ≤ l.2.1.wNbBlocks
    rw [hl2.1]
    show 1 ≤ (send_prepare_dma K (send_locals K set cmd) set cmd hw).cmd.wNbBlocks
    rw [hp.2]; exact hb.2.1
  · show l.2.1.wNbBlocks < cmd.wNbBlocks
    rw [hl2.1]
    show (send_prepare_dma K (send_locals K set cmd) set cmd hw).cmd.wNbBlocks < cmd.wNbBlocks
    rw [hp.2]; exact hb.2.2.1
  · show l.2.1.wNbBlocks * cmd.wBlockSize ≤ set.table_size * K.SDMMC_DMADL_TRAN_LEN_MAX
    rw [hl2.1]
    show (send_prepare_dma K (send_locals K set cmd) set cmd hw).cmd.wNbBlocks * cmd.wBlockSize
      ≤ set.table_size * K.SDMMC_DMADL_TRAN_LEN_MAX
    rw [hp.2]; exact hb.2.2.2

/-- C7, witness of the amended claim: 200 blocks of 512 bytes on a table of one
65536-byte line, with the device clocked at 400 kHz. -/
theorem send_command_truncated_witness :
    ∃ o, sdmmc_send_command exHdr exSet exCmd exHw = some o
      ∧ o.rc = Rc.SDMMC_OK
      ∧ o.cmd.bStatus = Rc.SDMMC_CHANGED
      ∧ 1 ≤ o.cmd.wNbBlocks
      ∧ o.cmd.wNbBlocks < exCmd.wNbBlocks
      ∧ o.cmd.wNbBlocks * exCmd.wBlockSize
          ≤ exSet.table_size * exHdr.SDMMC_DMADL_TRAN_LEN_MAX
      ∧ o.set.state = Mcid.MCID_CMD
      ∧ o.set.cmd = some o.cmd :=
  send_command_truncated exHdr exSet exCmd exHw (by decide) (by decide) (by decide)
    (by decide) (by decide) (by decide) (by decide) (by decide) (by decide) (by decide)
    (by decide) (by decide) (by decide) (by decide) (by decide) (by decide) (by decide)
    (by decide) (fun _ _ => by decide) (fun h => absurd h (by decide))

/-- Supplement to C7: with the device clock not enabled (`dev_freq = 0`) the
same read reaches the division `pclk / (dev_freq / 114)` of the timer
preparation, whose divisor is zero, and the call has no result. -/
theorem send_command_truncated_no_clock :
    ({ exSet with dev_freq := 0 } : sdmmc_set).state = Mcid.MCID_IDLE
      ∧ (sdmmc_send_command exHdr { exSet with dev_freq := 0 } exCmd exHw).isNone = true := by
  decide

/-- C1, as stated, fails for a command that does not pass validation: on a
session in interrupt mode with a command in flight, a command with neither the
power-on nor the send-command flag gets Param, not Busy. -/
theorem send_command_busy_invalid_cmd_param :
    exSetBusyIrq.state = Mcid.MCID_CMD
      ∧ (sdmmc_is_busy exSetBusyIrq exHw).busy = true
      ∧ (sdmmc_send_command exHdr exSetBusyIrq exCmdNoFlag exHw).map (fun o => o.rc)
          = some Rc.SDMMC_PARAM := by
  decide

/-- C1, amended: for every session in CommandInFlight, holding its command, and
every command that passes the checks made before the busy test (send-command
flag set, power-on flag clear, consistent abort, valid data fields, and a
descriptor build, when one is made, that returns Ok, or returns Changed for a
command that is not the object in flight): in interrupt mode, and in polling
mode when the poll step made by the busy test leaves the command in flight,
`sdmmc_send_command` returns Busy, launches nothing (it leaves the hardware as
the busy test left it) and leaves the session as the busy test left it.  In
interrupt mode the session (state, command in flight, resp_len, blk_index,
released flags) is unchanged and nothing is done to the hardware after the
preparation of the descriptors; in polling mode, when the poll step finds no
event, the session is unchanged, the only access to the hardware after the
preparation of the descriptors is the read of `NISTR`, and no command is
released. -/
theorem send_command_busy (K : Hdr) (set : sdmmc_set) (cmd inflight : sSdmmcCommand) (hw : Hw)
    (hstate : set.state = Mcid.MCID_CMD) (hcmd : set.cmd = some inflight)
    (hsend : cmd.cmdOp.sendCmd = true) (hpow : cmd.cmdOp.powerON = false)
    (habort : ¬ (cmd.cmdOp.xfrData = XfrData.SDMMC_CMD_STOPXFR ∧ cmd.bCmd ≠ 12 ∧ cmd.bCmd ≠ 52))
    (hvalid : has_data cmd = true →
      cmd.wNbBlocks ≠ 0 ∧ cmd.wBlockSize ≠ 0 ∧ cmd.pData ≠ 0 ∧ cmd.wBlockSize ≤ set.blk_size)
    (hbuild : (send_prepare_dma K (send_locals K set cmd) set cmd hw).rc = Rc.SDMMC_OK
      ∨ ((send_prepare_dma K (send_locals K set cmd) set cmd hw).rc = Rc.SDMMC_CHANGED
          ∧ inflight.addr ≠ cmd.addr))
    (hbusy : set.use_polling = true →
      (sdmmc_is_busy set (send_prepare_dma K (send_locals K set cmd) set cmd hw).hw).busy = true) :
    ∃ o, sdmmc_send_command K set cmd hw = some o
      ∧ o.rc = Rc.SDMMC_BUSY
      ∧ o.set
          = (sdmmc_is_busy set (send_prepare_dma K (send_locals K set cmd) set cmd hw).hw).set
      ∧ o.hw
          = (sdmmc_is_busy set (send_prepare_dma K (send_locals K set cmd) set cmd hw).hw).hw
      ∧ (set.use_polling = false →
          o.set = set ∧ o.hw = (send_prepare_dma K (send_locals K set cmd) set cmd hw).hw)
      ∧ (set.use_polling = true → set.expect_auto_end = false →
          (hw.NISTR.headD Nistr.zero).isZero = true →
          o.set = set
          ∧ o.hw = { (send_prepare_dma K (send_locals K set cmd) set cmd hw).hw with
                     NISTR := hw.NISTR.tail }
          ∧ o.done = none) := by
  have hal : send_alias set cmd (send_prepare_dma K (send_locals K set cmd) set cmd hw)
      = set := by
    apply send_alias_other
    intro h
    rcases hbuild with h1 | h1
    · rw [h1] at h
      exact absurd h.1 (by decide)
    · have h2 := h.2
      simp only [send_same, hcmd, beq_iff_eq] at h2
      exact h1.2 h2
  have hb : (sdmmc_is_busy set (send_prepare_dma K (send_locals K set cmd) set cmd hw).hw).busy
      = true := by
    by_cases hp : set.use_polling = true
    · exact hbusy hp
    · rw [is_busy_irq _ _ (by simpa using hp)]
      simp [hstate]
  have hoff : set.state ≠ Mcid.MCID_OFF := by rw [hstate]; decide
  have hv1 : ¬ ((send_locals K set cmd).has_data = true
      ∧ (cmd.wNbBlocks = 0 ∨ cmd.wBlockSize = 0 ∨ cmd.pData = 0)) := by
    intro h
    have := hvalid h.1
    rcases h.2 with h2 | h2 | h2
    · exact this.1 h2
    · exact this.2.1 h2
    · exact this.2.2.1 h2
  have hv2 : ¬ ((send_locals K set cmd).has_data = true ∧ cmd.wBlockSize > set.blk_size) := by
    intro h
    have := (hvalid h.1).2.2.2
    omega
  have hab : ¬ ((send_locals K set cmd).stop_xfer = true ∧ cmd.bCmd ≠ 12 ∧ cmd.bCmd ≠ 52) := by
    intro h
    apply habort
    refine ⟨?_, h.2⟩
    simpa [send_locals] using h.1
  have hnb : ¬ ((send_prepare_dma K (send_locals K set cmd) set cmd hw).rc ≠ Rc.SDMMC_OK
      ∧ (send_prepare_dma K (send_locals K set cmd) set cmd hw).rc ≠ Rc.SDMMC_CHANGED) := by
    intro h
    rcases hbuild with h1 | h1
    · exact h.1 h1
    · exact h.2 h1.1
  have hout : sdmmc_send_command K set cmd hw
      = some
        { rc := Rc.SDMMC_BUSY,
          set := (sdmmc_is_busy set
            (send_prepare_dma K (send_locals K set cmd) set cmd hw).hw).set,
          cmd := send_object set cmd (send_prepare_dma K (send_locals K set cmd) set cmd hw)
            (sdmmc_is_busy set (send_prepare_dma K (send_locals K set cmd) set cmd hw).hw),
          hw := (sdmmc_is_busy set
            (send_prepare_dma K (send_locals K set cmd) set cmd hw).hw).hw,
          done := (sdmmc_is_busy set
            (send_prepare_dma K (send_locals K set cmd) set cmd hw).hw).done } := by
    unfold sdmmc_send_command
    simp only []
    rw [if_neg hoff, if_neg (by simp [hpow, hsend]), if_neg hab, if_neg (by simp [hpow]),
      if_neg hv1, if_neg hv2, if_neg hnb, hal, if_pos hb]
  refine ⟨_, hout, rfl, rfl, rfl, ?_, ?_⟩
  · intro hp
    simp only [is_busy_irq _ _ hp]
    exact ⟨trivial, trivial⟩
  · intro hp hauto hz
    have hpo := poll_no_event_out set
      (send_prepare_dma K (send_locals K set cmd) set cmd hw).hw
      inflight hstate hcmd hp hauto (by rw [prepare_dma_NISTR]; exact hz)
    have hbo : sdmmc_is_busy set (send_prepare_dma K (send_locals K set cmd) set cmd hw).hw
        = { busy := set.state == Mcid.MCID_CMD, set := set,
            hw := { (send_prepare_dma K (send_locals K set cmd) set cmd hw).hw with
                    NISTR := hw.NISTR.tail },
            done := none } := by
      unfold sdmmc_is_busy
      simp only [hp, if_true, hpo, prepare_dma_NISTR]
    simp only [hbo]
    exact ⟨trivial, trivial, trivial⟩

/-- C1, witness of the amended claim: a DMA read with a command object of its
own, issued in polling mode while CMD18 is in flight and the hardware reports
no event. -/
theorem send_command_busy_witness :
    ∃ o, sdmmc_send_command exHdr exSetBusyPoll exCmdSecond exHw = some o
      ∧ o.rc = Rc.SDMMC_BUSY
      ∧ o.set
          = (sdmmc_is_busy exSetBusyPoll
              (send_prepare_dma exHdr (send_locals exHdr exSetBusyPoll exCmdSecond)
                exSetBusyPoll exCmdSecond exHw).hw).set
      ∧ o.hw
          = (sdmmc_is_busy exSetBusyPoll
              (send_prepare_dma exHdr (send_locals exHdr exSetBusyPoll exCmdSecond)
                exSetBusyPoll exCmdSecond exHw).hw).hw
      ∧ (exSetBusyPoll.use_polling = false →
          o.set = exSetBusyPoll
          ∧ o.hw = (send_prepare_dma exHdr (send_locals exHdr exSetBusyPoll exCmdSecond)
              exSetBusyPoll exCmdSecond exHw).hw)
      ∧ (exSetBusyPoll.use_polling = true → exSetBusyPoll.expect_auto_end = false →
          (exHw.NISTR.headD Nistr.zero).isZero = true →
          o.set = exSetBusyPoll
          ∧ o.hw = { (send_prepare_dma exHdr (send_locals exHdr exSetBusyPoll exCmdSecond)
                exSetBusyPoll exCmdSecond exHw).hw with NISTR := exHw.NISTR.tail }
          ∧ o.done = none) :=
  send_command_busy exHdr exSetBusyPoll exCmdSecond exCmd exHw (by decide) rfl (by decide)
    (by decide) (by decide) (fun _ => by decide) (Or.inr (by decide)) (fun _ => by decide)

/-- Supplement to C1: the descriptor table is prepared before the busy test.  A
DMA read issued in polling mode while CMD18 is in flight gets Busy, yet the
first line of the descriptor table has been rewritten, the block count of the
refused command has been cut to 128 and the cache maintenance calls have been
made. -/
theorem send_command_busy_rewrites_table :
    (exHw.table_mem 0).ATTR_VALID = false
      ∧ (sdmmc_send_command exHdr exSetBusyPoll exCmdSecond exHw).map
            (fun o => (o.rc, (o.hw.table_mem 0).ATTR_VALID, o.cmd.wNbBlocks, o.hw.trace))
          = some (Rc.SDMMC_BUSY, true, 128,
              [Event.cache_clean_region 4096 8, Event.cache_invalidate_region 1048576 65536]) := by
  decide

/-- Supplement to C1: the descriptor builder writes the block count before the
busy test.  When the command in flight itself, a read of 200 blocks, is passed
again on a table of one line, the call gets Busy and the block count of the
command in flight has been cut to 128. -/
theorem send_command_busy_resizes_in_flight :
    exSetBusyPoll.cmd.map (fun c => c.wNbBlocks) = some 200
      ∧ (sdmmc_send_command exHdr exSetBusyPoll exCmd exHw).map
            (fun o => (o.rc, o.set.state, o.set.cmd.map (fun c => (c.addr, c.wNbBlocks))))
          = some (Rc.SDMMC_BUSY, Mcid.MCID_CMD, some (exCmd.addr, 128)) := by
  decide

/-! ## Lemmas on the selected actions of the trace -/

/-- A property of both branches holds of the conditional. -/
theorem ite_prop {α : Type} (P : α → Prop) (c : Prop) [Decidable c] (a b : α)
    (ha : P a) (hb : P b) : P (if c then a else b) := by
  split <;> assumption

/-- The selected actions after one more action. -/
theorem sel_emit (cb cr : Bool) (hw : Hw) (e : Event) :
    (hw.emit e).sel cb cr = hw.sel cb cr ++ (if evsel cb cr e = true then [e] else []) := by
  by_cases h : evsel cb cr e = true
  · simp [Hw.sel, Hw.emit, List.filter_append, List.filter_cons, h]
  · simp [Hw.sel, Hw.emit, List.filter_append, List.filter_cons, h]

/-- An action outside the selection leaves the selected actions alone. -/
theorem sel_emit_other (cb cr : Bool) (hw : Hw) (e : Event) (h : evsel cb cr e = false) :
    (hw.emit e).sel cb cr = hw.sel cb cr := by
  rw [sel_emit, h]
  simp

/-- The response loop for R2 adds no selected action. -/
theorem r2_loop_sel (cb cr : Bool) (n ix : Nat) (out : Nat → Nat) (hw : Hw) :
    (r2_loop n ix out hw).2.sel cb cr = hw.sel cb cr := by
  induction n generalizing ix out hw with
  | zero => rfl
  | succ n ih =>
    unfold r2_loop
    simp only []
    rw [ih]
    rfl

/-- Reading the first response adds no selected action. -/
theorem get_response_first_sel (cb cr : Bool) (set : sdmmc_set) (cmd : sSdmmcCommand)
    (out : Nat → Nat) (hw : Hw) :
    (get_response_first set cmd out hw).hw.sel cb cr = hw.sel cb cr := by
  unfold get_response_first
  split
  · simp only []
    exact r2_loop_sel _ _ _ _ _ _
  · split <;> rfl

/-- `sdmmc_get_response` adds no selected action. -/
theorem sdmmc_get_response_sel (cb cr : Bool) (set : sdmmc_set) (cmd : sSdmmcCommand)
    (complete : Bool) (out : Nat → Nat) (hw : Hw) :
    (sdmmc_get_response set cmd complete out hw).hw.sel cb cr = hw.sel cb cr := by
  unfold sdmmc_get_response
  simp only []
  repeat' split
  all_goals first | rfl | exact get_response_first_sel _ _ _ _ _ _

/-- Retrieving the response keeps the callback and adds no selected action. -/
theorem poll_get_response_sel (cb cr : Bool) (st : PollSt) (complete : Bool) :
    (poll_get_response st complete).cmd.fCallback = st.cmd.fCallback
      ∧ (poll_get_response st complete).hw.sel cb cr = st.hw.sel cb cr := by
  unfold poll_get_response
  split
  · exact ⟨rfl, rfl⟩
  · exact ⟨rfl, sdmmc_get_response_sel _ _ _ _ _ _ _⟩

/-- The fetch of the events adds no selected action. -/
theorem poll_fetch_sel (cb cr : Bool) (set : sdmmc_set) (hw : Hw) (v : Nistr) :
    (poll_fetch set hw v).2.sel cb cr = hw.sel cb cr := by
  unfold poll_fetch
  split
  · split
    · simp only []
      split <;> rfl
    · rfl
  · split <;> rfl

/-- The error decoding adds no selected action. -/
theorem poll_decode_sel (cb cr : Bool) (errors : Eistr) (hw : Hw) :
    (poll_decode errors hw).2.sel cb cr = hw.sel cb cr := by
  unfold poll_decode
  repeat' (first | rfl | apply ite_prop (fun x : Rc × Hw => x.2.sel cb cr = hw.sel cb cr))

/-- The error block keeps the callback and adds no selected action. -/
theorem poll_errint_sel (cb cr : Bool) (st : PollSt) :
    (poll_errint st).cmd.fCallback = st.cmd.fCallback
      ∧ (poll_errint st).hw.sel cb cr = st.hw.sel cb cr := by
  unfold poll_errint
  refine ⟨rfl, ?_⟩
  show (poll_decode _ _).2.sel cb cr = _
  rw [poll_decode_sel, sel_emit]
  simp only [evsel, Bool.false_eq_true, if_false, List.append_nil]
  rfl

/-- The Command Complete block keeps the callback and adds no selected action. -/
theorem poll_cmdc_sel (cb cr : Bool) (st : PollSt) :
    (poll_cmdc st).st.cmd.fCallback = st.cmd.fCallback
      ∧ (poll_cmdc st).st.hw.sel cb cr = st.hw.sel cb cr := by
  have hg := poll_get_response_sel cb cr
    { st with
      hw := st.hw.emit (Event.wr_NISTR { Nistr.zero with CMDC := true }),
      events := { st.events with CMDC := false },
      set := { st.set with cmd_line_released := true } } st.set.dat_lines_released
  rw [sel_emit] at hg
  simp only [evsel, Bool.false_eq_true, if_false, List.append_nil] at hg
  unfold poll_cmdc
  split
  · simp only []
    split
    · exact hg
    · exact hg
  · exact ⟨rfl, rfl⟩

/-- The word loop of the read block adds no selected action. -/
theorem read_words_sel (cb cr : Bool) (n off : Nat) (data : Nat → Nat) (hw : Hw) :
    (read_words n off data hw).2.sel cb cr = hw.sel cb cr := by
  induction n generalizing off data hw with
  | zero => rfl
  | succ n ih =>
    unfold read_words
    simp only []
    rw [ih]
    rfl

/-- The read block keeps the callback and adds no selected action. -/
theorem poll_brdrdy_sel (cb cr : Bool) (st : PollSt) :
    (poll_brdrdy st).st.cmd.fCallback = st.cmd.fCallback
      ∧ (poll_brdrdy st).st.hw.sel cb cr = st.hw.sel cb cr := by
  unfold poll_brdrdy
  split
  · simp only []
    split
    · refine ⟨rfl, ?_⟩
      simp only [Flow.st]
      exact sel_emit_other _ _ _ _ rfl
    · refine ⟨rfl, ?_⟩
      simp only [Flow.st]
      split
      · show (Hw.rd_BDPR _).2.sel cb cr = _
        unfold Hw.rd_BDPR
        show Hw.sel cb cr (read_words _ _ _ _).2 = _
        rw [read_words_sel]
        exact sel_emit_other _ _ _ _ rfl
      · rw [read_words_sel]
        exact sel_emit_other _ _ _ _ rfl
  · exact ⟨rfl, rfl⟩

/-- The word loop of the write block adds no selected action. -/
theorem write_words_sel (cb cr : Bool) (n off : Nat) (data : Nat → Nat) (hw : Hw) :
    (write_words n off data hw).sel cb cr = hw.sel cb cr := by
  induction n generalizing off hw with
  | zero => rfl
  | succ n ih =>
    unfold write_words
    rw [ih]
    exact sel_emit_other _ _ _ _ rfl

/-- The write block keeps the callback and adds no selected action. -/
theorem poll_bwrrdy_sel (cb cr : Bool) (st : PollSt) :
    (poll_bwrrdy st).cmd.fCallback = st.cmd.fCallback
      ∧ (poll_bwrrdy st).hw.sel cb cr = st.hw.sel cb cr := by
  unfold poll_bwrrdy
  split
  · refine ⟨rfl, ?_⟩
    simp only []
    split
    · rw [sel_emit, write_words_sel]
      simp only [evsel, Bool.false_eq_true, if_false, List.append_nil]
      exact sel_emit_other _ _ _ _ rfl
    · rw [write_words_sel]
      exact sel_emit_other _ _ _ _ rfl
  · exact ⟨rfl, rfl⟩

/-- The first part of the Transfer Complete block keeps the callback and adds
no selected action. -/
theorem poll_trfc_release_sel (cb cr : Bool) (st : PollSt) :
    (poll_trfc_release st).cmd.fCallback = st.cmd.fCallback
      ∧ (poll_trfc_release st).hw.sel cb cr = st.hw.sel cb cr := by
  unfold poll_trfc_release
  simp only []
  split
  · split
    · have h := poll_get_response_sel cb cr
        { set := { ({ st.set with expect_auto_end := true } : sdmmc_set) with
                   dat_lines_released := true },
          cmd := st.cmd,
          hw := (st.hw.emit (Event.wr_TC_CCR { CLKEN := true, SWTRG := true })).emit
            (Event.wr_NISTR { Nistr.zero with TRFC := true }),
          events := { st.events with TRFC := false } } true
      rw [sel_emit, sel_emit] at h
      simp only [evsel, Bool.false_eq_true, if_false, List.append_nil] at h
      exact h
    · refine ⟨rfl, ?_⟩
      show (Hw.emit _ _).sel cb cr = _
      rw [sel_emit]
      simp only [evsel, Bool.false_eq_true, if_false, List.append_nil]
      exact sel_emit_other _ _ _ _ rfl
  · split
    · have h := poll_get_response_sel cb cr
        { set := { st.set with dat_lines_released := true },
          cmd := st.cmd,
          hw := st.hw.emit (Event.wr_NISTR { Nistr.zero with TRFC := true }),
          events := { st.events with TRFC := false } } true
      rw [sel_emit] at h
      simp only [evsel, Bool.false_eq_true, if_false, List.append_nil] at h
      exact h
    · refine ⟨rfl, ?_⟩
      show (Hw.emit _ _).sel cb cr = _
      exact sel_emit_other _ _ _ _ rfl

/-- The Transfer Complete block keeps the callback and adds no selected action. -/
theorem poll_trfc_sel (cb cr : Bool) (st : PollSt) :
    (poll_trfc st).st.cmd.fCallback = st.cmd.fCallback
      ∧ (poll_trfc st).st.hw.sel cb cr = st.hw.sel cb cr := by
  have hk := poll_trfc_release_sel cb cr st
  unfold poll_trfc
  split
  · simp only []
    split
    · exact hk
    · split
      · exact hk
      · exact hk
  · exact ⟨rfl, rfl⟩

/-- One pass of the resolver keeps the callback and adds no selected action. -/
theorem poll_pass_sel (cb cr : Bool) (st : PollSt) :
    (poll_pass st).st.cmd.fCallback = st.cmd.fCallback
      ∧ (poll_pass st).st.hw.sel cb cr = st.hw.sel cb cr := by
  unfold poll_pass
  split
  · exact poll_errint_sel cb cr st
  · split
    · exact poll_get_response_sel cb cr st true
    · have hc := poll_cmdc_sel cb cr st
      cases hf : poll_cmdc st with
      | fail st1 => rw [hf] at hc; exact hc
      | succeed st1 => rw [hf] at hc; exact hc
      | cont st1 =>
        rw [hf] at hc
        simp only [Flow.bind, Flow.st] at hc ⊢
        have hb := poll_brdrdy_sel cb cr st1
        cases hg : poll_brdrdy st1 with
        | fail st2 =>
          rw [hg] at hb
          simp only [Flow.st] at hb ⊢
          exact ⟨hb.1.trans hc.1, hb.2.trans hc.2⟩
        | succeed st2 =>
          rw [hg] at hb
          simp only [Flow.st] at hb ⊢
          exact ⟨hb.1.trans hc.1, hb.2.trans hc.2⟩
        | cont st2 =>
          rw [hg] at hb
          simp only [Flow.st] at hb ⊢
          have hw := poll_bwrrdy_sel cb cr st2
          have ht := poll_trfc_sel cb cr (poll_bwrrdy st2)
          exact ⟨ht.1.trans (hw.1.trans (hb.1.trans hc.1)),
            ht.2.trans (hw.2.trans (hb.2.trans hc.2))⟩

/-- The code from the label `End` on adds the callback of the command, if it
has one, and no other selected action. -/
theorem poll_end_sel (cb cr : Bool) (st : PollSt) :
    (poll_end st).hw.sel cb cr
      = st.hw.sel cb cr
        ++ (if st.cmd.fCallback = true ∧ cb = true then [Event.fCallback st.cmd.bStatus]
            else []) := by
  have h1 : ∀ hw : Hw, (if (!st.events.isZero) = true then hw.emit (Event.wr_NISTR st.events)
      else hw).sel cb cr = hw.sel cb cr := by
    intro hw
    split
    · exact sel_emit_other _ _ _ _ rfl
    · rfl
  have h2 : ∀ hw : Hw,
      (if st.cmd.bStatus ≠ Rc.SDMMC_OK ∧ st.cmd.bStatus ≠ Rc.SDMMC_CHANGED then
        ({ (({ hw with SRR := hw.SRR.tail } : Hw).emit
              (Event.wr_SRR { hw.SRR.headD default with SWRSTDAT := true, SWRSTCMD := true })) with
            SRR := waitClear (fun s => s.SWRSTDAT || s.SWRSTCMD)
              (({ hw with SRR := hw.SRR.tail } : Hw).emit
                (Event.wr_SRR { hw.SRR.headD default with SWRSTDAT := true,
                                                           SWRSTCMD := true })).SRR } : Hw)
      else if wait_switch st.cmd = true then
        ({ (hw.emit (Event.wr_TC_CCR { CLKEN := true, SWTRG := true })) with
            TC_SR := waitClear (fun s => s.CLKSTA)
              (hw.emit (Event.wr_TC_CCR { CLKEN := true, SWTRG := true })).TC_SR } : Hw)
      else hw).sel cb cr = hw.sel cb cr := by
    intro hw
    split
    · show (Hw.emit _ _).sel cb cr = _
      rw [sel_emit]
      simp only [evsel, Bool.false_eq_true, if_false, List.append_nil]
      rfl
    · split
      · show (Hw.emit _ _).sel cb cr = _
        exact sel_emit_other _ _ _ _ rfl
      · rfl
  unfold poll_end
  simp only []
  by_cases hf : st.cmd.fCallback = true
  · rw [if_pos hf, sel_emit, h2, h1]
    cases cb <;> simp [evsel, hf]
  · rw [if_neg hf, h2, h1]
    simp [hf]

/-- Induction over the fetch loop: a property `P` of the state before a round
that the rounds maintain gives a property `Q` of the result. -/
theorem poll_loop_induct (P : sdmmc_set → sSdmmcCommand → Hw → Prop) (Q : PollOut → Prop)
    (hrest : ∀ set cmd hw rest, P set cmd hw → P set cmd { hw with NISTR := rest })
    (hidle : ∀ v set cmd hw hw1, P set cmd hw → poll_round v set cmd hw = Round.idle hw1 →
      Q { set := { set with cmd := some cmd }, hw := hw1, done := none })
    (hdone : ∀ v set cmd hw o, P set cmd hw → poll_round v set cmd hw = Round.done o → Q o)
    (hagain : ∀ v set cmd hw s c h, P set cmd hw → poll_round v set cmd hw = Round.again s c h →
      P s c h ∧ Q { set := { s with cmd := some c }, hw := h, done := none }) :
    ∀ (l : List Nistr) (set : sdmmc_set) (cmd : sSdmmcCommand) (hw : Hw),
      P set cmd hw → Q (poll_loop l set cmd hw) := by
  intro l
  induction l with
  | nil =>
    intro set cmd hw hP
    rw [poll_loop_nil]
    cases hf : poll_round Nistr.zero set cmd hw with
    | idle hw1 => exact hidle _ _ _ _ _ hP hf
    | again s1 c1 hw1 => exact (hagain _ _ _ _ _ _ _ hP hf).2
    | done o => exact hdone _ _ _ _ _ hP hf
  | cons v rest ih =>
    intro set cmd hw hP
    rw [poll_loop_cons]
    have hP2 := hrest set cmd hw rest hP
    cases hf : poll_round v set cmd { hw with NISTR := rest } with
    | idle hw1 => exact hidle _ _ _ _ _ hP2 hf
    | again s1 c1 hw1 => exact ih s1 c1 hw1 (hagain _ _ _ _ _ _ _ hP2 hf).1
    | done o => exact hdone _ _ _ _ _ hP2 hf

/-- The three outcomes of a round in terms of the fetch, the pass and the
code from the label `End` on. -/
theorem poll_round_cases (v : Nistr) (set : sdmmc_set) (cmd : sSdmmcCommand) (hw : Hw) :
    ((poll_fetch set hw v).1.isZero = true
        ∧ poll_round v set cmd hw = Round.idle (poll_fetch set hw v).2)
      ∨ ((poll_fetch set hw v).1.isZero = false
        ∧ ((∃ st, poll_pass { set := set, cmd := cmd, hw := (poll_fetch set hw v).2,
                              events := (poll_fetch set hw v).1 } = Flow.fail st
              ∧ poll_round v set cmd hw = Round.done (poll_end st))
          ∨ (∃ st, poll_pass { set := set, cmd := cmd, hw := (poll_fetch set hw v).2,
                               events := (poll_fetch set hw v).1 } = Flow.succeed st
              ∧ poll_round v set cmd hw
                  = Round.done
                      (poll_end { st with set := { st.set with state := Mcid.MCID_LOCKED } }))
          ∨ (∃ st, poll_pass { set := set, cmd := cmd, hw := (poll_fetch set hw v).2,
                               events := (poll_fetch set hw v).1 } = Flow.cont st
              ∧ poll_round v set cmd hw
                  = Round.again st.set st.cmd
                      (if (!st.events.isZero) = true then st.hw.emit (Event.wr_NISTR st.events)
                       else st.hw)))) := by
  unfold poll_round
  simp only []
  by_cases hz : (poll_fetch set hw v).1.isZero = true
  · left
    rw [if_pos hz]
    exact ⟨hz, rfl⟩
  · right
    rw [if_neg hz]
    refine ⟨by simpa using hz, ?_⟩
    cases hf : poll_pass
        { set := set, cmd := cmd, hw := (poll_fetch set hw v).2,
          events := (poll_fetch set hw v).1 } with
    | fail st => exact Or.inl ⟨st, rfl, rfl⟩
    | succeed st => exact Or.inr (Or.inl ⟨st, rfl, rfl⟩)
    | cont st => exact Or.inr (Or.inr ⟨st, rfl, rfl⟩)


/-- What one round adds to the selected actions: nothing, or the callback of
the command that it releases. -/
theorem poll_round_sel (cb cr : Bool) (v : Nistr) (set : sdmmc_set) (cmd : sSdmmcCommand)
    (hw : Hw) :
    (∀ hw1, poll_round v set cmd hw = Round.idle hw1 → hw1.sel cb cr = hw.sel cb cr)
      ∧ (∀ o, poll_round v set cmd hw = Round.done o →
          ∃ c, o.done = some c ∧ o.set.cmd = none ∧ c.fCallback = cmd.fCallback
            ∧ o.hw.sel cb cr
              = hw.sel cb cr
                ++ (if c.fCallback = true ∧ cb = true then [Event.fCallback c.bStatus] else []))
      ∧ (∀ s c h, poll_round v set cmd hw = Round.again s c h →
          c.fCallback = cmd.fCallback ∧ h.sel cb cr = hw.sel cb cr) := by
  have hf := poll_fetch_sel cb cr set hw v
  have hp := poll_pass_sel cb cr
    { set := set, cmd := cmd, hw := (poll_fetch set hw v).2, events := (poll_fetch set hw v).1 }
  rcases poll_round_cases v set cmd hw with
    ⟨_, hr⟩ | ⟨_, ⟨st, hps, hr⟩ | ⟨st, hps, hr⟩ | ⟨st, hps, hr⟩⟩
  · rw [hr]
    refine ⟨?_, fun o h => (by cases h), fun s c h hh => (by cases hh)⟩
    intro hw1 h
    cases h
    exact hf
  · rw [hr]
    rw [hps] at hp
    simp only [Flow.st] at hp
    refine ⟨fun o h => (by cases h), ?_, fun s c h hh => (by cases hh)⟩
    intro o h
    cases h
    refine ⟨st.cmd, rfl, rfl, hp.1, ?_⟩
    rw [poll_end_sel, hp.2, hf]
  · rw [hr]
    rw [hps] at hp
    simp only [Flow.st] at hp
    refine ⟨fun o h => (by cases h), ?_, fun s c h hh => (by cases hh)⟩
    intro o h
    cases h
    refine ⟨st.cmd, rfl, rfl, hp.1, ?_⟩
    rw [poll_end_sel]
    show st.hw.sel cb cr ++ _ = _
    rw [hp.2, hf]
  · rw [hr]
    rw [hps] at hp
    simp only [Flow.st] at hp
    refine ⟨fun o h => (by cases h), fun o h => (by cases h), ?_⟩
    intro s c h hh
    cases hh
    refine ⟨hp.1, ?_⟩
    split
    · rw [sel_emit, hp.2, hf]
      simp only [evsel, Bool.false_eq_true, if_false, List.append_nil]
    · rw [hp.2, hf]

/-- The resolver adds no selected action while the command in flight, if any,
has no callback, and it keeps this so. -/
theorem sdmmc_poll_quiet (cb cr : Bool) (set : sdmmc_set) (hw : Hw)
    (hI : ∀ c, set.cmd = some c → c.fCallback = false) :
    (sdmmc_poll set hw).hw.sel cb cr = hw.sel cb cr
      ∧ (∀ c, (sdmmc_poll set hw).set.cmd = some c → c.fCallback = false) := by
  unfold sdmmc_poll
  split
  · exact ⟨rfl, hI⟩
  · split
    · exact ⟨rfl, hI⟩
    · rename_i cmd hcmd
      have hcb := hI cmd hcmd
      refine poll_loop_induct
        (fun _ c h => c.fCallback = false ∧ h.sel cb cr = hw.sel cb cr)
        (fun o => o.hw.sel cb cr = hw.sel cb cr ∧ ∀ c, o.set.cmd = some c → c.fCallback = false)
        ?_ ?_ ?_ ?_ hw.NISTR set cmd hw ⟨hcb, rfl⟩
      · intro s c h rest hP
        exact hP
      · intro v s c h hw1 hP hr
        have := (poll_round_sel cb cr v s c h).1 hw1 hr
        refine ⟨this.trans hP.2, ?_⟩
        intro c2 hc2
        cases hc2
        exact hP.1
      · intro v s c h o hP hr
        obtain ⟨c2, hc2, hn, hcb2, h1⟩ := (poll_round_sel cb cr v s c h).2.1 o hr
        refine ⟨?_, ?_⟩
        · rw [h1, hP.2]
          simp [hcb2, hP.1]
        · intro c3 hc3
          rw [hn] at hc3
          cases hc3
      · intro v s c h s1 c1 h1 hP hr
        have := (poll_round_sel cb cr v s c h).2.2 s1 c1 h1 hr
        refine ⟨⟨this.1.trans hP.1, this.2.trans hP.2⟩, this.2.trans hP.2, ?_⟩
        intro c2 hc2
        cases hc2
        exact this.1.trans hP.1

/-- The descriptor builder adds no selected action. -/
theorem build_sel (cb cr : Bool) (K : Hdr) (set : sdmmc_set) (cmd : sSdmmcCommand) (hw : Hw) :
    (sdmmc_build_dma_table K set cmd hw).hw.sel cb cr = hw.sel cb cr := by
  have hf : ∀ c rc n a b, (build_fill K set c hw rc n a b).hw.sel cb cr = hw.sel cb cr := by
    intro c rc n a b
    unfold build_fill
    show (Hw.emit _ _).sel cb cr = _
    rw [sel_emit]
    simp only [evsel, Bool.false_eq_true, if_false, List.append_nil]
    rfl
  unfold sdmmc_build_dma_table
  simp only []
  repeat' split
  all_goals first | rfl | exact hf _ _ _ _ _

/-- The descriptor builder keeps the callback of the command. -/
theorem build_fCallback (K : Hdr) (set : sdmmc_set) (cmd : sSdmmcCommand) (hw : Hw) :
    (sdmmc_build_dma_table K set cmd hw).cmd.fCallback = cmd.fCallback := by
  unfold sdmmc_build_dma_table
  simp only []
  repeat' split
  all_goals rfl

/-- The DMA preparation block adds no selected action. -/
theorem prepare_dma_sel (cb cr : Bool) (K : Hdr) (c : SendLocals) (set : sdmmc_set)
    (cmd : sSdmmcCommand) (hw : Hw) :
    (send_prepare_dma K c set cmd hw).hw.sel cb cr = hw.sel cb cr := by
  have hb := build_sel cb cr K set cmd hw
  unfold send_prepare_dma
  split
  · simp only []
    split
    · exact hb
    · split
      · show (Hw.emit _ _).sel cb cr = _
        rw [sel_emit, hb]
        simp only [evsel, Bool.false_eq_true, if_false, List.append_nil]
      · split
        · show (Hw.emit _ _).sel cb cr = _
          rw [sel_emit, hb]
          simp only [evsel, Bool.false_eq_true, if_false, List.append_nil]
        · exact hb
  · rfl

/-- The DMA preparation block keeps the callback of the command. -/
theorem prepare_dma_fCallback (K : Hdr) (c : SendLocals) (set : sdmmc_set)
    (cmd : sSdmmcCommand) (hw : Hw) :
    (send_prepare_dma K c set cmd hw).cmd.fCallback = cmd.fCallback := by
  have hb := build_fCallback K set cmd hw
  unfold send_prepare_dma
  simp only []
  repeat' split
  all_goals first | rfl | exact hb

/-- The launch of a command writes the command register once and invokes no
callback. -/
theorem send_launch_sel (cb cr : Bool) (c : SendLocals) (set : sdmmc_set) (cmd : sSdmmcCommand)
    (hw : Hw) (rc : Rc) (l : sdmmc_set × sSdmmcCommand × Hw)
    (hl : send_launch c set cmd hw rc = some l) :
    ∃ v, l.2.2.sel cb cr
      = hw.sel cb cr ++ (if cr = true then [Event.wr_CR v] else []) := by
  have h1 : ∀ e h, (send_enable e h).sel cb cr = h.sel cb cr := by
    intro e h
    unfold send_enable
    simp only []
    rw [sel_emit, sel_emit, sel_emit, sel_emit]
    simp only [evsel, Bool.false_eq_true, if_false, List.append_nil]
    rfl
  have h2 : ∀ h, (send_issue_data c set cmd h).sel cb cr = h.sel cb cr := by
    intro h
    unfold send_issue_data
    split
    · simp only []
      rw [sel_emit]
      simp only [evsel, Bool.false_eq_true, if_false, List.append_nil]
      show Hw.sel cb cr (if c.use_dma = true then _ else _) = _
      split
      · rw [sel_emit]
        simp only [evsel, Bool.false_eq_true, if_false, List.append_nil]
        split
        · exact sel_emit_other _ _ _ _ rfl
        · rfl
      · split
        · exact sel_emit_other _ _ _ _ rfl
        · rfl
    · rfl
  have h3 : ∀ g h, (send_issue c cmd g h).sel cb cr
      = h.sel cb cr ++ (if cr = true then [Event.wr_CR g.cr] else []) := by
    intro g h
    unfold send_issue
    simp only []
    rw [sel_emit, sel_emit]
    have h4 : ∀ x : Hw, (if (c.has_data || c.stop_xfer) = true then x.emit (Event.wr_TMR g.tmr)
        else x).sel cb cr = x.sel cb cr := by
      intro x
      split
      · exact sel_emit_other _ _ _ _ rfl
      · rfl
    rw [h4, sel_emit]
    have h5 : (if c.stop_xfer = true then h.emit (Event.wr_BCR 0)
        else if (c.has_data && (c.multiple_xfer || decide (cmd.wNbBlocks > 1))) = true then
          h.emit (Event.wr_BCR cmd.wNbBlocks)
        else h).sel cb cr = h.sel cb cr := by
      split
      · exact sel_emit_other _ _ _ _ rfl
      · split
        · exact sel_emit_other _ _ _ _ rfl
        · rfl
    rw [h5]
    simp [evsel]
  have h6 : ∀ h h1, send_timer c set h = some h1 → h1.sel cb cr = h.sel cb cr := by
    intro h h1 ht
    rcases send_timer_cases c set h h1 ht with rfl | ⟨v, rfl⟩
    · rfl
    · exact sel_emit_other _ _ _ _ rfl
  have h7 : ∀ e h, (send_unmask set e h).sel cb cr = h.sel cb cr := by
    intro e h
    unfold send_unmask
    split
    · simp only []
      rw [sel_emit, sel_emit]
      simp only [evsel, Bool.false_eq_true, if_false, List.append_nil]
      rfl
    · rfl
  obtain ⟨hw3, ht, rfl⟩ := send_launch_some c set cmd hw rc l hl
  show ∃ v, (send_unmask set _ hw3).sel cb cr = _
  rw [h7, h6 _ _ ht]
  unfold send_program
  simp only []
  rw [h3, h2, h1]
  exact ⟨_, rfl⟩

/-- The launch of a command does not read the event register. -/
theorem send_launch_NISTR (c : SendLocals) (set : sdmmc_set) (cmd : sSdmmcCommand)
    (hw : Hw) (rc : Rc) (l : sdmmc_set × sSdmmcCommand × Hw)
    (hl : send_launch c set cmd hw rc = some l) : l.2.2.NISTR = hw.NISTR := by
  have h2 : ∀ h, (send_issue_data c set cmd h).NISTR = h.NISTR := by
    intro h
    unfold send_issue_data
    split
    · simp only []
      split <;> split <;> rfl
    · rfl
  have h3 : ∀ g h, (send_issue c cmd g h).NISTR = h.NISTR := by
    intro g h
    unfold send_issue
    simp only []
    show (if (c.has_data || c.stop_xfer) = true then _ else _ : Hw).NISTR = _
    have h5 : (if c.stop_xfer = true then h.emit (Event.wr_BCR 0)
        else if (c.has_data && (c.multiple_xfer || decide (cmd.wNbBlocks > 1))) = true then
          h.emit (Event.wr_BCR cmd.wNbBlocks)
        else h).NISTR = h.NISTR := by
      split
      · rfl
      · split <;> rfl
    split
    · exact h5
    · exact h5
  have h6 : ∀ h h1, send_timer c set h = some h1 → h1.NISTR = h.NISTR := by
    intro h h1 ht
    rcases send_timer_cases c set h h1 ht with rfl | ⟨v, rfl⟩ <;> rfl
  have h7 : ∀ e h, (send_unmask set e h).NISTR = h.NISTR := by
    intro e h
    unfold send_unmask
    split <;> rfl
  obtain ⟨hw3, ht, rfl⟩ := send_launch_some c set cmd hw rc l hl
  show (send_unmask set _ hw3).NISTR = _
  rw [h7, h6 _ _ ht]
  unfold send_program
  simp only []
  rw [h3, h2]
  rfl

/-- The dispatcher on a session with no command in flight: either it leaves the
session alone and adds no selected action, or it launches the command with one
write of the command register. -/
theorem send_command_not_busy (K : Hdr) (set : sdmmc_set) (cmd : sSdmmcCommand) (hw : Hw)
    (hst : set.state ≠ Mcid.MCID_CMD) (o : SendOut)
    (ho : sdmmc_send_command K set cmd hw = some o) :
    o.hw.NISTR = hw.NISTR
    ∧ ((o.set = set ∧ ∀ cb cr, o.hw.sel cb cr = hw.sel cb cr)
      ∨ (o.rc = Rc.SDMMC_OK
        ∧ o.set
            = { set with
                state := Mcid.MCID_CMD, cmd := some o.cmd,
                resp_len := 0, blk_index := 0, cmd_line_released := false,
                dat_lines_released := false, expect_auto_end := false }
        ∧ o.cmd.fCallback = cmd.fCallback
        ∧ ∀ cb cr, ∃ v, o.hw.sel cb cr
            = hw.sel cb cr ++ (if cr = true then [Event.wr_CR v] else []))) := by
  unfold sdmmc_send_command at ho
  simp only [] at ho
  split at ho
  · cases ho; exact ⟨rfl, Or.inl ⟨rfl, fun _ _ => rfl⟩⟩
  · split at ho
    · cases ho; exact ⟨rfl, Or.inl ⟨rfl, fun _ _ => rfl⟩⟩
    · split at ho
      · cases ho; exact ⟨rfl, Or.inl ⟨rfl, fun _ _ => rfl⟩⟩
      · split at ho
        · split at ho
          · cases ho; exact ⟨rfl, Or.inl ⟨rfl, fun _ _ => rfl⟩⟩
          · cases ho
            refine ⟨rfl, Or.inl ⟨rfl, fun cb cr => ?_⟩⟩
            exact sel_emit_other _ _ _ _ rfl
        · split at ho
          · cases ho; exact ⟨rfl, Or.inl ⟨rfl, fun _ _ => rfl⟩⟩
          · split at ho
            · cases ho; exact ⟨rfl, Or.inl ⟨rfl, fun _ _ => rfl⟩⟩
            · split at ho
              · cases ho
                exact ⟨prepare_dma_NISTR K _ set cmd hw,
                  Or.inl ⟨rfl, fun cb cr => prepare_dma_sel cb cr K _ set cmd hw⟩⟩
              · rw [send_busy_idle _ _ _ hst] at ho
                simp only [Bool.false_eq_true, if_false, send_object_idle] at ho
                split at ho
                · cases ho
                · rename_i l hl
                  cases ho
                  obtain ⟨hw3, _, hl2⟩ := send_launch_some _ _ _ _ _ _ hl
                  refine ⟨?_, Or.inr ⟨rfl, ?_, ?_, fun cb cr => ?_⟩⟩
                  · exact (send_launch_NISTR _ _ _ _ _ _ hl).trans
                      (prepare_dma_NISTR K _ set cmd hw)
                  · show l.1 = _
                    rw [hl2]
                    exact send_alias_launch set cmd _ _
                  · show l.2.1.fCallback = _
                    rw [hl2]
                    exact prepare_dma_fCallback K _ set cmd hw
                  · obtain ⟨v, h⟩ := send_launch_sel cb cr _ _ _ _ _ _ hl
                    rw [prepare_dma_sel] at h
                    exact ⟨v, h⟩

/-- The descriptor builder writes no member of the command but its block
count. -/
theorem build_request (K : Hdr) (set : sdmmc_set) (cmd : sSdmmcCommand) (hw : Hw) :
    (sdmmc_build_dma_table K set cmd hw).cmd
      = { cmd with wNbBlocks := (sdmmc_build_dma_table K set cmd hw).cmd.wNbBlocks } := by
  unfold sdmmc_build_dma_table
  simp only []
  repeat' split
  all_goals rfl

/-- The DMA preparation block writes no member of the command but its block
count. -/
theorem prepare_dma_request (K : Hdr) (c : SendLocals) (set : sdmmc_set)
    (cmd : sSdmmcCommand) (hw : Hw) :
    (send_prepare_dma K c set cmd hw).cmd
      = { cmd with wNbBlocks := (send_prepare_dma K c set cmd hw).cmd.wNbBlocks } := by
  have hb := build_request K set cmd hw
  unfold send_prepare_dma
  simp only []
  repeat' split
  all_goals first | rfl | exact hb

/-- The dispatcher writes no member of the caller's command but its block
count, its buffers and its status. -/
theorem send_command_request (K : Hdr) (set : sdmmc_set) (cmd : sSdmmcCommand) (hw : Hw)
    (o : SendOut) (ho : sdmmc_send_command K set cmd hw = some o) :
    ∃ n d p s, o.cmd = { cmd with wNbBlocks := n, data := d, pResp := p, bStatus := s } := by
  have hb := prepare_dma_request K (send_locals K set cmd) set cmd hw
  have hobj : ∀ busy, ∃ n d p s,
      send_object set cmd (send_prepare_dma K (send_locals K set cmd) set cmd hw) busy
        = { cmd with wNbBlocks := n, data := d, pResp := p, bStatus := s } := by
    intro busy
    obtain ⟨d, p, s, h⟩ := send_object_eq set cmd
      (send_prepare_dma K (send_locals K set cmd) set cmd hw) busy
    rw [h, hb]
    exact ⟨_, d, p, s, rfl⟩
  have hself : ∃ n d p s,
      cmd = { cmd with wNbBlocks := n, data := d, pResp := p, bStatus := s } :=
    ⟨cmd.wNbBlocks, cmd.data, cmd.pResp, cmd.bStatus, rfl⟩
  unfold sdmmc_send_command at ho
  simp only [] at ho
  split at ho
  · cases ho; exact hself
  · split at ho
    · cases ho; exact hself
    · split at ho
      · cases ho; exact hself
      · split at ho
        · split at ho
          · cases ho; exact hself
          · cases ho; exact hself
        · split at ho
          · cases ho; exact hself
          · split at ho
            · cases ho; exact hself
            · split at ho
              · cases ho
                exact ⟨_, cmd.data, cmd.pResp, cmd.bStatus, hb⟩
              · split at ho
                · cases ho
                  exact hobj _
                · split at ho
                  · cases ho
                  · rename_i l hl
                    cases ho
                    obtain ⟨hw3, _, hl2⟩ := send_launch_some _ _ _ _ _ _ hl
                    obtain ⟨n, d, p, s, h⟩ := hobj (sdmmc_is_busy (send_alias set cmd
                      (send_prepare_dma K (send_locals K set cmd) set cmd hw))
                      (send_prepare_dma K (send_locals K set cmd) set cmd hw).hw)
                    show ∃ n d p s, l.2.1 = _
                    rw [hl2]
                    show ∃ n d p s, ({ send_object set cmd _ _ with bStatus := _ }
                      : sSdmmcCommand) = _
                    rw [h]
                    exact ⟨n, d, p, _, rfl⟩

/-- A command that neither ends with a stop command nor waits for a function
switch does not enter the timer preparation: `sdmmc_send_command` returns. -/
theorem send_command_returns (K : Hdr) (set : sdmmc_set) (cmd : sSdmmcCommand) (hw : Hw)
    (h18 : cmd.bCmd ≠ 18) (h25 : cmd.bCmd ≠ 25) (hws : wait_switch cmd = false) :
    ∃ o, sdmmc_send_command K set cmd hw = some o := by
  have hsuf : (send_locals K set cmd).stop_xfer_suffix = false := by
    simp [send_locals, h18, h25]
  have hw2 : (send_locals K set cmd).wait_switch = false := hws
  unfold sdmmc_send_command
  simp only []
  split
  · exact ⟨_, rfl⟩
  · split
    · exact ⟨_, rfl⟩
    · split
      · exact ⟨_, rfl⟩
      · split
        · split
          · exact ⟨_, rfl⟩
          · exact ⟨_, rfl⟩
        · split
          · exact ⟨_, rfl⟩
          · split
            · exact ⟨_, rfl⟩
            · split
              · exact ⟨_, rfl⟩
              · split
                · exact ⟨_, rfl⟩
                · rw [send_launch_of_timer _ _ _ _ _ _ (send_timer_skip _ _ _ hsuf hw2)]
                  exact ⟨_, rfl⟩

/-! ## Lemmas on the cancellation and the sampling tuning -/

/-- The wait loop of the cancellation adds no selected action while the
command in flight has no callback. -/
theorem cancel_wait_sel (cb cr : Bool) :
    ∀ (n : Nat) (set : sdmmc_set) (hw : Hw),
      (∀ c, set.cmd = some c → c.fCallback = false) →
      (cancel_wait n set hw).2.sel cb cr = hw.sel cb cr := by
  intro n
  induction n with
  | zero => intro set hw _; rfl
  | succ n ih =>
    intro set hw hI
    unfold cancel_wait
    split
    · simp only []
      split
      · have hq := sdmmc_poll_quiet cb cr set (hw.emit (Event.timer_usleep 10)) hI
        rw [ih _ _ hq.2, hq.1]
        exact sel_emit_other _ _ _ _ rfl
      · split
        · have hq := sdmmc_poll_quiet cb cr set
            { (hw.emit (Event.timer_usleep 10)) with
              irq := (hw.emit (Event.timer_usleep 10)).irq.tail } hI
          rw [ih _ _ hq.2, hq.1]
          exact sel_emit_other _ _ _ _ rfl
        · rw [ih _ _ hI]
          exact sel_emit_other _ _ _ _ rfl
    · rfl

/-- The stop command of the cancellation does not enter the timer preparation:
the asynchronous abort returns. -/
theorem cancel_stop_some (K : Hdr) (set : sdmmc_set) (hw : Hw) :
    ∃ a, cancel_stop K set hw = some a := by
  obtain ⟨o, ho⟩ := send_command_returns K (release_set set) (stop_cmd K)
    (cancel_reset_cmd hw) (by show (12 : Nat) ≠ 18; decide) (by show (12 : Nat) ≠ 25; decide)
    rfl
  unfold cancel_stop
  rw [ho]
  exact ⟨_, rfl⟩

/-- The asynchronous abort of the cancellation invokes no callback. -/
theorem cancel_stop_sel (K : Hdr) (set : sdmmc_set) (hw : Hw) (a : sdmmc_set × Hw)
    (ha : cancel_stop K set hw = some a) :
    a.2.sel true false = hw.sel true false := by
  have h1 : (cancel_reset_cmd hw).sel true false = hw.sel true false := by
    unfold cancel_reset_cmd
    simp only []
    split
    · show (Hw.emit _ _).sel true false = _
      rw [sel_emit]
      simp only [evsel, Bool.false_eq_true, if_false, List.append_nil]
      rfl
    · rfl
  unfold cancel_stop at ha
  split at ha
  · cases ha
  · rename_i o ho
    cases ha
    have hs := (send_command_not_busy K (release_set set) (stop_cmd K) (cancel_reset_cmd hw)
      (by simp [release_set]) o ho).2
    rcases hs with ⟨hset, hsel⟩ | ⟨hrc, hset, hcb, hsel⟩
    · have hI : ∀ c, o.set.cmd = some c → c.fCallback = false := by
        intro c hc
        rw [hset] at hc
        simp [release_set] at hc
      by_cases hrc : o.rc = Rc.SDMMC_OK
      · rw [if_pos hrc, cancel_wait_sel true false _ _ _ hI, hsel, h1]
      · rw [if_neg hrc, hsel, h1]
    · have hI : ∀ c, o.set.cmd = some c → c.fCallback = false := by
        intro c hc
        rw [hset] at hc
        have hc2 := Option.some.inj hc
        rw [← hc2, hcb]
        rfl
      obtain ⟨v, hv⟩ := hsel true false
      simp only [Bool.false_eq_true, if_false, List.append_nil] at hv
      rw [if_pos hrc, cancel_wait_sel true false _ _ _ hI, hv, h1]

/-- The end of the cancellation in terms of its inputs. -/
theorem cancel_release_spec (set : sdmmc_set) (c : sSdmmcCommand) (hw : Hw) :
    (cancel_release set (some c) hw).rc = Rc.SDMMC_OK
      ∧ (cancel_release set (some c) hw).set = release_set set
      ∧ (cancel_release set (some c) hw).done = some { c with bStatus := Rc.SDMMC_USER_CANCEL }
      ∧ (cancel_release set (some c) hw).hw.sel true false
          = hw.sel true false
            ++ (if c.fCallback = true then [Event.fCallback Rc.SDMMC_USER_CANCEL] else []) := by
  refine ⟨rfl, rfl, rfl, ?_⟩
  unfold cancel_release
  simp only []
  split
  · rw [sel_emit]
    simp only [evsel, if_true]
    congr 1
    show (Hw.emit _ _).sel true false = _
    rw [sel_emit]
    simp only [evsel, Bool.false_eq_true, if_false, List.append_nil]
    rfl
  · simp only [List.append_nil]
    show (Hw.emit _ _).sel true false = _
    rw [sel_emit]
    simp only [evsel, Bool.false_eq_true, if_false, List.append_nil]
    rfl

/-- A wait for a flag ends when the stream holds a value with the flag set. -/
theorem waitSet_isSome {α : Type} (p : α → Bool) (l : List α) (h : ∃ v ∈ l, p v = true) :
    ∃ rest, waitSet p l = some rest := by
  induction l with
  | nil => obtain ⟨v, hv, _⟩ := h; cases hv
  | cons a t ih =>
    unfold waitSet
    by_cases ha : p a = true
    · exact ⟨t, by simp [ha]⟩
    · obtain ⟨v, hv, hp⟩ := h
      rcases List.mem_cons.mp hv with rfl | hv
      · exact absurd hp ha
      · obtain ⟨rest, hr⟩ := ih ⟨v, hv, hp⟩
        exact ⟨rest, by simp [ha, hr]⟩

/-- A wait for a flag consumes one value with the flag set. -/
theorem waitSet_count {α : Type} (p : α → Bool) (l : List α) (n : Nat)
    (h : n + 1 ≤ l.countP p) : ∃ rest, waitSet p l = some rest ∧ n ≤ rest.countP p := by
  induction l with
  | nil => simp at h
  | cons a t ih =>
    unfold waitSet
    by_cases ha : p a = true
    · refine ⟨t, by simp [ha], ?_⟩
      rw [List.countP_cons_of_pos _ _ ha] at h
      omega
    · rw [List.countP_cons_of_neg _ _ ha] at h
      obtain ⟨rest, hr, hn⟩ := ih h
      exact ⟨rest, by simp [ha, hr], hn⟩

/-- The tuning loop launches at most one command per iteration, keeps a session
without a command so, and leaves the state alone or locked. -/
theorem tune_loop_spec (K : Hdr) :
    ∀ (n : Nat) (cmd : sSdmmcCommand) (st st1 : TuneSt),
      tune_loop K n cmd st = some st1 →
      (st1.hw.sel false true).length ≤ (st.hw.sel false true).length + n
        ∧ (st.set.cmd = none → st1.set.cmd = none) := by
  intro n
  induction n with
  | zero =>
    intro cmd st st1 h
    cases h
    exact ⟨Nat.le_refl _, fun h => h⟩
  | succ n ih =>
    intro cmd st st1 h
    unfold tune_loop at h
    by_cases he : st.hc2r.EXTUN = true
    · rw [if_pos he] at h
      simp only [] at h
      split at h
      · cases h
      · rename_i o ho
        have hs := send_command_not_busy K
          { st.set with
            state := Mcid.MCID_LOCKED, resp_len := 0, blk_index := 0,
            cmd_line_released := false, dat_lines_released := false,
            expect_auto_end := false }
          cmd st.hw (by simp) o ho
        have hlen : (o.hw.sel false true).length ≤ (st.hw.sel false true).length + 1 := by
          rcases hs.2 with ⟨_, hsel⟩ | ⟨_, _, _, hsel⟩
          · rw [hsel]; omega
          · obtain ⟨v, hv⟩ := hsel false true
            rw [hv]; simp
        by_cases hrc : o.rc ≠ Rc.SDMMC_OK
        · rw [if_pos hrc] at h
          cases h
          refine ⟨by show (o.hw.sel false true).length ≤ _; omega, ?_⟩
          intro hnone
          rcases hs.2 with ⟨hset, _⟩ | ⟨hok, _⟩
          · show o.set.cmd = none
            rw [hset]
            exact hnone
          · exact absurd hok hrc
        · rw [if_neg hrc] at h
          cases hw : waitSet (fun v => v.BRDRDY) o.hw.NISTR with
          | none => rw [hw] at h; cases h
          | some rest =>
            rw [hw] at h
            simp only [] at h
            have h2 := ih _ _ _ h
            refine ⟨?_, fun _ => h2.2 rfl⟩
            have h3 : ((({ o.hw with NISTR := rest } : Hw).emit
                (Event.wr_NISTR { Nistr.zero with BRDRDY := true })).rd_HC2R.2.sel false true)
                = o.hw.sel false true := by
              show (Hw.emit _ _).sel false true = _
              rw [sel_emit]
              simp only [evsel, Bool.false_eq_true, if_false, List.append_nil]
              rfl
            rw [h3] at h2
            omega
    · rw [if_neg he] at h
      cases h
      exact ⟨by omega, fun h => h⟩

/-- The tuning loop returns when its command neither ends with a stop command
nor waits for a function switch and the event register reports a block for
each of its iterations. -/
theorem tune_loop_total (K : Hdr) :
    ∀ (n : Nat) (cmd : sSdmmcCommand) (st : TuneSt),
      cmd.bCmd ≠ 18 → cmd.bCmd ≠ 25 → wait_switch cmd = false →
      n ≤ st.hw.NISTR.countP (fun v => v.BRDRDY) →
      ∃ st1, tune_loop K n cmd st = some st1 := by
  intro n
  induction n with
  | zero => intro cmd st _ _ _ _; exact ⟨st, rfl⟩
  | succ n ih =>
    intro cmd st h18 h25 hws h
    unfold tune_loop
    by_cases he : st.hc2r.EXTUN = true
    · rw [if_pos he]
      simp only []
      obtain ⟨o, ho⟩ := send_command_returns K
        { st.set with
          state := Mcid.MCID_LOCKED, resp_len := 0, blk_index := 0,
          cmd_line_released := false, dat_lines_released := false, expect_auto_end := false }
        cmd st.hw h18 h25 hws
      have hs := (send_command_not_busy K
        { st.set with
          state := Mcid.MCID_LOCKED, resp_len := 0, blk_index := 0,
          cmd_line_released := false, dat_lines_released := false, expect_auto_end := false }
        cmd st.hw (by simp) o ho).1
      obtain ⟨nb, d, p, s, hreq⟩ := send_command_request K _ cmd st.hw o ho
      rw [ho]
      simp only []
      by_cases hrc : o.rc ≠ Rc.SDMMC_OK
      · rw [if_pos hrc]
        exact ⟨_, rfl⟩
      · rw [if_neg hrc]
        rw [← hs] at h
        obtain ⟨rest, hr, hn⟩ := waitSet_count (fun v : Nistr => v.BRDRDY) o.hw.NISTR n h
        rw [hr]
        refine ih _ _ ?_ ?_ ?_ hn
        · rw [hreq]; exact h18
        · rw [hreq]; exact h25
        · rw [hreq]; exact hws
    · rw [if_neg he]
      exact ⟨st, rfl⟩

/-- The end of the tuning procedure: the status and the state it leaves. -/
theorem tune_end_spec (st : TuneSt) :
    (st.hc2r.EXTUN = true → (tune_end st).rc = Rc.SDMMC_ERR)
      ∧ (st.hc2r.EXTUN = false → st.hc2r.SCLKSEL = false → (tune_end st).rc = Rc.SDMMC_ERR)
      ∧ (st.hc2r.EXTUN = false → st.hc2r.SCLKSEL = true → (tune_end st).rc = st.rc)
      ∧ (tune_end st).set.state = Mcid.MCID_LOCKED
      ∧ (tune_end st).set.cmd = st.set.cmd
      ∧ (tune_end st).hw.sel false true = st.hw.sel false true := by
  refine ⟨?_, ?_, ?_, rfl, rfl, ?_⟩
  · intro h
    simp [tune_end, h]
  · intro h1 h2
    simp [tune_end, h1, h2]
  · intro h1 h2
    simp [tune_end, h1, h2]
  · unfold tune_end
    simp only []
    show (Hw.emit _ _).sel false true = _
    rw [sel_emit]
    simp only [evsel, Bool.false_eq_true, if_false, List.append_nil]
    have h1 : ∀ h : Hw, (if (h.rd_NISTR).1.ERRINT = true then
          ((h.rd_NISTR).2.rd_EISTR).2.emit (Event.wr_EISTR ((h.rd_NISTR).2.rd_EISTR).1)
        else (h.rd_NISTR).2).rd_NISTR.2.sel false true = h.sel false true := by
      intro h
      split
      · show (Hw.emit _ _).sel false true = _
        rw [sel_emit]
        simp only [evsel, Bool.false_eq_true, if_false, List.append_nil]
        rfl
      · rfl
    rw [h1]
    split
    · show (Hw.emit _ _).sel false true = _
      rw [sel_emit, sel_emit]
      simp only [evsel, Bool.false_eq_true, if_false, List.append_nil]
    · split <;> rfl

/-- The start of the tuning procedure launches no command and leaves the event
register alone. -/
theorem tune_start_spec (K : Hdr) (set : sdmmc_set) (p_response width : Nat) (hw : Hw) :
    (tune_start K set p_response width hw).2.hw.sel false true = hw.sel false true
      ∧ (tune_start K set p_response width hw).2.hw.NISTR = hw.NISTR
      ∧ (tune_start K set p_response width hw).2.set = set := by
  refine ⟨?_, rfl, rfl⟩
  unfold tune_start
  simp only []
  show (Hw.emit _ _).sel false true = _
  rw [sel_emit]
  simp only [evsel, Bool.false_eq_true, if_false, List.append_nil]
  rfl

/-- The tuning block command neither ends with a stop command nor waits for a
function switch. -/
theorem tune_start_request (K : Hdr) (set : sdmmc_set) (p_response width : Nat) (hw : Hw) :
    (tune_start K set p_response width hw).1.bCmd ≠ 18
      ∧ (tune_start K set p_response width hw).1.bCmd ≠ 25
      ∧ wait_switch (tune_start K set p_response width hw).1 = false := by
  have hb : (tune_start K set p_response width hw).1.bCmd = 19
      ∨ (tune_start K set p_response width hw).1.bCmd = 21 := by
    show (if width = 4 then { test_cmd K set p_response with wBlockSize := 64 }
      else test_cmd K set p_response).bCmd = 19
      ∨ (if width = 4 then { test_cmd K set p_response with wBlockSize := 64 }
        else test_cmd K set p_response).bCmd = 21
    have ht : (test_cmd K set p_response).bCmd = 19 ∨ (test_cmd K set p_response).bCmd = 21 := by
      show (if set.tim_mode ≠ K.SDMMC_TIM_MMC_HS200 then 19 else 21) = 19
        ∨ (if set.tim_mode ≠ K.SDMMC_TIM_MMC_HS200 then 19 else 21) = 21
      split
      · exact Or.inl rfl
      · exact Or.inr rfl
    split
    · exact ht
    · exact ht
  unfold wait_switch
  rcases hb with h | h <;> rw [h] <;> refine ⟨by decide, by decide, ?_⟩ <;> rfl

/-! ## Lemmas on the timing mode and the device clock -/

/-- `speed_end` leaves the timing mode alone unless the status is Ok. -/
theorem speed_end_tim_mode (set : sdmmc_set) (mode : Nat) (rc : Rc) (hw : Hw)
    (h : (speed_end set mode rc hw).rc ≠ Rc.SDMMC_OK) :
    (speed_end set mode rc hw).set.tim_mode = set.tim_mode := by
  unfold speed_end at h ⊢
  by_cases hr : rc = Rc.SDMMC_OK
  · exact absurd hr h
  · simp [hr]

/-- `speed_switch` leaves the timing mode alone unless it returns Ok. -/
theorem speed_switch_tim_mode (K : Hdr) (set : sdmmc_set) (mode : Nat) (verify : Bool)
    (caps : Ca0r) (hw : Hw) (h : (speed_switch K set mode verify caps hw).rc ≠ Rc.SDMMC_OK) :
    (speed_switch K set mode verify caps hw).set.tim_mode = set.tim_mode := by
  exact speed_end_tim_mode _ _ _ _ h

/-- The device clock function returns the choice of `clock_select`, after three
writes of the clock control register. -/
theorem set_device_clock_eq (K : Hdr) (set : sdmmc_set) (freq : Nat) (hw : Hw)
    (hclk : ∃ v ∈ hw.CCR.tail, v.INTCLKS = true) :
    ∃ o v1 v2 v3, sdmmc_set_device_clock K set freq hw = some o
      ∧ o.1 = { set with dev_freq :=
          (clock_select K (clock_request freq) (clock_base hw) (clock_gen set hw)).new_freq }
      ∧ o.2.trace = hw.trace ++ [Event.wr_CCR v1] ++ [Event.wr_CCR v2] ++ [Event.wr_CCR v3]
      ∧ v2.CLKGSEL
          = (clock_select K (clock_request freq) (clock_base hw) (clock_gen set hw)).use_prog_mode
      ∧ v2.INTCLKEN = true := by
  obtain ⟨rest, hr⟩ := waitSet_isSome (fun v : Ccr => v.INTCLKS) hw.CCR.tail hclk
  unfold sdmmc_set_device_clock
  simp only [Hw.rd_CA0R, Hw.rd_CA1R, Hw.rd_CCR, Hw.emit, hr]
  exact ⟨_, _, _, _, rfl, rfl, rfl, rfl, rfl⟩

/-- The clock request after `sdmmc_set_device_clock` has returned. -/
theorem control_set_clock_eq (K : Hdr) (set : sdmmc_set) (f p_response : Nat) (hw : Hw)
    (hf : f ≠ 0) (a : sdmmc_set × Hw) (ha : sdmmc_set_device_clock K set f hw = some a) :
    sdmmc_control_SET_CLOCK K set (some f) p_response hw
      = (match (if (clock_needs_tuning K a.1 a.2).1
                then sdmmc_tune_sampling K a.1 p_response (clock_needs_tuning K a.1 a.2).2
                else some { rc := Rc.SDMMC_OK, set := a.1, hw := (clock_needs_tuning K a.1 a.2).2 })
         with
         | none => none
         | some o =>
           if o.set.dev_freq ≠ f then
             some { rc := if o.rc = Rc.SDMMC_OK then Rc.SDMMC_CHANGED else o.rc,
                    set := o.set, hw := o.hw, param := some o.set.dev_freq }
           else some { rc := o.rc, set := o.set, hw := o.hw, param := some f }) := by
  unfold sdmmc_control_SET_CLOCK
  simp only [hf, if_false, ha]

/-- The clock request returns Changed when the achieved frequency differs from
the request, unless a sampling tuning ran and failed: then it returns the code
of the tuning.  In both cases the parameter receives the achieved frequency. -/
theorem control_set_clock_cases (K : Hdr) (set : sdmmc_set) (f p_response : Nat) (hw : Hw)
    (hf : f ≠ 0) (hclk : ∃ v ∈ hw.CCR.tail, v.INTCLKS = true) :
    ∃ a, sdmmc_set_device_clock K set f hw = some a
      ∧ ((clock_needs_tuning K a.1 a.2).1 = false →
          sdmmc_control_SET_CLOCK K set (some f) p_response hw
            = some { rc := if a.1.dev_freq ≠ f then Rc.SDMMC_CHANGED else Rc.SDMMC_OK,
                     set := a.1, hw := (clock_needs_tuning K a.1 a.2).2,
                     param := some a.1.dev_freq })
      ∧ ((clock_needs_tuning K a.1 a.2).1 = true →
          ∀ r, sdmmc_tune_sampling K a.1 p_response (clock_needs_tuning K a.1 a.2).2 = some r →
            sdmmc_control_SET_CLOCK K set (some f) p_response hw
              = some { rc := if r.set.dev_freq ≠ f ∧ r.rc = Rc.SDMMC_OK then Rc.SDMMC_CHANGED
                             else r.rc,
                       set := r.set, hw := r.hw, param := some r.set.dev_freq }) := by
  obtain ⟨a, _, _, _, ha, _⟩ := set_device_clock_eq K set f hw hclk
  refine ⟨a, ha, ?_, ?_⟩
  · intro ht
    rw [control_set_clock_eq K set f p_response hw hf a ha]
    simp only [ht]
    by_cases hd : a.1.dev_freq = f
    · simp [hd]
    · simp [hd]
  · intro ht r hr
    rw [control_set_clock_eq K set f p_response hw hf a ha]
    simp only [ht, hr, if_true]
    by_cases hd : r.set.dev_freq = f
    · simp [hd]
    · by_cases hk : r.rc = Rc.SDMMC_OK
      · simp [hd, hk]
      · simp [hd, hk]

/-- A request of 25 MHz on a 48 MHz base clock without a programmable clock
returns Changed with a device clock of 24 MHz. -/
theorem control_set_clock_example (K : Hdr) (set : sdmmc_set) (p_response : Nat) (hw : Hw)
    (hbase : (hw.CA0R.headD default).BASECLKF = 48)
    (hmult : (hw.CA1R.headD default).CLKMULT = 0)
    (hclk : ∃ v ∈ hw.CCR.tail, v.INTCLKS = true) :
    ∃ o, sdmmc_control_SET_CLOCK K set (some 25000000) p_response hw = some o
      ∧ o.rc = Rc.SDMMC_CHANGED ∧ o.set.dev_freq = 24000000 ∧ o.param = some 24000000 := by
  obtain ⟨a, _, _, _, ha, hset, _⟩ := set_device_clock_eq K set 25000000 hw hclk
  have hsel : (clock_select K (clock_request 25000000) (clock_base hw) (clock_gen set hw)).new_freq
      = 24000000 := by
    have h1 : clock_base hw = 48000000 := by unfold clock_base; rw [hbase]; rfl
    have h2 : clock_gen set hw = 0 := by
      unfold clock_gen clock_mult_freq; rw [hmult]; rfl
    rw [h1, h2]
    have h3 : div_mode_freq 48000000 (clock_div 48000000 (clock_request 25000000)) = 24000000 := by
      decide
    simp only [clock_select, ne_eq, not_true_eq_false, if_false, h3]
  have hdev : a.1.dev_freq = 24000000 := by rw [hset]; exact hsel
  have ht : clock_needs_tuning K a.1 a.2 = (false, a.2) := by
    simp [clock_needs_tuning, hdev]
  rw [control_set_clock_eq K set 25000000 p_response hw (by decide) a ha]
  simp [ht, hdev]

/-! ## Claims on the cancellation, the tuning and the bus settings -/

/-- C11: for every session whose state is neither CommandInFlight nor Error
(Off, Idle or Locked), `sdmmc_cancel_command` returns State and changes
nothing: the session is the same, the hardware environment is the same (no
register is read or written, the trace is unchanged, so no callback is
invoked) and no command is released. -/
theorem cancel_not_in_flight (K : Hdr) (set : sdmmc_set) (hw : Hw)
    (hcmd : set.state ≠ Mcid.MCID_CMD) (herr : set.state ≠ Mcid.MCID_ERROR) :
    sdmmc_cancel_command K set hw
      = some { rc := Rc.SDMMC_STATE, set := set, hw := hw, done := none } := by
  simp [sdmmc_cancel_command, hcmd, herr]

/-- C11, witness: the idle example session. -/
theorem cancel_not_in_flight_witness :
    sdmmc_cancel_command exHdr exSet exHw
      = some { rc := Rc.SDMMC_STATE, set := exSet, hw := exHw, done := none } :=
  cancel_not_in_flight exHdr exSet exHw (by decide) (by decide)

/-- C12: for every session in CommandInFlight that holds a command,
`sdmmc_cancel_command` returns Ok; the command is released with the status
UserCancel; the session is Locked, references no command, has `resp_len` and
`blk_index` 0 and the line-released and auto-end flags false; and the callback
invocations recorded in the trace are those recorded before the call followed,
when the command has a callback, by exactly one invocation with UserCancel.
This holds for every behaviour of the hardware, whether the stop command is
accepted, rejected or still in flight after the bounded wait. -/
theorem cancel_in_flight (K : Hdr) (set : sdmmc_set) (cmd : sSdmmcCommand) (hw : Hw)
    (hst : set.state = Mcid.MCID_CMD) (hcmd : set.cmd = some cmd) :
    ∃ o, sdmmc_cancel_command K set hw = some o
      ∧ o.rc = Rc.SDMMC_OK
      ∧ o.done = some { cmd with bStatus := Rc.SDMMC_USER_CANCEL }
      ∧ o.set.state = Mcid.MCID_LOCKED
      ∧ o.set.cmd = none
      ∧ o.set.resp_len = 0
      ∧ o.set.blk_index = 0
      ∧ o.set.cmd_line_released = false
      ∧ o.set.dat_lines_released = false
      ∧ o.set.expect_auto_end = false
      ∧ o.hw.sel true false
          = hw.sel true false
            ++ (if cmd.fCallback = true then [Event.fCallback Rc.SDMMC_USER_CANCEL] else []) := by
  unfold sdmmc_cancel_command
  simp only [hst, hcmd, ne_eq, not_true_eq_false, false_and, if_false]
  have hne : ¬ (Mcid.MCID_CMD = Mcid.MCID_ERROR) := by decide
  simp only [hne, if_false]
  split
  · obtain ⟨a, ha⟩ := cancel_stop_some K set hw
    rw [ha]
    have h := cancel_release_spec a.1 cmd a.2
    rw [cancel_stop_sel K set hw a ha] at h
    obtain ⟨h1, h2, h3, h4⟩ := h
    refine ⟨_, rfl, h1, h3, ?_, ?_, ?_, ?_, ?_, ?_, ?_, h4⟩ <;> rw [h2] <;> rfl
  · have h := cancel_release_spec set cmd hw
    obtain ⟨h1, h2, h3, h4⟩ := h
    refine ⟨_, rfl, h1, h3, ?_, ?_, ?_, ?_, ?_, ?_, ?_, h4⟩ <;> rw [h2] <;> rfl

/-- C12, witness: CMD18 with a callback in flight in polling mode, and hardware
that completes the stop command at the first poll. -/
theorem cancel_in_flight_witness :
    ∃ o, sdmmc_cancel_command exHdr exSetBusyCallback exHwStop = some o
      ∧ o.rc = Rc.SDMMC_OK
      ∧ o.done = some { exCmdCallback with bStatus := Rc.SDMMC_USER_CANCEL }
      ∧ o.set.state = Mcid.MCID_LOCKED
      ∧ o.set.cmd = none
      ∧ o.set.resp_len = 0
      ∧ o.set.blk_index = 0
      ∧ o.set.cmd_line_released = false
      ∧ o.set.dat_lines_released = false
      ∧ o.set.expect_auto_end = false
      ∧ o.hw.sel true false
          = exHwStop.sel true false
            ++ (if exCmdCallback.fCallback = true then [Event.fCallback Rc.SDMMC_USER_CANCEL]
                else []) :=
  cancel_in_flight exHdr exSetBusyCallback exCmdCallback exHwStop (by decide) rfl

/-- C13: for every session in state Error, `sdmmc_cancel_command` returns Ok
and sets the state to Locked; every other session field is unchanged, the
hardware environment is unchanged (no register is written, no callback is
invoked) and no command is released. -/
theorem cancel_error_state (K : Hdr) (set : sdmmc_set) (hw : Hw)
    (herr : set.state = Mcid.MCID_ERROR) :
    sdmmc_cancel_command K set hw
      = some { rc := Rc.SDMMC_OK, set := { set with state := Mcid.MCID_LOCKED }, hw := hw,
               done := none } := by
  simp [sdmmc_cancel_command, herr]

/-- C13, witness: the example session in the error state. -/
theorem cancel_error_state_witness :
    sdmmc_cancel_command exHdr exSetError exHw
      = some { rc := Rc.SDMMC_OK, set := { exSetError with state := Mcid.MCID_LOCKED },
               hw := exHw, done := none } :=
  cancel_error_state exHdr exSetError exHw (by decide)

/-- C14, as stated, fails on a 1-bit bus: `sdmmc_tune_sampling` then returns
Param before it touches the session, which stays Idle, not Locked. -/
theorem tune_sampling_one_bit_not_locked :
    exSet.state = Mcid.MCID_IDLE
      ∧ (sdmmc_get_bus_width exHw).1 = 1
      ∧ (sdmmc_tune_sampling exHdr exSet 64 exHw).map (fun o => (o.rc, o.set.state))
          = some ( Rc.SDMMC_PARAM, Mcid.MCID_IDLE) := by
  decide

/-- C14, amended: when the bus is neither 4 nor 8 bits wide,
`sdmmc_tune_sampling` returns Param and leaves the session alone.  On a bus of
4 or 8 bits, for every sequence of values that the hardware returns for the
tuning-control register `HC2R`: the function returns whenever the event
register reports a block for each of the forty possible commands; and when it
returns, its result is the end code `tune_end` applied to the locals `st` that
the loop of at most forty iterations leaves, at most 40 writes of the command
register (tuning-block commands) were added to the trace, the result is Error
if the tuning-in-progress flag `EXTUN` of the last value read is still set,
also Error if that flag is clear and the tuned-clock-select flag `SCLKSEL` is
not set, and the session is left in state Locked. -/
theorem tune_sampling_bounded (K : Hdr) (set : sdmmc_set) (p_response : Nat) (hw : Hw) :
    (¬((sdmmc_get_bus_width hw).1 = 4 ∨ (sdmmc_get_bus_width hw).1 = 8) →
        sdmmc_tune_sampling K set p_response hw
          = some { rc := Rc.SDMMC_PARAM, set := set, hw := (sdmmc_get_bus_width hw).2 })
      ∧ (((sdmmc_get_bus_width hw).1 = 4 ∨ (sdmmc_get_bus_width hw).1 = 8) →
          (40 ≤ hw.NISTR.countP (fun v => v.BRDRDY) →
            ∃ o, sdmmc_tune_sampling K set p_response hw = some o)
          ∧ ∀ o, sdmmc_tune_sampling K set p_response hw = some o →
              ∃ st, tune_loop K 40
                      (tune_start K set p_response (sdmmc_get_bus_width hw).1
                        (sdmmc_get_bus_width hw).2).1
                      (tune_start K set p_response (sdmmc_get_bus_width hw).1
                        (sdmmc_get_bus_width hw).2).2 = some st
                ∧ o = tune_end st
                ∧ (o.hw.sel false true).length ≤ (hw.sel false true).length + 40
                ∧ (st.hc2r.EXTUN = true → o.rc = Rc.SDMMC_ERR)
                ∧ (st.hc2r.EXTUN = false → st.hc2r.SCLKSEL = false → o.rc = Rc.SDMMC_ERR)
                ∧ o.set.state = Mcid.MCID_LOCKED) := by
  constructor
  · intro h
    unfold sdmmc_tune_sampling
    simp only [h, if_false]
  · intro h
    have hs := tune_start_spec K set p_response (sdmmc_get_bus_width hw).1
      (sdmmc_get_bus_width hw).2
    have hw0 : (sdmmc_get_bus_width hw).2.sel false true = hw.sel false true := rfl
    have hn0 : (sdmmc_get_bus_width hw).2.NISTR = hw.NISTR := rfl
    unfold sdmmc_tune_sampling
    simp only [h, if_true]
    constructor
    · intro hcount
      have hq := tune_start_request K set p_response (sdmmc_get_bus_width hw).1
        (sdmmc_get_bus_width hw).2
      obtain ⟨st1, h1⟩ := tune_loop_total K 40
        (tune_start K set p_response (sdmmc_get_bus_width hw).1 (sdmmc_get_bus_width hw).2).1
        (tune_start K set p_response (sdmmc_get_bus_width hw).1 (sdmmc_get_bus_width hw).2).2
        hq.1 hq.2.1 hq.2.2
        (by rw [hs.2.1, hn0]; exact hcount)
      rw [h1]
      exact ⟨_, rfl⟩
    · intro o ho
      cases hl : tune_loop K 40
        (tune_start K set p_response (sdmmc_get_bus_width hw).1 (sdmmc_get_bus_width hw).2).1
        (tune_start K set p_response (sdmmc_get_bus_width hw).1 (sdmmc_get_bus_width hw).2).2 with
      | none => rw [hl] at ho; cases ho
      | some st =>
        rw [hl] at ho
        have ho2 : tune_end st = o := Option.some.inj ho
        subst ho2
        have hsp := tune_loop_spec K 40 _ _ st hl
        have he := tune_end_spec st
        refine ⟨st, rfl, rfl, ?_, he.1, he.2.1, he.2.2.2.1⟩
        rw [he.2.2.2.2.2]
        have := hsp.1
        rw [hs.1, hw0] at this
        exact this

/-- C14, witness of the amended claim: a 4-bit bus whose tuning ends after one
tuning block. -/
theorem tune_sampling_bounded_witness :
    (∃ o, sdmmc_tune_sampling exHdr exSet 64 exHwTune = some o)
      ∧ ∀ o, sdmmc_tune_sampling exHdr exSet 64 exHwTune = some o →
          ∃ st, tune_loop exHdr 40
                  (tune_start exHdr exSet 64 (sdmmc_get_bus_width exHwTune).1
                    (sdmmc_get_bus_width exHwTune).2).1
                  (tune_start exHdr exSet 64 (sdmmc_get_bus_width exHwTune).1
                    (sdmmc_get_bus_width exHwTune).2).2 = some st
            ∧ o = tune_end st
            ∧ (o.hw.sel false true).length ≤ (exHwTune.sel false true).length + 40
            ∧ (st.hc2r.EXTUN = true → o.rc = Rc.SDMMC_ERR)
            ∧ (st.hc2r.EXTUN = false → st.hc2r.SCLKSEL = false → o.rc = Rc.SDMMC_ERR)
            ∧ o.set.state = Mcid.MCID_LOCKED :=
  ⟨((tune_sampling_bounded exHdr exSet 64 exHwTune).2 (Or.inl (by decide))).1 (by decide),
   ((tune_sampling_bounded exHdr exSet 64 exHwTune).2 (Or.inl (by decide))).2⟩

/-! ## Claims on the device clock, the timing mode and the bus width -/

/-- C17, as stated, fails when the sampling tuning that follows the clock change
fails: in mode HS200 a request of 100 MHz on a 208 MHz base clock achieves
104 MHz, the tuning returns Error, and the request returns Error, not Changed,
although the achieved frequency differs from the request (it is written back
to the parameter). -/
theorem control_set_clock_tuning_error :
    (sdmmc_control_SET_CLOCK exHdr exSetHS200 (some 100000000) 64 exHwClock208).map
        (fun o => (o.rc, o.set.dev_freq, o.param))
      = some ( Rc.SDMMC_ERR, 104000000, some 104000000) := by
  decide

/-- C17, amended: for every non-zero requested frequency `f`, once the clock
control register reports a stable internal clock, `sdmmc_set_device_clock`
returns, and the request `SDMMC_IOCTL_SET_CLOCK` then behaves as follows.  When
no sampling tuning is run it returns Changed if the achieved device frequency,
the session's `dev_freq`, differs from `f`, and Ok otherwise.  When a tuning is
run and returns, the request returns Changed if the achieved frequency differs
from `f` and the tuning returned Ok, and the code of the tuning otherwise.  In
every case the caller's parameter receives the achieved frequency.  For
example a request of 25 000 000 Hz on a controller with a 48 MHz base clock and
no programmable clock returns Changed with `dev_freq` = 24 000 000. -/
theorem control_set_clock_changed (K : Hdr) (set : sdmmc_set) (f p_response : Nat) (hw : Hw)
    (hf : f ≠ 0) (hclk : ∃ v ∈ hw.CCR.tail, v.INTCLKS = true) :
    (∃ a, sdmmc_set_device_clock K set f hw = some a
      ∧ ((clock_needs_tuning K a.1 a.2).1 = false →
          sdmmc_control_SET_CLOCK K set (some f) p_response hw
            = some { rc := if a.1.dev_freq ≠ f then Rc.SDMMC_CHANGED else Rc.SDMMC_OK,
                     set := a.1, hw := (clock_needs_tuning K a.1 a.2).2,
                     param := some a.1.dev_freq })
      ∧ ((clock_needs_tuning K a.1 a.2).1 = true →
          ∀ r, sdmmc_tune_sampling K a.1 p_response (clock_needs_tuning K a.1 a.2).2 = some r →
            sdmmc_control_SET_CLOCK K set (some f) p_response hw
              = some { rc := if r.set.dev_freq ≠ f ∧ r.rc = Rc.SDMMC_OK then Rc.SDMMC_CHANGED
                             else r.rc,
                       set := r.set, hw := r.hw, param := some r.set.dev_freq }))
      ∧ (f = 25000000 → (hw.CA0R.headD default).BASECLKF = 48 →
          (hw.CA1R.headD default).CLKMULT = 0 →
          ∃ o, sdmmc_control_SET_CLOCK K set (some f) p_response hw = some o
            ∧ o.rc = Rc.SDMMC_CHANGED ∧ o.set.dev_freq = 24000000
            ∧ o.param = some 24000000) := by
  refine ⟨control_set_clock_cases K set f p_response hw hf hclk, ?_⟩
  intro h25 hbase hmult
  subst h25
  exact control_set_clock_example K set p_response hw hbase hmult hclk

/-- C17, witness of the amended claim: the request of 25 MHz on the 48 MHz base
clock. -/
theorem control_set_clock_changed_witness :
    ∃ o, sdmmc_control_SET_CLOCK exHdr exSet (some 25000000) 64 exHwClock48 = some o
      ∧ o.rc = Rc.SDMMC_CHANGED ∧ o.set.dev_freq = 24000000 ∧ o.param = some 24000000 :=
  (control_set_clock_changed exHdr exSet 25000000 64 exHwClock48 (by decide)
    ⟨{ (default : Ccr) with INTCLKS := true }, by decide, rfl⟩).2 rfl rfl rfl

/-- C19: `sdmmc_set_speed_mode` returns Param, leaving the session (its timing
mode and state included) unchanged and writing no register (the trace is
unchanged), for every mode outside the MMC and SD ranges, that is above MMC
HS200 and below SD DS or above SD SDR104, and for every low-voltage-only mode
(MMC HS200, SD SDR12 through SDR104) when the capabilities register lacks the
1.8 V support bit; and whenever it returns a status other than Ok the
session's timing mode is unchanged. -/
theorem set_speed_mode_param (K : Hdr) (set : sdmmc_set) (mode : Nat) (verify : Bool) (hw : Hw) :
    (((K.SDMMC_TIM_MMC_HS200 < mode ∧ mode < K.SDMMC_TIM_SD_DS) ∨ K.SDMMC_TIM_SD_SDR104 < mode
        ∨ ((mode = K.SDMMC_TIM_MMC_HS200
              ∨ (K.SDMMC_TIM_SD_SDR12 ≤ mode ∧ mode ≤ K.SDMMC_TIM_SD_SDR104))
            ∧ (hw.CA0R.headD default).V18VSUP = false)) →
      (sdmmc_set_speed_mode K set mode verify hw).rc = Rc.SDMMC_PARAM
        ∧ (sdmmc_set_speed_mode K set mode verify hw).set = set
        ∧ (sdmmc_set_speed_mode K set mode verify hw).hw.trace = hw.trace)
    ∧ ((sdmmc_set_speed_mode K set mode verify hw).rc ≠ Rc.SDMMC_OK →
        (sdmmc_set_speed_mode K set mode verify hw).set.tim_mode = set.tim_mode) := by
  constructor
  · intro h
    unfold sdmmc_set_speed_mode
    simp only []
    by_cases hi : speed_mode_invalid K mode = true
    · simp [hi, Hw.rd_CA0R]
    · have hlow : speed_low_mode K mode = true ∧ (hw.CA0R.headD default).V18VSUP = false := by
        rcases h with h | h | h
        · exact absurd (by simp [speed_mode_invalid, h.1, h.2]) hi
        · exact absurd (by simp [speed_mode_invalid, h]) hi
        · refine ⟨?_, h.2⟩
          rcases h.1 with h1 | h1
          · simp [speed_low_mode, h1]
          · simp [speed_low_mode, h1.1, h1.2]
      have hv : (hw.CA0R.head?.getD default).V18VSUP = false := by simpa using hlow.2
      simp [hi, hlow.1, Hw.rd_CA0R, hv]
  · intro h
    unfold sdmmc_set_speed_mode at h ⊢
    simp only [] at h ⊢
    split at h
    · rename_i h1; rw [if_pos h1]
    · rename_i h1
      rw [if_neg h1] 
      split at h
      · rename_i h2; rw [if_pos h2]
      · rename_i h2
        rw [if_neg h2]
        split at h
        · rename_i h3; rw [if_pos h3]
        · rename_i h3
          rw [if_neg h3]
          exact speed_switch_tim_mode _ _ _ _ _ _ h

/-- C19, witness: the mode code 8, which lies between the MMC and the SD range,
and a switch to SD SDR12 that fails with Error because the controller does not
keep the 1.8 V enable bit. -/
theorem set_speed_mode_param_witness :
    ((sdmmc_set_speed_mode exHdr exSet 8 false exHw).rc = Rc.SDMMC_PARAM
        ∧ (sdmmc_set_speed_mode exHdr exSet 8 false exHw).set = exSet
        ∧ (sdmmc_set_speed_mode exHdr exSet 8 false exHw).hw.trace = exHw.trace)
      ∧ (sdmmc_set_speed_mode exHdr exSet 18 false exHwSwitch).rc = Rc.SDMMC_ERR
      ∧ (sdmmc_set_speed_mode exHdr exSet 18 false exHwSwitch).set.tim_mode = exSet.tim_mode :=
  ⟨(set_speed_mode_param exHdr exSet 8 false exHw).1 (Or.inl ⟨by decide, by decide⟩),
   by decide,
   (set_speed_mode_param exHdr exSet 18 false exHwSwitch).2 (by decide)⟩

/-- C20: `sdmmc_get_bus_width` always returns 1, 4 or 8.  For every value of
the host control register `HC1R` and every width: `sdmmc_set_bus_width`
returns Param and writes nothing when the width is not 1, 4 or 8, or when it is
8 and the capabilities register lacks 8-bit support; otherwise it returns Ok,
and a subsequent `sdmmc_get_bus_width`, which reads the value that `HC1R`
holds after the call (the last value written, or the value read if none was
written), returns exactly that width. -/
theorem set_bus_width_spec (bits : Nat) (hw : Hw) :
    ((sdmmc_get_bus_width hw).1 = 1 ∨ (sdmmc_get_bus_width hw).1 = 4
        ∨ (sdmmc_get_bus_width hw).1 = 8)
      ∧ (if (bits ≠ 1 ∧ bits ≠ 4 ∧ bits ≠ 8)
            ∨ (bits = 8 ∧ (hw.CA0R.headD default).ED8SUP = false) then
          (sdmmc_set_bus_width bits hw).1 = Rc.SDMMC_PARAM
            ∧ (sdmmc_set_bus_width bits hw).2.trace = hw.trace
        else
          (sdmmc_set_bus_width bits hw).1 = Rc.SDMMC_OK
            ∧ (sdmmc_get_bus_width
                { (sdmmc_set_bus_width bits hw).2 with
                  HC1R := [HC1R_after (hw.HC1R.headD default)
                    ((sdmmc_set_bus_width bits hw).2.trace.drop hw.trace.length)] }).1 = bits) := by
  constructor
  · simp only [sdmmc_get_bus_width]
    split
    · right; right; rfl
    · split
      · right; left; rfl
      · left; rfl
  · obtain ⟨v, hv⟩ : ∃ v, hw.HC1R.head?.getD default = v := ⟨_, rfl⟩
    obtain ⟨c, hc⟩ : ∃ c, hw.CA0R.head?.getD default = c := ⟨_, rfl⟩
    rcases v with ⟨e, d, hs, dm, r⟩
    by_cases hb : bits ≠ 1 ∧ bits ≠ 4 ∧ bits ≠ 8
    · simp [sdmmc_set_bus_width, hb]
    · have hb2 : bits = 1 ∨ bits = 4 ∨ bits = 8 := by omega
      rcases hb2 with rfl | rfl | rfl
      · cases e <;> cases d <;>
          simp [sdmmc_set_bus_width, sdmmc_get_bus_width, Hw.rd_HC1R, Hw.rd_CA0R, Hw.emit,
            HC1R_after, hv, hc]
      · cases e <;> cases d <;>
          simp [sdmmc_set_bus_width, sdmmc_get_bus_width, Hw.rd_HC1R, Hw.rd_CA0R, Hw.emit,
            HC1R_after, hv, hc]
      · cases hs : c.ED8SUP <;> cases e <;>
          simp [sdmmc_set_bus_width, sdmmc_get_bus_width, Hw.rd_HC1R, Hw.rd_CA0R, Hw.emit,
            HC1R_after, hv, hc, hs]


/-! ## Lemmas on the command reference of the session -/

/-- A round on a session in flight either releases the command, leaving a
state other than in flight, or keeps the session in flight. -/
theorem poll_round_state (v : Nistr) (set : sdmmc_set) (cmd : sSdmmcCommand) (hw : Hw)
    (hst : set.state = Mcid.MCID_CMD) :
    (∀ o, poll_round v set cmd hw = Round.done o →
        o.set.cmd = none ∧ o.set.state ≠ Mcid.MCID_CMD)
      ∧ (∀ s c h, poll_round v set cmd hw = Round.again s c h → s.state = Mcid.MCID_CMD) := by
  have hk := poll_pass_keeps
    { set := set, cmd := cmd, hw := (poll_fetch set hw v).2, events := (poll_fetch set hw v).1 }
  rcases poll_round_cases v set cmd hw with
    ⟨_, hr⟩ | ⟨_, ⟨st, hps, hr⟩ | ⟨st, hps, hr⟩ | ⟨st, hps, hr⟩⟩
  · rw [hr]
    exact ⟨fun o h => (by cases h), fun s c h hh => (by cases hh)⟩
  · rw [hr]
    rw [hps] at hk
    simp only [Flow.st, Flow.isFail] at hk
    refine ⟨?_, fun s c h hh => (by cases hh)⟩
    intro o h
    cases h
    refine ⟨rfl, ?_⟩
    show st.set.state ≠ Mcid.MCID_CMD
    rcases hk.2.2 trivial with h | h
    · rw [h]; decide
    · rw [h.1]; decide
  · rw [hr]
    refine ⟨?_, fun s c h hh => (by cases hh)⟩
    intro o h
    cases h
    exact ⟨rfl, by show Mcid.MCID_LOCKED ≠ Mcid.MCID_CMD; decide⟩
  · rw [hr]
    rw [hps] at hk
    simp only [Flow.st, Flow.isFail] at hk
    refine ⟨fun o h => (by cases h), ?_⟩
    intro s c h hh
    cases hh
    rw [(hk.2.1 trivial).2]
    exact hst

/-- The resolver keeps the session's command reference in step with its state. -/
theorem sdmmc_poll_inv (set : sdmmc_set) (hw : Hw) (h : cmd_iff_in_flight set) :
    cmd_iff_in_flight (sdmmc_poll set hw).set := by
  unfold sdmmc_poll
  split
  · exact h
  · split
    · exact h
    · rename_i hst _ cmd hcmd
      have hst2 : set.state = Mcid.MCID_CMD := by
        by_contra hn
        exact hst hn
      refine poll_loop_induct
        (fun s _ _ => s.state = Mcid.MCID_CMD)
        (fun o => cmd_iff_in_flight o.set)
        ?_ ?_ ?_ ?_ hw.NISTR set cmd hw hst2
      · intro s c h rest hP
        exact hP
      · intro v s c h hw1 hP _
        unfold cmd_iff_in_flight
        simp [hP]
      · intro v s c h o hP hr
        have := (poll_round_state v s c h hP).1 o hr
        unfold cmd_iff_in_flight
        simp [this.1, this.2]
      · intro v s c h s1 c1 h1 hP hr
        have := (poll_round_state v s c h hP).2 s1 c1 h1 hr
        refine ⟨this, ?_⟩
        unfold cmd_iff_in_flight
        simp [this]

/-- The busy test keeps the session's command reference in step with its state. -/
theorem sdmmc_is_busy_inv (set : sdmmc_set) (hw : Hw) (h : cmd_iff_in_flight set) :
    cmd_iff_in_flight (sdmmc_is_busy set hw).set := by
  unfold sdmmc_is_busy
  simp only []
  split
  · exact sdmmc_poll_inv set hw h
  · exact h

/-- The write of the block count keeps the session's command reference in step
with its state. -/
theorem send_alias_inv (set : sdmmc_set) (cmd : sSdmmcCommand) (b : BuildOut)
    (h : cmd_iff_in_flight set) : cmd_iff_in_flight (send_alias set cmd b) := by
  unfold send_alias
  split
  · unfold cmd_iff_in_flight at h ⊢
    simpa using h
  · exact h

/-- The dispatcher keeps the session's command reference in step with its state. -/
theorem sdmmc_send_command_inv (K : Hdr) (set : sdmmc_set) (cmd : sSdmmcCommand) (hw : Hw)
    (o : SendOut) (h : cmd_iff_in_flight set)
    (ho : sdmmc_send_command K set cmd hw = some o) :
    cmd_iff_in_flight o.set := by
  unfold sdmmc_send_command at ho
  simp only [] at ho
  split at ho
  · cases ho; exact h
  · split at ho
    · cases ho; exact h
    · split at ho
      · cases ho; exact h
      · split at ho
        · split at ho
          · cases ho; exact h
          · cases ho; exact h
        · split at ho
          · cases ho; exact h
          · split at ho
            · cases ho; exact h
            · split at ho
              · cases ho; exact h
              · split at ho
                · cases ho
                  exact sdmmc_is_busy_inv _ _ (send_alias_inv set cmd _ h)
                · split at ho
                  · cases ho
                  · rename_i l hl
                    cases ho
                    obtain ⟨hw3, _, hl2⟩ := send_launch_some _ _ _ _ _ _ hl
                    show cmd_iff_in_flight l.1
                    rw [hl2]
                    unfold cmd_iff_in_flight
                    simp

/-- The cancellation keeps the session's command reference in step with its
state. -/
theorem sdmmc_cancel_command_inv (K : Hdr) (set : sdmmc_set) (hw : Hw) (o : CancelOut)
    (h : cmd_iff_in_flight set) (ho : sdmmc_cancel_command K set hw = some o) :
    cmd_iff_in_flight o.set := by
  have hrel : ∀ s c h2, cmd_iff_in_flight (cancel_release s c h2).set := by
    intro s c h2
    unfold cancel_release
    simp only []
    split <;> simp [cmd_iff_in_flight, release_set]
  unfold sdmmc_cancel_command at ho
  split at ho
  · cases ho; exact h
  · split at ho
    · rename_i herr
      cases ho
      unfold cmd_iff_in_flight at h ⊢
      rw [herr] at h
      have hn : set.cmd.isSome = false := by
        cases hs : set.cmd.isSome
        · rfl
        · exact absurd (h.mp hs) (by decide)
      simp [hn]
    · split at ho
      · cases ho; exact hrel _ _ _
      · split at ho
        · split at ho
          · cases ho
          · cases ho; exact hrel _ _ _
        · cases ho; exact hrel _ _ _

/-- The sampling tuning, called on a session that is not in flight, keeps the session's command reference in step with its state. -/
theorem sdmmc_tune_sampling_inv (K : Hdr) (set : sdmmc_set) (p_response : Nat) (hw : Hw)
    (o : RcOut) (h : cmd_iff_in_flight set) (hcmd : set.state ≠ Mcid.MCID_CMD)
    (ho : sdmmc_tune_sampling K set p_response hw = some o) :
    cmd_iff_in_flight o.set := by
  have hnone : set.cmd = none := by
    unfold cmd_iff_in_flight at h
    cases hs : set.cmd with
    | none => rfl
    | some c => rw [hs] at h; exact absurd (h.mp rfl) hcmd
  unfold sdmmc_tune_sampling at ho
  simp only [] at ho
  split at ho
  · cases hl : tune_loop K 40
        (tune_start K set p_response (sdmmc_get_bus_width hw).1 (sdmmc_get_bus_width hw).2).1
        (tune_start K set p_response (sdmmc_get_bus_width hw).1 (sdmmc_get_bus_width hw).2).2 with
    | none => rw [hl] at ho; cases ho
    | some st =>
      rw [hl] at ho
      have ho2 : tune_end st = o := Option.some.inj ho
      subst ho2
      have hsp := (tune_loop_spec K 40 _ _ st hl).2 hnone
      have he := tune_end_spec st
      unfold cmd_iff_in_flight
      rw [he.2.2.2.1, he.2.2.2.2.1, hsp]
      simp
  · cases ho
    exact h

/-- The timing mode switch leaves the command reference alone and changes the
state only from off to idle. -/
theorem sdmmc_set_speed_mode_fields (K : Hdr) (set : sdmmc_set) (mode : Nat) (verify : Bool)
    (hw : Hw) :
    (sdmmc_set_speed_mode K set mode verify hw).set.cmd = set.cmd
      ∧ ((sdmmc_set_speed_mode K set mode verify hw).set.state = set.state
        ∨ (set.state = Mcid.MCID_OFF
          ∧ (sdmmc_set_speed_mode K set mode verify hw).set.state = Mcid.MCID_IDLE)) := by
  have he : ∀ s m rc h, (speed_end s m rc h).set.cmd = s.cmd
      ∧ (speed_end s m rc h).set.state = s.state := by
    intro s m rc h
    unfold speed_end
    simp only []
    split <;> exact ⟨rfl, rfl⟩
  have hsw : ∀ caps h2, (speed_switch K set mode verify caps h2).set.cmd = set.cmd
      ∧ ((speed_switch K set mode verify caps h2).set.state = set.state
        ∨ (set.state = Mcid.MCID_OFF
          ∧ (speed_switch K set mode verify caps h2).set.state = Mcid.MCID_IDLE)) := by
    intro caps h2
    unfold speed_switch
    simp only []
    refine ⟨(he _ _ _ _).1, ?_⟩
    rw [(he _ _ _ _).2]
    by_cases hoff : set.state = Mcid.MCID_OFF
    · right; simp [hoff]
    · left; simp [hoff]
  unfold sdmmc_set_speed_mode
  simp only []
  split
  · exact ⟨rfl, Or.inl rfl⟩
  · split
    · exact ⟨rfl, Or.inl rfl⟩
    · split
      · exact ⟨rfl, Or.inl rfl⟩
      · exact hsw _ _

/-- The timing mode switch keeps the session's command reference in step with
its state. -/
theorem sdmmc_set_speed_mode_inv (K : Hdr) (set : sdmmc_set) (mode : Nat) (verify : Bool)
    (hw : Hw) (h : cmd_iff_in_flight set) :
    cmd_iff_in_flight (sdmmc_set_speed_mode K set mode verify hw).set := by
  have hf := sdmmc_set_speed_mode_fields K set mode verify hw
  unfold cmd_iff_in_flight at h ⊢
  rw [hf.1]
  rcases hf.2 with h1 | ⟨h1, h2⟩
  · rw [h1]; exact h
  · rw [h2]
    rw [h1] at h
    constructor
    · intro hs; exact absurd (h.mp hs) (by decide)
    · intro hs; exact absurd hs (by decide)

/-- The cancellation of a command in flight leaves no command reference. -/
theorem sdmmc_cancel_command_cmd (K : Hdr) (set : sdmmc_set) (hw : Hw) (o : CancelOut)
    (hst : set.state = Mcid.MCID_CMD) (ho : sdmmc_cancel_command K set hw = some o) :
    o.set.cmd = none := by
  unfold sdmmc_cancel_command at ho
  have hne : ¬ (Mcid.MCID_CMD = Mcid.MCID_ERROR) := by decide
  simp only [hst, ne_eq, not_true_eq_false, false_and, if_false, hne] at ho
  split at ho
  · cases ho; rfl
  · split at ho
    · split at ho
      · cases ho
      · cases ho; rfl
    · cases ho; rfl

/-- The register and clock part of the power-off leaves the command reference
alone. -/
theorem unplug_power_off_cmd (K : Hdr) (set : sdmmc_set) (hw : Hw) :
    (unplug_power_off K set hw).1.cmd = set.cmd := rfl

/-- The power-off leaves a session that is off and references no command. -/
theorem sdmmc_unplug_device_inv (K : Hdr) (set : sdmmc_set) (hw : Hw) (o : RcOut)
    (h : cmd_iff_in_flight set) (ho : sdmmc_unplug_device K set hw = some o) :
    cmd_iff_in_flight o.set := by
  unfold sdmmc_unplug_device at ho
  simp only [] at ho
  by_cases hc : set.state = Mcid.MCID_CMD
  · rw [if_pos hc] at ho
    cases hcan : sdmmc_cancel_command K set hw with
    | none => rw [hcan] at ho; cases ho
    | some a =>
      rw [hcan] at ho
      cases ho
      have hn := sdmmc_cancel_command_cmd K set hw a hc hcan
      unfold cmd_iff_in_flight
      show (unplug_power_off K a.set a.hw).1.cmd.isSome = true ↔ Mcid.MCID_OFF = Mcid.MCID_CMD
      rw [unplug_power_off_cmd, hn]
      simp
  · rw [if_neg hc] at ho
    cases ho
    unfold cmd_iff_in_flight at h ⊢
    show (unplug_power_off K set hw).1.cmd.isSome = true ↔ Mcid.MCID_OFF = Mcid.MCID_CMD
    rw [unplug_power_off_cmd]
    constructor
    · intro hs; exact absurd (h.mp hs) hc
    · intro hs; exact absurd hs (by decide)

/-- Every call keeps the session's command reference in step with its state,
the sampling tuning when it is not called with a command in flight. -/
theorem step_inv (K : Hdr) (w w1 : sdmmc_set × Hw) (c : Call)
    (h : cmd_iff_in_flight w.1)
    (hpre : ∀ p, c = Call.tune_sampling p → w.1.state ≠ Mcid.MCID_CMD)
    (hs : step K w c = some w1) : cmd_iff_in_flight w1.1 := by
  cases c with
  | send_command cmd =>
    simp only [step] at hs
    split at hs
    · cases hs
    · rename_i o ho
      cases hs
      exact sdmmc_send_command_inv K w.1 cmd w.2 o h ho
  | is_busy =>
    simp only [step, Option.some.injEq] at hs
    rw [← hs]
    exact sdmmc_is_busy_inv w.1 w.2 h
  | poll =>
    simp only [step, Option.some.injEq] at hs
    rw [← hs]
    exact sdmmc_poll_inv w.1 w.2 h
  | cancel_command =>
    simp only [step] at hs
    split at hs
    · cases hs
    · rename_i o ho
      cases hs
      exact sdmmc_cancel_command_inv K w.1 w.2 o h ho
  | tune_sampling p_response =>
    simp only [step] at hs
    split at hs
    · cases hs
    · rename_i o ho
      cases hs
      exact sdmmc_tune_sampling_inv K w.1 p_response w.2 o h (hpre p_response rfl) ho
  | set_speed_mode mode verify =>
    simp only [step, Option.some.injEq] at hs
    rw [← hs]
    exact sdmmc_set_speed_mode_inv K w.1 mode verify w.2 h
  | unplug_device =>
    simp only [step] at hs
    split at hs
    · cases hs
    · rename_i o ho
      cases hs
      exact sdmmc_unplug_device_inv K w.1 w.2 o h ho

/-- Every sequence of calls that does not call the sampling tuning with a
command in flight keeps the session's command reference in step with its
state. -/
theorem run_inv (K : Hdr) :
    ∀ (calls : List Call) (w w1 : sdmmc_set × Hw),
      cmd_iff_in_flight w.1 → tune_not_in_flight K calls w = true →
      run K calls w = some w1 → cmd_iff_in_flight w1.1 := by
  intro calls
  induction calls with
  | nil =>
    intro w w1 h _ hr
    simp only [run, Option.some.injEq] at hr
    rw [← hr]
    exact h
  | cons c cs ih =>
    intro w w1 h ht hr
    simp only [run] at hr
    cases hs : step K w c with
    | none => rw [hs] at hr; cases hr
    | some w2 =>
      rw [hs] at hr
      unfold tune_not_in_flight at ht
      rw [hs] at ht
      simp only [Bool.and_eq_true] at ht
      refine ih w2 w1 (step_inv K w w2 c h ?_ hs) ht.2 hr
      intro p hp
      subst hp
      simpa using ht.1

/-- A sequence of calls that starts with the dispatcher and returns: the
dispatcher has returned, and the other calls ran on what it left. -/
theorem run_send_cons (K : Hdr) (cmd : sSdmmcCommand) (cs : List Call) (set : sdmmc_set)
    (hw : Hw) (w : sdmmc_set × Hw)
    (hr : run K (Call.send_command cmd :: cs) (set, hw) = some w) :
    ∃ o, sdmmc_send_command K set cmd hw = some o ∧ run K cs (o.set, o.hw) = some w := by
  simp only [run, step] at hr
  cases ho : sdmmc_send_command K set cmd hw with
  | none => rw [ho] at hr; cases hr
  | some o =>
    rw [ho] at hr
    exact ⟨o, rfl, hr⟩


/-! ## Lemmas on the input stream of the event register -/

/-- The response loop for R2 leaves the event stream alone. -/
theorem r2_loop_NISTR (n ix : Nat) (out : Nat → Nat) (hw : Hw) :
    (r2_loop n ix out hw).2.NISTR = hw.NISTR := by
  induction n generalizing ix out hw with
  | zero => rfl
  | succ n ih =>
    unfold r2_loop
    simp only []
    rw [ih]
    rfl

/-- Reading the first response leaves the event stream alone. -/
theorem get_response_first_NISTR (set : sdmmc_set) (cmd : sSdmmcCommand)
    (out : Nat → Nat) (hw : Hw) :
    (get_response_first set cmd out hw).hw.NISTR = hw.NISTR := by
  unfold get_response_first
  split
  · simp only []
    exact r2_loop_NISTR _ _ _ _
  · split <;> rfl

/-- The function `sdmmc_get_response` leaves the event stream alone. -/
theorem sdmmc_get_response_NISTR (set : sdmmc_set) (cmd : sSdmmcCommand)
    (complete : Bool) (out : Nat → Nat) (hw : Hw) :
    (sdmmc_get_response set cmd complete out hw).hw.NISTR = hw.NISTR := by
  unfold sdmmc_get_response
  simp only []
  repeat' split
  all_goals first | rfl | exact get_response_first_NISTR _ _ _ _

/-- Retrieving the response leaves the event stream alone. -/
theorem poll_get_response_NISTR (st : PollSt) (complete : Bool) :
    (poll_get_response st complete).hw.NISTR = st.hw.NISTR := by
  unfold poll_get_response
  split
  · rfl
  · exact sdmmc_get_response_NISTR _ _ _ _ _

/-- The fetch of the events leaves the event stream alone. -/
theorem poll_fetch_NISTR (set : sdmmc_set) (hw : Hw) (v : Nistr) :
    (poll_fetch set hw v).2.NISTR = hw.NISTR := by
  unfold poll_fetch
  split
  · split
    · simp only []
      split <;> rfl
    · rfl
  · split <;> rfl

/-- The error decoding leaves the event stream alone. -/
theorem poll_decode_NISTR (errors : Eistr) (hw : Hw) :
    (poll_decode errors hw).2.NISTR = hw.NISTR := by
  unfold poll_decode
  repeat' (first | rfl | apply ite_prop (fun x : Rc × Hw => x.2.NISTR = hw.NISTR))

/-- The error block leaves the event stream alone. -/
theorem poll_errint_NISTR (st : PollSt) : (poll_errint st).hw.NISTR = st.hw.NISTR := by
  unfold poll_errint
  show (poll_decode _ _).2.NISTR = _
  rw [poll_decode_NISTR]
  rfl

/-- The Command Complete block leaves the event stream alone. -/
theorem poll_cmdc_NISTR (st : PollSt) : (poll_cmdc st).st.hw.NISTR = st.hw.NISTR := by
  unfold poll_cmdc
  split
  · simp only []
    split
    · exact poll_get_response_NISTR _ _
    · exact poll_get_response_NISTR _ _
  · rfl

/-- The word loop of the read block leaves the event stream alone. -/
theorem read_words_NISTR (n off : Nat) (data : Nat → Nat) (hw : Hw) :
    (read_words n off data hw).2.NISTR = hw.NISTR := by
  induction n generalizing off data hw with
  | zero => rfl
  | succ n ih =>
    unfold read_words
    simp only []
    rw [ih]
    rfl

/-- The read block leaves the event stream alone. -/
theorem poll_brdrdy_NISTR (st : PollSt) : (poll_brdrdy st).st.hw.NISTR = st.hw.NISTR := by
  unfold poll_brdrdy
  split
  · simp only []
    split
    · rfl
    · simp only [Flow.st]
      split
      · show (Hw.rd_BDPR _).2.NISTR = _
        unfold Hw.rd_BDPR
        show Hw.NISTR (read_words _ _ _ _).2 = _
        rw [read_words_NISTR]
        rfl
      · rw [read_words_NISTR]
        rfl
  · rfl

/-- The word loop of the write block leaves the event stream alone. -/
theorem write_words_NISTR (n off : Nat) (data : Nat → Nat) (hw : Hw) :
    (write_words n off data hw).NISTR = hw.NISTR := by
  induction n generalizing off hw with
  | zero => rfl
  | succ n ih =>
    unfold write_words
    rw [ih]
    rfl

/-- The write block leaves the event stream alone. -/
theorem poll_bwrrdy_NISTR (st : PollSt) : (poll_bwrrdy st).hw.NISTR = st.hw.NISTR := by
  unfold poll_bwrrdy
  split
  · simp only []
    split
    · show (write_words _ _ _ _).NISTR = _
      rw [write_words_NISTR]
      rfl
    · rw [write_words_NISTR]
      rfl
  · rfl

/-- The first part of the Transfer Complete block leaves the event stream alone. -/
theorem poll_trfc_release_NISTR (st : PollSt) :
    (poll_trfc_release st).hw.NISTR = st.hw.NISTR := by
  unfold poll_trfc_release
  simp only []
  split
  · split
    · exact poll_get_response_NISTR _ _
    · rfl
  · split
    · exact poll_get_response_NISTR _ _
    · rfl

/-- The Transfer Complete block leaves the event stream alone. -/
theorem poll_trfc_NISTR (st : PollSt) : (poll_trfc st).st.hw.NISTR = st.hw.NISTR := by
  have hk := poll_trfc_release_NISTR st
  unfold poll_trfc
  split
  · simp only []
    split
    · exact hk
    · split
      · exact hk
      · exact hk
  · rfl

/-- One pass of the resolver leaves the event stream alone. -/
theorem poll_pass_NISTR (st : PollSt) : (poll_pass st).st.hw.NISTR = st.hw.NISTR := by
  unfold poll_pass
  split
  · exact poll_errint_NISTR st
  · split
    · exact poll_get_response_NISTR st true
    · have hc := poll_cmdc_NISTR st
      cases hf : poll_cmdc st with
      | fail st1 => rw [hf] at hc; exact hc
      | succeed st1 => rw [hf] at hc; exact hc
      | cont st1 =>
        rw [hf] at hc
        simp only [Flow.bind, Flow.st] at hc ⊢
        have hb := poll_brdrdy_NISTR st1
        cases hg : poll_brdrdy st1 with
        | fail st2 =>
          rw [hg] at hb
          simp only [Flow.st] at hb ⊢
          exact hb.trans hc
        | succeed st2 =>
          rw [hg] at hb
          simp only [Flow.st] at hb ⊢
          exact hb.trans hc
        | cont st2 =>
          rw [hg] at hb
          simp only [Flow.st] at hb ⊢
          have hw := poll_bwrrdy_NISTR st2
          have ht := poll_trfc_NISTR (poll_bwrrdy st2)
          exact ht.trans (hw.trans (hb.trans hc))

/-- The code from the label `End` on leaves the event stream alone. -/
theorem poll_end_NISTR (st : PollSt) : (poll_end st).hw.NISTR = st.hw.NISTR := by
  unfold poll_end
  simp only []
  repeat' split
  all_goals rfl

/-- One round of the fetch loop leaves the event stream alone. -/
theorem poll_round_NISTR (v : Nistr) (set : sdmmc_set) (cmd : sSdmmcCommand) (hw : Hw) :
    (∀ hw1, poll_round v set cmd hw = Round.idle hw1 → hw1.NISTR = hw.NISTR)
      ∧ (∀ o, poll_round v set cmd hw = Round.done o → o.hw.NISTR = hw.NISTR)
      ∧ (∀ s c h, poll_round v set cmd hw = Round.again s c h → h.NISTR = hw.NISTR) := by
  have hp := poll_pass_NISTR
    { set := set, cmd := cmd, hw := (poll_fetch set hw v).2, events := (poll_fetch set hw v).1 }
  have hf := poll_fetch_NISTR set hw v
  rcases poll_round_cases v set cmd hw with
    ⟨_, hr⟩ | ⟨_, ⟨st, hps, hr⟩ | ⟨st, hps, hr⟩ | ⟨st, hps, hr⟩⟩
  · rw [hr]
    refine ⟨?_, fun o h => (by cases h), fun s c h hh => (by cases hh)⟩
    intro hw1 h
    cases h
    exact hf
  · rw [hr]
    rw [hps] at hp
    simp only [Flow.st] at hp
    refine ⟨fun o h => (by cases h), ?_, fun s c h hh => (by cases hh)⟩
    intro o h
    cases h
    rw [poll_end_NISTR]
    exact hp.trans hf
  · rw [hr]
    rw [hps] at hp
    simp only [Flow.st] at hp
    refine ⟨fun o h => (by cases h), ?_, fun s c h hh => (by cases hh)⟩
    intro o h
    cases h
    rw [poll_end_NISTR]
    exact hp.trans hf
  · rw [hr]
    rw [hps] at hp
    simp only [Flow.st] at hp
    refine ⟨fun o h => (by cases h), fun o h => (by cases h), ?_⟩
    intro s c h hh
    cases hh
    split
    · exact hp.trans hf
    · exact hp.trans hf

/-- The fetch loop leaves a tail of the event stream. -/
theorem poll_loop_NISTR (l : List Nistr) :
    ∀ (set : sdmmc_set) (cmd : sSdmmcCommand) (hw : Hw),
      ∀ v ∈ (poll_loop l set cmd hw).hw.NISTR, v ∈ l ∨ v ∈ hw.NISTR := by
  induction l with
  | nil =>
    intro set cmd hw v hv
    rw [poll_loop_nil] at hv
    have hr := poll_round_NISTR Nistr.zero set cmd hw
    cases hf : poll_round Nistr.zero set cmd hw with
    | idle hw1 =>
      rw [hf] at hv
      rw [hr.1 _ hf] at hv
      exact Or.inr hv
    | again s1 c1 hw1 =>
      rw [hf] at hv
      rw [hr.2.2 _ _ _ hf] at hv
      exact Or.inr hv
    | done o =>
      rw [hf] at hv
      rw [hr.2.1 _ hf] at hv
      exact Or.inr hv
  | cons a rest ih =>
    intro set cmd hw v hv
    rw [poll_loop_cons] at hv
    have hr := poll_round_NISTR a set cmd { hw with NISTR := rest }
    cases hf : poll_round a set cmd { hw with NISTR := rest } with
    | idle hw1 =>
      rw [hf] at hv
      rw [hr.1 _ hf] at hv
      exact Or.inl (List.mem_cons_of_mem _ hv)
    | again s1 c1 hw1 =>
      rw [hf] at hv
      rcases ih s1 c1 hw1 v hv with h | h
      · exact Or.inl (List.mem_cons_of_mem _ h)
      · rw [hr.2.2 _ _ _ hf] at h
        exact Or.inl (List.mem_cons_of_mem _ h)
    | done o =>
      rw [hf] at hv
      rw [hr.2.1 _ hf] at hv
      exact Or.inl (List.mem_cons_of_mem _ hv)

/-- The resolver leaves a tail of the event stream. -/
theorem sdmmc_poll_NISTR (set : sdmmc_set) (hw : Hw) :
    ∀ v ∈ (sdmmc_poll set hw).hw.NISTR, v ∈ hw.NISTR := by
  intro v hv
  unfold sdmmc_poll at hv
  split at hv
  · exact hv
  · split at hv
    · exact hv
    · rcases poll_loop_NISTR _ _ _ _ v hv with h | h
      · exact h
      · exact h



/-! ## Lemmas on the block counter -/

/-- Reading the first response changes only `resp_len`. -/
theorem get_response_first_set (set : sdmmc_set) (cmd : sSdmmcCommand) (out : Nat → Nat)
    (hw : Hw) :
    (get_response_first set cmd out hw).set
      = { set with resp_len := (get_response_first set cmd out hw).set.resp_len } := by
  unfold get_response_first
  split
  · rfl
  · split <;> rfl

/-- `sdmmc_get_response` changes only `resp_len`. -/
theorem sdmmc_get_response_set (set : sdmmc_set) (cmd : sSdmmcCommand) (complete : Bool)
    (out : Nat → Nat) (hw : Hw) :
    (sdmmc_get_response set cmd complete out hw).set
      = { set with resp_len := (sdmmc_get_response set cmd complete out hw).set.resp_len } := by
  have h := get_response_first_set set cmd out hw
  unfold sdmmc_get_response
  simp only []
  repeat' split
  all_goals first | rfl | exact h

/-- Retrieving the response leaves the bookkeeping fields alone. -/
theorem poll_get_response_view (st : PollSt) (complete : Bool) :
    xview (poll_get_response st complete).set (poll_get_response st complete).cmd
        = xview st.set st.cmd
      ∧ (poll_get_response st complete).set.cmd_line_released = st.set.cmd_line_released
      ∧ (poll_get_response st complete).set.use_set_blk_cnt = st.set.use_set_blk_cnt
      ∧ (poll_get_response st complete).cmd.bCmd = st.cmd.bCmd
      ∧ (poll_get_response st complete).events = st.events := by
  unfold poll_get_response
  split
  · exact ⟨rfl, rfl, rfl, rfl, rfl⟩
  · rename_i out _
    have h := sdmmc_get_response_set st.set st.cmd complete out st.hw
    refine ⟨?_, ?_, ?_, rfl, rfl⟩
    · show xview (sdmmc_get_response st.set st.cmd complete out st.hw).set _ = _
      rw [h]
      rfl
    · show (sdmmc_get_response st.set st.cmd complete out st.hw).set.cmd_line_released = _
      rw [h]
    · show (sdmmc_get_response st.set st.cmd complete out st.hw).set.use_set_blk_cnt = _
      rw [h]

/-- The Command Complete block leaves the bookkeeping fields alone; it goes to
`Succeed` only when the command moves no data and checks no busy state, or
when the data lines have been released; it never fails. -/
theorem poll_cmdc_view (st : PollSt) :
    xview (poll_cmdc st).st.set (poll_cmdc st).st.cmd = xview st.set st.cmd
      ∧ (poll_cmdc st).st.set.use_set_blk_cnt = st.set.use_set_blk_cnt
      ∧ (poll_cmdc st).st.cmd.bCmd = st.cmd.bCmd
      ∧ (∀ s, poll_cmdc st = Flow.cont s →
          s.events = { st.events with CMDC := false }
            ∧ (st.events.CMDC = false → s.set.cmd_line_released = st.set.cmd_line_released))
      ∧ (∀ s, poll_cmdc st = Flow.succeed s →
          (has_data st.cmd = false ∧ st.cmd.cmdOp.checkBsy = false)
            ∨ st.set.dat_lines_released = true)
      ∧ (∀ s, poll_cmdc st ≠ Flow.fail s) := by
  have hg := poll_get_response_view
    { st with
      hw := st.hw.emit (Event.wr_NISTR { Nistr.zero with CMDC := true }),
      events := { st.events with CMDC := false },
      set := { st.set with cmd_line_released := true } } st.set.dat_lines_released
  unfold poll_cmdc
  by_cases hc : st.events.CMDC = true
  · rw [if_pos hc]
    simp only []
    split
    · rename_i hcond
      refine ⟨hg.1, hg.2.2.1, hg.2.2.2.1, fun s h => (by cases h), ?_, fun s h => (by cases h)⟩
      intro s _
      have hv := hg.1
      simp only [xview, Prod.mk.injEq] at hv
      simp only [has_data] at hcond ⊢
      rw [hv.2.2.1, hv.2.2.2.2.1] at hcond
      simpa using hcond
    · refine ⟨hg.1, hg.2.2.1, hg.2.2.2.1, ?_, fun s h => (by cases h), fun s h => (by cases h)⟩
      intro s h
      cases h
      exact ⟨hg.2.2.2.2, fun h2 => absurd hc (by simp [h2])⟩
  · rw [if_neg hc]
    refine ⟨rfl, rfl, rfl, ?_, fun s h => (by cases h), fun s h => (by cases h)⟩
    intro s h
    cases h
    refine ⟨?_, fun _ => rfl⟩
    have : st.events.CMDC = false := by simpa using hc
    rw [← this]


/-- The bookkeeping depends on the fields of `xview` only. -/
theorem xfer_inv_of_view (set set1 : sdmmc_set) (cmd cmd1 : sSdmmcCommand)
    (hv : xview set1 cmd1 = xview set cmd) (h : xfer_inv set cmd) :
    xfer_inv set1 cmd1 ∧ cmd1.wNbBlocks = cmd.wNbBlocks ∧ set1.blk_index = set.blk_index := by
  simp only [xview, Prod.mk.injEq] at hv
  obtain ⟨h1, h2, h3, h4, h5, h6⟩ := hv
  unfold xfer_inv at h ⊢
  unfold has_data at h ⊢
  rw [h1, h2, h3, h4, h5, h6]
  exact ⟨h, rfl, rfl⟩

/-- The Command Complete block on a transfer without DMA: it keeps the
bookkeeping, and goes to `Succeed` only with all blocks moved. -/
theorem poll_cmdc_xfer (st : PollSt) (hJ : xfer_inv st.set st.cmd) :
    (∀ s, poll_cmdc st = Flow.cont s → xfer_inv s.set s.cmd ∧ s.cmd.wNbBlocks = st.cmd.wNbBlocks)
      ∧ (∀ s, poll_cmdc st = Flow.succeed s →
          s.set.blk_index = s.cmd.wNbBlocks ∧ s.cmd.wNbBlocks = st.cmd.wNbBlocks)
      ∧ (∀ s, poll_cmdc st ≠ Flow.fail s) := by
  have hv := poll_cmdc_view st
  refine ⟨?_, ?_, hv.2.2.2.2.2⟩
  · intro s hs
    have h1 := hv.1
    rw [hs] at h1
    have := xfer_inv_of_view _ _ _ _ h1 hJ
    exact ⟨this.1, this.2.1⟩
  · intro s hs
    have h1 := hv.1
    rw [hs] at h1
    have h2 := xfer_inv_of_view _ _ _ _ h1 hJ
    simp only [Flow.st] at h2
    refine ⟨?_, h2.2.1⟩
    rw [h2.2.2, h2.2.1]
    rcases hv.2.2.2.2.1 s hs with h3 | h3
    · rw [hJ.2.1] at h3
      exact absurd h3.1 (by decide)
    · exact hJ.2.2.2.1 h3

/-- The read block on a transfer without DMA: it keeps the bookkeeping or fails
with Io. -/
theorem poll_brdrdy_xfer (st : PollSt) (hJ : xfer_inv st.set st.cmd) :
    (∀ s, poll_brdrdy st = Flow.cont s →
        xfer_inv s.set s.cmd ∧ s.cmd.wNbBlocks = st.cmd.wNbBlocks)
      ∧ (∀ s, poll_brdrdy st = Flow.fail s → s.cmd.bStatus = Rc.SDMMC_ERR_IO)
      ∧ (∀ s, poll_brdrdy st ≠ Flow.succeed s) := by
  unfold poll_brdrdy
  split
  · simp only []
    by_cases hge : st.set.blk_index ≥ st.cmd.wNbBlocks
    · rw [if_pos hge]
      refine ⟨fun s h => (by cases h), ?_, fun s h => (by cases h)⟩
      intro s h
      cases h
      rfl
    · rw [if_neg hge]
      refine ⟨?_, fun s h => (by cases h), fun s h => (by cases h)⟩
      intro s h
      cases h
      refine ⟨?_, rfl⟩
      obtain ⟨h1, h2, h3, h4, h5⟩ := hJ
      have hd : st.set.dat_lines_released = false := by
        cases hdl : st.set.dat_lines_released
        · rfl
        · exact absurd (h4 hdl) (by omega)
      have he : st.set.expect_auto_end = false := by
        cases hel : st.set.expect_auto_end
        · rfl
        · rw [h5 hel] at hd; cases hd
      refine ⟨h1, h2, h3, ?_, ?_⟩
      · intro hx
        rw [hd] at hx
        cases hx
      · intro hx
        rw [he] at hx
        cases hx
  · refine ⟨?_, fun s h => (by cases h), fun s h => (by cases h)⟩
    intro s h
    cases h
    exact ⟨hJ, rfl⟩

/-- The write block on a transfer without DMA keeps the bookkeeping. -/
theorem poll_bwrrdy_xfer (st : PollSt) (hJ : xfer_inv st.set st.cmd) :
    xfer_inv (poll_bwrrdy st).set (poll_bwrrdy st).cmd
      ∧ (poll_bwrrdy st).cmd.wNbBlocks = st.cmd.wNbBlocks := by
  unfold poll_bwrrdy
  split
  · rename_i hcond
    refine ⟨?_, rfl⟩
    have hlt : st.set.blk_index < st.cmd.wNbBlocks := by
      simp only [Bool.and_eq_true, decide_eq_true_eq] at hcond
      exact hcond.2
    obtain ⟨h1, h2, h3, h4, h5⟩ := hJ
    have hd : st.set.dat_lines_released = false := by
      cases hdl : st.set.dat_lines_released
      · rfl
      · exact absurd (h4 hdl) (by omega)
    have he : st.set.expect_auto_end = false := by
      cases hel : st.set.expect_auto_end
      · rfl
      · rw [h5 hel] at hd; cases hd
    refine ⟨h1, h2, h3, ?_, ?_⟩
    · intro hx
      rw [hd] at hx
      cases hx
    · intro hx
      rw [he] at hx
      cases hx
  · exact ⟨hJ, rfl⟩


/-- The first part of the Transfer Complete block marks the data lines released
and leaves the table, the block count, the operation word and the block
counter alone. -/
theorem poll_trfc_release_fields (st : PollSt) :
    (poll_trfc_release st).set.table = st.set.table
      ∧ (poll_trfc_release st).cmd.wNbBlocks = st.cmd.wNbBlocks
      ∧ (poll_trfc_release st).cmd.cmdOp = st.cmd.cmdOp
      ∧ (poll_trfc_release st).set.blk_index = st.set.blk_index
      ∧ (poll_trfc_release st).set.dat_lines_released = true := by
  have hview : ∀ s : PollSt, ∀ c : Bool,
      (poll_get_response s c).set.table = s.set.table
        ∧ (poll_get_response s c).cmd.wNbBlocks = s.cmd.wNbBlocks
        ∧ (poll_get_response s c).cmd.cmdOp = s.cmd.cmdOp
        ∧ (poll_get_response s c).set.blk_index = s.set.blk_index
        ∧ (poll_get_response s c).set.dat_lines_released = s.set.dat_lines_released := by
    intro s c
    have h := (poll_get_response_view s c).1
    simp only [xview, Prod.mk.injEq] at h
    exact ⟨h.1, h.2.1, h.2.2.1, h.2.2.2.1, h.2.2.2.2.1⟩
  unfold poll_trfc_release
  simp only []
  split
  · split
    · exact hview _ true
    · exact ⟨rfl, rfl, rfl, rfl, rfl⟩
  · split
    · exact hview _ true
    · exact ⟨rfl, rfl, rfl, rfl, rfl⟩

/-- The Transfer Complete block on a transfer without DMA: it fails with Io
unless all blocks have been moved, and otherwise keeps the bookkeeping. -/
theorem poll_trfc_xfer (st : PollSt) (hJ : xfer_inv st.set st.cmd) :
    (∀ s, poll_trfc st = Flow.cont s → xfer_inv s.set s.cmd ∧ s.cmd.wNbBlocks = st.cmd.wNbBlocks)
      ∧ (∀ s, poll_trfc st = Flow.succeed s →
          s.set.blk_index = s.cmd.wNbBlocks ∧ s.cmd.wNbBlocks = st.cmd.wNbBlocks)
      ∧ (∀ s, poll_trfc st = Flow.fail s → s.cmd.bStatus = Rc.SDMMC_ERR_IO) := by
  have hf := poll_trfc_release_fields st
  obtain ⟨h1, h2, h3, _, _⟩ := hJ
  have hdata : has_data (poll_trfc_release st).cmd = true := by
    unfold has_data at h2 ⊢
    rw [hf.2.2.1]
    exact h2
  unfold poll_trfc
  by_cases ht : st.events.TRFC = true
  · rw [if_pos ht]
    simp only []
    by_cases hne : (poll_trfc_release st).set.blk_index = (poll_trfc_release st).cmd.wNbBlocks
    · have hcond : ¬ ((has_data (poll_trfc_release st).cmd && (poll_trfc_release st).set.table == 0
          && (poll_trfc_release st).set.blk_index != (poll_trfc_release st).cmd.wNbBlocks)
          = true) := by
        simp [hne]
      rw [if_neg hcond]
      have hJ3 : xfer_inv (poll_trfc_release st).set (poll_trfc_release st).cmd := by
        refine ⟨by rw [hf.1]; exact h1, hdata, by rw [hf.2.1]; exact h3, fun _ => hne,
          fun _ => hf.2.2.2.2⟩
      split
      · refine ⟨fun s h => (by cases h), ?_, fun s h => (by cases h)⟩
        intro s h
        cases h
        exact ⟨hne, hf.2.1⟩
      · refine ⟨?_, fun s h => (by cases h), fun s h => (by cases h)⟩
        intro s h
        cases h
        exact ⟨hJ3, hf.2.1⟩
    · have hcond : (has_data (poll_trfc_release st).cmd && (poll_trfc_release st).set.table == 0
          && (poll_trfc_release st).set.blk_index != (poll_trfc_release st).cmd.wNbBlocks)
          = true := by
        simp [hdata, hf.1, h1, hne]
      rw [if_pos hcond]
      refine ⟨fun s h => (by cases h), fun s h => (by cases h), ?_⟩
      intro s h
      cases h
      rfl
  · rw [if_neg ht]
    refine ⟨?_, fun s h => (by cases h), fun s h => (by cases h)⟩
    intro s h
    cases h
    exact ⟨⟨h1, h2, h3, ‹_›, ‹_›⟩, rfl⟩

/-- The error decoding never yields Ok. -/
theorem poll_decode_ne_ok (errors : Eistr) (hw : Hw) :
    (poll_decode errors hw).1 ≠ Rc.SDMMC_OK := by
  unfold poll_decode
  repeat' (first
    | (intro h; exact Rc.noConfusion h)
    | apply ite_prop (fun x : Rc × Hw => x.1 ≠ Rc.SDMMC_OK))

/-- One pass of the resolver on a transfer without DMA, when the software event
is raised only while the Auto CMD12 end is expected: it goes to `Succeed` only
with all blocks moved, it never fails with the status Ok, and when control
falls through it keeps the bookkeeping. -/
theorem poll_pass_xfer (st : PollSt) (hJ : xfer_inv st.set st.cmd)
    (hcust : st.events.CUSTOM_EVT = true → st.set.expect_auto_end = true) :
    (∀ s, poll_pass st = Flow.cont s → xfer_inv s.set s.cmd ∧ s.cmd.wNbBlocks = st.cmd.wNbBlocks)
      ∧ (∀ s, poll_pass st = Flow.succeed s →
          s.set.blk_index = s.cmd.wNbBlocks ∧ s.cmd.wNbBlocks = st.cmd.wNbBlocks)
      ∧ (∀ s, poll_pass st = Flow.fail s → s.cmd.bStatus ≠ Rc.SDMMC_OK) := by
  unfold poll_pass
  split
  · refine ⟨fun s h => (by cases h), fun s h => (by cases h), ?_⟩
    intro s h
    cases h
    exact poll_decode_ne_ok _ _
  · split
    · rename_i hc
      refine ⟨fun s h => (by cases h), ?_, fun s h => (by cases h)⟩
      intro s h
      cases h
      have hv := xfer_inv_of_view _ _ _ _ (poll_get_response_view st true).1 hJ
      refine ⟨?_, hv.2.1⟩
      rw [hv.2.2, hv.2.1]
      exact hJ.2.2.2.1 (hJ.2.2.2.2 (hcust hc))
    · have hc := poll_cmdc_xfer st hJ
      cases hf : poll_cmdc st with
      | fail st1 => exact absurd hf (hc.2.2 st1)
      | succeed st1 =>
        simp only [Flow.bind]
        refine ⟨fun s h => (by cases h), ?_, fun s h => (by cases h)⟩
        intro s h
        cases h
        exact hc.2.1 _ hf
      | cont st1 =>
        simp only [Flow.bind]
        have hJ1 := hc.1 st1 hf
        have hb := poll_brdrdy_xfer st1 hJ1.1
        cases hg : poll_brdrdy st1 with
        | succeed st2 => exact absurd hg (hb.2.2 st2)
        | fail st2 =>
          simp only [Flow.bind]
          refine ⟨fun s h => (by cases h), fun s h => (by cases h), ?_⟩
          intro s h
          cases h
          rw [hb.2.1 _ hg]
          decide
        | cont st2 =>
          simp only [Flow.bind]
          have hJ2 := hb.1 st2 hg
          have hw := poll_bwrrdy_xfer st2 hJ2.1
          have ht := poll_trfc_xfer (poll_bwrrdy st2) hw.1
          refine ⟨?_, ?_, ?_⟩
          · intro s h
            have := ht.1 s h
            exact ⟨this.1, this.2.trans (hw.2.trans (hJ2.2.trans hJ1.2))⟩
          · intro s h
            have := ht.2.1 s h
            exact ⟨this.1, this.2.trans (hw.2.trans (hJ2.2.trans hJ1.2))⟩
          · intro s h
            rw [ht.2.2 s h]
            decide

/-- The fetch raises the software event only while the Auto CMD12 end is
expected, unless the value read from the register has it. -/
theorem poll_fetch_custom (set : sdmmc_set) (hw : Hw) (v : Nistr)
    (hv : v.CUSTOM_EVT = false) (hc : (poll_fetch set hw v).1.CUSTOM_EVT = true) :
    set.expect_auto_end = true := by
  unfold poll_fetch at hc
  by_cases he : set.expect_auto_end = true
  · exact he
  · simp only [he, Bool.false_eq_true, if_false, ite_self] at hc
    rw [hv] at hc
    exact absurd hc (by decide)

/-- One round on a transfer without DMA in flight: a round that fetches again
keeps the session in flight and the bookkeeping; a round that ends hands to
the label `End` a state other than in flight, with all blocks moved when the
status is Ok. -/
theorem poll_round_xfer (v : Nistr) (set : sdmmc_set) (cmd : sSdmmcCommand) (hw : Hw)
    (hv : v.CUSTOM_EVT = false) (hst : set.state = Mcid.MCID_CMD) (hJ : xfer_inv set cmd) :
    (∀ hw1, poll_round v set cmd hw = Round.idle hw1 → poll_round_final v set cmd hw = none)
      ∧ (∀ s c h, poll_round v set cmd hw = Round.again s c h →
          poll_round_final v set cmd hw = none ∧ s.state = Mcid.MCID_CMD ∧ xfer_inv s c
            ∧ c.wNbBlocks = cmd.wNbBlocks)
      ∧ (∀ o, poll_round v set cmd hw = Round.done o →
          ∃ st, poll_round_final v set cmd hw = some st ∧ o = poll_end st
            ∧ st.set.state ≠ Mcid.MCID_CMD
            ∧ (st.cmd.bStatus = Rc.SDMMC_OK →
                st.set.blk_index = st.cmd.wNbBlocks ∧ st.cmd.wNbBlocks = cmd.wNbBlocks)) := by
  have hk := poll_pass_keeps
    { set := set, cmd := cmd, hw := (poll_fetch set hw v).2, events := (poll_fetch set hw v).1 }
  have hx := poll_pass_xfer
    { set := set, cmd := cmd, hw := (poll_fetch set hw v).2, events := (poll_fetch set hw v).1 }
    hJ (poll_fetch_custom set hw v hv)
  rcases poll_round_cases v set cmd hw with
    ⟨hz, hr⟩ | ⟨hz, ⟨st, hps, hr⟩ | ⟨st, hps, hr⟩ | ⟨st, hps, hr⟩⟩
  · have hfin : poll_round_final v set cmd hw = none := by
      unfold poll_round_final
      simp only []
      rw [if_pos hz]
    rw [hr]
    exact ⟨fun _ _ => hfin, fun s c h hh => (by cases hh), fun o h => (by cases h)⟩
  · have hfin : poll_round_final v set cmd hw = some st := by
      unfold poll_round_final
      simp only []
      rw [if_neg (by simp [hz]), hps]
    rw [hr]
    rw [hps] at hk
    simp only [Flow.st, Flow.isFail] at hk
    refine ⟨fun _ h => (by cases h), fun s c h hh => (by cases hh), ?_⟩
    intro o h
    cases h
    refine ⟨st, hfin, rfl, ?_, fun h => absurd h (hx.2.2 st hps)⟩
    rcases hk.2.2 trivial with h | h
    · rw [h]; decide
    · rw [h.1]; decide
  · have hfin : poll_round_final v set cmd hw
        = some { st with set := { st.set with state := Mcid.MCID_LOCKED } } := by
      unfold poll_round_final
      simp only []
      rw [if_neg (by simp [hz]), hps]
    rw [hr]
    refine ⟨fun _ h => (by cases h), fun s c h hh => (by cases hh), ?_⟩
    intro o h
    cases h
    have h2 := hx.2.1 st hps
    exact ⟨_, hfin, rfl, by show Mcid.MCID_LOCKED ≠ Mcid.MCID_CMD; decide, fun _ => h2⟩
  · have hfin : poll_round_final v set cmd hw = none := by
      unfold poll_round_final
      simp only []
      rw [if_neg (by simp [hz]), hps]
    rw [hr]
    rw [hps] at hk
    simp only [Flow.st, Flow.isFail] at hk
    refine ⟨fun _ _ => hfin, ?_, fun o h => (by cases h)⟩
    intro s c h hh
    cases hh
    have h2 := hx.1 st hps
    refine ⟨hfin, ?_, h2.1, h2.2⟩
    rw [(hk.2.1 trivial).2]
    exact hst

/-- The end state of the fetch loop on a stream with a first value. -/
theorem poll_final_cons (v : Nistr) (rest : List Nistr) (set : sdmmc_set)
    (cmd : sSdmmcCommand) (hw : Hw) :
    poll_final (v :: rest) set cmd hw =
      match poll_round v set cmd { hw with NISTR := rest } with
      | Round.again set1 cmd1 hw1 => poll_final rest set1 cmd1 hw1
      | _ => poll_round_final v set cmd { hw with NISTR := rest } :=
  rfl

/-- The fetch loop on a transfer without DMA in flight, when the hardware does
not raise the software event: either the loop reaches the label `End`, with a
state other than in flight and all blocks moved when the status is Ok, or it
returns with the command still in flight and the bookkeeping kept. -/
theorem poll_loop_xfer (l : List Nistr) :
    ∀ (set : sdmmc_set) (cmd : sSdmmcCommand) (hw : Hw),
      (∀ v ∈ l, v.CUSTOM_EVT = false) → set.state = Mcid.MCID_CMD → xfer_inv set cmd →
      (∃ st, poll_final l set cmd hw = some st ∧ poll_loop l set cmd hw = poll_end st
          ∧ st.set.state ≠ Mcid.MCID_CMD
          ∧ (st.cmd.bStatus = Rc.SDMMC_OK →
              st.set.blk_index = st.cmd.wNbBlocks ∧ st.cmd.wNbBlocks = cmd.wNbBlocks))
        ∨ (poll_final l set cmd hw = none ∧ (poll_loop l set cmd hw).done = none
          ∧ (poll_loop l set cmd hw).set.state = Mcid.MCID_CMD
          ∧ ∃ c, (poll_loop l set cmd hw).set.cmd = some c
              ∧ xfer_inv (poll_loop l set cmd hw).set c ∧ c.wNbBlocks = cmd.wNbBlocks) := by
  induction l with
  | nil =>
    intro set cmd hw _ hst hJ
    rw [poll_loop_nil]
    have hfin : poll_final [] set cmd hw = poll_round_final Nistr.zero set cmd hw := rfl
    rw [hfin]
    have hr := poll_round_xfer Nistr.zero set cmd hw rfl hst hJ
    cases hf : poll_round Nistr.zero set cmd hw with
    | idle hw1 =>
      right
      exact ⟨hr.1 _ hf, rfl, hst, cmd, rfl, hJ, rfl⟩
    | again s1 c1 hw1 =>
      right
      have h := hr.2.1 _ _ _ hf
      exact ⟨h.1, rfl, h.2.1, c1, rfl, h.2.2.1, h.2.2.2⟩
    | done o =>
      left
      obtain ⟨st, h1, h2, h3, h4⟩ := hr.2.2 _ hf
      exact ⟨st, h1, h2, h3, h4⟩
  | cons a rest ih =>
    intro set cmd hw hl hst hJ
    rw [poll_loop_cons]
    have hr := poll_round_xfer a set cmd { hw with NISTR := rest }
      (hl a (List.mem_cons_self _ _)) hst hJ
    cases hf : poll_round a set cmd { hw with NISTR := rest } with
    | idle hw1 =>
      right
      have hfin : poll_final (a :: rest) set cmd hw
          = poll_round_final a set cmd { hw with NISTR := rest } := by
        rw [poll_final_cons, hf]
      rw [hfin]
      exact ⟨hr.1 _ hf, rfl, hst, cmd, rfl, hJ, rfl⟩
    | again s1 c1 hw1 =>
      have hfin : poll_final (a :: rest) set cmd hw = poll_final rest s1 c1 hw1 := by
        rw [poll_final_cons, hf]
      rw [hfin]
      have h := hr.2.1 _ _ _ hf
      rcases ih s1 c1 hw1 (fun v hv => hl v (List.mem_cons_of_mem _ hv)) h.2.1 h.2.2.1 with
        ⟨st, h1, h2, h3, h4⟩ | ⟨h1, h2, h3, c, h4, h5, h6⟩
      · left
        exact ⟨st, h1, h2, h3, fun hs => ⟨(h4 hs).1, (h4 hs).2.trans h.2.2.2⟩⟩
      · right
        exact ⟨h1, h2, h3, c, h4, h5, h6.trans h.2.2.2⟩
    | done o =>
      left
      have hfin : poll_final (a :: rest) set cmd hw
          = poll_round_final a set cmd { hw with NISTR := rest } := by
        rw [poll_final_cons, hf]
      rw [hfin]
      obtain ⟨st, h1, h2, h3, h4⟩ := hr.2.2 _ hf
      exact ⟨st, h1, h2, h3, h4⟩

/-- The resolver on a transfer without DMA in flight, when the hardware does
not raise the software event: either the call reaches the label `End`, with a
state other than in flight and all blocks moved when the status is Ok, or it
returns with the command still in flight and the bookkeeping kept. -/
theorem sdmmc_poll_xfer (set : sdmmc_set) (cmd : sSdmmcCommand) (hw : Hw)
    (hst : set.state = Mcid.MCID_CMD) (hcmd : set.cmd = some cmd) (hJ : xfer_inv set cmd)
    (hcust : ∀ v ∈ hw.NISTR, v.CUSTOM_EVT = false) :
    (∃ st, sdmmc_poll_final set hw = some st ∧ sdmmc_poll set hw = poll_end st
        ∧ st.set.state ≠ Mcid.MCID_CMD
        ∧ (st.cmd.bStatus = Rc.SDMMC_OK →
            st.set.blk_index = st.cmd.wNbBlocks ∧ st.cmd.wNbBlocks = cmd.wNbBlocks))
      ∨ (sdmmc_poll_final set hw = none ∧ (sdmmc_poll set hw).done = none
        ∧ (sdmmc_poll set hw).set.state = Mcid.MCID_CMD
        ∧ ∃ c, (sdmmc_poll set hw).set.cmd = some c
            ∧ xfer_inv (sdmmc_poll set hw).set c ∧ c.wNbBlocks = cmd.wNbBlocks) := by
  have h1 : sdmmc_poll set hw = poll_loop hw.NISTR set cmd hw := by
    unfold sdmmc_poll
    rw [if_neg (by simp [hst]), hcmd]
  have h2 : sdmmc_poll_final set hw = poll_final hw.NISTR set cmd hw := by
    unfold sdmmc_poll_final
    rw [if_neg (by simp [hst]), hcmd]
  rw [h1, h2]
  exact poll_loop_xfer hw.NISTR set cmd hw hcust hst hJ

/-- On a session without a descriptor table the dispatcher leaves the operation
word and the block count of the command alone. -/
theorem send_command_cmd_no_dma (K : Hdr) (set : sdmmc_set) (cmd : sSdmmcCommand) (hw : Hw)
    (htab : set.table = 0) (o : SendOut) (ho : sdmmc_send_command K set cmd hw = some o) :
    o.cmd.cmdOp = cmd.cmdOp ∧ o.cmd.wNbBlocks = cmd.wNbBlocks := by
  have hb : send_prepare_dma K (send_locals K set cmd) set cmd hw
      = { rc := Rc.SDMMC_OK, cmd := cmd, hw := hw } := by
    unfold send_prepare_dma send_locals
    simp [htab]
  have hobj : ∀ busy,
      (send_object set cmd { rc := Rc.SDMMC_OK, cmd := cmd, hw := hw } busy).cmdOp = cmd.cmdOp
        ∧ (send_object set cmd { rc := Rc.SDMMC_OK, cmd := cmd, hw := hw } busy).wNbBlocks
            = cmd.wNbBlocks := by
    intro busy
    obtain ⟨d, p, s, h⟩ := send_object_eq set cmd { rc := Rc.SDMMC_OK, cmd := cmd, hw := hw }
      busy
    rw [h]
    exact ⟨rfl, rfl⟩
  unfold sdmmc_send_command at ho
  simp only [] at ho
  rw [hb] at ho
  split at ho
  · cases ho; exact ⟨rfl, rfl⟩
  · split at ho
    · cases ho; exact ⟨rfl, rfl⟩
    · split at ho
      · cases ho; exact ⟨rfl, rfl⟩
      · split at ho
        · split at ho
          · cases ho; exact ⟨rfl, rfl⟩
          · cases ho; exact ⟨rfl, rfl⟩
        · split at ho
          · cases ho; exact ⟨rfl, rfl⟩
          · split at ho
            · cases ho; exact ⟨rfl, rfl⟩
            · split at ho
              · cases ho; exact ⟨rfl, rfl⟩
              · split at ho
                · cases ho
                  exact hobj _
                · split at ho
                  · cases ho
                  · rename_i l hl
                    cases ho
                    obtain ⟨hw3, _, hl2⟩ := send_launch_some _ _ _ _ _ _ hl
                    show l.2.1.cmdOp = _ ∧ l.2.1.wNbBlocks = _
                    rw [hl2]
                    exact hobj _

/-- A data command launched on a session that has no command in flight and no
descriptor table starts with the bookkeeping of a transfer without DMA. -/
theorem send_command_xfer (K : Hdr) (set : sdmmc_set) (cmd : sSdmmcCommand) (hw : Hw)
    (hst : set.state ≠ Mcid.MCID_CMD) (htab : set.table = 0) (hdata : has_data cmd = true)
    (hN : cmd.wNbBlocks < 65536) (o : SendOut)
    (ho : sdmmc_send_command K set cmd hw = some o)
    (hl : o.set.state = Mcid.MCID_CMD) :
    ∃ c, o.set.cmd = some c ∧ xfer_inv o.set c ∧ c.wNbBlocks = cmd.wNbBlocks := by
  have hc := send_command_cmd_no_dma K set cmd hw htab o ho
  rcases (send_command_not_busy K set cmd hw hst o ho).2 with ⟨h, _⟩ | ⟨_, h, _, _⟩
  · rw [h] at hl
    exact absurd hl hst
  · refine ⟨o.cmd, ?_, ?_, hc.2⟩
    · rw [h]
    · rw [h]
      refine ⟨htab, ?_, ?_, fun h0 => Bool.noConfusion h0, fun h0 => Bool.noConfusion h0⟩
      · unfold has_data at hdata ⊢
        rw [hc.1]
        exact hdata
      · rw [hc.2]
        exact hN

/-- Calls of the resolver, one after the other, on a session that is either
not in flight or in flight with the bookkeeping of a transfer without DMA of
`N` blocks, when the hardware does not raise the software event: the session
and the environment that they leave are again of this kind. -/
theorem run_polls_xfer (K : Hdr) (N : Nat) (n : Nat) :
    ∀ (w w1 : sdmmc_set × Hw),
      (∀ v ∈ w.2.NISTR, v.CUSTOM_EVT = false) →
      (w.1.state = Mcid.MCID_CMD →
        ∃ c, w.1.cmd = some c ∧ xfer_inv w.1 c ∧ c.wNbBlocks = N) →
      run K (List.replicate n Call.poll) w = some w1 →
      (∀ v ∈ w1.2.NISTR, v.CUSTOM_EVT = false)
        ∧ (w1.1.state = Mcid.MCID_CMD →
            ∃ c, w1.1.cmd = some c ∧ xfer_inv w1.1 c ∧ c.wNbBlocks = N) := by
  induction n with
  | zero =>
    intro w w1 h1 h2 hr
    simp only [List.replicate, run, Option.some.injEq] at hr
    subst hr
    exact ⟨h1, h2⟩
  | succ n ih =>
    intro w w1 h1 h2 hr
    simp only [List.replicate, run, step] at hr
    refine ih _ w1 ?_ ?_ hr
    · intro v hv
      exact h1 v (sdmmc_poll_NISTR w.1 w.2 v hv)
    · intro hs
      by_cases hst : w.1.state = Mcid.MCID_CMD
      · obtain ⟨c, hc, hJ, hN⟩ := h2 hst
        rcases sdmmc_poll_xfer w.1 c w.2 hst hc hJ h1 with
          ⟨st, _, h4, h5, _⟩ | ⟨_, _, _, c1, h6, h7, h8⟩
        · rw [h4] at hs
          exact absurd hs h5
        · exact ⟨c1, h6, h7, h8.trans hN⟩
      · have hp : sdmmc_poll w.1 w.2 = { set := w.1, hw := w.2, done := none } := by
          unfold sdmmc_poll
          rw [if_pos hst]
        rw [hp] at hs
        exact absurd hs hst

/-- The Buffer Read Ready block, entered on a read command without a
descriptor table when all blocks have been moved, fails with Io. -/
theorem poll_brdrdy_excess (st : PollSt) (he : st.events.BRDRDY = true)
    (hrx : st.cmd.cmdOp.xfrData = XfrData.SDMMC_CMD_RX) (htab : st.set.table = 0)
    (hN : st.cmd.wNbBlocks ≤ st.set.blk_index) :
    ∃ s, poll_brdrdy st = Flow.fail s ∧ s.cmd.bStatus = Rc.SDMMC_ERR_IO
      ∧ s.set.state = Mcid.MCID_ERROR := by
  unfold poll_brdrdy
  rw [if_pos (by simp [he, hrx, htab])]
  simp only []
  rw [if_pos hN]
  exact ⟨_, rfl, rfl, rfl⟩

/-- The Transfer Complete block, entered on a data command without a
descriptor table when the block counter differs from the block count, fails
with Io. -/
theorem poll_trfc_incomplete (st : PollSt) (he : st.events.TRFC = true)
    (hdata : has_data st.cmd = true) (htab : st.set.table = 0)
    (hN : st.set.blk_index ≠ st.cmd.wNbBlocks) :
    ∃ s, poll_trfc st = Flow.fail s ∧ s.cmd.bStatus = Rc.SDMMC_ERR_IO
      ∧ s.set.state = Mcid.MCID_ERROR := by
  have hf := poll_trfc_release_fields st
  have hd : has_data (poll_trfc_release st).cmd = true := by
    unfold has_data at hdata ⊢
    rw [hf.2.2.1]
    exact hdata
  have hne : (poll_trfc_release st).set.blk_index ≠ (poll_trfc_release st).cmd.wNbBlocks := by
    rw [hf.2.2.2.1, hf.2.1]
    exact hN
  unfold poll_trfc
  rw [if_pos he]
  simp only []
  rw [if_pos (by simp [hd, hf.1, htab, hne])]
  exact ⟨_, rfl, rfl, rfl⟩

/-- A pass that finds neither the error flag nor the software event runs the
Command Complete, Buffer Read Ready, Buffer Write Ready and Transfer Complete
blocks in this order, and a block that fails ends the pass. -/
theorem poll_pass_blocks (st : PollSt) (he : st.events.ERRINT = false)
    (hc : st.events.CUSTOM_EVT = false) :
    (∀ s1 s, poll_cmdc st = Flow.cont s1 → poll_brdrdy s1 = Flow.fail s →
        poll_pass st = Flow.fail s)
      ∧ (∀ s1 s2 s, poll_cmdc st = Flow.cont s1 → poll_brdrdy s1 = Flow.cont s2 →
          poll_trfc (poll_bwrrdy s2) = Flow.fail s → poll_pass st = Flow.fail s) := by
  unfold poll_pass
  rw [if_neg (by simp [he]), if_neg (by simp [hc])]
  refine ⟨?_, ?_⟩
  · intro s1 s h1 h2
    rw [h1]
    simp only [Flow.bind]
    rw [h2]
  · intro s1 s2 s h1 h2 h3
    rw [h1]
    simp only [Flow.bind]
    rw [h2]
    simp only [Flow.bind]
    exact h3

/-- A round whose pass fails ends the call through the label `End`, where the
command is released with the status that the pass stored. -/
theorem poll_round_fail (v : Nistr) (set : sdmmc_set) (cmd : sSdmmcCommand) (hw : Hw)
    (st : PollSt) (hz : (poll_fetch set hw v).1.isZero = false)
    (hp : poll_pass { set := set, cmd := cmd, hw := (poll_fetch set hw v).2,
                      events := (poll_fetch set hw v).1 } = Flow.fail st) :
    poll_round v set cmd hw = Round.done (poll_end st)
      ∧ (poll_end st).done = some st.cmd ∧ (poll_end st).set.cmd = none := by
  refine ⟨?_, rfl, rfl⟩
  unfold poll_round
  simp only []
  rw [if_neg (by simp [hz]), hp]



/-! ## C15: the block counter of a transfer without DMA -/

/-- C15, as stated, fails in three ways.  (1) A write command of one block on a
session without a descriptor table: after the block has been written
(`blk_index` 1), a Buffer Read Ready event arrives; the resolver ignores it,
the command stays in flight and is not terminated with Io.  (2) A read command
of one block on the same session: Transfer Complete is reported with
`blk_index` 0 together with a command timeout; the command is terminated with
NoResponse, not with Io.  (3) The tuning block CMD21 in the HS200 mode on a
session that has a descriptor table is sent without DMA; the resolver
terminates it with Ok while `blk_index` is 0 and the block count is 1. -/
theorem poll_block_counter_literal_fails :
    (exSetPio.table = 0 ∧ has_data exCmdWrite1 = true ∧ exCmdWrite1.wNbBlocks = 1
      ∧ (run exHdr [Call.send_command exCmdWrite1, Call.poll] (exSetPio, exHwWriteThenRead)).map
          (fun w => (w.1.state, w.1.blk_index, w.2.NISTR,
            (sdmmc_poll w.1 w.2).done.map (fun c => c.bStatus), (sdmmc_poll w.1 w.2).set.state))
        = some (Mcid.MCID_CMD, 1, [{ Nistr.zero with BRDRDY := true }], none, Mcid.MCID_CMD))
      ∧ (has_data exCmdRead1 = true ∧ exCmdRead1.wNbBlocks = 1
        ∧ (run exHdr [Call.send_command exCmdRead1] (exSetPio, exHwTrfcTimeout)).map
            (fun w => (w.1.state, w.1.blk_index, w.2.NISTR,
              (sdmmc_poll w.1 w.2).done.map (fun c => c.bStatus)))
          = some (Mcid.MCID_CMD, 0, [{ Nistr.zero with ERRINT := true, TRFC := true }],
              some Rc.SDMMC_NO_RESPONSE))
      ∧ (has_data exCmdTuning = true ∧ exSetHS200.table ≠ 0
        ∧ (send_locals exHdr exSetHS200 exCmdTuning).use_dma = false
        ∧ (run exHdr [Call.send_command exCmdTuning] (exSetHS200, exHwTuningBlock)).map
            (fun w => (w.1.state,
              (sdmmc_poll w.1 w.2).done.map (fun c => (c.bStatus, c.wNbBlocks)),
              (sdmmc_poll_final w.1 w.2).map (fun st => st.set.blk_index)))
          = some (Mcid.MCID_CMD, some (Rc.SDMMC_OK, 1), some 0)) := by
  refine ⟨⟨by decide, by decide, by decide, by decide⟩, ⟨by decide, by decide, by decide⟩,
    ⟨by decide, by decide, by decide, by decide⟩⟩

/-- C15 (amended): let a data command of `N` blocks, `N < 65536`, be issued by
`sdmmc_send_command` on a session that has no command in flight and no
descriptor table, and let any number of calls of `sdmmc_poll` follow, on
hardware that never sets bit 13 of `NISTR`, which the driver uses as its
software event.  If the next call of `sdmmc_poll` terminates the command with
the status Ok, then at the label `End`, before the release resets it, the
block counter `blk_index` equals `N`, and the block count of the command is
still `N`.  Within a pass that finds neither the error flag nor the software
event: when the Buffer Read Ready block is reached on a read command without
descriptor table with `blk_index >= N`, or the Transfer Complete block is
reached on a data command without descriptor table with `blk_index != N`, the
pass fails, the round ends the call through the label `End`, and the command
is released with the status Io. -/
theorem poll_block_counter (K : Hdr) (set : sdmmc_set) (cmd : sSdmmcCommand) (hw : Hw)
    (n : Nat) (w : sdmmc_set × Hw)
    (hst : set.state ≠ Mcid.MCID_CMD) (htab : set.table = 0) (hdata : has_data cmd = true)
    (hN : cmd.wNbBlocks < 65536) (hcust : ∀ v ∈ hw.NISTR, v.CUSTOM_EVT = false)
    (hr : run K (Call.send_command cmd :: List.replicate n Call.poll) (set, hw) = some w) :
    (∀ c, (sdmmc_poll w.1 w.2).done = some c → c.bStatus = Rc.SDMMC_OK →
        ∃ st, sdmmc_poll_final w.1 w.2 = some st ∧ sdmmc_poll w.1 w.2 = poll_end st
          ∧ st.cmd = c ∧ c.wNbBlocks = cmd.wNbBlocks ∧ st.set.blk_index = cmd.wNbBlocks)
      ∧ (∀ (v : Nistr) (s : sdmmc_set) (c : sSdmmcCommand) (h : Hw) (p : PollSt),
          p = { set := s, cmd := c, hw := (poll_fetch s h v).2,
                events := (poll_fetch s h v).1 } →
          p.events.isZero = false → p.events.ERRINT = false → p.events.CUSTOM_EVT = false →
          (∀ s1, poll_cmdc p = Flow.cont s1 → s1.events.BRDRDY = true →
              s1.cmd.cmdOp.xfrData = XfrData.SDMMC_CMD_RX → s1.set.table = 0 →
              s1.cmd.wNbBlocks ≤ s1.set.blk_index →
              ∃ st, poll_round v s c h = Round.done (poll_end st)
                ∧ (poll_end st).done = some st.cmd ∧ st.cmd.bStatus = Rc.SDMMC_ERR_IO)
          ∧ (∀ s1 s2, poll_cmdc p = Flow.cont s1 → poll_brdrdy s1 = Flow.cont s2 →
              (poll_bwrrdy s2).events.TRFC = true → has_data (poll_bwrrdy s2).cmd = true →
              (poll_bwrrdy s2).set.table = 0 →
              (poll_bwrrdy s2).set.blk_index ≠ (poll_bwrrdy s2).cmd.wNbBlocks →
              ∃ st, poll_round v s c h = Round.done (poll_end st)
                ∧ (poll_end st).done = some st.cmd ∧ st.cmd.bStatus = Rc.SDMMC_ERR_IO)) := by
  refine ⟨?_, ?_⟩
  · obtain ⟨o, ho, hr⟩ := run_send_cons K cmd _ set hw w hr
    have hlaunch := send_command_xfer K set cmd hw hst htab hdata hN o ho
    have hnistr := (send_command_not_busy K set cmd hw hst o ho).1
    obtain ⟨h1, h2⟩ := run_polls_xfer K cmd.wNbBlocks n (o.set, o.hw) w
      (by rw [hnistr]; exact hcust) hlaunch hr
    intro c hdone hok
    by_cases hs : w.1.state = Mcid.MCID_CMD
    · obtain ⟨c0, hc0, hJ, hN0⟩ := h2 hs
      rcases sdmmc_poll_xfer w.1 c0 w.2 hs hc0 hJ h1 with
        ⟨st, h3, h4, _, h6⟩ | ⟨_, h3, _⟩
      · rw [h4] at hdone
        have hc : st.cmd = c := by
          simpa [poll_end] using hdone
        rw [hc] at h6
        have := h6 hok
        exact ⟨st, h3, h4, hc, this.2.trans hN0, this.1.trans (this.2.trans hN0)⟩
      · rw [h3] at hdone
        cases hdone
    · have hp : sdmmc_poll w.1 w.2 = { set := w.1, hw := w.2, done := none } := by
        unfold sdmmc_poll
        rw [if_pos hs]
      rw [hp] at hdone
      cases hdone
  · intro v s c h p hp hz he hc
    subst hp
    have hb := poll_pass_blocks _ he hc
    refine ⟨?_, ?_⟩
    · intro s1 h1 h2 h3 h4 h5
      obtain ⟨st, h6, h7, _⟩ := poll_brdrdy_excess s1 h2 h3 h4 h5
      have hr := poll_round_fail v s c h st hz (hb.1 s1 st h1 h6)
      exact ⟨st, hr.1, hr.2.1, h7⟩
    · intro s1 s2 h1 h2 h3 h4 h5 h6
      obtain ⟨st, h7, h8, _⟩ := poll_trfc_incomplete (poll_bwrrdy s2) h3 h4 h5 h6
      have hr := poll_round_fail v s c h st hz (hb.2 s1 s2 st h1 h2 h7)
      exact ⟨st, hr.1, hr.2.1, h8⟩

/-- C15, witness: a read of one block on a session without a descriptor table,
hardware that completes the command, is quiet at the end of the first call of
`sdmmc_poll`, then delivers the block and completes the transfer; the second
call terminates the command with Ok, with `blk_index` 1 at the label `End`. -/
theorem poll_block_counter_witness :
    ∃ w : sdmmc_set × Hw,
      run exHdr (Call.send_command exCmdRead1 :: List.replicate 1 Call.poll)
          (exSetPio, exHwRead1) = some w
        ∧ (sdmmc_poll w.1 w.2).done.map (fun c => c.bStatus) = some Rc.SDMMC_OK
        ∧ ∀ c, (sdmmc_poll w.1 w.2).done = some c → c.bStatus = Rc.SDMMC_OK →
            ∃ st, sdmmc_poll_final w.1 w.2 = some st ∧ sdmmc_poll w.1 w.2 = poll_end st
              ∧ st.cmd = c ∧ c.wNbBlocks = exCmdRead1.wNbBlocks
              ∧ st.set.blk_index = exCmdRead1.wNbBlocks := by
  obtain ⟨w, hw⟩ := Option.isSome_iff_exists.mp
    (show (run exHdr (Call.send_command exCmdRead1 :: List.replicate 1 Call.poll)
      (exSetPio, exHwRead1)).isSome = true by decide)
  have hs : (run exHdr (Call.send_command exCmdRead1 :: List.replicate 1 Call.poll)
      (exSetPio, exHwRead1)).bind
        (fun x => (sdmmc_poll x.1 x.2).done.map (fun c => c.bStatus))
        = some Rc.SDMMC_OK := by decide
  rw [hw] at hs
  exact ⟨w, hw, hs,
    (poll_block_counter exHdr exSetPio exCmdRead1 exHwRead1 1 w (by decide) (by decide)
      (by decide) (by decide) (by decide) hw).1⟩

/-! ## C16: the command reference and the state of the session -/

/-- C16, as stated, fails when the sampling tuning is called with a command in
flight.  A fresh session in polling mode is switched to the default timing
mode and a command is issued: the session is in flight and references the
command.  Then `sdmmc_tune_sampling` is called on a 4-bit bus whose tuning
circuit reports no tuning in progress: the call returns, the state is
`MCID_LOCKED` and the session still references the command. -/
theorem session_command_tune_in_flight :
    (run exHdr exCallsIssue (sdmmc_initialize_set exHdr 0 0 0 0 true 0, exHwTuneIdle)).map
        (fun w => (w.1.state, w.1.cmd.isSome))
      = some (Mcid.MCID_CMD, true)
      ∧ (run exHdr (exCallsIssue ++ [Call.tune_sampling 64])
          (sdmmc_initialize_set exHdr 0 0 0 0 true 0, exHwTuneIdle)).map
            (fun w => (w.1.state, w.1.cmd.isSome))
          = some (Mcid.MCID_LOCKED, true) := by
  decide

/-- Supplement to C16: the clock request `SDMMC_IOCTL_SET_CLOCK` of
`sdmmc_control` runs the sampling tuning without a test of the state.  On a
session in the mode HS200 with CMD13 in flight, a request of 100 MHz on a
208 MHz base clock returns with the session locked and still referencing the
command. -/
theorem control_set_clock_tune_in_flight :
    exSetHS200Busy.state = Mcid.MCID_CMD
      ∧ (sdmmc_control_SET_CLOCK exHdr exSetHS200Busy (some 100000000) 64 exHwClock208).map
            (fun o => (o.set.state, o.set.cmd.isSome))
          = some (Mcid.MCID_LOCKED, true) := by
  decide

/-- C16, amended: starting from the session that `sdmmc_initialize` leaves,
after every sequence of calls of the entry points (`sdmmc_send_command`,
`sdmmc_is_busy`, `sdmmc_poll`, `sdmmc_cancel_command`, `sdmmc_tune_sampling`,
`sdmmc_set_speed_mode`, `sdmmc_unplug_device`) in which each call returns and
`sdmmc_tune_sampling` is not called in the state `MCID_CMD`, the session
references a command if and only if its state is `MCID_CMD`.  The session has
one slot for the reference, so at most one command is referenced at any time.
Every prefix of such a sequence is such a sequence, so this holds at every
return. -/
theorem session_command_iff_in_flight (K : Hdr)
    (periph_id tc_id dma_buf dma_buf_size : Nat) (use_polling : Bool) (maxblkl : Nat)
    (hw : Hw) (calls : List Call) (w : sdmmc_set × Hw)
    (ht : tune_not_in_flight K calls
      (sdmmc_initialize_set K periph_id tc_id dma_buf dma_buf_size use_polling maxblkl, hw)
        = true)
    (hr : run K calls
      (sdmmc_initialize_set K periph_id tc_id dma_buf dma_buf_size use_polling maxblkl, hw)
        = some w) :
    w.1.cmd.isSome = true ↔ w.1.state = Mcid.MCID_CMD := by
  have h0 : cmd_iff_in_flight
      (sdmmc_initialize_set K periph_id tc_id dma_buf dma_buf_size use_polling maxblkl) := by
    unfold cmd_iff_in_flight sdmmc_initialize_set
    simp
  exact run_inv K calls _ w h0 ht hr

/-- C16, witness of the amended claim: a fresh session in polling mode is
switched to the default timing mode, the sampling point is tuned on a 4-bit
bus, then a command is issued; the calls return, the session is in flight and
references the command. -/
theorem session_command_iff_in_flight_witness :
    ∃ w : sdmmc_set × Hw,
      run exHdr exCallsTuneIssue (sdmmc_initialize_set exHdr 0 0 0 0 true 0, exHwTuneIdle)
          = some w
        ∧ w.1.state = Mcid.MCID_CMD
        ∧ (w.1.cmd.isSome = true ↔ w.1.state = Mcid.MCID_CMD) := by
  obtain ⟨w, hw⟩ := Option.isSome_iff_exists.mp
    (show (run exHdr exCallsTuneIssue
      (sdmmc_initialize_set exHdr 0 0 0 0 true 0, exHwTuneIdle)).isSome = true by decide)
  have hs : (run exHdr exCallsTuneIssue
      (sdmmc_initialize_set exHdr 0 0 0 0 true 0, exHwTuneIdle)).map (fun x => x.1.state)
        = some Mcid.MCID_CMD := by decide
  rw [hw] at hs
  exact ⟨w, hw, by simpa using hs,
    session_command_iff_in_flight exHdr 0 0 0 0 true 0 exHwTuneIdle exCallsTuneIssue w
      (by decide) hw⟩


/-! ## Lemmas on the error block -/

/-- The error decoding of the code yields the status of the highest-priority
flag present. -/
theorem poll_decode_priority (errors : Eistr) (hw : Hw) :
    (poll_decode errors hw).1
      = status_by_priority errors (acesr_decode (hw.ACESR.headD default)) := by
  unfold poll_decode status_by_priority error_priority acesr_decode
  simp only [List.find?]
  by_cases h1 : errors.CURLIM = true
  · simp [h1]
  by_cases h2 : errors.CMDCRC = true
  · simp [h1, h2]
  by_cases h3 : errors.CMDTEO = true
  · simp [h1, h2, h3]
  by_cases h4 : (errors.CMDEND || errors.CMDIDX) = true
  · simp [h1, h2, h3, h4]
  by_cases h5 : errors.TUNING = true
  · simp [h1, h2, h3, h4, h5]
  by_cases h6 : errors.DATTEO = true
  · simp [h1, h2, h3, h4, h5, h6]
  by_cases h7 : (errors.DATCRC || errors.DATEND) = true
  · simp [h1, h2, h3, h4, h5, h6, h7]
  by_cases h8 : errors.ACMD = true
  · simp only [h1, h2, h3, h4, h5, h6, h7, h8, if_false, if_true, Bool.false_eq_true]
    repeat' split
    all_goals rfl
  by_cases h9 : errors.ADMA = true
  · simp [h1, h2, h3, h4, h5, h6, h7, h8, h9]
  by_cases h10 : errors.BOOTAE = true
  · simp [h1, h2, h3, h4, h5, h6, h7, h8, h9, h10]
  simp [h1, h2, h3, h4, h5, h6, h7, h8, h9, h10]

/-- The fetch keeps the error flag of the value read and leaves the error
registers alone. -/
theorem poll_fetch_errint (set : sdmmc_set) (hw : Hw) (v : Nistr) :
    (poll_fetch set hw v).1.ERRINT = v.ERRINT
      ∧ (poll_fetch set hw v).2.EISTR = hw.EISTR
      ∧ (poll_fetch set hw v).2.ACESR = hw.ACESR
      ∧ (poll_fetch set hw v).2.trace = hw.trace := by
  unfold poll_fetch
  simp only []
  repeat' split
  all_goals exact ⟨rfl, rfl, rfl, rfl⟩

/-- A pass that finds the global error flag is the error block. -/
theorem poll_pass_errint (st : PollSt) (he : st.events.ERRINT = true) :
    poll_pass st = Flow.fail (poll_errint st) := by
  unfold poll_pass
  rw [if_pos he]

/-- A call of the resolver that reads the global error flag first runs the
error block and goes to the label `End`. -/
theorem sdmmc_poll_errint (set : sdmmc_set) (cmd : sSdmmcCommand) (hw : Hw) (v : Nistr)
    (rest : List Nistr) (hst : set.state = Mcid.MCID_CMD) (hcmd : set.cmd = some cmd)
    (hn : hw.NISTR = v :: rest) (he : v.ERRINT = true) :
    sdmmc_poll set hw
      = poll_end (poll_errint
          { set := set, cmd := cmd, hw := (poll_fetch set { hw with NISTR := rest } v).2,
            events := (poll_fetch set { hw with NISTR := rest } v).1 }) := by
  have hf := (poll_fetch_errint set { hw with NISTR := rest } v).1
  have hz : (poll_fetch set { hw with NISTR := rest } v).1.isZero = false := by
    unfold Nistr.isZero
    rw [hf, he]
    simp
  have hp := poll_pass_errint
    { set := set, cmd := cmd, hw := (poll_fetch set { hw with NISTR := rest } v).2,
      events := (poll_fetch set { hw with NISTR := rest } v).1 } (by rw [hf]; exact he)
  have hr : poll_round v set cmd { hw with NISTR := rest }
      = Round.done (poll_end (poll_errint
          { set := set, cmd := cmd, hw := (poll_fetch set { hw with NISTR := rest } v).2,
            events := (poll_fetch set { hw with NISTR := rest } v).1 })) := by
    unfold poll_round
    simp only []
    rw [if_neg (by simp [hz]), hp]
  unfold sdmmc_poll
  rw [if_neg (by simp [hst]), hcmd]
  simp only []
  rw [hn, poll_loop_cons, hr]

/-- The command that the error block leaves: the status is that of the
highest-priority flag present. -/
theorem poll_errint_cmd (st : PollSt) :
    (poll_errint st).cmd
      = { st.cmd with
          bStatus := status_by_priority (st.hw.EISTR.headD default)
            (acesr_decode (st.hw.ACESR.headD default)) } := by
  unfold poll_errint
  simp only []
  rw [poll_decode_priority]
  rfl



/-! ## C22, C23: the error block of the resolver -/

/-- C22: when a call of `sdmmc_poll` on a command in flight reads the global
error flag, it terminates the command with the status of the highest-priority
error sub-flag present, in the order current limit, command CRC, command
timeout, command end bit or index, tuning, data timeout, data CRC or end bit,
auto-command (decoded from the sub-flags of `ACESR`), DMA, boot acknowledge,
and the generic error otherwise (`status_by_priority`).  In particular, with
the command timeout flagged the status is NoResponse exactly when neither the
current limit nor the command CRC is flagged; and the status is Io when the
current limit is not flagged and either the command CRC is, or the command
timeout is not and one of command end bit, command index, data timeout, data
CRC, data end bit is.  The same holds of every pass of the resolver that finds
the global error flag. -/
theorem poll_error_status (set : sdmmc_set) (cmd : sSdmmcCommand) (hw : Hw) (v : Nistr)
    (rest : List Nistr) (hst : set.state = Mcid.MCID_CMD) (hcmd : set.cmd = some cmd)
    (hn : hw.NISTR = v :: rest) (he : v.ERRINT = true) :
    (∃ c, (sdmmc_poll set hw).done = some c
      ∧ c = { cmd with
              bStatus := status_by_priority (hw.EISTR.headD default)
                (acesr_decode (hw.ACESR.headD default)) }
      ∧ ((hw.EISTR.headD default).CMDTEO = true →
          (c.bStatus = Rc.SDMMC_NO_RESPONSE ↔
            (hw.EISTR.headD default).CURLIM = false
              ∧ (hw.EISTR.headD default).CMDCRC = false))
      ∧ ((hw.EISTR.headD default).CURLIM = false →
          ((hw.EISTR.headD default).CMDCRC = true
            ∨ ((hw.EISTR.headD default).CMDTEO = false
              ∧ ((hw.EISTR.headD default).CMDEND = true
                ∨ (hw.EISTR.headD default).CMDIDX = true
                ∨ (hw.EISTR.headD default).DATTEO = true
                ∨ (hw.EISTR.headD default).DATCRC = true
                ∨ (hw.EISTR.headD default).DATEND = true))) →
          c.bStatus = Rc.SDMMC_ERR_IO))
      ∧ (∀ st : PollSt, st.events.ERRINT = true →
          ∃ s, poll_pass st = Flow.fail s
            ∧ s.cmd.bStatus = status_by_priority (st.hw.EISTR.headD default)
                (acesr_decode (st.hw.ACESR.headD default))) := by
  have hp := sdmmc_poll_errint set cmd hw v rest hst hcmd hn he
  have hf := poll_fetch_errint set { hw with NISTR := rest } v
  have hd : (sdmmc_poll set hw).done
      = some { cmd with
               bStatus := status_by_priority (hw.EISTR.headD default)
                 (acesr_decode (hw.ACESR.headD default)) } := by
    rw [hp]
    show some (poll_errint _).cmd = _
    rw [poll_errint_cmd]
    simp only [hf.2.1, hf.2.2.1]
  refine ⟨⟨_, hd, rfl, ?_, ?_⟩, ?_⟩
  · intro h3
    generalize hw.EISTR.headD default = e at h3 ⊢
    generalize acesr_decode (hw.ACESR.headD default) = a
    show status_by_priority e a = _ ↔ _
    unfold status_by_priority error_priority
    simp only [List.find?]
    cases h1 : e.CURLIM <;> cases h2 : e.CMDCRC <;> simp [h1, h2, h3]
  · intro h1 h
    generalize hw.EISTR.headD default = e at h1 h ⊢
    generalize acesr_decode (hw.ACESR.headD default) = a
    show status_by_priority e a = _
    unfold status_by_priority error_priority
    simp only [List.find?]
    rcases h with h2 | ⟨h3, h⟩
    · simp [h1, h2]
    · cases h2 : e.CMDCRC
      · cases h4 : e.CMDEND <;> cases h5 : e.CMDIDX <;> cases h6 : e.TUNING
          <;> cases h7 : e.DATTEO <;> cases h8 : e.DATCRC <;> cases h9 : e.DATEND
          <;> simp [h1, h2, h3, h4, h5, h6, h7, h8, h9] at h ⊢
      · simp [h1, h2]
  · intro st hs
    refine ⟨poll_errint st, poll_pass_errint st hs, ?_⟩
    rw [poll_errint_cmd]

/-- C22, witness: CMD13 in flight and the global error flag with the current
limit, the command timeout and the data timeout flagged at once; the current
limit has the highest priority and the command ends with NotInitialized. -/
theorem poll_error_status_witness :
    ∃ c, (sdmmc_poll exSetStatus exHwErrors).done = some c
      ∧ c.bStatus = Rc.SDMMC_NOT_INITIALIZED
      ∧ c.bStatus ≠ Rc.SDMMC_NO_RESPONSE := by
  obtain ⟨⟨c, h1, h2, h3, _⟩, _⟩ :=
    poll_error_status exSetStatus exCmdStatus exHwErrors { Nistr.zero with ERRINT := true } []
      (by decide) rfl rfl rfl
  refine ⟨c, h1, ?_, fun h => absurd ((h3 (by decide)).mp h).1 (by decide)⟩
  rw [h2]
  decide

/-- C23, as stated, fails for CMD52: the I/O abort is a stop-transfer command
that `sdmmc_send_command` accepts, and when it ends with the global error flag
the state is Error, not Locked. -/
theorem poll_error_abort_cmd52_error_state :
    (send_locals exHdr exSet exCmdIoAbort).stop_xfer = true ∧ exCmdIoAbort.bCmd = 52
      ∧ (run exHdr [Call.send_command exCmdIoAbort] (exSet, exHwTimeout)).map
          (fun w => (w.1.state, w.2.NISTR,
            (sdmmc_poll w.1 w.2).done.map (fun c => (c.bCmd, c.bStatus)),
            (sdmmc_poll w.1 w.2).set.state))
        = some (Mcid.MCID_CMD, [{ Nistr.zero with ERRINT := true }],
            some (52, Rc.SDMMC_NO_RESPONSE), Mcid.MCID_ERROR) := by
  refine ⟨by decide, by decide, by decide⟩

/-- C23 (amended): when a call of `sdmmc_poll` on a command in flight reads the
global error flag, it terminates the command and leaves the session in the
state that the error block sets: Locked if the failing command is CMD12
(`bCmd` 12), and Error otherwise, CMD52 included.  The same holds of every
pass of the resolver that finds the global error flag. -/
theorem poll_error_sets_state (set : sdmmc_set) (cmd : sSdmmcCommand) (hw : Hw) (v : Nistr)
    (rest : List Nistr) (hst : set.state = Mcid.MCID_CMD) (hcmd : set.cmd = some cmd)
    (hn : hw.NISTR = v :: rest) (he : v.ERRINT = true) :
    (∃ c, (sdmmc_poll set hw).done = some c ∧ c.bCmd = cmd.bCmd)
      ∧ (sdmmc_poll set hw).set.state
          = (if cmd.bCmd = 12 then Mcid.MCID_LOCKED else Mcid.MCID_ERROR)
      ∧ (cmd.bCmd = 52 → (sdmmc_poll set hw).set.state = Mcid.MCID_ERROR)
      ∧ (∀ st : PollSt, st.events.ERRINT = true →
          ∃ s, poll_pass st = Flow.fail s
            ∧ s.set.state
                = (if st.cmd.bCmd = 12 then Mcid.MCID_LOCKED else Mcid.MCID_ERROR)) := by
  have hp := sdmmc_poll_errint set cmd hw v rest hst hcmd hn he
  have hs : (sdmmc_poll set hw).set.state
      = (if cmd.bCmd = 12 then Mcid.MCID_LOCKED else Mcid.MCID_ERROR) := by
    rw [hp]
    rfl
  have hd : (sdmmc_poll set hw).done
      = some (poll_errint
          { set := set, cmd := cmd, hw := (poll_fetch set { hw with NISTR := rest } v).2,
            events := (poll_fetch set { hw with NISTR := rest } v).1 }).cmd := by
    rw [hp]
    rfl
  refine ⟨⟨_, hd, rfl⟩, hs, ?_, ?_⟩
  · intro h52
    rw [hs, h52]
    rfl
  · intro st hs
    exact ⟨poll_errint st, poll_pass_errint st hs, rfl⟩

/-- C23, witness of the amended claim: CMD13 ends with a command timeout and
the session is left in the state Error. -/
theorem poll_error_sets_state_witness :
    (∃ c, (sdmmc_poll exSetStatus exHwTimeout).done = some c ∧ c.bCmd = exCmdStatus.bCmd)
      ∧ (sdmmc_poll exSetStatus exHwTimeout).set.state = Mcid.MCID_ERROR :=
  ⟨(poll_error_sets_state exSetStatus exCmdStatus exHwTimeout
      { Nistr.zero with ERRINT := true } [] (by decide) rfl rfl rfl).1,
   (poll_error_sets_state exSetStatus exCmdStatus exHwTimeout
      { Nistr.zero with ERRINT := true } [] (by decide) rfl rfl rfl).2.1⟩



/-! ## Lemmas on the writes of the launch -/

/-- The writes that enable the interrupts and clear the status flags. -/
theorem send_enable_trace (eister : Eistr) (hw : Hw) :
    ∃ n s, (send_enable eister hw).trace
        = hw.trace ++ [Event.wr_NISTER n, Event.wr_EISTER eister, Event.wr_NISTR s,
            Event.wr_EISTR Eistr.all]
      ∧ (send_enable eister hw).pclk = hw.pclk
      ∧ (send_enable eister hw).table_mem = hw.table_mem := by
  refine ⟨{ hw.NISTER.headD default with BRDRDY := true, BWRRDY := true, TRFC := true,
                                          CMDC := true },
    { ERRINT := true, BOOTAR := true, CINT := true, CREM := true, CINS := true,
      BRDRDY := true, BWRRDY := true, DMAINT := true, BLKGE := true, TRFC := true,
      CMDC := true, CUSTOM_EVT := false, rsvd := false }, ?_, rfl, rfl⟩
  unfold send_enable
  simp only [Hw.emit, List.append_assoc, List.singleton_append, List.cons_append,
    List.nil_append]

/-- The writes of the data block of the launch: the block count argument, the
descriptor address when DMA is used, and the block size. -/
theorem send_issue_data_trace (c : SendLocals) (set : sdmmc_set) (cmd : sSdmmcCommand)
    (hw : Hw) :
    ∃ L, (send_issue_data c set cmd hw).trace = hw.trace ++ L
      ∧ (∀ e ∈ L, (∃ v, e = Event.wr_SSAR v) ∨ (e = Event.wr_ASA0R set.table ∧ c.use_dma = true)
          ∨ ∃ v, e = Event.wr_BSR v)
      ∧ (send_issue_data c set cmd hw).pclk = hw.pclk
      ∧ (send_issue_data c set cmd hw).table_mem = hw.table_mem := by
  unfold send_issue_data
  by_cases h : c.has_data = true
  · rw [if_pos h]
    by_cases h1 : c.blk_count_prefix = true <;> by_cases h2 : c.use_dma = true
    · refine ⟨[Event.wr_SSAR cmd.wNbBlocks, Event.wr_ASA0R set.table, Event.wr_BSR { hw.BSR.headD default with BLKSIZE := cmd.wBlockSize }], ?_, ?_,
        ?_, ?_⟩
      · simp [h1, h2, Hw.emit]
      · intro e he
        simp only [List.mem_cons, List.mem_singleton, List.not_mem_nil, or_false] at he
        rcases he with he | he | he
        · exact Or.inl ⟨_, he⟩
        · exact Or.inr (Or.inl ⟨he, h2⟩)
        · exact Or.inr (Or.inr ⟨_, he⟩)
      · simp [h1, h2, Hw.emit]
      · simp [h1, h2, Hw.emit]
    · refine ⟨[Event.wr_SSAR cmd.wNbBlocks, Event.wr_BSR { hw.BSR.headD default with BLKSIZE := cmd.wBlockSize }], ?_, ?_, ?_, ?_⟩
      · simp [h1, h2, Hw.emit]
      · intro e he
        simp only [List.mem_cons, List.mem_singleton, List.not_mem_nil, or_false] at he
        rcases he with he | he
        · exact Or.inl ⟨_, he⟩
        · exact Or.inr (Or.inr ⟨_, he⟩)
      · simp [h1, h2, Hw.emit]
      · simp [h1, h2, Hw.emit]
    · refine ⟨[Event.wr_ASA0R set.table, Event.wr_BSR { hw.BSR.headD default with BLKSIZE := cmd.wBlockSize }], ?_, ?_, ?_, ?_⟩
      · simp [h1, h2, Hw.emit]
      · intro e he
        simp only [List.mem_cons, List.mem_singleton, List.not_mem_nil, or_false] at he
        rcases he with he | he
        · exact Or.inr (Or.inl ⟨he, h2⟩)
        · exact Or.inr (Or.inr ⟨_, he⟩)
      · simp [h1, h2, Hw.emit]
      · simp [h1, h2, Hw.emit]
    · refine ⟨[Event.wr_BSR { hw.BSR.headD default with BLKSIZE := cmd.wBlockSize }], ?_, ?_, ?_, ?_⟩
      · simp [h1, h2, Hw.emit]
      · intro e he
        simp only [List.mem_singleton] at he
        exact Or.inr (Or.inr ⟨_, he⟩)
      · simp [h1, h2, Hw.emit]
      · simp [h1, h2, Hw.emit]
  · rw [if_neg h]
    exact ⟨[], by simp, fun e he => absurd he (List.not_mem_nil e), rfl, rfl⟩

/-- The writes that launch the command, in program order: the block count when
one is written, the argument, the transfer mode when one is written, the mode
register and the command register. -/
theorem send_issue_trace (c : SendLocals) (cmd : sSdmmcCommand) (g : LaunchRegs) (hw : Hw) :
    (send_issue c cmd g hw).trace
        = hw.trace
          ++ ((if c.stop_xfer = true then [Event.wr_BCR 0]
               else if (c.has_data && (c.multiple_xfer || decide (cmd.wNbBlocks > 1))) = true
               then [Event.wr_BCR cmd.wNbBlocks] else [])
            ++ [Event.wr_ARG1R cmd.dwArg]
            ++ (if (c.has_data || c.stop_xfer) = true then [Event.wr_TMR g.tmr] else [])
            ++ [Event.wr_MC1R g.mc1r, Event.wr_CR g.cr])
      ∧ (send_issue c cmd g hw).pclk = hw.pclk
      ∧ (send_issue c cmd g hw).table_mem = hw.table_mem := by
  unfold send_issue
  simp only []
  by_cases h1 : c.stop_xfer = true
  · by_cases h3 : (c.has_data || c.stop_xfer) = true
    · simp [h1, h3, Hw.emit]
    · simp [h1] at h3
  · by_cases h2 : (c.has_data && (c.multiple_xfer || decide (cmd.wNbBlocks > 1))) = true
    · by_cases h3 : (c.has_data || c.stop_xfer) = true
      · rw [if_neg h1, if_pos h2, if_pos h3, if_neg h1, if_pos h2, if_pos h3]
        simp [Hw.emit]
      · rw [if_neg h1, if_pos h2, if_neg h3, if_neg h1, if_pos h2, if_neg h3]
        simp [Hw.emit]
    · by_cases h3 : (c.has_data || c.stop_xfer) = true
      · rw [if_neg h1, if_neg h2, if_pos h3, if_neg h1, if_neg h2, if_pos h3]
        simp [Hw.emit]
      · rw [if_neg h1, if_neg h2, if_neg h3, if_neg h1, if_neg h2, if_neg h3]
        simp [Hw.emit]

/-- The write that prepares the Timer/Counter, when one is made. -/
theorem send_timer_trace (c : SendLocals) (set : sdmmc_set) (hw hw1 : Hw)
    (h : send_timer c set hw = some hw1) :
    hw1.trace
        = hw.trace
          ++ (if (c.has_data && c.stop_xfer_suffix) = true then
                [Event.wr_TC_RC (max_u32 (hw.pclk set.tc_id / (set.dev_freq / (2 + 64 + 48))) 1)]
              else if c.wait_switch = true then
                [Event.wr_TC_RC (max_u32 (hw.pclk set.tc_id / (set.dev_freq / 8)) 1)]
              else [])
      ∧ hw1.table_mem = hw.table_mem := by
  unfold send_timer at h
  by_cases h1 : (c.has_data && c.stop_xfer_suffix) = true
  · rw [if_pos h1] at h
    rw [if_pos h1]
    split at h
    · cases h
    · cases h
      exact ⟨rfl, rfl⟩
  · rw [if_neg h1] at h
    rw [if_neg h1]
    by_cases h2 : c.wait_switch = true
    · rw [if_pos h2] at h
      rw [if_pos h2]
      split at h
      · cases h
      · cases h
        exact ⟨rfl, rfl⟩
    · rw [if_neg h2] at h
      rw [if_neg h2]
      cases h
      exact ⟨by simp, rfl⟩

/-- The writes that unmask the interrupts in interrupt mode. -/
theorem send_unmask_trace (set : sdmmc_set) (eister : Eistr) (hw : Hw) :
    ∃ L, (send_unmask set eister hw).trace = hw.trace ++ L
      ∧ (∀ e ∈ L, (∃ v, e = Event.wr_NISIER v) ∨ e = Event.wr_EISIER eister)
      ∧ (send_unmask set eister hw).table_mem = hw.table_mem := by
  unfold send_unmask
  by_cases h : (!set.use_polling) = true
  · rw [if_pos h]
    refine ⟨[Event.wr_NISIER { hw.NISIER.headD default with
        BRDRDY := true, BWRRDY := true, TRFC := true, CMDC := true, CINT := true },
      Event.wr_EISIER eister], ?_, ?_, rfl⟩
    · simp [Hw.emit]
    · intro e he
      simp only [List.mem_cons, List.mem_singleton, List.not_mem_nil, or_false] at he
      rcases he with he | he
      · exact Or.inl ⟨_, he⟩
      · exact Or.inr he
  · rw [if_neg h]
    exact ⟨[], by simp, fun e he => absurd he (List.not_mem_nil e), rfl⟩

/-- The writes of the launch part of `sdmmc_send_command`, in program order:
the interrupt enables with the error mask, the writes of the data block, the
launch registers, the timer reload and the interrupt unmasking.  The descriptor
table is left alone. -/
theorem send_launch_trace (c : SendLocals) (set : sdmmc_set) (cmd : sSdmmcCommand) (hw : Hw)
    (rc : Rc) (l : sdmmc_set × sSdmmcCommand × Hw) (hl0 : send_launch c set cmd hw rc = some l) :
    ∃ n s L1 L3,
      l.2.2.trace
        = hw.trace
          ++ [Event.wr_NISTER n,
              Event.wr_EISTER (send_regs c cmd (hw.TMR.headD default) (hw.MC1R.headD default)
                (hw.CR.headD default)).eister,
              Event.wr_NISTR s, Event.wr_EISTR Eistr.all]
          ++ L1
          ++ ((if c.stop_xfer = true then [Event.wr_BCR 0]
               else if (c.has_data && (c.multiple_xfer || decide (cmd.wNbBlocks > 1))) = true
               then [Event.wr_BCR cmd.wNbBlocks] else [])
            ++ [Event.wr_ARG1R cmd.dwArg]
            ++ (if (c.has_data || c.stop_xfer) = true then
                  [Event.wr_TMR (send_regs c cmd (hw.TMR.headD default) (hw.MC1R.headD default)
                    (hw.CR.headD default)).tmr]
                else [])
            ++ [Event.wr_MC1R (send_regs c cmd (hw.TMR.headD default) (hw.MC1R.headD default)
                  (hw.CR.headD default)).mc1r,
                Event.wr_CR (send_regs c cmd (hw.TMR.headD default) (hw.MC1R.headD default)
                  (hw.CR.headD default)).cr])
          ++ (if (c.has_data && c.stop_xfer_suffix) = true then
                [Event.wr_TC_RC (max_u32 (hw.pclk set.tc_id / (set.dev_freq / (2 + 64 + 48))) 1)]
              else if c.wait_switch = true then
                [Event.wr_TC_RC (max_u32 (hw.pclk set.tc_id / (set.dev_freq / 8)) 1)]
              else [])
          ++ L3
      ∧ (∀ e ∈ L1, (∃ v, e = Event.wr_SSAR v)
          ∨ (e = Event.wr_ASA0R set.table ∧ c.use_dma = true) ∨ ∃ v, e = Event.wr_BSR v)
      ∧ (∀ e ∈ L3, (∃ v, e = Event.wr_NISIER v) ∨ ∃ v, e = Event.wr_EISIER v)
      ∧ l.2.2.table_mem = hw.table_mem := by
  obtain ⟨g, hg⟩ : ∃ g, send_regs c cmd (hw.TMR.headD default) (hw.MC1R.headD default)
      (hw.CR.headD default) = g := ⟨_, rfl⟩
  obtain ⟨h1, hh1⟩ : ∃ h1, send_wait_lines c cmd
      { hw with TMR := hw.TMR.tail, MC1R := hw.MC1R.tail, CR := hw.CR.tail } = h1 := ⟨_, rfl⟩
  have h1t : h1.trace = hw.trace ∧ h1.pclk = hw.pclk ∧ h1.table_mem = hw.table_mem := by
    rw [← hh1]
    exact ⟨rfl, rfl, rfl⟩
  obtain ⟨n, s, he, hep, hem⟩ := send_enable_trace g.eister h1
  obtain ⟨L1, hd, hdm, hdp, hdt⟩ := send_issue_data_trace c set cmd (send_enable g.eister h1)
  obtain ⟨hi, hip, him⟩ := send_issue_trace c cmd g (send_issue_data c set cmd
    (send_enable g.eister h1))
  have hp : send_program c set cmd hw
      = (g, send_issue c cmd g (send_issue_data c set cmd (send_enable g.eister h1))) := by
    unfold send_program
    simp only []
    rw [hg, hh1]
  obtain ⟨hw3, ht0, hl2⟩ := send_launch_some c set cmd hw rc l hl0
  rw [hp] at ht0 hl2
  obtain ⟨ht, htm⟩ := send_timer_trace c set _ hw3 ht0
  obtain ⟨L3, hu, hum, hut⟩ := send_unmask_trace set g.eister hw3
  have hl : l.2.2 = send_unmask set g.eister hw3 := by rw [hl2]
  refine ⟨n, s, L1, L3, ?_, hdm, ?_, ?_⟩
  · rw [hl, hu, ht, hi, hd, he, h1t.1, hip, hdp, hep, h1t.2.1]
    simp only [List.append_assoc, hg]
  · intro e hm
    rcases hum e hm with h | h
    · exact Or.inl h
    · exact Or.inr ⟨_, h⟩
  · rw [hl, hut, htm, him, hdt, hem, h1t.2.2]

/-- The descriptor builder changes at most the block count of the command, and
it writes no register. -/
theorem build_cmd_fields (K : Hdr) (set : sdmmc_set) (cmd : sSdmmcCommand) (hw : Hw) :
    (sdmmc_build_dma_table K set cmd hw).cmd
        = { cmd with wNbBlocks := (sdmmc_build_dma_table K set cmd hw).cmd.wNbBlocks }
      ∧ (sdmmc_build_dma_table K set cmd hw).hw.pclk = hw.pclk := by
  unfold sdmmc_build_dma_table
  simp only []
  repeat' split
  all_goals exact ⟨rfl, rfl⟩

/-- The DMA preparation block changes at most the block count of the command. -/
theorem prepare_dma_cmd_fields (K : Hdr) (c : SendLocals) (set : sdmmc_set)
    (cmd : sSdmmcCommand) (hw : Hw) :
    (send_prepare_dma K c set cmd hw).cmd
        = { cmd with wNbBlocks := (send_prepare_dma K c set cmd hw).cmd.wNbBlocks }
      ∧ (send_prepare_dma K c set cmd hw).hw.pclk = hw.pclk := by
  have hb := build_cmd_fields K set cmd hw
  unfold send_prepare_dma
  simp only []
  repeat' split
  all_goals first | exact ⟨rfl, rfl⟩ | exact hb

/-- When `sdmmc_send_command` returns Ok for a command that is not the power-on
pseudo-command, it has run its launch part, on the command that the DMA
preparation left, up to its buffers and status, and on the session and
environment that the busy test left. -/
theorem send_command_launched (K : Hdr) (set : sdmmc_set) (cmd : sSdmmcCommand) (hw : Hw)
    (o : SendOut) (ho : sdmmc_send_command K set cmd hw = some o)
    (hpow : cmd.cmdOp.powerON = false)
    (hrc : o.rc = Rc.SDMMC_OK) :
    ∃ c1 l,
      send_launch (send_locals K set cmd)
          (sdmmc_is_busy
            (send_alias set cmd (send_prepare_dma K (send_locals K set cmd) set cmd hw))
            (send_prepare_dma K (send_locals K set cmd) set cmd hw).hw).set
          c1 (send_before_launch K set cmd hw)
          (send_prepare_dma K (send_locals K set cmd) set cmd hw).rc = some l
        ∧ o.hw = l.2.2
        ∧ o.cmd
          = { c1 with bStatus := (send_prepare_dma K (send_locals K set cmd) set cmd hw).rc }
        ∧ c1.cmdOp = cmd.cmdOp ∧ c1.dwArg = cmd.dwArg ∧ c1.bCmd = cmd.bCmd
        ∧ c1.wNbBlocks = (send_prepare_dma K (send_locals K set cmd) set cmd hw).cmd.wNbBlocks
        ∧ c1.wBlockSize = cmd.wBlockSize := by
  have hb := (prepare_dma_cmd_fields K (send_locals K set cmd) set cmd hw).1
  unfold sdmmc_send_command at ho
  simp only [] at ho
  split at ho
  · cases ho; cases hrc
  · split at ho
    · cases ho; cases hrc
    · split at ho
      · cases ho; cases hrc
      · split at ho
        · rename_i h
          rw [hpow] at h
          cases h
        · split at ho
          · cases ho; cases hrc
          · split at ho
            · cases ho; cases hrc
            · split at ho
              · rename_i h
                cases ho
                exact absurd hrc h.1
              · split at ho
                · cases ho; cases hrc
                · split at ho
                  · cases ho
                  · rename_i l hl
                    cases ho
                    obtain ⟨d, p, s, hobj⟩ := send_object_eq set cmd
                      (send_prepare_dma K (send_locals K set cmd) set cmd hw)
                      (sdmmc_is_busy
                        (send_alias set cmd
                          (send_prepare_dma K (send_locals K set cmd) set cmd hw))
                        (send_prepare_dma K (send_locals K set cmd) set cmd hw).hw)
                    obtain ⟨hw3, _, hl2⟩ := send_launch_some _ _ _ _ _ _ hl
                    refine ⟨_, l, hl, rfl, ?_, ?_, ?_, ?_, ?_, ?_⟩
                    · show l.2.1 = _
                      rw [hl2]
                    · rw [hobj]
                      show (send_prepare_dma K (send_locals K set cmd) set cmd hw).cmd.cmdOp = _
                      rw [hb]
                    · rw [hobj]
                      show (send_prepare_dma K (send_locals K set cmd) set cmd hw).cmd.dwArg = _
                      rw [hb]
                    · rw [hobj]
                      show (send_prepare_dma K (send_locals K set cmd) set cmd hw).cmd.bCmd = _
                      rw [hb]
                    · rw [hobj]
                    · rw [hobj]
                      show (send_prepare_dma K (send_locals K set cmd) set cmd hw).cmd.wBlockSize
                        = _
                      rw [hb]

/-- The command-index and command-CRC bits of the error mask that the launch
computes. -/
theorem send_regs_eister (c : SendLocals) (cmd : sSdmmcCommand) (t : Tmr) (m : Mc1r) (r : Cr) :
    (send_regs c cmd t m r).eister.CMDIDX
        = !(decide (cmd.cmdOp.respType = 2) || decide (cmd.cmdOp.respType = 3)
            || (decide (cmd.cmdOp.respType = 4) && cmd.cmdOp.ioCmd))
      ∧ (send_regs c cmd t m r).eister.CMDCRC
        = !(decide (cmd.cmdOp.respType = 3)
            || (decide (cmd.cmdOp.respType = 4) && cmd.cmdOp.ioCmd)) := by
  have hx : ∀ tm cr e, (send_xfer_mode c cmd tm cr e).2.2.CMDIDX = e.CMDIDX
      ∧ (send_xfer_mode c cmd tm cr e).2.2.CMDCRC = e.CMDCRC := by
    intro tm cr e
    unfold send_xfer_mode
    repeat' split
    all_goals exact ⟨rfl, rfl⟩
  unfold send_regs
  simp only []
  rw [(hx _ _ _).1, (hx _ _ _).2]
  unfold send_resp_type
  simp only []
  by_cases h2 : cmd.cmdOp.respType = 2
  · simp [h2, Eistr.all]
  by_cases h3 : cmd.cmdOp.respType = 3
  · simp [h3, Eistr.all]
  by_cases h4 : cmd.cmdOp.respType = 4
  · cases hio : cmd.cmdOp.ioCmd <;> simp [h4, hio, Eistr.all]
  by_cases h1 : cmd.cmdOp.respType = 1
  · simp [h1, Eistr.all]
  by_cases h5 : cmd.cmdOp.respType = 5 ∨ cmd.cmdOp.respType = 6 ∨ cmd.cmdOp.respType = 7
  · simp [h1, h2, h3, h4, h5, Eistr.all]
  · simp [h1, h2, h3, h4, h5, Eistr.all]

/-- The launch part writes the error interrupt enable register once, with the
mask it computed. -/
theorem send_launch_eister (c : SendLocals) (set : sdmmc_set) (cmd : sSdmmcCommand) (hw : Hw)
    (rc : Rc) (l : sdmmc_set × sSdmmcCommand × Hw) (hl : send_launch c set cmd hw rc = some l) :
    eister_writes l.2.2.trace
      = eister_writes hw.trace
        ++ [(send_regs c cmd (hw.TMR.headD default) (hw.MC1R.headD default)
              (hw.CR.headD default)).eister] := by
  obtain ⟨n, s, L1, L3, ht, h1, h3, _⟩ := send_launch_trace c set cmd hw rc l hl
  have e1 : eister_writes L1 = [] := by
    unfold eister_writes
    rw [List.filterMap_eq_nil_iff]
    intro e he
    rcases h1 e he with ⟨v, hv⟩ | ⟨hv, _⟩ | ⟨v, hv⟩ <;> rw [hv]
  have e3 : eister_writes L3 = [] := by
    unfold eister_writes
    rw [List.filterMap_eq_nil_iff]
    intro e he
    rcases h3 e he with ⟨v, hv⟩ | ⟨v, hv⟩ <;> rw [hv]
  have happ : ∀ a b, eister_writes (a ++ b) = eister_writes a ++ eister_writes b := by
    intro a b
    unfold eister_writes
    exact List.filterMap_append _ _ _
  rw [ht]
  simp only [happ, e1, e3, apply_ite eister_writes]
  simp [eister_writes]

/-- The launch part writes the launch registers in program order: the block
count when one is written, the argument, the transfer mode when one is
written, the mode register and the command register. -/
theorem send_launch_regs (c : SendLocals) (set : sdmmc_set) (cmd : sSdmmcCommand) (hw : Hw)
    (rc : Rc) (l : sdmmc_set × sSdmmcCommand × Hw) (hl : send_launch c set cmd hw rc = some l) :
    ∃ L, l.2.2.trace = hw.trace ++ L
      ∧ L.filter launch_reg
        = (if c.stop_xfer = true then [Event.wr_BCR 0]
           else if (c.has_data && (c.multiple_xfer || decide (cmd.wNbBlocks > 1))) = true
           then [Event.wr_BCR cmd.wNbBlocks] else [])
          ++ [Event.wr_ARG1R cmd.dwArg]
          ++ (if (c.has_data || c.stop_xfer) = true then
                [Event.wr_TMR (send_regs c cmd (hw.TMR.headD default) (hw.MC1R.headD default)
                  (hw.CR.headD default)).tmr]
              else [])
          ++ [Event.wr_MC1R (send_regs c cmd (hw.TMR.headD default) (hw.MC1R.headD default)
                (hw.CR.headD default)).mc1r,
              Event.wr_CR (send_regs c cmd (hw.TMR.headD default) (hw.MC1R.headD default)
                (hw.CR.headD default)).cr] := by
  obtain ⟨n, s, L1, L3, ht, h1, h3, _⟩ := send_launch_trace c set cmd hw rc l hl
  have e1 : L1.filter launch_reg = [] := by
    rw [List.filter_eq_nil_iff]
    intro e he
    rcases h1 e he with ⟨v, hv⟩ | ⟨hv, _⟩ | ⟨v, hv⟩ <;> rw [hv] <;> simp [launch_reg]
  have e3 : L3.filter launch_reg = [] := by
    rw [List.filter_eq_nil_iff]
    intro e he
    rcases h3 e he with ⟨v, hv⟩ | ⟨v, hv⟩ <;> rw [hv] <;> simp [launch_reg]
  refine ⟨[Event.wr_NISTER n, Event.wr_EISTER (send_regs c cmd (hw.TMR.headD default) (hw.MC1R.headD default) (hw.CR.headD default)).eister,
        Event.wr_NISTR s, Event.wr_EISTR Eistr.all]
      ++ L1
      ++ ((if c.stop_xfer = true then [Event.wr_BCR 0]
          else if (c.has_data && (c.multiple_xfer || decide (cmd.wNbBlocks > 1))) = true
          then [Event.wr_BCR cmd.wNbBlocks] else [])
        ++ [Event.wr_ARG1R cmd.dwArg]
        ++ (if (c.has_data || c.stop_xfer) = true then [Event.wr_TMR (send_regs c cmd (hw.TMR.headD default) (hw.MC1R.headD default) (hw.CR.headD default)).tmr] else [])
        ++ [Event.wr_MC1R (send_regs c cmd (hw.TMR.headD default) (hw.MC1R.headD default) (hw.CR.headD default)).mc1r, Event.wr_CR (send_regs c cmd (hw.TMR.headD default) (hw.MC1R.headD default) (hw.CR.headD default)).cr])
      ++ (if (c.has_data && c.stop_xfer_suffix) = true then
            [Event.wr_TC_RC (max_u32 (hw.pclk set.tc_id / (set.dev_freq / (2 + 64 + 48))) 1)]
          else if c.wait_switch = true then
            [Event.wr_TC_RC (max_u32 (hw.pclk set.tc_id / (set.dev_freq / 8)) 1)]
          else [])
      ++ L3, ?_, ?_⟩
  · rw [ht]
    simp only [List.append_assoc]
  · simp only [List.filter_append, e1, e3, apply_ite (List.filter launch_reg)]
    simp [launch_reg, List.filter_cons]



/-! ## Lemmas on the data that the resolver leaves alone -/

/-- The response loop for R2 leaves the peripheral clock alone. -/
theorem r2_loop_pclk (n ix : Nat) (out : Nat → Nat) (hw : Hw) :
    (r2_loop n ix out hw).2.pclk = hw.pclk := by
  induction n generalizing ix out hw with
  | zero => rfl
  | succ n ih =>
    unfold r2_loop
    simp only []
    rw [ih]
    rfl

/-- Reading the first response leaves the frame alone. -/
theorem get_response_first_frame (set : sdmmc_set) (cmd : sSdmmcCommand)
    (out : Nat → Nat) (hw : Hw) :
    poll_frame (get_response_first set cmd out hw).set (get_response_first set cmd out hw).hw
      = poll_frame set hw := by
  unfold get_response_first
  split
  · simp only [poll_frame]
    rw [r2_loop_pclk]
  · split <;> rfl

/-- The function `sdmmc_get_response` leaves the frame alone. -/
theorem sdmmc_get_response_frame (set : sdmmc_set) (cmd : sSdmmcCommand)
    (complete : Bool) (out : Nat → Nat) (hw : Hw) :
    poll_frame (sdmmc_get_response set cmd complete out hw).set
        (sdmmc_get_response set cmd complete out hw).hw
      = poll_frame set hw := by
  unfold sdmmc_get_response
  simp only []
  repeat' split
  all_goals first | rfl | exact get_response_first_frame _ _ _ _

/-- Retrieving the response leaves the frame alone. -/
theorem poll_get_response_frame (st : PollSt) (complete : Bool) :
    poll_frame (poll_get_response st complete).set (poll_get_response st complete).hw
      = poll_frame st.set st.hw := by
  unfold poll_get_response
  split
  · rfl
  · exact sdmmc_get_response_frame _ _ _ _ _

/-- The fetch of the events leaves the peripheral clock alone. -/
theorem poll_fetch_pclk (set : sdmmc_set) (hw : Hw) (v : Nistr) :
    (poll_fetch set hw v).2.pclk = hw.pclk := by
  unfold poll_fetch
  split
  · split
    · simp only []
      split <;> rfl
    · rfl
  · split <;> rfl

/-- The error decoding leaves the peripheral clock alone. -/
theorem poll_decode_pclk (errors : Eistr) (hw : Hw) :
    (poll_decode errors hw).2.pclk = hw.pclk := by
  unfold poll_decode
  repeat' (first | rfl | apply ite_prop (fun x : Rc × Hw => x.2.pclk = hw.pclk))

/-- The error block leaves the frame alone. -/
theorem poll_errint_frame (st : PollSt) :
    poll_frame (poll_errint st).set (poll_errint st).hw = poll_frame st.set st.hw := by
  unfold poll_errint
  simp only [poll_frame]
  rw [poll_decode_pclk]
  rfl

/-- The Command Complete block leaves the frame alone. -/
theorem poll_cmdc_frame (st : PollSt) :
    poll_frame (poll_cmdc st).st.set (poll_cmdc st).st.hw = poll_frame st.set st.hw := by
  unfold poll_cmdc
  split
  · simp only []
    split
    · exact poll_get_response_frame _ _
    · exact poll_get_response_frame _ _
  · rfl

/-- The word loop of the read block leaves the peripheral clock alone. -/
theorem read_words_pclk (n off : Nat) (data : Nat → Nat) (hw : Hw) :
    (read_words n off data hw).2.pclk = hw.pclk := by
  induction n generalizing off data hw with
  | zero => rfl
  | succ n ih =>
    unfold read_words
    simp only []
    rw [ih]
    rfl

/-- The read block leaves the frame alone. -/
theorem poll_brdrdy_frame (st : PollSt) :
    poll_frame (poll_brdrdy st).st.set (poll_brdrdy st).st.hw = poll_frame st.set st.hw := by
  unfold poll_brdrdy
  split
  · simp only []
    split
    · rfl
    · simp only [Flow.st, poll_frame]
      split
      · show (_, _, Hw.pclk (Hw.rd_BDPR _).2) = _
        unfold Hw.rd_BDPR
        show (_, _, Hw.pclk (read_words _ _ _ _).2) = _
        rw [read_words_pclk]
        rfl
      · rw [read_words_pclk]
        rfl
  · rfl

/-- The word loop of the write block leaves the peripheral clock alone. -/
theorem write_words_pclk (n off : Nat) (data : Nat → Nat) (hw : Hw) :
    (write_words n off data hw).pclk = hw.pclk := by
  induction n generalizing off hw with
  | zero => rfl
  | succ n ih =>
    unfold write_words
    rw [ih]
    rfl

/-- The write block leaves the frame alone. -/
theorem poll_bwrrdy_frame (st : PollSt) :
    poll_frame (poll_bwrrdy st).set (poll_bwrrdy st).hw = poll_frame st.set st.hw := by
  unfold poll_bwrrdy
  split
  · simp only [poll_frame]
    split
    · show (_, _, Hw.pclk (write_words _ _ _ _)) = _
      rw [write_words_pclk]
      rfl
    · rw [write_words_pclk]
      rfl
  · rfl

/-- The first part of the Transfer Complete block leaves the frame alone. -/
theorem poll_trfc_release_frame (st : PollSt) :
    poll_frame (poll_trfc_release st).set (poll_trfc_release st).hw
      = poll_frame st.set st.hw := by
  unfold poll_trfc_release
  simp only []
  split
  · split
    · exact poll_get_response_frame _ _
    · rfl
  · split
    · exact poll_get_response_frame _ _
    · rfl

/-- The Transfer Complete block leaves the frame alone. -/
theorem poll_trfc_frame (st : PollSt) :
    poll_frame (poll_trfc st).st.set (poll_trfc st).st.hw = poll_frame st.set st.hw := by
  have hk := poll_trfc_release_frame st
  unfold poll_trfc
  split
  · simp only []
    split
    · exact hk
    · split
      · exact hk
      · exact hk
  · rfl

/-- One pass of the resolver leaves the frame alone. -/
theorem poll_pass_frame (st : PollSt) :
    poll_frame (poll_pass st).st.set (poll_pass st).st.hw = poll_frame st.set st.hw := by
  unfold poll_pass
  split
  · exact poll_errint_frame st
  · split
    · exact poll_get_response_frame st true
    · have hc := poll_cmdc_frame st
      cases hf : poll_cmdc st with
      | fail st1 => rw [hf] at hc; exact hc
      | succeed st1 => rw [hf] at hc; exact hc
      | cont st1 =>
        rw [hf] at hc
        simp only [Flow.bind, Flow.st] at hc ⊢
        have hb := poll_brdrdy_frame st1
        cases hg : poll_brdrdy st1 with
        | fail st2 =>
          rw [hg] at hb
          simp only [Flow.st] at hb ⊢
          exact hb.trans hc
        | succeed st2 =>
          rw [hg] at hb
          simp only [Flow.st] at hb ⊢
          exact hb.trans hc
        | cont st2 =>
          rw [hg] at hb
          simp only [Flow.st] at hb ⊢
          have hw := poll_bwrrdy_frame st2
          have ht := poll_trfc_frame (poll_bwrrdy st2)
          exact ht.trans (hw.trans (hb.trans hc))

/-- The code from the label `End` on leaves the frame alone. -/
theorem poll_end_frame (st : PollSt) :
    poll_frame (poll_end st).set (poll_end st).hw = poll_frame st.set st.hw := by
  unfold poll_end
  simp only []
  repeat' split
  all_goals rfl

/-- One round of the fetch loop leaves the frame alone. -/
theorem poll_round_frame (v : Nistr) (set : sdmmc_set) (cmd : sSdmmcCommand) (hw : Hw) :
    (∀ hw1, poll_round v set cmd hw = Round.idle hw1 → hw1.pclk = hw.pclk)
      ∧ (∀ o, poll_round v set cmd hw = Round.done o →
          poll_frame o.set o.hw = poll_frame set hw)
      ∧ (∀ s c h, poll_round v set cmd hw = Round.again s c h →
          poll_frame s h = poll_frame set hw) := by
  have hp := poll_pass_frame
    { set := set, cmd := cmd, hw := (poll_fetch set hw v).2, events := (poll_fetch set hw v).1 }
  have hf : poll_frame set (poll_fetch set hw v).2 = poll_frame set hw := by
    simp only [poll_frame]
    rw [poll_fetch_pclk]
  rcases poll_round_cases v set cmd hw with
    ⟨_, hr⟩ | ⟨_, ⟨st, hps, hr⟩ | ⟨st, hps, hr⟩ | ⟨st, hps, hr⟩⟩
  · rw [hr]
    refine ⟨?_, fun o h => (by cases h), fun s c h hh => (by cases hh)⟩
    intro hw1 h
    cases h
    exact poll_fetch_pclk set hw v
  · rw [hr]
    rw [hps] at hp
    simp only [Flow.st] at hp
    refine ⟨fun o h => (by cases h), ?_, fun s c h hh => (by cases hh)⟩
    intro o h
    cases h
    rw [poll_end_frame]
    exact hp.trans hf
  · rw [hr]
    rw [hps] at hp
    simp only [Flow.st] at hp
    refine ⟨fun o h => (by cases h), ?_, fun s c h hh => (by cases hh)⟩
    intro o h
    cases h
    rw [poll_end_frame]
    exact hp.trans hf
  · rw [hr]
    rw [hps] at hp
    simp only [Flow.st] at hp
    refine ⟨fun o h => (by cases h), fun o h => (by cases h), ?_⟩
    intro s c h hh
    cases hh
    split
    · exact hp.trans hf
    · exact hp.trans hf

/-- The resolver leaves the frame alone. -/
theorem sdmmc_poll_frame (set : sdmmc_set) (hw : Hw) :
    poll_frame (sdmmc_poll set hw).set (sdmmc_poll set hw).hw = poll_frame set hw := by
  unfold sdmmc_poll
  split
  · rfl
  · split
    · rfl
    · rename_i cmd _
      exact poll_loop_induct
        (fun s _ h => poll_frame s h = poll_frame set hw)
        (fun o => poll_frame o.set o.hw = poll_frame set hw)
        (fun s c h rest hP => hP)
        (fun v s c h hw1 hP hr => by
          have := (poll_round_frame v s c h).1 hw1 hr
          simp only [poll_frame] at hP ⊢
          rw [this]
          exact hP)
        (fun v s c h o hP hr => ((poll_round_frame v s c h).2.1 o hr).trans hP)
        (fun v s c h s1 c1 h1 hP hr =>
          ⟨((poll_round_frame v s c h).2.2 s1 c1 h1 hr).trans hP,
           ((poll_round_frame v s c h).2.2 s1 c1 h1 hr).trans hP⟩)
        hw.NISTR set cmd hw rfl

/-- The busy test leaves the frame alone. -/
theorem sdmmc_is_busy_frame (set : sdmmc_set) (hw : Hw) :
    poll_frame (sdmmc_is_busy set hw).set (sdmmc_is_busy set hw).hw = poll_frame set hw := by
  unfold sdmmc_is_busy
  simp only []
  split
  · exact sdmmc_poll_frame set hw
  · rfl

/-! ## C26, C27: the error mask and the order of the launch writes -/

/-- C26, as stated, fails for R2: the launch of CMD2 with an R2 response
programs an error mask without the command-index bit but with the command-CRC
bit. -/
theorem send_command_r2_mask_keeps_crc :
    exCmdCid.cmdOp.respType = 2
      ∧ (sdmmc_send_command exHdr exSet exCmdCid exHw).map
            (fun o => (o.rc, o.set.state,
              (eister_writes o.hw.trace).map (fun e => (e.CMDIDX, e.CMDCRC))))
          = some (Rc.SDMMC_OK, Mcid.MCID_CMD, [(false, true)]) := by
  refine ⟨by decide, by decide⟩

/-- C26 (amended): for every command that `sdmmc_send_command` launches (it
returns Ok and the command is not the power-on pseudo-command), the error mask
it programs, the last value written to `EISTER`, excludes the command-index
bit and includes the command-CRC bit for R2, excludes both bits for R3 and for
R4 with the I/O flag, and includes both bits for R1, R4 without the I/O flag,
R5, R6 and R7. -/
theorem send_command_error_mask (K : Hdr) (set : sdmmc_set) (cmd : sSdmmcCommand) (hw : Hw)
    (o : SendOut) (ho : sdmmc_send_command K set cmd hw = some o)
    (hpow : cmd.cmdOp.powerON = false)
    (hrc : o.rc = Rc.SDMMC_OK) :
    ∃ e, (eister_writes o.hw.trace).getLast? = some e
      ∧ (cmd.cmdOp.respType = 2 → e.CMDIDX = false ∧ e.CMDCRC = true)
      ∧ (cmd.cmdOp.respType = 3 ∨ (cmd.cmdOp.respType = 4 ∧ cmd.cmdOp.ioCmd = true) →
          e.CMDIDX = false ∧ e.CMDCRC = false)
      ∧ (cmd.cmdOp.respType = 1 ∨ (cmd.cmdOp.respType = 4 ∧ cmd.cmdOp.ioCmd = false)
          ∨ cmd.cmdOp.respType = 5 ∨ cmd.cmdOp.respType = 6 ∨ cmd.cmdOp.respType = 7 →
          e.CMDIDX = true ∧ e.CMDCRC = true) := by
  obtain ⟨c1, l, hl, hhw, _, hop, _⟩ := send_command_launched K set cmd hw o ho hpow hrc
  have he := send_launch_eister _ _ _ _ _ l hl
  have hm := send_regs_eister (send_locals K set cmd) c1
    ((send_before_launch K set cmd hw).TMR.headD default)
    ((send_before_launch K set cmd hw).MC1R.headD default)
    ((send_before_launch K set cmd hw).CR.headD default)
  rw [hop] at hm
  rw [hhw, he]
  refine ⟨_, List.getLast?_concat _, ?_, ?_, ?_⟩
  · intro h
    rw [hm.1, hm.2]
    simp [h]
  · intro h
    rw [hm.1, hm.2]
    rcases h with h | ⟨h, hio⟩
    · simp [h]
    · simp [h, hio]
  · intro h
    rw [hm.1, hm.2]
    rcases h with h | ⟨h, hio⟩ | h | h | h
    · simp [h]
    · simp [h, hio]
    · simp [h]
    · simp [h]
    · simp [h]

/-- C26, witness of the amended claim: CMD13 with an R1 response is launched
with both bits in the error mask. -/
theorem send_command_error_mask_witness :
    ∃ o, sdmmc_send_command exHdr exSet exCmdStatus exHw = some o
      ∧ ∃ e, (eister_writes o.hw.trace).getLast? = some e
        ∧ e.CMDIDX = true ∧ e.CMDCRC = true := by
  obtain ⟨o, ho⟩ := Option.isSome_iff_exists.mp
    (show (sdmmc_send_command exHdr exSet exCmdStatus exHw).isSome = true by decide)
  have hrc : (sdmmc_send_command exHdr exSet exCmdStatus exHw).map (fun x => x.rc)
      = some Rc.SDMMC_OK := by decide
  rw [ho] at hrc
  obtain ⟨e, h1, _, _, h4⟩ :=
    send_command_error_mask exHdr exSet exCmdStatus exHw o ho (by decide) (by simpa using hrc)
  exact ⟨o, ho, e, h1, h4 (Or.inl (by decide))⟩

/-- C27, as stated, fails: in the launch of a read of two blocks the argument
register is written before the transfer mode register; the order is block
count, argument, transfer mode, mode register, command register. -/
theorem send_command_argument_before_transfer_mode :
    (sdmmc_send_command exHdr exSetPio exCmdRead2 exHw).map (fun o => o.rc)
        = some Rc.SDMMC_OK
      ∧ ∃ t m r,
          (sdmmc_send_command exHdr exSetPio exCmdRead2 exHw).map
              (fun o => o.hw.trace.filter launch_reg)
            = some [Event.wr_BCR 2, Event.wr_ARG1R 0, Event.wr_TMR t, Event.wr_MC1R m,
                Event.wr_CR r] :=
  ⟨by decide, _, _, _, rfl⟩

/-- C27 (amended): for every command that `sdmmc_send_command` launches, the
launch registers that the launch part writes appear in the trace in the fixed
order block count (when it is written: for a stop-transfer command and for a
data command of several blocks), argument, transfer mode (when it is written:
for a data or stop-transfer command), mode register, command register; the
command register is written after all of the others.  The trace before these
writes is the one that the busy test left. -/
theorem send_command_launch_order (K : Hdr) (set : sdmmc_set) (cmd : sSdmmcCommand) (hw : Hw)
    (o : SendOut) (ho : sdmmc_send_command K set cmd hw = some o)
    (hpow : cmd.cmdOp.powerON = false)
    (hrc : o.rc = Rc.SDMMC_OK) :
    ∃ L t m r,
      o.hw.trace = (send_before_launch K set cmd hw).trace ++ L
        ∧ L.filter launch_reg
          = (if (send_locals K set cmd).stop_xfer = true then [Event.wr_BCR 0]
             else if ((send_locals K set cmd).has_data
                 && ((send_locals K set cmd).multiple_xfer
                     || decide (o.cmd.wNbBlocks > 1))) = true
             then [Event.wr_BCR o.cmd.wNbBlocks] else [])
            ++ [Event.wr_ARG1R cmd.dwArg]
            ++ (if ((send_locals K set cmd).has_data || (send_locals K set cmd).stop_xfer) = true
                then [Event.wr_TMR t] else [])
            ++ [Event.wr_MC1R m, Event.wr_CR r] := by
  obtain ⟨c1, l, hl, hhw, hc, _, harg, _, hnb, _⟩ :=
    send_command_launched K set cmd hw o ho hpow hrc
  have hn : o.cmd.wNbBlocks = c1.wNbBlocks := by rw [hc]
  obtain ⟨L, ht, hf⟩ := send_launch_regs _ _ _ _ _ l hl
  obtain ⟨g, hg⟩ : ∃ g, send_regs (send_locals K set cmd) c1
      ((send_before_launch K set cmd hw).TMR.headD default)
      ((send_before_launch K set cmd hw).MC1R.headD default)
      ((send_before_launch K set cmd hw).CR.headD default) = g := ⟨_, rfl⟩
  rw [hg, harg] at hf
  refine ⟨L, g.tmr, g.mc1r, g.cr, ?_, ?_⟩
  · rw [hhw, ht]
  · rw [hf, hn]

/-- C27, witness of the amended claim: the launch of CMD13, which writes the
argument, the mode register and the command register. -/
theorem send_command_launch_order_witness :
    ∃ o, sdmmc_send_command exHdr exSet exCmdStatus exHw = some o
      ∧ ∃ L m r,
        o.hw.trace = (send_before_launch exHdr exSet exCmdStatus exHw).trace ++ L
          ∧ L.filter launch_reg = [Event.wr_ARG1R 0, Event.wr_MC1R m, Event.wr_CR r] := by
  obtain ⟨o, ho⟩ := Option.isSome_iff_exists.mp
    (show (sdmmc_send_command exHdr exSet exCmdStatus exHw).isSome = true by decide)
  have hrc : (sdmmc_send_command exHdr exSet exCmdStatus exHw).map (fun x => x.rc)
      = some Rc.SDMMC_OK := by decide
  rw [ho] at hrc
  obtain ⟨L, t, m, r, h1, h2⟩ :=
    send_command_launch_order exHdr exSet exCmdStatus exHw o ho (by decide)
      (by simpa using hrc)
  exact ⟨o, ho, L, m, r, h1, h2⟩

/-! ## C29: the reload value of the timer -/

/-- The launch part writes the reload register of the timer at most once, with
the value it computed. -/
theorem send_launch_tc_rc (c : SendLocals) (set : sdmmc_set) (cmd : sSdmmcCommand) (hw : Hw)
    (rc : Rc) (l : sdmmc_set × sSdmmcCommand × Hw) (hl : send_launch c set cmd hw rc = some l) :
    ∃ L, l.2.2.trace = hw.trace ++ L
      ∧ tc_rc_writes L
        = (if (c.has_data && c.stop_xfer_suffix) = true then
             [max_u32 (hw.pclk set.tc_id / (set.dev_freq / (2 + 64 + 48))) 1]
           else if c.wait_switch = true then
             [max_u32 (hw.pclk set.tc_id / (set.dev_freq / 8)) 1]
           else []) := by
  obtain ⟨n, s, L1, L3, ht, h1, h3, _⟩ := send_launch_trace c set cmd hw rc l hl
  have e1 : tc_rc_writes L1 = [] := by
    unfold tc_rc_writes
    rw [List.filterMap_eq_nil_iff]
    intro e he
    rcases h1 e he with ⟨v, hv⟩ | ⟨hv, _⟩ | ⟨v, hv⟩ <;> rw [hv]
  have e3 : tc_rc_writes L3 = [] := by
    unfold tc_rc_writes
    rw [List.filterMap_eq_nil_iff]
    intro e he
    rcases h3 e he with ⟨v, hv⟩ | ⟨v, hv⟩ <;> rw [hv]
  have happ : ∀ a b, tc_rc_writes (a ++ b) = tc_rc_writes a ++ tc_rc_writes b := by
    intro a b
    unfold tc_rc_writes
    exact List.filterMap_append _ _ _
  refine ⟨[Event.wr_NISTER n,
        Event.wr_EISTER (send_regs c cmd (hw.TMR.headD default) (hw.MC1R.headD default)
          (hw.CR.headD default)).eister,
        Event.wr_NISTR s, Event.wr_EISTR Eistr.all]
      ++ L1
      ++ ((if c.stop_xfer = true then [Event.wr_BCR 0]
           else if (c.has_data && (c.multiple_xfer || decide (cmd.wNbBlocks > 1))) = true
           then [Event.wr_BCR cmd.wNbBlocks] else [])
        ++ [Event.wr_ARG1R cmd.dwArg]
        ++ (if (c.has_data || c.stop_xfer) = true then
              [Event.wr_TMR (send_regs c cmd (hw.TMR.headD default) (hw.MC1R.headD default)
                (hw.CR.headD default)).tmr]
            else [])
        ++ [Event.wr_MC1R (send_regs c cmd (hw.TMR.headD default) (hw.MC1R.headD default)
              (hw.CR.headD default)).mc1r,
            Event.wr_CR (send_regs c cmd (hw.TMR.headD default) (hw.MC1R.headD default)
              (hw.CR.headD default)).cr])
      ++ (if (c.has_data && c.stop_xfer_suffix) = true then
            [Event.wr_TC_RC (max_u32 (hw.pclk set.tc_id / (set.dev_freq / (2 + 64 + 48))) 1)]
          else if c.wait_switch = true then
            [Event.wr_TC_RC (max_u32 (hw.pclk set.tc_id / (set.dev_freq / 8)) 1)]
          else [])
      ++ L3, ?_, ?_⟩
  · rw [ht]
    simp only [List.append_assoc]
  · simp only [happ, e1, e3, apply_ite tc_rc_writes]
    simp [tc_rc_writes]

/-- C29: whenever `sdmmc_send_command` launches a data-bearing CMD18 or CMD25
in stop-suffix mode (block-count-prefix mode disabled) on a session whose
device clock is at least 114 Hz, the divisor `dev_freq / 114` of the timer
reload computation is not zero and the launch writes the timer reload register
once, with the value `max_u32 (pclk / (dev_freq / 114)) 1`, which is at least
1; and whenever it launches a function-switch command (CMD0, or CMD6 with
argument bit 31 set and no busy check: `wait_switch`) on a session whose
device clock is at least 8 Hz, the divisor `dev_freq / 8` is not zero and the
value written is
`max_u32 (pclk / (dev_freq / 8)) 1`, at least 1.  The writes are those added to
the trace that the busy test left. -/
theorem send_command_timer_reload (K : Hdr) (set : sdmmc_set) (cmd : sSdmmcCommand) (hw : Hw)
    (o : SendOut) (ho : sdmmc_send_command K set cmd hw = some o)
    (hpow : cmd.cmdOp.powerON = false)
    (hrc : o.rc = Rc.SDMMC_OK) :
    (has_data cmd = true → cmd.bCmd = 18 ∨ cmd.bCmd = 25 → set.use_set_blk_cnt = false →
        114 ≤ set.dev_freq →
        set.dev_freq / 114 ≠ 0
          ∧ 1 ≤ max_u32 (hw.pclk set.tc_id / (set.dev_freq / 114)) 1
          ∧ ∃ L, o.hw.trace = (send_before_launch K set cmd hw).trace ++ L
              ∧ tc_rc_writes L = [max_u32 (hw.pclk set.tc_id / (set.dev_freq / 114)) 1])
      ∧ (wait_switch cmd = true →
          8 ≤ set.dev_freq →
          set.dev_freq / 8 ≠ 0
            ∧ 1 ≤ max_u32 (hw.pclk set.tc_id / (set.dev_freq / 8)) 1
            ∧ ∃ L, o.hw.trace = (send_before_launch K set cmd hw).trace ++ L
                ∧ tc_rc_writes L = [max_u32 (hw.pclk set.tc_id / (set.dev_freq / 8)) 1]) := by
  obtain ⟨c1, l, hl, hhw, _⟩ := send_command_launched K set cmd hw o ho hpow hrc
  have hp := (prepare_dma_cmd_fields K (send_locals K set cmd) set cmd hw).2
  have hfr := sdmmc_is_busy_frame
    (send_alias set cmd (send_prepare_dma K (send_locals K set cmd) set cmd hw))
    (send_prepare_dma K (send_locals K set cmd) set cmd hw).hw
  rw [send_alias_eq] at hfr
  simp only [poll_frame, Prod.mk.injEq] at hfr
  rw [← send_alias_eq] at hfr
  obtain ⟨L, ht, hf⟩ := send_launch_tc_rc _ _ _ _ _ l hl
  have hpclk : (send_before_launch K set cmd hw).pclk
      = (send_prepare_dma K (send_locals K set cmd) set cmd hw).hw.pclk := hfr.2.2
  rw [hfr.1, hfr.2.1, hpclk, hp] at hf
  have hmax : ∀ x, 1 ≤ max_u32 x 1 := by
    intro x
    unfold max_u32
    split <;> omega
  refine ⟨?_, ?_⟩
  · intro hd hb hu hfreq
    refine ⟨?_, hmax _, L, by rw [hhw, ht], ?_⟩
    · have := Nat.div_pos hfreq (by decide : 0 < 114)
      omega
    · rw [hf, if_pos]
      simp only [send_locals, hd, hu, Bool.true_and, Bool.not_false, Bool.and_true]
      rcases hb with hb | hb <;> simp [hb]
  · intro hw1 hfreq
    have hn : ¬(has_data cmd = true ∧ (cmd.bCmd = 18 ∨ cmd.bCmd = 25)
        ∧ set.use_set_blk_cnt = false) := by
      intro hx
      unfold wait_switch at hw1
      rcases hx.2.1 with hb | hb <;> simp [hb] at hw1
    refine ⟨?_, hmax _, L, by rw [hhw, ht], ?_⟩
    · have := Nat.div_pos hfreq (by decide : 0 < 8)
      omega
    · rw [hf, if_neg, if_pos]
      · simp only [send_locals, hw1]
      · intro hc
        apply hn
        simp only [send_locals, Bool.and_eq_true, Bool.or_eq_true, beq_iff_eq,
          Bool.not_eq_true'] at hc
        exact ⟨hc.1, hc.2.1, hc.2.2⟩

/-- C29, witness: CMD18 launched on the example session, whose device clock is
400 kHz, with a peripheral clock that reads zero: the reload value is 1. -/
theorem send_command_timer_reload_witness :
    ∃ o, sdmmc_send_command exHdr exSetPio exCmdRead2 exHw = some o
      ∧ exSetPio.dev_freq / 114 ≠ 0
      ∧ 1 ≤ max_u32 (exHw.pclk exSetPio.tc_id / (exSetPio.dev_freq / 114)) 1
      ∧ ∃ L, o.hw.trace = (send_before_launch exHdr exSetPio exCmdRead2 exHw).trace ++ L
          ∧ tc_rc_writes L
            = [max_u32 (exHw.pclk exSetPio.tc_id / (exSetPio.dev_freq / 114)) 1] := by
  obtain ⟨o, ho⟩ := Option.isSome_iff_exists.mp
    (show (sdmmc_send_command exHdr exSetPio exCmdRead2 exHw).isSome = true by decide)
  have hrc : (sdmmc_send_command exHdr exSetPio exCmdRead2 exHw).map (fun x => x.rc)
      = some Rc.SDMMC_OK := by decide
  rw [ho] at hrc
  exact ⟨o, ho,
    (send_command_timer_reload exHdr exSetPio exCmdRead2 exHw o ho (by decide)
      (by simpa using hrc)).1
      (by decide) (Or.inl (by decide)) (by decide) (by decide)⟩


/-! ## Lemmas on commands sent without DMA -/

/-- Without DMA the transfer mode that the launch computes has the DMA enable
bit clear. -/
theorem send_regs_tmr_dmaen (c : SendLocals) (cmd : sSdmmcCommand) (t : Tmr) (m : Mc1r)
    (r : Cr) (hdma : c.use_dma = false) : (send_regs c cmd t m r).tmr.DMAEN = false := by
  unfold send_regs
  simp only []
  unfold send_xfer_mode
  simp only [hdma, Bool.false_eq_true, if_false]
  repeat' split
  all_goals rfl

/-- Without DMA the launch part leaves the DMA engine out and the descriptor
table alone. -/
theorem send_launch_dma_free (c : SendLocals) (set : sdmmc_set) (cmd : sSdmmcCommand) (hw : Hw)
    (rc : Rc) (hdma : c.use_dma = false) (l : sdmmc_set × sSdmmcCommand × Hw)
    (hl : send_launch c set cmd hw rc = some l) :
    ∃ L, l.2.2.trace = hw.trace ++ L
      ∧ (∀ e ∈ L, dma_free e = true)
      ∧ l.2.2.table_mem = hw.table_mem := by
  obtain ⟨n, s, L1, L3, ht, h1, h3, hm⟩ := send_launch_trace c set cmd hw rc l hl
  have hd := send_regs_tmr_dmaen c cmd (hw.TMR.headD default) (hw.MC1R.headD default)
    (hw.CR.headD default) hdma
  refine ⟨[Event.wr_NISTER n,
        Event.wr_EISTER (send_regs c cmd (hw.TMR.headD default) (hw.MC1R.headD default)
          (hw.CR.headD default)).eister,
        Event.wr_NISTR s, Event.wr_EISTR Eistr.all]
      ++ L1
      ++ ((if c.stop_xfer = true then [Event.wr_BCR 0]
           else if (c.has_data && (c.multiple_xfer || decide (cmd.wNbBlocks > 1))) = true
           then [Event.wr_BCR cmd.wNbBlocks] else [])
        ++ [Event.wr_ARG1R cmd.dwArg]
        ++ (if (c.has_data || c.stop_xfer) = true then
              [Event.wr_TMR (send_regs c cmd (hw.TMR.headD default) (hw.MC1R.headD default)
                (hw.CR.headD default)).tmr]
            else [])
        ++ [Event.wr_MC1R (send_regs c cmd (hw.TMR.headD default) (hw.MC1R.headD default)
              (hw.CR.headD default)).mc1r,
            Event.wr_CR (send_regs c cmd (hw.TMR.headD default) (hw.MC1R.headD default)
              (hw.CR.headD default)).cr])
      ++ (if (c.has_data && c.stop_xfer_suffix) = true then
            [Event.wr_TC_RC (max_u32 (hw.pclk set.tc_id / (set.dev_freq / (2 + 64 + 48))) 1)]
          else if c.wait_switch = true then
            [Event.wr_TC_RC (max_u32 (hw.pclk set.tc_id / (set.dev_freq / 8)) 1)]
          else [])
      ++ L3, ?_, ?_, hm⟩
  · rw [ht]
    simp only [List.append_assoc]
  · have a1 : L1.all dma_free = true := by
      rw [List.all_eq_true]
      intro e he
      rcases h1 e he with ⟨v, hv⟩ | ⟨_, hv⟩ | ⟨v, hv⟩
      · rw [hv]; rfl
      · rw [hdma] at hv; cases hv
      · rw [hv]; rfl
    have a3 : L3.all dma_free = true := by
      rw [List.all_eq_true]
      intro e he
      rcases h3 e he with ⟨v, hv⟩ | ⟨v, hv⟩ <;> rw [hv] <;> rfl
    rw [← List.all_eq_true]
    simp only [List.all_append, a1, a3, apply_ite (fun l => List.all l dma_free)]
    simp [dma_free]
    right
    simpa using hd

/-- A command that is not eligible for DMA, sent on a session with no command in
flight: whatever `sdmmc_send_command` returns, it leaves the DMA engine out
and the descriptor table alone, and it keeps the timing mode of the session
and the index of the command. -/
theorem send_command_dma_free (K : Hdr) (set : sdmmc_set) (cmd : sSdmmcCommand) (hw : Hw)
    (hst : set.state ≠ Mcid.MCID_CMD) (hdma : (send_locals K set cmd).use_dma = false)
    (o : SendOut) (ho : sdmmc_send_command K set cmd hw = some o) :
    ∃ L, o.hw.trace = hw.trace ++ L
      ∧ (∀ e ∈ L, dma_free e = true)
      ∧ o.hw.table_mem = hw.table_mem
      ∧ o.set.tim_mode = set.tim_mode
      ∧ o.cmd.bCmd = cmd.bCmd := by
  have hb : send_prepare_dma K (send_locals K set cmd) set cmd hw
      = { rc := Rc.SDMMC_OK, cmd := cmd, hw := hw } := by
    unfold send_prepare_dma
    rw [hdma]
    simp
  have hnil : ∃ L : List Event, hw.trace = hw.trace ++ L ∧ (∀ e ∈ L, dma_free e = true) :=
    ⟨[], by simp, fun e he => absurd he (List.not_mem_nil e)⟩
  unfold sdmmc_send_command at ho
  simp only [] at ho
  rw [hb, send_busy_idle _ _ _ hst] at ho
  split at ho
  · cases ho
    obtain ⟨L0, h0, h1⟩ := hnil
    exact ⟨L0, h0, h1, rfl, rfl, rfl⟩
  · split at ho
    · cases ho
      obtain ⟨L0, h0, h1⟩ := hnil
      exact ⟨L0, h0, h1, rfl, rfl, rfl⟩
    · split at ho
      · cases ho
        obtain ⟨L0, h0, h1⟩ := hnil
        exact ⟨L0, h0, h1, rfl, rfl, rfl⟩
      · split at ho
        · split at ho
          · cases ho
            obtain ⟨L0, h0, h1⟩ := hnil
            exact ⟨L0, h0, h1, rfl, rfl, rfl⟩
          · cases ho
            refine ⟨[Event.timer_usleep 200], rfl, ?_, rfl, rfl, rfl⟩
            intro e he
            simp only [List.mem_singleton] at he
            rw [he]
            rfl
        · split at ho
          · cases ho
            obtain ⟨L0, h0, h1⟩ := hnil
            exact ⟨L0, h0, h1, rfl, rfl, rfl⟩
          · split at ho
            · cases ho
              obtain ⟨L0, h0, h1⟩ := hnil
              exact ⟨L0, h0, h1, rfl, rfl, rfl⟩
            · split at ho
              · rename_i h
                exact absurd rfl h.1
              · simp only [Bool.false_eq_true, if_false, send_object_idle] at ho
                split at ho
                · cases ho
                · rename_i l hl
                  cases ho
                  obtain ⟨L, hlt, hfree, hmem⟩ := send_launch_dma_free _ _ _ _ _ hdma l hl
                  obtain ⟨hw3, _, hl2⟩ := send_launch_some _ _ _ _ _ _ hl
                  refine ⟨L, hlt, hfree, hmem, ?_, ?_⟩
                  · show l.1.tim_mode = _
                    rw [hl2, send_alias_eq]
                  · show l.2.1.bCmd = _
                    rw [hl2]

/-- An environment extends itself quietly. -/
theorem dma_quiet_refl (h : Hw) : dma_quiet h h :=
  ⟨[], by simp, fun e he => absurd he (List.not_mem_nil e), rfl⟩

/-- Quiet extensions compose. -/
theorem dma_quiet_trans (a b c : Hw) (h1 : dma_quiet a b) (h2 : dma_quiet b c) :
    dma_quiet a c := by
  obtain ⟨L1, t1, f1, m1⟩ := h1
  obtain ⟨L2, t2, f2, m2⟩ := h2
  refine ⟨L1 ++ L2, by rw [t2, t1, List.append_assoc], ?_, by rw [m2, m1]⟩
  intro e he
  rcases List.mem_append.mp he with h | h
  · exact f1 e h
  · exact f2 e h

/-- An environment with the same trace and descriptor table is a quiet
extension. -/
theorem dma_quiet_of_eq (a b : Hw) (ht : b.trace = a.trace) (hm : b.table_mem = a.table_mem) :
    dma_quiet a b :=
  ⟨[], by simp [ht], fun e he => absurd he (List.not_mem_nil e), hm⟩

/-- One more action that leaves the DMA engine out is a quiet extension. -/
theorem dma_quiet_emit (a : Hw) (e : Event) (he : dma_free e = true) :
    dma_quiet a (a.emit e) := by
  refine ⟨[e], rfl, ?_, rfl⟩
  intro x hx
  simp only [List.mem_singleton] at hx
  rw [hx]
  exact he

/-- In a tuned timing mode the tuning-block command is not eligible for DMA. -/
theorem tune_cmd_no_dma (K : Hdr) (set : sdmmc_set) (cmd : sSdmmcCommand)
    (hK1 : K.SDMMC_TIM_MMC_HS200 < K.SDMMC_TIM_SD_DS)
    (hK2 : K.SDMMC_TIM_SD_DS ≤ K.SDMMC_TIM_SD_SDR50)
    (hK3 : K.SDMMC_TIM_SD_DS ≤ K.SDMMC_TIM_SD_SDR104)
    (hmode : set.tim_mode = K.SDMMC_TIM_MMC_HS200 ∨ set.tim_mode = K.SDMMC_TIM_SD_SDR50
      ∨ set.tim_mode = K.SDMMC_TIM_SD_SDR104)
    (hc : cmd.bCmd = if set.tim_mode ≠ K.SDMMC_TIM_MMC_HS200 then 19 else 21) :
    (send_locals K set cmd).use_dma = false := by
  unfold send_locals
  simp only []
  rcases hmode with h | h | h
  · rw [h] at hc ⊢
    simp only [ne_eq, not_true_eq_false, if_false] at hc
    have : ¬ K.SDMMC_TIM_MMC_HS200 ≥ K.SDMMC_TIM_SD_DS := by omega
    simp [hc, this]
  · have hne : set.tim_mode ≠ K.SDMMC_TIM_MMC_HS200 := by omega
    rw [if_pos hne] at hc
    have : ¬ set.tim_mode < K.SDMMC_TIM_SD_DS := by omega
    simp [hc, this]
  · have hne : set.tim_mode ≠ K.SDMMC_TIM_MMC_HS200 := by omega
    rw [if_pos hne] at hc
    have : ¬ set.tim_mode < K.SDMMC_TIM_SD_DS := by omega
    simp [hc, this]

/-- In a tuned timing mode the tuning loop leaves the DMA engine out and the
descriptor table alone. -/
theorem tune_loop_dma_free (K : Hdr)
    (hK1 : K.SDMMC_TIM_MMC_HS200 < K.SDMMC_TIM_SD_DS)
    (hK2 : K.SDMMC_TIM_SD_DS ≤ K.SDMMC_TIM_SD_SDR50)
    (hK3 : K.SDMMC_TIM_SD_DS ≤ K.SDMMC_TIM_SD_SDR104) :
    ∀ (n : Nat) (cmd : sSdmmcCommand) (st st1 : TuneSt),
      (st.set.tim_mode = K.SDMMC_TIM_MMC_HS200 ∨ st.set.tim_mode = K.SDMMC_TIM_SD_SDR50
        ∨ st.set.tim_mode = K.SDMMC_TIM_SD_SDR104) →
      (cmd.bCmd = if st.set.tim_mode ≠ K.SDMMC_TIM_MMC_HS200 then 19 else 21) →
      tune_loop K n cmd st = some st1 → dma_quiet st.hw st1.hw := by
  intro n
  induction n with
  | zero =>
    intro cmd st st1 _ _ h
    cases h
    exact dma_quiet_refl _
  | succ n ih =>
    intro cmd st st1 hmode hc h
    unfold tune_loop at h
    by_cases he : st.hc2r.EXTUN = true
    · rw [if_pos he] at h
      simp only [] at h
      have hdma := tune_cmd_no_dma K
        { st.set with
          state := Mcid.MCID_LOCKED, resp_len := 0, blk_index := 0,
          cmd_line_released := false, dat_lines_released := false, expect_auto_end := false }
        cmd hK1 hK2 hK3 hmode hc
      cases hso : sdmmc_send_command K
        { st.set with
          state := Mcid.MCID_LOCKED, resp_len := 0, blk_index := 0,
          cmd_line_released := false, dat_lines_released := false, expect_auto_end := false }
        cmd st.hw with
      | none => rw [hso] at h; cases h
      | some o =>
      rw [hso] at h
      simp only [] at h
      obtain ⟨L, ht, hf, hm, htim, hb⟩ := send_command_dma_free K
        { st.set with
          state := Mcid.MCID_LOCKED, resp_len := 0, blk_index := 0,
          cmd_line_released := false, dat_lines_released := false, expect_auto_end := false }
        cmd st.hw (by simp) hdma o hso
      have hq : dma_quiet st.hw o.hw := ⟨L, ht, hf, hm⟩
      by_cases hrc : o.rc ≠ Rc.SDMMC_OK
      · rw [if_pos hrc] at h
        cases h
        exact hq
      · rw [if_neg hrc] at h
        cases hw : waitSet (fun v => v.BRDRDY) o.hw.NISTR with
        | none => rw [hw] at h; cases h
        | some rest =>
          rw [hw] at h
          simp only [] at h
          have h2 := ih _ _ _ (by
            show o.set.tim_mode = _ ∨ o.set.tim_mode = _ ∨ o.set.tim_mode = _
            rw [htim]
            exact hmode) (by
            show o.cmd.bCmd = if o.set.tim_mode ≠ _ then 19 else 21
            rw [hb, htim]
            exact hc) h
          have hmid : dma_quiet o.hw
              ((({ o.hw with NISTR := rest } : Hw).emit
                (Event.wr_NISTR { Nistr.zero with BRDRDY := true })).rd_HC2R).2 := by
            refine ⟨[Event.wr_NISTR { Nistr.zero with BRDRDY := true }], rfl, ?_, rfl⟩
            intro e hm
            simp only [List.mem_singleton] at hm
            rw [hm]
            rfl
          exact dma_quiet_trans _ _ _ hq (dma_quiet_trans _ _ _ hmid h2)
    · rw [if_neg he] at h
      cases h
      exact dma_quiet_refl _



/-- The end of the tuning procedure leaves the DMA engine out and the
descriptor table alone. -/
theorem tune_end_dma_free (st : TuneSt) : dma_quiet st.hw (tune_end st).hw := by
  unfold tune_end
  simp only []
  have h1 : ∀ h : Hw, dma_quiet h (if (h.rd_NISTR).1.ERRINT = true then
        ((h.rd_NISTR).2.rd_EISTR).2.emit (Event.wr_EISTR ((h.rd_NISTR).2.rd_EISTR).1)
      else (h.rd_NISTR).2).rd_NISTR.2 := by
    intro h
    split
    · exact ⟨[Event.wr_EISTR ((h.rd_NISTR).2.rd_EISTR).1], rfl,
        (by intro e hm; simp only [List.mem_singleton] at hm; rw [hm]; rfl), rfl⟩
    · exact ⟨[], (List.append_nil _).symm, (by intro e hm; cases hm), rfl⟩
  have h2 : dma_quiet st.hw
      (if st.hc2r.EXTUN = true then
        ( Rc.SDMMC_ERR,
          (st.hw.emit (Event.wr_HC2R { st.hc2r with EXTUN := false })).emit
            (Event.wr_HC2R { st.hc2r with SCLKSEL := false, EXTUN := false }))
      else if (!st.hc2r.SCLKSEL) = true then ( Rc.SDMMC_ERR, st.hw)
      else (st.rc, st.hw)).2 := by
    split
    · refine ⟨[Event.wr_HC2R { st.hc2r with EXTUN := false },
        Event.wr_HC2R { st.hc2r with SCLKSEL := false, EXTUN := false }], ?_, ?_, rfl⟩
      · show (st.hw.trace ++ [_]) ++ [_] = _
        simp
      · intro e hm
        simp only [List.mem_cons, List.mem_singleton, List.not_mem_nil, or_false] at hm
        rcases hm with hm | hm <;> rw [hm] <;> rfl
    · split <;> exact dma_quiet_refl _
  refine dma_quiet_trans _ _ _ h2 (dma_quiet_trans _ _ _ (h1 _) ?_)
  exact dma_quiet_emit _ _ rfl

/-- The start of the tuning procedure leaves the DMA engine out and the
descriptor table alone. -/
theorem tune_start_dma_free (K : Hdr) (set : sdmmc_set) (p_response width : Nat) (hw : Hw) :
    dma_quiet hw (tune_start K set p_response width hw).2.hw :=
  ⟨[Event.wr_HC2R { (hw.rd_HC2R).1 with EXTUN := true }], rfl,
    (by intro e hm; simp only [List.mem_singleton] at hm; rw [hm]; rfl), rfl⟩

/-- The command and the session that the tuning procedure starts with. -/
theorem tune_start_cmd (K : Hdr) (set : sdmmc_set) (p_response width : Nat) (hw : Hw) :
    (tune_start K set p_response width hw).1.bCmd
        = (if set.tim_mode ≠ K.SDMMC_TIM_MMC_HS200 then 19 else 21)
      ∧ (tune_start K set p_response width hw).2.set = set := by
  refine ⟨?_, rfl⟩
  show (if width = 4 then { test_cmd K set p_response with wBlockSize := 64 }
    else test_cmd K set p_response).bCmd = _
  split <;> rfl

/-- In a tuned timing mode every run of `sdmmc_tune_sampling` that returns
leaves the DMA engine out and the descriptor table alone. -/
theorem tune_sampling_dma_free (K : Hdr) (set : sdmmc_set) (p_response : Nat) (hw : Hw)
    (hK1 : K.SDMMC_TIM_MMC_HS200 < K.SDMMC_TIM_SD_DS)
    (hK2 : K.SDMMC_TIM_SD_DS ≤ K.SDMMC_TIM_SD_SDR50)
    (hK3 : K.SDMMC_TIM_SD_DS ≤ K.SDMMC_TIM_SD_SDR104)
    (hmode : set.tim_mode = K.SDMMC_TIM_MMC_HS200 ∨ set.tim_mode = K.SDMMC_TIM_SD_SDR50
      ∨ set.tim_mode = K.SDMMC_TIM_SD_SDR104)
    (o : RcOut) (h : sdmmc_tune_sampling K set p_response hw = some o) :
    dma_quiet hw o.hw := by
  unfold sdmmc_tune_sampling at h
  simp only [] at h
  have hbw : dma_quiet hw (sdmmc_get_bus_width hw).2 :=
    ⟨[], (List.append_nil _).symm, (by intro e hm; cases hm), rfl⟩
  by_cases hwd : (sdmmc_get_bus_width hw).1 = 4 ∨ (sdmmc_get_bus_width hw).1 = 8
  · rw [if_pos hwd] at h
    have hs := tune_start_dma_free K set p_response (sdmmc_get_bus_width hw).1
      (sdmmc_get_bus_width hw).2
    have hc := tune_start_cmd K set p_response (sdmmc_get_bus_width hw).1
      (sdmmc_get_bus_width hw).2
    cases hl : tune_loop K 40
        (tune_start K set p_response (sdmmc_get_bus_width hw).1 (sdmmc_get_bus_width hw).2).1
        (tune_start K set p_response (sdmmc_get_bus_width hw).1 (sdmmc_get_bus_width hw).2).2 with
    | none => rw [hl] at h; cases h
    | some st =>
      rw [hl] at h
      cases h
      have h3 := tune_loop_dma_free K hK1 hK2 hK3 40 _ _ st
        (by rw [hc.2]; exact hmode) (by rw [hc.2]; exact hc.1) hl
      exact dma_quiet_trans _ _ _ hbw
        (dma_quiet_trans _ _ _ hs (dma_quiet_trans _ _ _ h3 (tune_end_dma_free st)))
  · rw [if_neg hwd] at h
    cases h
    exact hbw



/-- C30: in a tuned timing mode (MMC HS200, SD SDR50, SD SDR104, with the
header constants ordered as `HS200 < SD_DS <= SDR50, SDR104`) the tuning-block
command of `sdmmc_tune_sampling` is CMD21 in HS200 and CMD19 otherwise, and in
every session of that timing mode, with or without a descriptor table, it is
not eligible for DMA in `sdmmc_send_command`: the DMA preparation does
nothing, and sending it on a session with no command in flight returns, writes
neither the DMA address register nor a transfer mode with the DMA enable bit,
does no cache maintenance and leaves the descriptor table as it was.  The same holds
of every run of `sdmmc_tune_sampling` that returns. -/
theorem tuning_command_never_dma (K : Hdr) (set : sdmmc_set) (p_response : Nat) (hw : Hw)
    (hK1 : K.SDMMC_TIM_MMC_HS200 < K.SDMMC_TIM_SD_DS)
    (hK2 : K.SDMMC_TIM_SD_DS ≤ K.SDMMC_TIM_SD_SDR50)
    (hK3 : K.SDMMC_TIM_SD_DS ≤ K.SDMMC_TIM_SD_SDR104)
    (hmode : set.tim_mode = K.SDMMC_TIM_MMC_HS200 ∨ set.tim_mode = K.SDMMC_TIM_SD_SDR50
      ∨ set.tim_mode = K.SDMMC_TIM_SD_SDR104) :
    (∀ (width : Nat) (hw0 : Hw) (set1 : sdmmc_set) (hw1 : Hw),
        set1.tim_mode = set.tim_mode →
        (tune_start K set p_response width hw0).1.bCmd
            = (if set.tim_mode = K.SDMMC_TIM_MMC_HS200 then 21 else 19)
          ∧ (send_locals K set1 (tune_start K set p_response width hw0).1).use_dma = false
          ∧ send_prepare_dma K (send_locals K set1 (tune_start K set p_response width hw0).1)
              set1 (tune_start K set p_response width hw0).1 hw1
              = { rc := Rc.SDMMC_OK, cmd := (tune_start K set p_response width hw0).1, hw := hw1 }
          ∧ (set1.state ≠ Mcid.MCID_CMD →
              ∃ o, sdmmc_send_command K set1 (tune_start K set p_response width hw0).1 hw1
                  = some o
                ∧ dma_quiet hw1 o.hw))
      ∧ ∀ o, sdmmc_tune_sampling K set p_response hw = some o → dma_quiet hw o.hw := by
  refine ⟨?_, fun o h => tune_sampling_dma_free K set p_response hw hK1 hK2 hK3 hmode o h⟩
  intro width hw0 set1 hw1 htim
  have hc := (tune_start_cmd K set p_response width hw0).1
  have hd : (send_locals K set1 (tune_start K set p_response width hw0).1).use_dma = false :=
    tune_cmd_no_dma K set1 _ hK1 hK2 hK3 (by rw [htim]; exact hmode) (by rw [htim]; exact hc)
  refine ⟨?_, hd, ?_, ?_⟩
  · rw [hc]
    by_cases h : set.tim_mode = K.SDMMC_TIM_MMC_HS200
    · simp [h]
    · simp [h]
  · unfold send_prepare_dma
    rw [hd]
    simp
  · intro hst
    have hq := tune_start_request K set p_response width hw0
    obtain ⟨o, ho⟩ := send_command_returns K set1 _ hw1 hq.1 hq.2.1 hq.2.2
    obtain ⟨L, ht, hf, hm, _, _⟩ := send_command_dma_free K set1 _ hw1 hst hd o ho
    exact ⟨o, ho, L, ht, hf, hm⟩

/-- C30, witness: the tuning of a session in the mode MMC HS200 that has a
descriptor table, on a 4-bit bus; the procedure returns. -/
theorem tuning_command_never_dma_witness :
    exSetHS200.table ≠ 0
      ∧ (sdmmc_tune_sampling exHdr exSetHS200 64 exHwTune).isSome = true
      ∧ ((∀ (width : Nat) (hw0 : Hw) (set1 : sdmmc_set) (hw1 : Hw),
          set1.tim_mode = exSetHS200.tim_mode →
          (tune_start exHdr exSetHS200 64 width hw0).1.bCmd
              = (if exSetHS200.tim_mode = exHdr.SDMMC_TIM_MMC_HS200 then 21 else 19)
            ∧ (send_locals exHdr set1 (tune_start exHdr exSetHS200 64 width hw0).1).use_dma
                = false
            ∧ send_prepare_dma exHdr
                (send_locals exHdr set1 (tune_start exHdr exSetHS200 64 width hw0).1)
                set1 (tune_start exHdr exSetHS200 64 width hw0).1 hw1
                = { rc := Rc.SDMMC_OK, cmd := (tune_start exHdr exSetHS200 64 width hw0).1,
                    hw := hw1 }
            ∧ (set1.state ≠ Mcid.MCID_CMD →
                ∃ o, sdmmc_send_command exHdr set1
                    (tune_start exHdr exSetHS200 64 width hw0).1 hw1 = some o
                  ∧ dma_quiet hw1 o.hw))
        ∧ ∀ o, sdmmc_tune_sampling exHdr exSetHS200 64 exHwTune = some o →
            dma_quiet exHwTune o.hw) :=
  ⟨by decide, by decide,
   tuning_command_never_dma exHdr exSetHS200 64 exHwTune (by decide) (by decide) (by decide)
     (Or.inl (by decide))⟩



/-- The top byte of a 32-bit word, as the R2 loop extracts it. -/
theorem r2_top_byte (r : Nat) (h : r < 4294967296) : (r >>> 24) &&& 0xff = r / 16777216 := by
  have h1 : (r >>> 24) &&& 0xff = (r >>> 24) % 2 ^ 8 := Nat.and_pow_two_sub_one_eq_mod _ 8
  rw [h1, Nat.shiftRight_eq_div_pow]
  norm_num
  omega

/-- The low 24 bits of a 32-bit word moved up by one byte, as the R2 loop
extracts them. -/
theorem r2_low_bits (r : Nat) : (r <<< 8) &&& 0xffffff00 = (r % 16777216) * 256 := by
  have h1 : (0xffffff00 : Nat) = (2 ^ 24 - 1) <<< 8 := by decide
  have h2 : (r % 16777216) * 256 = (r % 2 ^ 24) <<< 8 := by
    rw [Nat.shiftLeft_eq]
    norm_num
  rw [h1, h2]
  apply Nat.eq_of_testBit_eq
  intro j
  simp only [Nat.testBit_and, Nat.testBit_shiftLeft, Nat.testBit_two_pow_sub_one,
    Nat.testBit_mod_two_pow]
  by_cases hj : j ≥ 8 <;> simp [hj]
  exact Bool.and_comm _ _

/-- A byte joined to a multiple of 256 by `|` is their sum. -/
theorem r2_or_byte (b k : Nat) (h : b < 256) : b ||| k * 256 = b + k * 256 := by
  have h1 := Nat.mul_add_lt_is_or (show b < 2 ^ 8 by norm_num; exact h) k
  rw [Nat.lor_comm, Nat.mul_comm k 256]
  norm_num at h1
  omega



/-- The four words that the R2 loop leaves, in terms of the next values of the
four response registers. -/
theorem r2_loop_words (out : Nat → Nat) (hw : Hw) :
    (r2_loop 4 0 (store out 3 0x000000ff) hw).1 0
        = (hw.rd_RR 2).1 / 16777216 + ((hw.rd_RR 3).1 % 16777216) * 256
      ∧ (r2_loop 4 0 (store out 3 0x000000ff) hw).1 1
        = (hw.rd_RR 1).1 / 16777216 + ((hw.rd_RR 2).1 % 16777216) * 256
      ∧ (r2_loop 4 0 (store out 3 0x000000ff) hw).1 2
        = (hw.rd_RR 0).1 / 16777216 + ((hw.rd_RR 1).1 % 16777216) * 256
      ∧ (r2_loop 4 0 (store out 3 0x000000ff) hw).1 3
        = 255 + ((hw.rd_RR 0).1 % 16777216) * 256
      ∧ ∀ j, 4 ≤ j → (r2_loop 4 0 (store out 3 0x000000ff) hw).1 j = out j := by
  have hb : ∀ i, (hw.rd_RR i).1 < 4294967296 := fun i => Nat.mod_lt _ (by norm_num)
  have e0 := r2_top_byte _ (hb 0)
  have e1 := r2_top_byte _ (hb 1)
  have e2 := r2_top_byte _ (hb 2)
  have d0 : (hw.rd_RR 0).1 / 16777216 < 256 := by have := hb 0; omega
  have d1 : (hw.rd_RR 1).1 / 16777216 < 256 := by have := hb 1; omega
  have d2 : (hw.rd_RR 2).1 / 16777216 < 256 := by have := hb 2; omega
  have o0 := r2_or_byte 255 ((hw.rd_RR 0).1 % 16777216) (by norm_num)
  have o1 := r2_or_byte _ ((hw.rd_RR 1).1 % 16777216) d0
  have o2 := r2_or_byte _ ((hw.rd_RR 2).1 % 16777216) d1
  have o3 := r2_or_byte _ ((hw.rd_RR 3).1 % 16777216) d2
  simp only [Hw.rd_RR, List.headD_eq_head?_getD] at e0 e1 e2 o0 o1 o2 o3 ⊢
  refine ⟨?_, ?_, ?_, ?_, ?_⟩
  · simp [r2_loop, store, Hw.rd_RR, r2_low_bits]
    rw [e2, o3]
  · simp [r2_loop, store, Hw.rd_RR, r2_low_bits]
    rw [e1, o2]
  · simp [r2_loop, store, Hw.rd_RR, r2_low_bits]
    rw [e0, o1]
  · simp [r2_loop, store, Hw.rd_RR, r2_low_bits]
    rw [o0]
  · intro j hj
    have h0 : j ≠ 0 := by omega
    have h1 : j ≠ 1 := by omega
    have h2 : j ≠ 2 := by omega
    have h3 : j ≠ 3 := by omega
    simp [r2_loop, store, Hw.rd_RR, h0, h1, h2, h3]



/-- C24: the first retrieval of an R2 response.  For every content of the
response registers and every prior content of the output array, when the
response type is 2 and no response was stored yet (`resp_len = 0`), and the
call does not also merge the status of an automatic CMD12 (the command is not
a data-bearing CMD18 or CMD25 completing without block count prefix),
`sdmmc_get_response` leaves four 32-bit words whose concatenation
`out[0]:out[1]:out[2]:out[3]` is `((RR[3]:RR[2]:RR[1]:RR[0]) << 8 | 0xFF) mod
2^128`, leaves the rest of the array as it was, and sets the response length
to 4. -/
theorem get_response_r2 (set : sdmmc_set) (cmd : sSdmmcCommand) (complete : Bool)
    (out : Nat → Nat) (hw : Hw)
    (hresp : cmd.cmdOp.respType = 2) (hfirst : set.resp_len = 0)
    (hplain : has_data cmd = false ∨ (cmd.bCmd ≠ 18 ∧ cmd.bCmd ≠ 25) ∨ complete = false
      ∨ set.use_set_blk_cnt = true) :
    (sdmmc_get_response set cmd complete out hw).out 0 * 2 ^ 96
        + (sdmmc_get_response set cmd complete out hw).out 1 * 2 ^ 64
        + (sdmmc_get_response set cmd complete out hw).out 2 * 2 ^ 32
        + (sdmmc_get_response set cmd complete out hw).out 3
        = ((((hw.rd_RR 3).1 * 2 ^ 96 + (hw.rd_RR 2).1 * 2 ^ 64 + (hw.rd_RR 1).1 * 2 ^ 32
              + (hw.rd_RR 0).1) <<< 8) ||| 0xFF) % 2 ^ 128
      ∧ (∀ i, i < 4 → (sdmmc_get_response set cmd complete out hw).out i < 2 ^ 32)
      ∧ (∀ j, 4 ≤ j → (sdmmc_get_response set cmd complete out hw).out j = out j)
      ∧ (sdmmc_get_response set cmd complete out hw).set.resp_len = 4 := by
  have hout : (sdmmc_get_response set cmd complete out hw).out
        = (r2_loop 4 0 (store out 3 0x000000ff) hw).1
      ∧ (sdmmc_get_response set cmd complete out hw).set.resp_len = 4 := by
    unfold sdmmc_get_response get_response_first
    simp only [hfirst, hresp, beq_self_eq_true, if_true, Bool.true_and]
    rcases hplain with h | h | h | h
    · simp [h]
    · simp [h.1, h.2]
    · simp only [h]
      by_cases hu : set.use_set_blk_cnt = true
      · simp only [hu]
        split <;> simp
      · simp [hu]
    · simp only [h]
      split <;> simp
  obtain ⟨w0, w1, w2, w3, wr⟩ := r2_loop_words out hw
  have hb : ∀ i, (hw.rd_RR i).1 < 4294967296 := fun i => Nat.mod_lt _ (by norm_num)
  have b0 := hb 0
  have b1 := hb 1
  have b2 := hb 2
  have b3 := hb 3
  rw [hout.1]
  refine ⟨?_, ?_, wr, hout.2⟩
  · rw [w0, w1, w2, w3, Nat.shiftLeft_eq]
    have hor := Nat.mul_add_lt_is_or (show 255 < 2 ^ 8 by norm_num)
      ((hw.rd_RR 3).1 * 2 ^ 96 + (hw.rd_RR 2).1 * 2 ^ 64 + (hw.rd_RR 1).1 * 2 ^ 32
        + (hw.rd_RR 0).1)
    rw [Nat.mul_comm (2 ^ 8)] at hor
    rw [← hor]
    norm_num
    omega
  · intro i hi
    have hc : i = 0 ∨ i = 1 ∨ i = 2 ∨ i = 3 := by omega
    rcases hc with h | h | h | h <;> subst h
    · rw [w0]; norm_num; omega
    · rw [w1]; norm_num; omega
    · rw [w2]; norm_num; omega
    · rw [w3]; norm_num; omega

/-- C24, witness: CMD2 on registers whose `RR[3]` has its top byte set, with a
prior content of the output array; the words delivered are `0x112233cc`,
`0xddeeff88`, `0x99aabb44`, `0x556677ff`. -/
theorem get_response_r2_witness :
    (sdmmc_get_response exSet exCmdCid true (fun _ => 0xdeadbeef) exHwR2).out 0 = 0x112233cc
      ∧ (sdmmc_get_response exSet exCmdCid true (fun _ => 0xdeadbeef) exHwR2).out 1 = 0xddeeff88
      ∧ (sdmmc_get_response exSet exCmdCid true (fun _ => 0xdeadbeef) exHwR2).out 2 = 0x99aabb44
      ∧ (sdmmc_get_response exSet exCmdCid true (fun _ => 0xdeadbeef) exHwR2).out 3 = 0x556677ff
      ∧ ((sdmmc_get_response exSet exCmdCid true (fun _ => 0xdeadbeef) exHwR2).out 0 * 2 ^ 96
          + (sdmmc_get_response exSet exCmdCid true (fun _ => 0xdeadbeef) exHwR2).out 1 * 2 ^ 64
          + (sdmmc_get_response exSet exCmdCid true (fun _ => 0xdeadbeef) exHwR2).out 2 * 2 ^ 32
          + (sdmmc_get_response exSet exCmdCid true (fun _ => 0xdeadbeef) exHwR2).out 3
          = ((((exHwR2.rd_RR 3).1 * 2 ^ 96 + (exHwR2.rd_RR 2).1 * 2 ^ 64
                + (exHwR2.rd_RR 1).1 * 2 ^ 32 + (exHwR2.rd_RR 0).1) <<< 8) ||| 0xFF) % 2 ^ 128
        ∧ (∀ i, i < 4 →
            (sdmmc_get_response exSet exCmdCid true (fun _ => 0xdeadbeef) exHwR2).out i < 2 ^ 32)
        ∧ (∀ j, 4 ≤ j →
            (sdmmc_get_response exSet exCmdCid true (fun _ => 0xdeadbeef) exHwR2).out j
              = (fun _ => 0xdeadbeef) j)
        ∧ (sdmmc_get_response exSet exCmdCid true (fun _ => 0xdeadbeef) exHwR2).set.resp_len
            = 4) :=
  ⟨by decide, by decide, by decide, by decide,
   get_response_r2 exSet exCmdCid true (fun _ => 0xdeadbeef) exHwR2 (by decide) (by decide)
     (Or.inl (by decide))⟩



/-- The divided clock frequency in plain arithmetic, for a divider of at most
`0x3ff`. -/
theorem div_mode_freq_eq (B d : Nat) (hd : d ≤ 1023) :
    div_mode_freq B d = if d = 0 then B else B / (2 * d) := by
  unfold div_mode_freq u32
  by_cases h : d = 0
  · simp [h]
  · rw [if_neg h, if_neg h, Nat.mod_eq_of_lt (by omega)]

/-- The divided clock frequency does not grow with the divider. -/
theorem div_mode_freq_anti (B d e : Nat) (hde : d ≤ e) (he : e ≤ 1023) :
    div_mode_freq B e ≤ div_mode_freq B d := by
  rw [div_mode_freq_eq B d (by omega), div_mode_freq_eq B e he]
  by_cases h : d = 0
  · rw [if_pos h]
    split
    · exact Nat.le_refl _
    · exact Nat.div_le_self _ _
  · rw [if_neg h, if_neg (by omega)]
    exact Nat.div_le_div_left (by omega) (by omega)

/-- The quotient `base_freq / (2 * freq)` brackets the request between the
frequencies of two neighbouring dividers. -/
theorem clock_div_bracket (B f : Nat) (hf0 : 0 < f) :
    B / (2 * (B / (2 * f) + 1)) < f
      ∧ (B / (2 * f) ≠ 0 → f ≤ B / (2 * (B / (2 * f)))) := by
  constructor
  · rw [Nat.div_lt_iff_lt_mul (show 0 < 2 * (B / (2 * f) + 1) by positivity)]
    have h := Nat.lt_succ_self (B / (2 * f))
    rw [Nat.div_lt_iff_lt_mul (show 0 < 2 * f by omega)] at h
    calc B < (B / (2 * f)).succ * (2 * f) := h
      _ = f * (2 * (B / (2 * f) + 1)) := by rw [Nat.succ_eq_add_one]; ring
  · intro hne
    rw [Nat.le_div_iff_mul_le (show 0 < 2 * (B / (2 * f)) by omega)]
    have h := Nat.div_mul_le_self B (2 * f)
    calc f * (2 * (B / (2 * f))) = B / (2 * f) * (2 * f) := by ring
      _ ≤ B := h



/-- C25: the divided-clock candidate of `sdmmc_set_device_clock`.  For every
32-bit base clock `B` and every request `f` with `0 < f <= 120 MHz`, the
divider is at most 1023, the frequency of a divider `d` of at most 1023 is `B`
when `d = 0` and `B / (2 * d)` otherwise, and the frequency of the selected
divider is at least as close to `f` as that of any divider of at most 1023.
No divisor of the computation is zero or wraps, and the subtractions that are
evaluated do not underflow: `low_freq <= freq` always, and `up_freq - freq` is
computed only when `up_freq > freq`. -/
theorem clock_div_closest (B f : Nat) (hB : B < 4294967296) (hf0 : 0 < f)
    (hf : f ≤ 120000000) :
    clock_div B f ≤ 1023
      ∧ (∀ d, d ≤ 1023 → div_mode_freq B d = if d = 0 then B else B / (2 * d))
      ∧ (∀ d, d ≤ 1023 →
          Int.natAbs ((f : Int) - (div_mode_freq B (clock_div B f) : Int))
            ≤ Int.natAbs ((f : Int) - (div_mode_freq B d : Int)))
      ∧ (u32 (2 * f) = 2 * f ∧ u32 (2 * f) ≠ 0)
      ∧ (B / u32 (2 * f) < 1023 →
          (if B / u32 (2 * f) = 0 then 1 else u32 (2 * (B / u32 (2 * f)))) ≠ 0
            ∧ u32 (2 * (B / u32 (2 * f))) = 2 * (B / u32 (2 * f))
            ∧ u32 (2 * (B / u32 (2 * f) + 1)) = 2 * (B / u32 (2 * f) + 1)
            ∧ B / u32 (2 * (B / u32 (2 * f) + 1)) ≤ f
            ∧ sub32 f (B / u32 (2 * (B / u32 (2 * f) + 1)))
                = f - B / u32 (2 * (B / u32 (2 * f) + 1))
            ∧ (B / (if B / u32 (2 * f) = 0 then 1 else u32 (2 * (B / u32 (2 * f)))) > f →
                sub32 (B / (if B / u32 (2 * f) = 0 then 1 else u32 (2 * (B / u32 (2 * f))))) f
                  = B / (if B / u32 (2 * f) = 0 then 1 else u32 (2 * (B / u32 (2 * f)))) - f))
      ∧ (if clock_div B f = 0 then 1 else u32 (2 * clock_div B f)) ≠ 0 := by
  have hu : u32 (2 * f) = 2 * f := Nat.mod_eq_of_lt (by omega)
  obtain ⟨hlow, hup⟩ := clock_div_bracket B f hf0
  have hfreq := div_mode_freq_eq B
  -- the divider
  have hdiv : clock_div B f ≤ 1023 := by
    unfold clock_div
    simp only []
    by_cases hbig : B / u32 (2 * f) ≥ 0x3ff
    · rw [if_pos hbig]
    · rw [if_neg hbig]
      have h1 : B / u32 (2 * f) + 1 ≤ 1023 := by omega
      have h2 : B / u32 (2 * f) ≤ 1023 := by omega
      exact ite_prop (fun n => n ≤ 1023) _ _ _ h1 h2
  rw [hu]
  generalize hD : B / (2 * f) = D at hlow hup
  have hselfle : ∀ k, B / k ≤ B := fun k => Nat.div_le_self _ _
  have hu2 : D < 1023 → u32 (2 * D) = 2 * D := fun h => Nat.mod_eq_of_lt (by omega)
  have hu3 : D < 1023 → u32 (2 * (D + 1)) = 2 * (D + 1) := fun h => Nat.mod_eq_of_lt (by omega)
  have hsub : ∀ a b, b ≤ a → a < 4294967296 → sub32 a b = a - b := by
    intro a b h1 h2
    unfold sub32
    omega
  refine ⟨hdiv, hfreq, ?_, ⟨rfl, by omega⟩, ?_, ?_⟩
  · intro d hd
    by_cases hbig : D ≥ 1023
    · have hc : clock_div B f = 1023 := by
        unfold clock_div
        simp only [hu, hD]
        rw [if_pos hbig]
      rw [hc]
      have h1 : f ≤ div_mode_freq B 1023 := by
        rw [hfreq 1023 (Nat.le_refl _)]
        simp only [if_neg (by decide : ¬ (1023 : Nat) = 0)]
        rw [Nat.le_div_iff_mul_le (by norm_num)]
        have h2 := Nat.div_mul_le_self B (2 * f)
        rw [hD] at h2
        have h3 : 1023 * (2 * f) ≤ D * (2 * f) := Nat.mul_le_mul_right _ hbig
        omega
      have h4 := div_mode_freq_anti B d 1023 hd (Nat.le_refl _)
      omega
    · have hD1 : D < 1023 := by omega
      have hupf : div_mode_freq B D = B / (if D = 0 then 1 else u32 (2 * D)) := rfl
      have hlowf : div_mode_freq B (D + 1) = B / u32 (2 * (D + 1)) := by
        unfold div_mode_freq
        rw [if_neg (by omega)]
      have hlow2 : div_mode_freq B (D + 1) < f := by
        rw [hfreq (D + 1) (by omega), if_neg (by omega)]
        exact hlow
      have hup2 : D ≠ 0 → f ≤ div_mode_freq B D := by
        intro h
        rw [hfreq D (by omega), if_neg h]
        exact hup h
      have hupB : div_mode_freq B D ≤ B := by rw [hupf]; exact hselfle _
      have hc : clock_div B f
          = if div_mode_freq B D > f
              ∧ sub32 (div_mode_freq B D) f > sub32 f (div_mode_freq B (D + 1))
            then D + 1 else D := by
        unfold clock_div
        simp only [hu, hD]
        rw [if_neg hbig, ← hupf, ← hlowf]
      have hs1 : sub32 f (div_mode_freq B (D + 1)) = f - div_mode_freq B (D + 1) :=
        hsub _ _ (by omega) (by omega)
      have hhi : d ≤ D → div_mode_freq B D ≤ div_mode_freq B d := fun h =>
        div_mode_freq_anti B d D h (by omega)
      have hlo : D + 1 ≤ d → div_mode_freq B d ≤ div_mode_freq B (D + 1) := fun h =>
        div_mode_freq_anti B (D + 1) d h hd
      have hz : D = 0 → ∀ e, e ≤ 1023 → div_mode_freq B e ≤ div_mode_freq B D := by
        intro h e he
        rw [h]
        exact div_mode_freq_anti B 0 e (Nat.zero_le _) he
      have hzd := fun h => hz h d hd
      rw [hc, hs1]
      clear hc hs1
      by_cases hgt : div_mode_freq B D > f
      · have hs2 : sub32 (div_mode_freq B D) f = div_mode_freq B D - f :=
          hsub _ _ (by omega) (by omega)
        rw [hs2]
        by_cases hcmp : div_mode_freq B D - f > f - div_mode_freq B (D + 1)
        · rw [if_pos ⟨hgt, hcmp⟩]
          by_cases hdd : d ≤ D
          · have := hhi hdd
            omega
          · have := hlo (by omega)
            omega
        · rw [if_neg (fun h => hcmp h.2)]
          by_cases hdd : d ≤ D
          · have := hhi hdd
            omega
          · have := hlo (by omega)
            omega
      · rw [if_neg (fun h => hgt h.1)]
        by_cases hD0 : D = 0
        · have := hzd hD0
          omega
        · have := hup2 hD0
          by_cases hdd : d ≤ D
          · have := hhi hdd
            omega
          · have := hlo (by omega)
            omega
  · intro hD1
    have h2 := hu2 hD1
    have h3 := hu3 hD1
    rw [h2, h3]
    have hl : B / (2 * (D + 1)) ≤ f := by omega
    refine ⟨?_, rfl, rfl, hl, hsub _ _ hl (by omega), ?_⟩
    · split <;> omega
    · intro hgt
      exact hsub _ _ (by omega) (Nat.lt_of_le_of_lt (hselfle _) hB)
  · have h2 : u32 (2 * clock_div B f) = 2 * clock_div B f := Nat.mod_eq_of_lt (by omega)
    rw [h2]
    split <;> omega

/-- C25, witness: a base clock of 48 MHz and a request of 25 MHz; the quotient
is 0, the neighbouring frequencies are 48 MHz and 24 MHz, and divider 1 with
24 MHz is selected. -/
theorem clock_div_closest_witness :
    clock_div 48000000 25000000 = 1
      ∧ div_mode_freq 48000000 (clock_div 48000000 25000000) = 24000000
      ∧ (clock_div 48000000 25000000 ≤ 1023
      ∧ (∀ d, d ≤ 1023 → div_mode_freq 48000000 d = if d = 0 then 48000000 else 48000000 / (2 * d))
      ∧ (∀ d, d ≤ 1023 →
          Int.natAbs ((25000000 : Int) - (div_mode_freq 48000000 (clock_div 48000000 25000000) : Int))
            ≤ Int.natAbs ((25000000 : Int) - (div_mode_freq 48000000 d : Int)))
      ∧ (u32 (2 * 25000000) = 2 * 25000000 ∧ u32 (2 * 25000000) ≠ 0)
      ∧ (48000000 / u32 (2 * 25000000) < 1023 →
          (if 48000000 / u32 (2 * 25000000) = 0 then 1 else u32 (2 * (48000000 / u32 (2 * 25000000)))) ≠ 0
            ∧ u32 (2 * (48000000 / u32 (2 * 25000000))) = 2 * (48000000 / u32 (2 * 25000000))
            ∧ u32 (2 * (48000000 / u32 (2 * 25000000) + 1)) = 2 * (48000000 / u32 (2 * 25000000) + 1)
            ∧ 48000000 / u32 (2 * (48000000 / u32 (2 * 25000000) + 1)) ≤ 25000000
            ∧ sub32 25000000 (48000000 / u32 (2 * (48000000 / u32 (2 * 25000000) + 1)))
                = 25000000 - 48000000 / u32 (2 * (48000000 / u32 (2 * 25000000) + 1))
            ∧ (48000000 / (if 48000000 / u32 (2 * 25000000) = 0 then 1 else u32 (2 * (48000000 / u32 (2 * 25000000)))) > 25000000 →
                sub32 (48000000 / (if 48000000 / u32 (2 * 25000000) = 0 then 1 else u32 (2 * (48000000 / u32 (2 * 25000000))))) 25000000
                  = 48000000 / (if 48000000 / u32 (2 * 25000000) = 0 then 1 else u32 (2 * (48000000 / u32 (2 * 25000000)))) - 25000000))
      ∧ (if clock_div 48000000 25000000 = 0 then 1 else u32 (2 * clock_div 48000000 25000000)) ≠ 0) :=
  ⟨by decide, by decide,
   clock_div_closest 48000000 25000000 (by decide) (by decide) (by decide)⟩



/-- The actions of the word loop of the write block. -/
theorem write_words_trace (data : Nat → Nat) :
    ∀ (n off : Nat) (hw : Hw),
      (write_words n off data hw).trace
        = hw.trace ++ (List.range n).map (fun i =>
            Event.wr_BDPR (wordOf (data (off + 4 * i)) (data (off + 4 * i + 1))
              (data (off + 4 * i + 2)) (data (off + 4 * i + 3)))) := by
  intro n
  induction n with
  | zero => intro off hw; simp [write_words]
  | succ n ih =>
    intro off hw
    unfold write_words
    rw [ih, List.range_succ_eq_map]
    simp only [Hw.emit, List.map_cons, List.map_map, List.append_assoc, List.singleton_append,
      Nat.mul_zero, Nat.add_zero]
    congr 2
    apply List.map_congr_left
    intro i _
    simp only [Function.comp]
    have e : off + 4 + 4 * i = off + 4 * (i + 1) := by ring
    rw [e]

/-- A full word of the block is the word that the write loop packs. -/
theorem pack_le_full (data : Nat → Nat) (inp S i : Nat) (h : 4 * i + 3 < S) :
    pack_le data inp S i
      = wordOf (data (inp + 4 * i)) (data (inp + 4 * i + 1)) (data (inp + 4 * i + 2))
          (data (inp + 4 * i + 3)) := by
  unfold pack_le wordOf
  rw [if_pos (by omega), if_pos (by omega), if_pos (by omega), if_pos h]

/-- The last word of a block whose size is not a multiple of 4 is the word that
the tail loop of the write block packs. -/
theorem pack_le_tail (data : Nat → Nat) (inp S : Nat) (h : S % 4 ≠ 0) :
    pack_le data inp S (S / 4)
      = write_tail data (S - (S - S % 4)) 0 (inp + (S - S % 4)) 0 := by
  have e1 : S - (S - S % 4) = S % 4 := by omega
  have e2 : S - S % 4 = 4 * (S / 4) := by omega
  rw [e1, e2]
  unfold pack_le
  have hc : S % 4 = 1 ∨ S % 4 = 2 ∨ S % 4 = 3 := by omega
  rcases hc with hm | hm | hm
  · rw [hm, if_pos (by omega), if_neg (by omega), if_neg (by omega), if_neg (by omega)]
    simp [write_tail]
  · rw [hm, if_pos (by omega), if_pos (by omega), if_neg (by omega), if_neg (by omega)]
    simp [write_tail, Nat.add_assoc]
  · rw [hm, if_pos (by omega), if_pos (by omega), if_pos (by omega), if_neg (by omega)]
    simp [write_tail, Nat.add_assoc]



/-- The words of a block: the full words, then the tail word when the size is
not a multiple of 4. -/
theorem block_words_eq (data : Nat → Nat) (inp S : Nat) :
    block_words data inp S
      = (List.range (S / 4)).map (fun i =>
            wordOf (data (inp + 4 * i)) (data (inp + 4 * i + 1)) (data (inp + 4 * i + 2))
              (data (inp + 4 * i + 3)))
          ++ (if S - S % 4 < S then
                [write_tail data (S - (S - S % 4)) 0 (inp + (S - S % 4)) 0]
              else []) := by
  unfold block_words
  have hfull : (List.range (S / 4)).map (pack_le data inp S)
      = (List.range (S / 4)).map (fun i =>
            wordOf (data (inp + 4 * i)) (data (inp + 4 * i + 1)) (data (inp + 4 * i + 2))
              (data (inp + 4 * i + 3))) := by
    apply List.map_congr_left
    intro i hi
    rw [List.mem_range] at hi
    exact pack_le_full data inp S i (by omega)
  by_cases hm : S % 4 = 0
  · have e : (S + 3) / 4 = S / 4 := by omega
    rw [e, hfull, if_neg (by omega), List.append_nil]
  · have e : (S + 3) / 4 = S / 4 + 1 := by omega
    rw [e, List.range_succ, List.map_append, hfull, if_pos (by omega)]
    simp only [List.map_cons, List.map_nil]
    rw [pack_le_tail data inp S hm]

/-- The actions of the write block: the interrupt is cleared, then the words
of the block are written to the data port. -/
theorem poll_bwrrdy_trace (st : PollSt) (h1 : st.events.BWRRDY = true)
    (h2 : st.cmd.cmdOp.xfrData = XfrData.SDMMC_CMD_TX) (h3 : st.set.table = 0)
    (h4 : st.set.blk_index < st.cmd.wNbBlocks) :
    (poll_bwrrdy st).hw.trace
      = st.hw.trace ++ Event.wr_NISTR { Nistr.zero with BWRRDY := true }
          :: (block_words st.cmd.data (st.set.blk_index * st.cmd.wBlockSize)
                st.cmd.wBlockSize).map Event.wr_BDPR := by
  unfold poll_bwrrdy
  have hc : (st.events.BWRRDY && st.cmd.cmdOp.xfrData == XfrData.SDMMC_CMD_TX
      && st.set.table == 0 && decide (st.set.blk_index < st.cmd.wNbBlocks)) = true := by
    simp [h1, h2, h3, h4]
  rw [if_pos hc]
  simp only []
  rw [block_words_eq]
  have e : (st.cmd.wBlockSize - st.cmd.wBlockSize % 4) / 4 = st.cmd.wBlockSize / 4 := by omega
  rw [e]
  by_cases hlt : st.cmd.wBlockSize - st.cmd.wBlockSize % 4 < st.cmd.wBlockSize
  · rw [if_pos hlt, if_pos hlt]
    show (write_words _ _ _ _).trace ++ [_] = _
    rw [write_words_trace]
    simp [Hw.emit, List.map_append]
  · rw [if_neg hlt, if_neg hlt]
    rw [write_words_trace]
    simp [Hw.emit]



/-- The bytes of a little-endian word, read back from the 32-bit register. -/
theorem byteOf_le (b0 b1 b2 b3 : Nat) (h0 : b0 < 256) (h1 : b1 < 256) (h2 : b2 < 256)
    (h3 : b3 < 256) :
    byteOf (u32 (b0 + b1 * 256 + b2 * 65536 + b3 * 16777216)) 0 = b0
      ∧ byteOf (u32 (b0 + b1 * 256 + b2 * 65536 + b3 * 16777216)) 1 = b1
      ∧ byteOf (u32 (b0 + b1 * 256 + b2 * 65536 + b3 * 16777216)) 2 = b2
      ∧ byteOf (u32 (b0 + b1 * 256 + b2 * 65536 + b3 * 16777216)) 3 = b3 := by
  have hu : u32 (b0 + b1 * 256 + b2 * 65536 + b3 * 16777216)
      = b0 + b1 * 256 + b2 * 65536 + b3 * 16777216 := Nat.mod_eq_of_lt (by omega)
  rw [hu]
  unfold byteOf
  simp only [Nat.shiftRight_eq_div_pow]
  norm_num
  omega

/-- Byte `k` of word `i` of a block, read back from the 32-bit register. -/
theorem byteOf_pack_le (data : Nat → Nat) (inp S i k : Nat) (hk : k < 4) :
    byteOf (u32 (pack_le data inp S i)) k
      = if 4 * i + k < S then data (inp + 4 * i + k) % 256 else 0 := by
  unfold pack_le
  have b : ∀ (c : Prop) [Decidable c] (x : Nat), (if c then x % 256 else 0) < 256 := by
    intro c _ x
    split
    · exact Nat.mod_lt _ (by norm_num)
    · norm_num
  obtain ⟨e0, e1, e2, e3⟩ := byteOf_le _ _ _ _ (b (4 * i < S) (data (inp + 4 * i)))
    (b (4 * i + 1 < S) (data (inp + 4 * i + 1))) (b (4 * i + 2 < S) (data (inp + 4 * i + 2)))
    (b (4 * i + 3 < S) (data (inp + 4 * i + 3)))
  have hc : k = 0 ∨ k = 1 ∨ k = 2 ∨ k = 3 := by omega
  rcases hc with h | h | h | h <;> subst h
  · exact e0
  · exact e1
  · exact e2
  · exact e3

/-- The word loop of the read block: the bytes stored and the words left in the
data port. -/
theorem read_words_spec :
    ∀ (n off : Nat) (data : Nat → Nat) (hw : Hw),
      (∀ j, (read_words n off data hw).1 j
          = if off ≤ j ∧ j < off + 4 * n then
              byteOf (u32 (hw.BDPR.getD ((j - off) / 4) 0)) ((j - off) % 4)
            else data j)
        ∧ (read_words n off data hw).2.BDPR = hw.BDPR.drop n := by
  intro n
  induction n with
  | zero =>
    intro off data hw
    refine ⟨?_, rfl⟩
    intro j
    rw [if_neg (by omega)]
    rfl
  | succ n ih =>
    intro off data hw
    unfold read_words
    simp only []
    obtain ⟨ih1, ih2⟩ := ih (off + 4)
      (store (store (store (store data off (byteOf (hw.rd_BDPR).1 0)) (off + 1)
        (byteOf (hw.rd_BDPR).1 1)) (off + 2) (byteOf (hw.rd_BDPR).1 2)) (off + 3)
        (byteOf (hw.rd_BDPR).1 3)) (hw.rd_BDPR).2
    have htl : (hw.rd_BDPR).2.BDPR = hw.BDPR.tail := rfl
    have hhd : (hw.rd_BDPR).1 = u32 (hw.BDPR.getD 0 0) := by
      unfold Hw.rd_BDPR
      cases hw.BDPR <;> rfl
    have hget : ∀ m, hw.BDPR.tail.getD m 0 = hw.BDPR.getD (m + 1) 0 := by
      intro m
      cases hw.BDPR <;> simp
    refine ⟨?_, ?_⟩
    · intro j
      rw [ih1 j, htl, hhd]
      by_cases hj : off + 4 ≤ j ∧ j < off + 4 + 4 * n
      · rw [if_pos hj, if_pos (by omega), hget]
        have e1 : (j - (off + 4)) / 4 + 1 = (j - off) / 4 := by omega
        have e2 : (j - (off + 4)) % 4 = (j - off) % 4 := by omega
        rw [e1, e2]
      · rw [if_neg hj]
        by_cases hin : off ≤ j ∧ j < off + 4 * (n + 1)
        · rw [if_pos hin]
          have hc : j = off ∨ j = off + 1 ∨ j = off + 2 ∨ j = off + 3 := by omega
          rcases hc with h | h | h | h <;> subst h <;> simp [store]
        · rw [if_neg hin]
          have h0 : j ≠ off := by omega
          have h1 : j ≠ off + 1 := by omega
          have h2 : j ≠ off + 2 := by omega
          have h3 : j ≠ off + 3 := by omega
          simp [store, h0, h1, h2, h3]
    · rw [ih2, htl]
      cases hw.BDPR <;> simp

/-- The tail loop of the read block: the bytes stored. -/
theorem read_tail_spec (val : Nat) :
    ∀ (n k off : Nat) (data : Nat → Nat) (j : Nat),
      read_tail val n k off data j
        = if off ≤ j ∧ j < off + n then byteOf val (k + (j - off)) else data j := by
  intro n
  induction n with
  | zero =>
    intro k off data j
    rw [if_neg (by omega)]
    rfl
  | succ n ih =>
    intro k off data j
    unfold read_tail
    rw [ih]
    by_cases hj : off + 1 ≤ j ∧ j < off + 1 + n
    · rw [if_pos hj, if_pos (by omega)]
      have e : k + 1 + (j - (off + 1)) = k + (j - off) := by omega
      rw [e]
    · rw [if_neg hj]
      by_cases h : j = off
      · subst h
        rw [if_pos (by omega)]
        simp [store]
      · rw [if_neg (by omega)]
        simp [store, h]



/-- The read block on a session that expects a block: it falls through with
the bytes of the next `ceil(S / 4)` words of the data port stored in the
block at offset `blk_index * S`, and nothing else of the buffer changed. -/
theorem poll_brdrdy_spec (st : PollSt) (h1 : st.events.BRDRDY = true)
    (h2 : st.cmd.cmdOp.xfrData = XfrData.SDMMC_CMD_RX) (h3 : st.set.table = 0)
    (h4 : st.set.blk_index < st.cmd.wNbBlocks) :
    ∃ st1, poll_brdrdy st = Flow.cont st1
      ∧ st1.hw.BDPR = st.hw.BDPR.drop ((st.cmd.wBlockSize + 3) / 4)
      ∧ ∀ j, st1.cmd.data j
          = if st.set.blk_index * st.cmd.wBlockSize ≤ j
                ∧ j < st.set.blk_index * st.cmd.wBlockSize + st.cmd.wBlockSize then
              byteOf (u32 (st.hw.BDPR.getD ((j - st.set.blk_index * st.cmd.wBlockSize) / 4) 0))
                ((j - st.set.blk_index * st.cmd.wBlockSize) % 4)
            else st.cmd.data j := by
  unfold poll_brdrdy
  have hc : (st.events.BRDRDY && st.cmd.cmdOp.xfrData == XfrData.SDMMC_CMD_RX
      && st.set.table == 0) = true := by
    simp [h1, h2, h3]
  rw [if_pos hc, if_neg (by omega)]
  simp only []
  generalize hS : st.cmd.wBlockSize = S
  generalize ho : st.set.blk_index * S = out
  have e : (S - S % 4) / 4 = S / 4 := by omega
  obtain ⟨r1, r2⟩ := read_words_spec (S / 4) out st.cmd.data
    (st.hw.emit (Event.wr_NISTR { Nistr.zero with BRDRDY := true }))
  have hB : (st.hw.emit (Event.wr_NISTR { Nistr.zero with BRDRDY := true })).BDPR = st.hw.BDPR :=
    rfl
  rw [hB] at r1 r2
  rw [e]
  refine ⟨_, rfl, ?_, ?_⟩
  · simp only []
    by_cases hlt : S - S % 4 < S
    · rw [if_pos hlt]
      show ((read_words _ _ _ _).2.rd_BDPR).2.BDPR = _
      have e2 : (S + 3) / 4 = S / 4 + 1 := by omega
      rw [e2]
      show ((read_words _ _ _ _).2.BDPR).tail = _
      rw [r2, List.tail_drop]
    · rw [if_neg hlt]
      have e2 : (S + 3) / 4 = S / 4 := by omega
      rw [e2]
      exact r2
  · intro j
    simp only []
    by_cases hlt : S - S % 4 < S
    · rw [if_pos hlt]
      simp only []
      rw [read_tail_spec, r1]
      have hv : ((read_words (S / 4) out st.cmd.data
          (st.hw.emit (Event.wr_NISTR { Nistr.zero with BRDRDY := true }))).2.rd_BDPR).1
          = u32 (st.hw.BDPR.getD (S / 4) 0) := by
        unfold Hw.rd_BDPR
        simp only []
        rw [r2]
        congr 1
        cases hd : List.drop (S / 4) st.hw.BDPR with
        | nil =>
          have hl : st.hw.BDPR.length ≤ S / 4 := List.drop_eq_nil_iff.mp hd
          rw [List.getD_eq_default _ _ hl]
          rfl
        | cons a l =>
          have hg : (List.drop (S / 4) st.hw.BDPR).getD 0 0 = a := by rw [hd]; rfl
          rw [List.getD_eq_getElem?_getD, List.getElem?_drop] at hg
          simp only [Nat.add_zero] at hg
          rw [List.getD_eq_getElem?_getD, hg]
          rfl
      rw [hv]
      by_cases ht : out + (S - S % 4) ≤ j ∧ j < out + (S - S % 4) + (S - (S - S % 4))
      · rw [if_pos ht, if_pos (by omega)]
        have e3 : (j - out) / 4 = S / 4 := by omega
        have e4 : 0 + (j - (out + (S - S % 4))) = (j - out) % 4 := by omega
        rw [e3, e4]
      · rw [if_neg ht]
        by_cases hw : out ≤ j ∧ j < out + 4 * (S / 4)
        · rw [if_pos hw, if_pos (by omega)]
        · rw [if_neg hw, if_neg (by omega)]
    · rw [if_neg hlt, r1]
      by_cases hw : out ≤ j ∧ j < out + 4 * (S / 4)
      · rw [if_pos hw, if_pos (by omega)]
      · rw [if_neg hw, if_neg (by omega)]



/-- The words written to the data port by a clear of the interrupt followed by
writes of the words `ws`. -/
theorem bdpr_writes_block (n : Nistr) (ws : List Nat) :
    bdpr_writes (Event.wr_NISTR n :: ws.map Event.wr_BDPR) = ws := by
  unfold bdpr_writes
  rw [List.filterMap_cons]
  simp only []
  induction ws with
  | nil => rfl
  | cons w l ih => rw [List.map_cons, List.filterMap_cons]; simp only []; rw [ih]

/-- Word `i` of the words of a block. -/
theorem block_words_getD (data : Nat → Nat) (inp S i : Nat) (hi : i < (S + 3) / 4) :
    (block_words data inp S).getD i 0 = pack_le data inp S i := by
  unfold block_words
  rw [List.getD_eq_getElem?_getD, List.getElem?_map, List.getElem?_range hi]
  rfl

/-- C28: the round trip of the data path without DMA.  For every block size
`S` and every content of the buffer, the write block of `sdmmc_poll`, on a
session without descriptor table whose data port is ready for a block, clears
the interrupt and writes to the data port exactly the `ceil(S / 4)` words of
the block at offset `blk_index * S`, 32 bits each, in the little-endian packing
with a zero-padded tail.  When these words are the next ones that the data port
delivers to the read block of a session that expects a block of the same size,
the read block consumes exactly these words, stores byte `i` of the written
block (reduced to 8 bits, so the byte itself when it is below 256) at offset
`blk_index * S + i` of the caller buffer for every `i < S`, and leaves every
byte outside that block as it was. -/
theorem pio_round_trip (stw str : PollSt) (rest : List Nat)
    (hw1 : stw.events.BWRRDY = true)
    (hw2 : stw.cmd.cmdOp.xfrData = XfrData.SDMMC_CMD_TX) (hw3 : stw.set.table = 0)
    (hw4 : stw.set.blk_index < stw.cmd.wNbBlocks)
    (hr1 : str.events.BRDRDY = true)
    (hr2 : str.cmd.cmdOp.xfrData = XfrData.SDMMC_CMD_RX) (hr3 : str.set.table = 0)
    (hr4 : str.set.blk_index < str.cmd.wNbBlocks)
    (hrS : str.cmd.wBlockSize = stw.cmd.wBlockSize)
    (hfeed : str.hw.BDPR
      = bdpr_writes ((poll_bwrrdy stw).hw.trace.drop stw.hw.trace.length) ++ rest) :
    (poll_bwrrdy stw).hw.trace
        = stw.hw.trace ++ Event.wr_NISTR { Nistr.zero with BWRRDY := true }
            :: (block_words stw.cmd.data (stw.set.blk_index * stw.cmd.wBlockSize)
                  stw.cmd.wBlockSize).map Event.wr_BDPR
      ∧ (bdpr_writes ((poll_bwrrdy stw).hw.trace.drop stw.hw.trace.length)).length
          = (stw.cmd.wBlockSize + 3) / 4
      ∧ (∀ w, w ∈ bdpr_writes ((poll_bwrrdy stw).hw.trace.drop stw.hw.trace.length) →
          w < 4294967296)
      ∧ ∃ st1, poll_brdrdy str = Flow.cont st1
          ∧ st1.hw.BDPR = rest
          ∧ (∀ i, i < stw.cmd.wBlockSize →
              st1.cmd.data (str.set.blk_index * stw.cmd.wBlockSize + i)
                  = stw.cmd.data (stw.set.blk_index * stw.cmd.wBlockSize + i) % 256
                ∧ (stw.cmd.data (stw.set.blk_index * stw.cmd.wBlockSize + i) < 256 →
                    st1.cmd.data (str.set.blk_index * stw.cmd.wBlockSize + i)
                      = stw.cmd.data (stw.set.blk_index * stw.cmd.wBlockSize + i)))
          ∧ (∀ j, ¬ (str.set.blk_index * stw.cmd.wBlockSize ≤ j
                ∧ j < str.set.blk_index * stw.cmd.wBlockSize + stw.cmd.wBlockSize) →
              st1.cmd.data j = str.cmd.data j) := by
  have ht := poll_bwrrdy_trace stw hw1 hw2 hw3 hw4
  have hws : bdpr_writes ((poll_bwrrdy stw).hw.trace.drop stw.hw.trace.length)
      = block_words stw.cmd.data (stw.set.blk_index * stw.cmd.wBlockSize) stw.cmd.wBlockSize := by
    rw [ht, List.drop_left, bdpr_writes_block]
  rw [hws] at hfeed ⊢
  generalize hS : stw.cmd.wBlockSize = S at *
  generalize hin : stw.set.blk_index * S = inp at *
  have hlen : (block_words stw.cmd.data inp S).length = (S + 3) / 4 := by
    unfold block_words
    rw [List.length_map, List.length_range]
  obtain ⟨st1, hst, hB, hd⟩ := poll_brdrdy_spec str hr1 hr2 hr3 hr4
  rw [hrS] at hB hd
  generalize hout : str.set.blk_index * S = out at *
  refine ⟨ht, hlen, ?_, st1, hst, ?_, ?_, ?_⟩
  · intro w hw
    unfold block_words at hw
    rw [List.mem_map] at hw
    obtain ⟨i, _, hi⟩ := hw
    rw [← hi]
    unfold pack_le
    have b : ∀ (c : Prop) [Decidable c] (x : Nat), (if c then x % 256 else 0) < 256 := by
      intro c _ x
      split
      · exact Nat.mod_lt _ (by norm_num)
      · norm_num
    have b0 := b (4 * i < S) (stw.cmd.data (inp + 4 * i))
    have b1 := b (4 * i + 1 < S) (stw.cmd.data (inp + 4 * i + 1))
    have b2 := b (4 * i + 2 < S) (stw.cmd.data (inp + 4 * i + 2))
    have b3 := b (4 * i + 3 < S) (stw.cmd.data (inp + 4 * i + 3))
    omega
  · rw [hB, hfeed, ← hlen, List.drop_left]
  · have hbyte : ∀ i, i < S → st1.cmd.data (out + i) = stw.cmd.data (inp + i) % 256 := by
      intro i hi
      rw [hd (out + i), if_pos (by omega), hfeed]
      have e1 : out + i - out = i := by omega
      rw [e1, List.getD_append _ _ _ _ (by rw [hlen]; omega),
        block_words_getD _ _ _ _ (by omega), byteOf_pack_le _ _ _ _ _ (Nat.mod_lt _ (by norm_num)),
        if_pos (by omega)]
      have e2 : inp + 4 * (i / 4) + i % 4 = inp + i := by omega
      rw [e2]
    intro i hi
    refine ⟨hbyte i hi, fun hlt => ?_⟩
    rw [hbyte i hi, Nat.mod_eq_of_lt hlt]
  · intro j hj
    rw [hd j, if_neg hj]

/-- C28, witness: the second block of 6 bytes of a buffer that holds `1, 2, 3,
...` is written as the words `0x0a090807` and `0x00000c0b`; read back into a
buffer filled with `0xee`, they leave the six bytes `7 .. 12` in the second
block and one word in the data port. -/
theorem pio_round_trip_witness :
    bdpr_writes ((poll_bwrrdy exStWrite6).hw.trace.drop exStWrite6.hw.trace.length)
        = [0x0a090807, 0x00000c0b]
      ∧ ((poll_bwrrdy exStWrite6).hw.trace
        = exStWrite6.hw.trace ++ Event.wr_NISTR { Nistr.zero with BWRRDY := true }
            :: (block_words exStWrite6.cmd.data (exStWrite6.set.blk_index * exStWrite6.cmd.wBlockSize)
                  exStWrite6.cmd.wBlockSize).map Event.wr_BDPR
      ∧ (bdpr_writes ((poll_bwrrdy exStWrite6).hw.trace.drop exStWrite6.hw.trace.length)).length
          = (exStWrite6.cmd.wBlockSize + 3) / 4
      ∧ (∀ w, w ∈ bdpr_writes ((poll_bwrrdy exStWrite6).hw.trace.drop exStWrite6.hw.trace.length) →
          w < 4294967296)
      ∧ ∃ st1, poll_brdrdy exStRead6 = Flow.cont st1
          ∧ st1.hw.BDPR = [0x12345678]
          ∧ (∀ i, i < exStWrite6.cmd.wBlockSize →
              st1.cmd.data (exStRead6.set.blk_index * exStWrite6.cmd.wBlockSize + i)
                  = exStWrite6.cmd.data (exStWrite6.set.blk_index * exStWrite6.cmd.wBlockSize + i) % 256
                ∧ (exStWrite6.cmd.data (exStWrite6.set.blk_index * exStWrite6.cmd.wBlockSize + i) < 256 →
                    st1.cmd.data (exStRead6.set.blk_index * exStWrite6.cmd.wBlockSize + i)
                      = exStWrite6.cmd.data (exStWrite6.set.blk_index * exStWrite6.cmd.wBlockSize + i)))
          ∧ (∀ j, ¬ (exStRead6.set.blk_index * exStWrite6.cmd.wBlockSize ≤ j
                ∧ j < exStRead6.set.blk_index * exStWrite6.cmd.wBlockSize + exStWrite6.cmd.wBlockSize) →
              st1.cmd.data j = exStRead6.cmd.data j)) :=
  ⟨by decide,
   pio_round_trip exStWrite6 exStRead6 [0x12345678] (by decide) (by decide) (by decide)
     (by decide) (by decide) (by decide) (by decide) (by decide) (by decide) (by decide)⟩



/-- The six complements that `sdmmc_get_response` applies amount to the
complement of the retained status bits. -/
theorem and_not_retained (r : Nat) :
    r &&& not32 STAT_DEVICE_IS_LOCKED &&& not32 STAT_CARD_ECC_DISABLED
        &&& not32 STAT_CURRENT_STATE &&& not32 STAT_READY_FOR_DATA
        &&& not32 STAT_EXCEPTION_EVENT &&& not32 STAT_APP_CMD
      = r &&& not32 STAT_RETAINED := by
  have h : not32 STAT_DEVICE_IS_LOCKED &&& (not32 STAT_CARD_ECC_DISABLED
      &&& (not32 STAT_CURRENT_STATE &&& (not32 STAT_READY_FOR_DATA
      &&& (not32 STAT_EXCEPTION_EVENT &&& not32 STAT_APP_CMD)))) = not32 STAT_RETAINED := by
    decide
  rw [← h]
  simp only [Nat.land_assoc]

/-- The function `sdmmc_get_response` on a data-bearing CMD18 or CMD25 without
block count prefix whose response is one word. -/
theorem get_response_multi (set : sdmmc_set) (cmd : sSdmmcCommand) (complete : Bool)
    (out : Nat → Nat) (hw : Hw)
    (hd : has_data cmd = true) (hc : cmd.bCmd = 18 ∨ cmd.bCmd = 25)
    (hu : set.use_set_blk_cnt = false)
    (ht : cmd.cmdOp.respType = 1 ∨ cmd.cmdOp.respType = 3 ∨ cmd.cmdOp.respType = 4
      ∨ cmd.cmdOp.respType = 5 ∨ cmd.cmdOp.respType = 6 ∨ cmd.cmdOp.respType = 7) :
    sdmmc_get_response set cmd complete out hw
      = if set.resp_len = 0 then
          if complete = true then
            { set := { set with resp_len := 1 },
              out := store (store out 0 (hw.rd_RR 0).1) 0
                ((hw.rd_RR 0).1 ||| (((hw.rd_RR 0).2.rd_RR 3).1 &&& not32 STAT_RETAINED)),
              hw := ((hw.rd_RR 0).2.rd_RR 3).2 }
          else
            { set := { set with resp_len := 1 }, out := store out 0 (hw.rd_RR 0).1,
              hw := (hw.rd_RR 0).2 }
        else if complete = true then
          { set := set,
            out := store out 0 (out 0 ||| ((hw.rd_RR 3).1 &&& not32 STAT_RETAINED)),
            hw := (hw.rd_RR 3).2 }
        else { set := set, out := out, hw := hw } := by
  have h2 : ¬ cmd.cmdOp.respType = 2 := by omega
  have hb : (cmd.bCmd == 18 || cmd.bCmd == 25) = true := by
    rcases hc with h | h <;> simp [h]
  unfold sdmmc_get_response get_response_first
  simp only [hd, hb, hu, h2, ht, if_true, if_false, Bool.true_and, Bool.and_false,
    Bool.false_or, Bool.not_false, Bool.and_true]
  by_cases hl : set.resp_len = 0
  · have hl2 : (set.resp_len == 0) = true := by simp [hl]
    simp only [hl2, if_true, hl]
    cases complete
    · simp
    · simp only [if_true, hu, Bool.not_false]
      rw [and_not_retained]
      simp [store]
  · have hl2 : (set.resp_len == 0) = false := by simp [hl]
    simp only [hl2, Bool.false_eq_true, if_false, hl]
    cases complete
    · simp
    · simp only [if_true, hu, Bool.not_false]
      rw [and_not_retained]
      simp



/-- The progress of the response depends only on the prefix flag, the response
length, the operation word, the command index, the response array and the
response registers. -/
theorem resp_inv_congr (r0 : Nat) (rr3 : List Nat) (out0 : Nat → Nat)
    (set set1 : sdmmc_set) (cmd cmd1 : sSdmmcCommand) (hw hw1 : Hw)
    (h1 : set1.use_set_blk_cnt = set.use_set_blk_cnt) (h2 : set1.resp_len = set.resp_len)
    (h3 : cmd1.cmdOp = cmd.cmdOp) (h4 : cmd1.bCmd = cmd.bCmd) (h5 : cmd1.pResp = cmd.pResp)
    (h6 : hw1.RR = hw.RR) (hJ : resp_inv r0 rr3 out0 set cmd hw) :
    resp_inv r0 rr3 out0 set1 cmd1 hw1 := by
  unfold resp_inv has_data Hw.rd_RR at hJ ⊢
  rw [h1, h2, h3, h4, h5, h6]
  exact hJ

/-- Reading `RR[0]` leaves the stream of `RR[3]` alone. -/
theorem rd_RR_other (hw : Hw) : (hw.rd_RR 0).2.RR 3 = hw.RR 3 := by
  unfold Hw.rd_RR
  simp

/-- Retrieval of the response before the transfer is complete keeps the
progress of the response. -/
theorem get_response_partial (r0 : Nat) (rr3 : List Nat) (out0 : Nat → Nat) (st : PollSt)
    (hJ : resp_inv r0 rr3 out0 st.set st.cmd st.hw) :
    resp_inv r0 rr3 out0 (poll_get_response st false).set (poll_get_response st false).cmd
      (poll_get_response st false).hw := by
  obtain ⟨hd, hc, hu, ht, h3, out, hp, ho, hr⟩ := hJ
  have hg := get_response_multi st.set st.cmd false out st.hw hd hc hu ht
  unfold poll_get_response
  rw [hp]
  simp only []
  rw [hg]
  rcases hr with ⟨hl, hr⟩ | ⟨hl, hr⟩
  · rw [if_pos hl]
    simp only [Bool.false_eq_true, if_false]
    refine ⟨hd, hc, hu, ht, ?_, store out 0 (st.hw.rd_RR 0).1, rfl, ?_, Or.inr ⟨rfl, ?_⟩⟩
    · show (st.hw.rd_RR 0).2.RR 3 = rr3
      rw [rd_RR_other]
      exact h3
    · intro j hj
      simp only [store, if_neg hj]
      exact ho j hj
    · simp only [store, if_true]
      exact hr
  · rw [if_neg (by omega)]
    simp only [Bool.false_eq_true, if_false]
    exact ⟨hd, hc, hu, ht, h3, out, rfl, ho, Or.inr ⟨hl, hr⟩⟩

/-- Retrieval of the response once the transfer is complete: the first word is
the response of the command joined with the bits of the response of the
automatic CMD12 that are not retained status bits. -/
theorem get_response_final (r0 : Nat) (rr3 : List Nat) (out0 : Nat → Nat) (st : PollSt)
    (hJ : resp_inv r0 rr3 out0 st.set st.cmd st.hw) :
    ∃ out, (poll_get_response st true).cmd.pResp = some out
      ∧ out 0 = r0 ||| (u32 (rr3.headD 0) &&& not32 STAT_RETAINED)
      ∧ ∀ j, j ≠ 0 → out j = out0 j := by
  obtain ⟨hd, hc, hu, ht, h3, out, hp, ho, hr⟩ := hJ
  have hg := get_response_multi st.set st.cmd true out st.hw hd hc hu ht
  unfold poll_get_response
  rw [hp]
  simp only []
  rw [hg]
  rcases hr with ⟨hl, hr⟩ | ⟨hl, hr⟩
  · rw [if_pos hl]
    simp only [if_true]
    refine ⟨_, rfl, ?_, ?_⟩
    · simp only [store, if_true]
      rw [hr]
      show r0 ||| (u32 (((st.hw.rd_RR 0).2.RR 3).headD 0) &&& _) = _
      rw [rd_RR_other, h3]
    · intro j hj
      simp only [store, if_neg hj]
      exact ho j hj
  · rw [if_neg (by omega)]
    simp only [if_true]
    refine ⟨_, rfl, ?_, ?_⟩
    · simp only [store, if_true]
      rw [hr]
      show r0 ||| (u32 ((st.hw.RR 3).headD 0) &&& _) = _
      rw [h3]
    · intro j hj
      simp only [store, if_neg hj]
      exact ho j hj



/-- The fetch of the events leaves the response registers alone. -/
theorem poll_fetch_RR (set : sdmmc_set) (hw : Hw) (v : Nistr) :
    (poll_fetch set hw v).2.RR = hw.RR := by
  unfold poll_fetch
  split
  · split
    · simp only []
      split <;> rfl
    · rfl
  · split <;> rfl

/-- The word loop of the read block leaves the response registers alone. -/
theorem read_words_RR (n off : Nat) (data : Nat → Nat) (hw : Hw) :
    (read_words n off data hw).2.RR = hw.RR := by
  induction n generalizing off data hw with
  | zero => rfl
  | succ n ih =>
    unfold read_words
    simp only []
    rw [ih]
    rfl

/-- The word loop of the write block leaves the response registers alone. -/
theorem write_words_RR (n off : Nat) (data : Nat → Nat) (hw : Hw) :
    (write_words n off data hw).RR = hw.RR := by
  induction n generalizing off hw with
  | zero => rfl
  | succ n ih =>
    unfold write_words
    rw [ih]
    rfl

/-- The Command Complete block on a multiple-block command without block count
prefix: it never fails; when it falls through the progress of the response is
kept, and when it goes to `Succeed` the response is the merged one. -/
theorem poll_cmdc_resp (r0 : Nat) (rr3 : List Nat) (out0 : Nat → Nat) (st : PollSt)
    (hJ : resp_inv r0 rr3 out0 st.set st.cmd st.hw) :
    (∀ s, poll_cmdc st = Flow.cont s → resp_inv r0 rr3 out0 s.set s.cmd s.hw)
      ∧ (∀ s, poll_cmdc st = Flow.succeed s →
          ∃ out, s.cmd.pResp = some out
            ∧ out 0 = r0 ||| (u32 (rr3.headD 0) &&& not32 STAT_RETAINED)
            ∧ ∀ j, j ≠ 0 → out j = out0 j)
      ∧ (∀ s, poll_cmdc st ≠ Flow.fail s) := by
  unfold poll_cmdc
  by_cases he : st.events.CMDC = true
  · rw [if_pos he]
    simp only []
    have hJ1 : resp_inv r0 rr3 out0
        ({ st with
            hw := st.hw.emit (Event.wr_NISTR { Nistr.zero with CMDC := true }),
            events := { st.events with CMDC := false },
            set := { st.set with cmd_line_released := true } } : PollSt).set
        ({ st with
            hw := st.hw.emit (Event.wr_NISTR { Nistr.zero with CMDC := true }),
            events := { st.events with CMDC := false },
            set := { st.set with cmd_line_released := true } } : PollSt).cmd
        ({ st with
            hw := st.hw.emit (Event.wr_NISTR { Nistr.zero with CMDC := true }),
            events := { st.events with CMDC := false },
            set := { st.set with cmd_line_released := true } } : PollSt).hw :=
      resp_inv_congr r0 rr3 out0 st.set _ st.cmd _ st.hw _ rfl rfl rfl rfl rfl rfl hJ
    have hdat : ({ st with
            hw := st.hw.emit (Event.wr_NISTR { Nistr.zero with CMDC := true }),
            events := { st.events with CMDC := false },
            set := { st.set with cmd_line_released := true } } : PollSt).set.dat_lines_released
        = st.set.dat_lines_released := rfl
    generalize ({ st with
            hw := st.hw.emit (Event.wr_NISTR { Nistr.zero with CMDC := true }),
            events := { st.events with CMDC := false },
            set := { st.set with cmd_line_released := true } } : PollSt) = st1 at hJ1 hdat ⊢
    rw [← hdat]
    have hv := poll_get_response_view st1 st1.set.dat_lines_released
    have hdl : (poll_get_response st1 st1.set.dat_lines_released).set.dat_lines_released
        = st1.set.dat_lines_released := by
      have h := hv.1
      simp only [xview, Prod.mk.injEq] at h
      exact h.2.2.2.2.1
    have hop : (poll_get_response st1 st1.set.dat_lines_released).cmd.cmdOp = st1.cmd.cmdOp := by
      have h := hv.1
      simp only [xview, Prod.mk.injEq] at h
      exact h.2.2.1
    have hhd : has_data (poll_get_response st1 st1.set.dat_lines_released).cmd = true := by
      unfold has_data
      rw [hop]
      exact hJ1.1
    rw [hhd, hdl]
    simp only [Bool.not_true, Bool.false_and, Bool.false_or]
    by_cases hd : st1.set.dat_lines_released = true
    · rw [if_pos hd, hd]
      refine ⟨fun s h => (by cases h), ?_, fun s h => (by cases h)⟩
      intro s h
      cases h
      exact get_response_final r0 rr3 out0 st1 hJ1
    · rw [if_neg hd]
      have hd2 : st1.set.dat_lines_released = false := by
        cases hx : st1.set.dat_lines_released
        · rfl
        · exact absurd hx hd
      rw [hd2]
      refine ⟨?_, fun s h => (by cases h), fun s h => (by cases h)⟩
      intro s h
      cases h
      exact get_response_partial r0 rr3 out0 st1 hJ1
  · rw [if_neg he]
    refine ⟨?_, fun s h => (by cases h), fun s h => (by cases h)⟩
    intro s h
    cases h
    exact hJ

/-- The read block keeps the progress of the response; when it fails the
session is in the error state; it never goes to `Succeed`. -/
theorem poll_brdrdy_resp (r0 : Nat) (rr3 : List Nat) (out0 : Nat → Nat) (st : PollSt)
    (hJ : resp_inv r0 rr3 out0 st.set st.cmd st.hw) :
    (∀ s, poll_brdrdy st = Flow.cont s → resp_inv r0 rr3 out0 s.set s.cmd s.hw)
      ∧ (∀ s, poll_brdrdy st = Flow.fail s → s.set.state = Mcid.MCID_ERROR)
      ∧ (∀ s, poll_brdrdy st ≠ Flow.succeed s) := by
  unfold poll_brdrdy
  split
  · simp only []
    split
    · refine ⟨fun s h => (by cases h), ?_, fun s h => (by cases h)⟩
      intro s h
      cases h
      rfl
    · refine ⟨?_, fun s h => (by cases h), fun s h => (by cases h)⟩
      intro s h
      cases h
      refine resp_inv_congr r0 rr3 out0 st.set _ st.cmd _ st.hw _ rfl rfl rfl rfl rfl ?_ hJ
      simp only []
      split
      · show (Hw.rd_BDPR _).2.RR = _
        unfold Hw.rd_BDPR
        show (read_words _ _ _ _).2.RR = _
        rw [read_words_RR]
        rfl
      · rw [read_words_RR]
        rfl
  · refine ⟨?_, fun s h => (by cases h), fun s h => (by cases h)⟩
    intro s h
    cases h
    exact hJ

/-- The write block keeps the progress of the response. -/
theorem poll_bwrrdy_resp (r0 : Nat) (rr3 : List Nat) (out0 : Nat → Nat) (st : PollSt)
    (hJ : resp_inv r0 rr3 out0 st.set st.cmd st.hw) :
    resp_inv r0 rr3 out0 (poll_bwrrdy st).set (poll_bwrrdy st).cmd (poll_bwrrdy st).hw := by
  unfold poll_bwrrdy
  split
  · refine resp_inv_congr r0 rr3 out0 st.set _ st.cmd _ st.hw _ rfl rfl rfl rfl rfl ?_ hJ
    simp only []
    split
    · show (write_words _ _ _ _).RR = _
      rw [write_words_RR]
      rfl
    · rw [write_words_RR]
      rfl
  · exact hJ



/-- The first part of the Transfer Complete block on a multiple-block command
without block count prefix: the end of the automatic CMD12 is expected from
then on, and the response is not retrieved. -/
theorem poll_trfc_release_multi (r0 : Nat) (rr3 : List Nat) (out0 : Nat → Nat) (st : PollSt)
    (hJ : resp_inv r0 rr3 out0 st.set st.cmd st.hw) :
    resp_inv r0 rr3 out0 (poll_trfc_release st).set (poll_trfc_release st).cmd
        (poll_trfc_release st).hw
      ∧ (poll_trfc_release st).set.expect_auto_end = true := by
  obtain ⟨hd, hc, hu, _⟩ := id hJ
  have hb : (st.cmd.bCmd == 18 || st.cmd.bCmd == 25) = true := by
    rcases hc with h | h <;> simp [h]
  unfold poll_trfc_release
  simp only [hd, hb, hu, Bool.not_false, Bool.and_self, if_true, Bool.not_true, Bool.and_false,
    Bool.false_eq_true, if_false]
  exact ⟨resp_inv_congr r0 rr3 out0 st.set _ st.cmd _ st.hw _ hu.symm rfl rfl rfl rfl rfl hJ,
    trivial⟩

/-- The Transfer Complete block on a multiple-block command without block count
prefix: it keeps the progress of the response; when it fails the session is in
the error state; it never goes to `Succeed`. -/
theorem poll_trfc_resp (r0 : Nat) (rr3 : List Nat) (out0 : Nat → Nat) (st : PollSt)
    (hJ : resp_inv r0 rr3 out0 st.set st.cmd st.hw) :
    (∀ s, poll_trfc st = Flow.cont s → resp_inv r0 rr3 out0 s.set s.cmd s.hw)
      ∧ (∀ s, poll_trfc st = Flow.fail s → s.set.state = Mcid.MCID_ERROR)
      ∧ (∀ s, poll_trfc st ≠ Flow.succeed s) := by
  obtain ⟨h1, h2⟩ := poll_trfc_release_multi r0 rr3 out0 st hJ
  unfold poll_trfc
  split
  · simp only []
    generalize poll_trfc_release st = st3 at h1 h2 ⊢
    split
    · refine ⟨fun s h => (by cases h), ?_, fun s h => (by cases h)⟩
      intro s h
      cases h
      rfl
    · rw [h2]
      simp only [Bool.not_true, Bool.and_false, Bool.false_eq_true, if_false]
      refine ⟨?_, fun s h => (by cases h), fun s h => (by cases h)⟩
      intro s h
      cases h
      exact h1
  · refine ⟨?_, fun s h => (by cases h), fun s h => (by cases h)⟩
    intro s h
    cases h
    exact hJ

/-- One pass of the resolver on a multiple-block command without block count
prefix: a failure leaves the session in the error state, the label `Succeed`
is reached with the merged response, and otherwise the progress of the
response is kept. -/
theorem poll_pass_resp (r0 : Nat) (rr3 : List Nat) (out0 : Nat → Nat) (st : PollSt)
    (hJ : resp_inv r0 rr3 out0 st.set st.cmd st.hw) :
    (∀ s, poll_pass st = Flow.cont s → resp_inv r0 rr3 out0 s.set s.cmd s.hw)
      ∧ (∀ s, poll_pass st = Flow.fail s → s.set.state = Mcid.MCID_ERROR)
      ∧ (∀ s, poll_pass st = Flow.succeed s →
          ∃ out, s.cmd.pResp = some out
            ∧ out 0 = r0 ||| (u32 (rr3.headD 0) &&& not32 STAT_RETAINED)
            ∧ ∀ j, j ≠ 0 → out j = out0 j) := by
  unfold poll_pass
  split
  · refine ⟨fun s h => (by cases h), ?_, fun s h => (by cases h)⟩
    intro s h
    cases h
    have hne : st.cmd.bCmd ≠ 12 := by
      rcases hJ.2.1 with h | h <;> omega
    simp only [poll_errint, if_neg hne]
  · split
    · refine ⟨fun s h => (by cases h), fun s h => (by cases h), ?_⟩
      intro s h
      cases h
      exact get_response_final r0 rr3 out0 st hJ
    · obtain ⟨c1, c2, c3⟩ := poll_cmdc_resp r0 rr3 out0 st hJ
      cases hc : poll_cmdc st with
      | fail s => exact absurd hc (c3 s)
      | succeed s =>
        simp only [Flow.bind]
        refine ⟨fun s h => (by cases h), fun s h => (by cases h), ?_⟩
        intro s1 h
        cases h
        exact c2 s hc
      | cont s1 =>
        simp only [Flow.bind]
        have hJ1 := c1 s1 hc
        obtain ⟨b1, b2, b3⟩ := poll_brdrdy_resp r0 rr3 out0 s1 hJ1
        cases hb : poll_brdrdy s1 with
        | succeed s => exact absurd hb (b3 s)
        | fail s =>
          simp only [Flow.bind]
          refine ⟨fun s h => (by cases h), ?_, fun s h => (by cases h)⟩
          intro s2 h
          cases h
          exact b2 s hb
        | cont s2 =>
          simp only [Flow.bind]
          have hJ2 := poll_bwrrdy_resp r0 rr3 out0 s2 (b1 s2 hb)
          obtain ⟨t1, t2, t3⟩ := poll_trfc_resp r0 rr3 out0 (poll_bwrrdy s2) hJ2
          exact ⟨t1, t2, fun s h => absurd h (t3 s)⟩

/-- One round of the fetch loop on a multiple-block command without block
count prefix. -/
theorem poll_round_resp (r0 : Nat) (rr3 : List Nat) (out0 : Nat → Nat) (v : Nistr)
    (set : sdmmc_set) (cmd : sSdmmcCommand) (hw : Hw)
    (hJ : resp_inv r0 rr3 out0 set cmd hw) :
    (∀ hw1, poll_round v set cmd hw = Round.idle hw1 → resp_inv r0 rr3 out0 set cmd hw1)
      ∧ (∀ o, poll_round v set cmd hw = Round.done o →
          o.set.state ≠ Mcid.MCID_CMD
            ∧ ∃ c, o.done = some c
              ∧ (o.set.state = Mcid.MCID_LOCKED →
                  ∃ out, c.pResp = some out
                    ∧ out 0 = r0 ||| (u32 (rr3.headD 0) &&& not32 STAT_RETAINED)
                    ∧ ∀ j, j ≠ 0 → out j = out0 j))
      ∧ (∀ s c h, poll_round v set cmd hw = Round.again s c h → resp_inv r0 rr3 out0 s c h) := by
  have hJf : resp_inv r0 rr3 out0 set cmd (poll_fetch set hw v).2 :=
    resp_inv_congr r0 rr3 out0 set _ cmd _ hw _ rfl rfl rfl rfl rfl (poll_fetch_RR set hw v) hJ
  obtain ⟨p1, p2, p3⟩ := poll_pass_resp r0 rr3 out0
    { set := set, cmd := cmd, hw := (poll_fetch set hw v).2, events := (poll_fetch set hw v).1 } hJf
  rcases poll_round_cases v set cmd hw with
    ⟨_, hr⟩ | ⟨_, ⟨st, hps, hr⟩ | ⟨st, hps, hr⟩ | ⟨st, hps, hr⟩⟩
  · rw [hr]
    refine ⟨?_, fun o h => (by cases h), fun s c h hh => (by cases hh)⟩
    intro hw1 h
    cases h
    exact hJf
  · rw [hr]
    refine ⟨fun o h => (by cases h), ?_, fun s c h hh => (by cases hh)⟩
    intro o h
    cases h
    have hs := p2 st hps
    have he := poll_end_out st
    refine ⟨?_, st.cmd, he.2.1, ?_⟩
    · rw [he.1, hs]
      decide
    · intro hl
      rw [he.1, hs] at hl
      cases hl
  · rw [hr]
    refine ⟨fun o h => (by cases h), ?_, fun s c h hh => (by cases hh)⟩
    intro o h
    cases h
    have he := poll_end_out { st with set := { st.set with state := Mcid.MCID_LOCKED } }
    refine ⟨?_, st.cmd, he.2.1, fun _ => p3 st hps⟩
    rw [he.1]
    show Mcid.MCID_LOCKED ≠ Mcid.MCID_CMD
    decide
  · rw [hr]
    refine ⟨fun o h => (by cases h), fun o h => (by cases h), ?_⟩
    intro s c h hh
    cases hh
    refine resp_inv_congr r0 rr3 out0 st.set _ st.cmd _ st.hw _ rfl rfl rfl rfl rfl ?_ (p1 st hps)
    split <;> rfl



/-- The descriptor builder leaves the response registers alone. -/
theorem build_RR (K : Hdr) (set : sdmmc_set) (cmd : sSdmmcCommand) (hw : Hw) :
    (sdmmc_build_dma_table K set cmd hw).hw.RR = hw.RR := by
  unfold sdmmc_build_dma_table
  simp only []
  repeat' split
  all_goals rfl

/-- The DMA preparation block leaves the response registers alone. -/
theorem prepare_dma_RR (K : Hdr) (c : SendLocals) (set : sdmmc_set) (cmd : sSdmmcCommand)
    (hw : Hw) : (send_prepare_dma K c set cmd hw).hw.RR = hw.RR := by
  unfold send_prepare_dma
  simp only []
  repeat' split
  all_goals first | rfl | exact build_RR K set cmd hw

/-- The launch of a command does not read the response registers. -/
theorem send_launch_RR (c : SendLocals) (set : sdmmc_set) (cmd : sSdmmcCommand)
    (hw : Hw) (rc : Rc) (l : sdmmc_set × sSdmmcCommand × Hw)
    (hl : send_launch c set cmd hw rc = some l) : l.2.2.RR = hw.RR := by
  have h2 : ∀ h, (send_issue_data c set cmd h).RR = h.RR := by
    intro h
    unfold send_issue_data
    split
    · simp only []
      split <;> split <;> rfl
    · rfl
  have h3 : ∀ g h, (send_issue c cmd g h).RR = h.RR := by
    intro g h
    unfold send_issue
    simp only []
    show (if (c.has_data || c.stop_xfer) = true then _ else _ : Hw).RR = _
    have h5 : (if c.stop_xfer = true then h.emit (Event.wr_BCR 0)
        else if (c.has_data && (c.multiple_xfer || decide (cmd.wNbBlocks > 1))) = true then
          h.emit (Event.wr_BCR cmd.wNbBlocks)
        else h).RR = h.RR := by
      split
      · rfl
      · split <;> rfl
    split
    · exact h5
    · exact h5
  have h6 : ∀ h h1, send_timer c set h = some h1 → h1.RR = h.RR := by
    intro h h1 ht
    rcases send_timer_cases c set h h1 ht with rfl | ⟨v, rfl⟩ <;> rfl
  have h7 : ∀ e h, (send_unmask set e h).RR = h.RR := by
    intro e h
    unfold send_unmask
    split <;> rfl
  obtain ⟨hw3, ht, rfl⟩ := send_launch_some c set cmd hw rc l hl
  show (send_unmask set _ hw3).RR = _
  rw [h7, h6 _ _ ht]
  unfold send_program
  simp only []
  rw [h3, h2]
  rfl

/-- The dispatcher on a session with no command in flight leaves the response
registers alone and changes at most the block count and the status of the
command. -/
theorem send_command_resp_frame (K : Hdr) (set : sdmmc_set) (cmd : sSdmmcCommand) (hw : Hw)
    (hst : set.state ≠ Mcid.MCID_CMD) (o : SendOut)
    (ho : sdmmc_send_command K set cmd hw = some o) :
    o.hw.RR = hw.RR
      ∧ o.cmd.cmdOp = cmd.cmdOp
      ∧ o.cmd.bCmd = cmd.bCmd
      ∧ o.cmd.pResp = cmd.pResp := by
  have hb := (prepare_dma_cmd_fields K (send_locals K set cmd) set cmd hw).1
  have hb1 : (send_prepare_dma K (send_locals K set cmd) set cmd hw).cmd.cmdOp = cmd.cmdOp := by
    rw [hb]
  have hb2 : (send_prepare_dma K (send_locals K set cmd) set cmd hw).cmd.bCmd = cmd.bCmd := by
    rw [hb]
  have hb3 : (send_prepare_dma K (send_locals K set cmd) set cmd hw).cmd.pResp = cmd.pResp := by
    rw [hb]
  unfold sdmmc_send_command at ho
  simp only [] at ho
  split at ho
  · cases ho; exact ⟨rfl, rfl, rfl, rfl⟩
  · split at ho
    · cases ho; exact ⟨rfl, rfl, rfl, rfl⟩
    · split at ho
      · cases ho; exact ⟨rfl, rfl, rfl, rfl⟩
      · split at ho
        · split at ho
          · cases ho; exact ⟨rfl, rfl, rfl, rfl⟩
          · cases ho; exact ⟨rfl, rfl, rfl, rfl⟩
        · split at ho
          · cases ho; exact ⟨rfl, rfl, rfl, rfl⟩
          · split at ho
            · cases ho; exact ⟨rfl, rfl, rfl, rfl⟩
            · split at ho
              · cases ho
                exact ⟨prepare_dma_RR K _ set cmd hw, hb1, hb2, hb3⟩
              · rw [send_busy_idle _ _ _ hst] at ho
                simp only [Bool.false_eq_true, if_false, send_object_idle] at ho
                split at ho
                · cases ho
                · rename_i l hl
                  cases ho
                  obtain ⟨hw3, _, hl2⟩ := send_launch_some _ _ _ _ _ _ hl
                  refine ⟨?_, ?_, ?_, ?_⟩
                  · exact (send_launch_RR _ _ _ _ _ l hl).trans (prepare_dma_RR K _ set cmd hw)
                  · show l.2.1.cmdOp = _
                    rw [hl2]
                    exact hb1
                  · show l.2.1.bCmd = _
                    rw [hl2]
                    exact hb2
                  · show l.2.1.pResp = _
                    rw [hl2]
                    exact hb3

/-- The fetch loop on a multiple-block command without block count prefix:
either the command stays in flight and the progress of the response is kept,
or the command is released, the session is no longer in flight, and when it
is locked the response is the merged one. -/
theorem poll_loop_resp (r0 : Nat) (rr3 : List Nat) (out0 : Nat → Nat) (l : List Nistr)
    (set : sdmmc_set) (cmd : sSdmmcCommand) (hw : Hw)
    (hJ : resp_inv r0 rr3 out0 set cmd hw) :
    ((poll_loop l set cmd hw).done = none →
        ∃ c, (poll_loop l set cmd hw).set.cmd = some c
          ∧ resp_inv r0 rr3 out0 (poll_loop l set cmd hw).set c (poll_loop l set cmd hw).hw)
      ∧ (∀ c, (poll_loop l set cmd hw).done = some c →
          (poll_loop l set cmd hw).set.state ≠ Mcid.MCID_CMD
            ∧ ((poll_loop l set cmd hw).set.state = Mcid.MCID_LOCKED →
                ∃ out, c.pResp = some out
                  ∧ out 0 = r0 ||| (u32 (rr3.headD 0) &&& not32 STAT_RETAINED)
                  ∧ ∀ j, j ≠ 0 → out j = out0 j)) := by
  refine poll_loop_induct (fun s c h => resp_inv r0 rr3 out0 s c h)
    (fun o => (o.done = none → ∃ c, o.set.cmd = some c ∧ resp_inv r0 rr3 out0 o.set c o.hw)
      ∧ (∀ c, o.done = some c →
          o.set.state ≠ Mcid.MCID_CMD
            ∧ (o.set.state = Mcid.MCID_LOCKED →
                ∃ out, c.pResp = some out
                  ∧ out 0 = r0 ||| (u32 (rr3.headD 0) &&& not32 STAT_RETAINED)
                  ∧ ∀ j, j ≠ 0 → out j = out0 j)))
    ?_ ?_ ?_ ?_ l set cmd hw hJ
  · intro s c h rest hP
    exact resp_inv_congr r0 rr3 out0 s _ c _ h _ rfl rfl rfl rfl rfl rfl hP
  · intro v s c h h1 hP hr
    refine ⟨fun _ => ⟨c, rfl, ?_⟩, fun c1 hd => (by cases hd)⟩
    exact resp_inv_congr r0 rr3 out0 s _ c _ h1 _ rfl rfl rfl rfl rfl rfl
      ((poll_round_resp r0 rr3 out0 v s c h hP).1 h1 hr)
  · intro v s c h o hP hr
    obtain ⟨h1, c1, h2, h3⟩ := (poll_round_resp r0 rr3 out0 v s c h hP).2.1 o hr
    refine ⟨fun hn => ?_, fun c2 hd => ?_⟩
    · rw [h2] at hn
      cases hn
    · rw [h2] at hd
      cases hd
      exact ⟨h1, h3⟩
  · intro v s c h s1 c1 h1 hP hr
    have hJ1 := (poll_round_resp r0 rr3 out0 v s c h hP).2.2 s1 c1 h1 hr
    refine ⟨hJ1, fun _ => ⟨c1, rfl, ?_⟩, fun c2 hd => (by cases hd)⟩
    exact resp_inv_congr r0 rr3 out0 s1 _ c1 _ h1 _ rfl rfl rfl rfl rfl rfl hJ1

/-- The session between two calls of the resolver, while a multiple-block
command without block count prefix may be in flight. -/
theorem sdmmc_poll_resp (r0 : Nat) (rr3 : List Nat) (out0 : Nat → Nat)
    (set : sdmmc_set) (hw : Hw)
    (hJ : set.state = Mcid.MCID_CMD → ∃ c, set.cmd = some c ∧ resp_inv r0 rr3 out0 set c hw) :
    ((sdmmc_poll set hw).set.state = Mcid.MCID_CMD →
        ∃ c, (sdmmc_poll set hw).set.cmd = some c
          ∧ resp_inv r0 rr3 out0 (sdmmc_poll set hw).set c (sdmmc_poll set hw).hw)
      ∧ (∀ c, (sdmmc_poll set hw).done = some c →
          (sdmmc_poll set hw).set.state = Mcid.MCID_LOCKED →
            ∃ out, c.pResp = some out
              ∧ out 0 = r0 ||| (u32 (rr3.headD 0) &&& not32 STAT_RETAINED)
              ∧ ∀ j, j ≠ 0 → out j = out0 j) := by
  by_cases hst : set.state = Mcid.MCID_CMD
  · obtain ⟨c, hc, hJ1⟩ := hJ hst
    have hp : sdmmc_poll set hw = poll_loop hw.NISTR set c hw := by
      unfold sdmmc_poll
      rw [if_neg (by simp [hst]), hc]
    rw [hp]
    obtain ⟨h1, h2⟩ := poll_loop_resp r0 rr3 out0 hw.NISTR set c hw hJ1
    refine ⟨fun hs => ?_, fun c1 hd hl => (h2 c1 hd).2 hl⟩
    cases hd : (poll_loop hw.NISTR set c hw).done with
    | none => exact h1 hd
    | some c1 => exact absurd hs (h2 c1 hd).1
  · have hp : sdmmc_poll set hw = { set := set, hw := hw, done := none } := by
      unfold sdmmc_poll
      rw [if_pos hst]
    rw [hp]
    exact ⟨fun hs => absurd hs hst, fun c hd => (by cases hd)⟩

/-- Calls of the resolver, one after the other, keep the progress of the
response of a multiple-block command without block count prefix as long as
the command is in flight. -/
theorem run_polls_resp (K : Hdr) (r0 : Nat) (rr3 : List Nat) (out0 : Nat → Nat) (n : Nat) :
    ∀ (w w1 : sdmmc_set × Hw),
      (w.1.state = Mcid.MCID_CMD → ∃ c, w.1.cmd = some c ∧ resp_inv r0 rr3 out0 w.1 c w.2) →
      run K (List.replicate n Call.poll) w = some w1 →
      (w1.1.state = Mcid.MCID_CMD → ∃ c, w1.1.cmd = some c ∧ resp_inv r0 rr3 out0 w1.1 c w1.2) := by
  induction n with
  | zero =>
    intro w w1 h hr
    simp only [List.replicate, run, Option.some.injEq] at hr
    subst hr
    exact h
  | succ n ih =>
    intro w w1 h hr
    simp only [List.replicate, run, step] at hr
    exact ih _ w1 (sdmmc_poll_resp r0 rr3 out0 w.1 w.2 h).1 hr

/-- A data-bearing CMD18 or CMD25 with a one-word response, sent on a session
without block count prefix that has no command in flight: when it is launched,
no response is stored yet and the response registers are as they were. -/
theorem send_command_resp (K : Hdr) (set : sdmmc_set) (cmd : sSdmmcCommand) (hw : Hw)
    (out0 : Nat → Nat)
    (hst : set.state ≠ Mcid.MCID_CMD) (hdata : has_data cmd = true)
    (hcmd : cmd.bCmd = 18 ∨ cmd.bCmd = 25) (hpre : set.use_set_blk_cnt = false)
    (htype : cmd.cmdOp.respType = 1 ∨ cmd.cmdOp.respType = 3 ∨ cmd.cmdOp.respType = 4
      ∨ cmd.cmdOp.respType = 5 ∨ cmd.cmdOp.respType = 6 ∨ cmd.cmdOp.respType = 7)
    (hresp : cmd.pResp = some out0) (o : SendOut)
    (ho : sdmmc_send_command K set cmd hw = some o)
    (hl : o.set.state = Mcid.MCID_CMD) :
    ∃ c, o.set.cmd = some c ∧ resp_inv (hw.rd_RR 0).1 (hw.RR 3) out0 o.set c o.hw := by
  obtain ⟨f1, f2, f3, f4⟩ := send_command_resp_frame K set cmd hw hst o ho
  rcases (send_command_not_busy K set cmd hw hst o ho).2 with ⟨h, _⟩ | ⟨_, h, _, _⟩
  · rw [h] at hl
    exact absurd hl hst
  · refine ⟨o.cmd, ?_, ?_⟩
    · rw [h]
    · rw [h]
      refine ⟨?_, ?_, hpre, ?_, ?_, out0, ?_, fun _ _ => rfl, Or.inl ⟨rfl, ?_⟩⟩
      · unfold has_data at hdata ⊢
        rw [f2]
        exact hdata
      · rw [f3]
        exact hcmd
      · rw [f2]
        exact htype
      · rw [f1]
      · rw [f4]
        exact hresp
      · unfold Hw.rd_RR
        rw [f1]


/-- The bits of the complement of the retained status mask. -/
theorem not_retained_testBit (i : Nat) :
    (not32 STAT_RETAINED).testBit i
      = (decide (i < 32) && !decide (i ∈ [25, 14, 12, 11, 10, 9, 8, 6, 5])) := by
  by_cases hi : i < 32
  · interval_cases i <;> decide
  · have h1 : not32 STAT_RETAINED < 2 ^ 32 := by decide
    have h2 : 2 ^ 32 ≤ 2 ^ i := Nat.pow_le_pow_right (by norm_num) (by omega)
    rw [Nat.testBit_lt_two_pow (Nat.lt_of_lt_of_le h1 h2)]
    simp [hi]

/-- C21: the response of a multiple-block command.  Let a data-bearing CMD18
or CMD25 whose response is one word and whose response array is `out0` be sent
on a session that has no command in flight and does not use the block count
prefix, and let `R0` and `R3` be the values that `RR[0]` and `RR[3]` deliver at
their next read.  After any number of calls of `sdmmc_poll`, whatever events
the controller reports and in whatever order, if the next call releases the
command and leaves the session locked, then the first word of the response
array of the released command is `R0 | (R3 & ~M)`, `M` being the mask of the
bits 25, 14, 12 to 9, 8, 6 and 5: these bits are those of `R0`, every other
bit is the OR of the bits of `R0` and `R3`; the other words of the array are
as they were. -/
theorem multi_block_response (K : Hdr) (set : sdmmc_set) (cmd : sSdmmcCommand) (hw : Hw)
    (out0 : Nat → Nat)
    (hst : set.state ≠ Mcid.MCID_CMD) (hdata : has_data cmd = true)
    (hcmd : cmd.bCmd = 18 ∨ cmd.bCmd = 25) (hpre : set.use_set_blk_cnt = false)
    (htype : cmd.cmdOp.respType = 1 ∨ cmd.cmdOp.respType = 3 ∨ cmd.cmdOp.respType = 4
      ∨ cmd.cmdOp.respType = 5 ∨ cmd.cmdOp.respType = 6 ∨ cmd.cmdOp.respType = 7)
    (hresp : cmd.pResp = some out0) :
    ∀ (n : Nat) (w : sdmmc_set × Hw) (c : sSdmmcCommand),
      run K (Call.send_command cmd :: List.replicate n Call.poll) (set, hw) = some w →
      (sdmmc_poll w.1 w.2).done = some c →
      (sdmmc_poll w.1 w.2).set.state = Mcid.MCID_LOCKED →
      ∃ out, c.pResp = some out
        ∧ out 0 = (hw.rd_RR 0).1 ||| ((hw.rd_RR 3).1 &&& not32 STAT_RETAINED)
        ∧ (∀ i, (out 0).testBit i
            = if i ∈ [25, 14, 12, 11, 10, 9, 8, 6, 5] then (hw.rd_RR 0).1.testBit i
              else ((hw.rd_RR 0).1.testBit i || (hw.rd_RR 3).1.testBit i))
        ∧ ∀ j, j ≠ 0 → out j = out0 j := by
  intro n w c hr hdone hlock
  obtain ⟨o, ho, hr⟩ := run_send_cons K cmd _ set hw w hr
  have hJ0 : o.set.state = Mcid.MCID_CMD →
      ∃ c, o.set.cmd = some c ∧ resp_inv (hw.rd_RR 0).1 (hw.RR 3) out0 o.set c o.hw :=
    send_command_resp K set cmd hw out0 hst hdata hcmd hpre htype hresp o ho
  have hJ := run_polls_resp K (hw.rd_RR 0).1 (hw.RR 3) out0 n (o.set, o.hw) w hJ0 hr
  obtain ⟨out, h1, h2, h3⟩ :=
    (sdmmc_poll_resp (hw.rd_RR 0).1 (hw.RR 3) out0 w.1 w.2 hJ).2 c hdone hlock
  have h2a : out 0 = (hw.rd_RR 0).1 ||| ((hw.rd_RR 3).1 &&& not32 STAT_RETAINED) := h2
  refine ⟨out, h1, h2a, ?_, h3⟩
  intro i
  rw [h2a, Nat.testBit_or, Nat.testBit_and, not_retained_testBit]
  by_cases hm : i ∈ [25, 14, 12, 11, 10, 9, 8, 6, 5]
  · rw [if_pos hm]
    simp [hm]
  · rw [if_neg hm]
    by_cases hi : i < 32
    · simp [hm, hi]
    · have hb : (hw.rd_RR 3).1 < 2 ^ i :=
        Nat.lt_of_lt_of_le (Nat.mod_lt _ (by norm_num))
          (show 4294967296 ≤ 2 ^ i from
            (show (4294967296 : Nat) = 2 ^ 32 by norm_num) ▸
              Nat.pow_le_pow_right (by norm_num) (by omega))
      rw [Nat.testBit_lt_two_pow hb]
      simp

/-- C21, witness: CMD18 on a session with a descriptor table, on hardware whose
`RR[0]` holds `0x00000900` and whose `RR[3]` holds `0x83004f61`.  Whether the
controller reports Command Complete before Transfer Complete, or Transfer
Complete first and Command Complete while the timer of the automatic CMD12 is
still running, the first call of `sdmmc_poll` releases the command, leaves the
session locked, and delivers `0x81000901`. -/
theorem multi_block_response_witness :
    (run exHdr (Call.send_command exCmdMulti :: List.replicate 0 Call.poll)
        (exSet, exHwMulti)).bind
        (fun x => ((sdmmc_poll x.1 x.2).done.bind (fun c => c.pResp)).map
          (fun out => ((sdmmc_poll x.1 x.2).set.state, out 0)))
        = some (Mcid.MCID_LOCKED, 0x81000901)
      ∧ (run exHdr (Call.send_command exCmdMulti :: List.replicate 0 Call.poll)
          (exSet, exHwMultiSwapped)).bind
          (fun x => ((sdmmc_poll x.1 x.2).done.bind (fun c => c.pResp)).map
            (fun out => ((sdmmc_poll x.1 x.2).set.state, out 0)))
          = some (Mcid.MCID_LOCKED, 0x81000901)
      ∧ (∀ (n : Nat) (w : sdmmc_set × Hw) (c : sSdmmcCommand),
      run exHdr (Call.send_command exCmdMulti :: List.replicate n Call.poll) (exSet, exHwMulti) = some w →
      (sdmmc_poll w.1 w.2).done = some c →
      (sdmmc_poll w.1 w.2).set.state = Mcid.MCID_LOCKED →
      ∃ out, c.pResp = some out
        ∧ out 0 = (exHwMulti.rd_RR 0).1 ||| ((exHwMulti.rd_RR 3).1 &&& not32 STAT_RETAINED)
        ∧ (∀ i, (out 0).testBit i
            = if i ∈ [25, 14, 12, 11, 10, 9, 8, 6, 5] then (exHwMulti.rd_RR 0).1.testBit i
              else ((exHwMulti.rd_RR 0).1.testBit i || (exHwMulti.rd_RR 3).1.testBit i))
        ∧ ∀ j, j ≠ 0 → out j = (fun _ => 0x55) j)
      ∧ (∀ (n : Nat) (w : sdmmc_set × Hw) (c : sSdmmcCommand),
      run exHdr (Call.send_command exCmdMulti :: List.replicate n Call.poll) (exSet, exHwMultiSwapped) = some w →
      (sdmmc_poll w.1 w.2).done = some c →
      (sdmmc_poll w.1 w.2).set.state = Mcid.MCID_LOCKED →
      ∃ out, c.pResp = some out
        ∧ out 0 = (exHwMultiSwapped.rd_RR 0).1 ||| ((exHwMultiSwapped.rd_RR 3).1 &&& not32 STAT_RETAINED)
        ∧ (∀ i, (out 0).testBit i
            = if i ∈ [25, 14, 12, 11, 10, 9, 8, 6, 5] then (exHwMultiSwapped.rd_RR 0).1.testBit i
              else ((exHwMultiSwapped.rd_RR 0).1.testBit i || (exHwMultiSwapped.rd_RR 3).1.testBit i))
        ∧ ∀ j, j ≠ 0 → out j = (fun _ => 0x55) j) :=
  ⟨by decide, by decide,
   multi_block_response exHdr exSet exCmdMulti exHwMulti (fun _ => 0x55) (by decide)
     (by decide) (by decide) (by decide) (by decide) rfl,
   multi_block_response exHdr exSet exCmdMulti exHwMultiSwapped (fun _ => 0x55) (by decide)
     (by decide) (by decide) (by decide) (by decide) rfl⟩


end Sdmmc
